import Mathlib

/-! # MSIM R4000 processor simulation: execution engine

Shallow embedding of `src/cpu/cpu.c` (address translation, memory access,
`execute`, `handle_exception`, `manage`, `cpu_step`) together with the
properties proved about it.

Machine words (`uint32_t`) are natural numbers; every operation that can carry
out of 32 bits reduces modulo `2^32` explicitly.
-/

namespace Msim

/-! ## Machine words -/

/-- Truncation of a natural number to a `uint32_t`. -/
def u32 (x : Nat) : Nat := x % 4294967296

/-- Truncation of a natural number to a `uint64_t`. -/
def u64 (x : Nat) : Nat := x % 18446744073709551616

/-- Wrapping `uint32_t` addition. -/
def add32 (a b : Nat) : Nat := (a + b) % 4294967296

/-- Wrapping `uint32_t` subtraction. -/
def sub32 (a b : Nat) : Nat := (a % 4294967296 + 4294967296 - b % 4294967296) % 4294967296

/-- Bitwise complement of a `uint32_t`. -/
def not32 (a : Nat) : Nat := 4294967295 - a % 4294967296

/-- Left shift of a `uint32_t`, high bits discarded. -/
def shl32 (a n : Nat) : Nat := (a <<< n) % 4294967296

/-- The cast `(int32_t) x`: two's-complement reading of the low 32 bits. -/
def toInt32 (x : Nat) : Int :=
  if x % 4294967296 < 2147483648 then ((x % 4294967296 : Nat) : Int)
  else ((x % 4294967296 : Nat) : Int) - 4294967296

/-- The cast `(uint32_t) z` of a signed value. -/
def ofInt32 (z : Int) : Nat := (z % 4294967296).toNat

/-- The operands on which the host's `int32_t` division has no result: the
quotient of `INT32_MIN` by `-1` is not an `int32_t`.  The C division is
undefined there; the host processor raises its divide error and the process is
killed. -/
def div_traps (rs rt : Nat) : Prop := toInt32 rs = -2147483648 ∧ toInt32 rt = -1

instance (rs rt : Nat) : Decidable (div_traps rs rt) := by unfold div_traps; infer_instance

/-- The cast `(int16_t) x` followed by the implicit conversion to `uint32_t`. -/
def sext16 (x : Nat) : Nat :=
  if x % 65536 < 32768 then x % 65536 else x % 65536 + 4294901760

/-- The sign bit of a 32-bit word (`SBIT`). -/
def SBIT : Nat := 0x80000000

/-- Modelled from the spec: `TARGET_SHIFT` of the absent `instr.h`; branch
offsets are `sign-ext(imm) << 2`. -/
def TARGET_SHIFT : Nat := 2

/-- Modelled from the spec: `TARGET_COMB` of the absent `instr.h`, the four
high bits of the program counter kept by `J`/`JAL`. -/
def TARGET_COMB : Nat := 0xf0000000

/-- Modelled from the spec: `TLB_ENTRIES` of the absent `cpu.h`; the TLB has
exactly 48 entries. -/
def TLB_ENTRIES : Nat := 48

def BITS_8 : Nat := 1
def BITS_16 : Nat := 2
def BITS_32 : Nat := 4

def EXCEPTION_OFFSET : Nat := 0x180
def HARD_RESET_START_ADDRESS : Nat := 0xbfc00000
def HARD_RESET_PROC_ID : Nat := 0x00000400
def HARD_RESET_CAUSE : Nat := 0
def HARD_RESET_WATCHLO : Nat := 0
def HARD_RESET_WATCHHI : Nat := 0
def HARD_RESET_CONFIG : Nat := 0
def HARD_RESET_RANDOM : Nat := 47
def HARD_RESET_WIRED : Nat := 0

/-! ## Exception tags (`mtypes.h`) -/

/-- Exception types `exc_t`. -/
inductive exc_t where
  | excInt | excMod | excTLBL | excTLBS | excAdEL | excAdES | excIBE | excDBE
  | excSys | excBp | excRI | excCpU | excOv | excTr | excVCEI | excFPE
  | excWATCH | excVCED
  | excTLBR | excTLBLR | excTLBSR
  | excNone | excAddrError | excTLB | excReset
  deriving DecidableEq, Repr

open exc_t

/-- Numeric value of an `exc_t` enumerator. -/
def exc_t.code : exc_t → Nat
  | excInt => 0 | excMod => 1 | excTLBL => 2 | excTLBS => 3 | excAdEL => 4
  | excAdES => 5 | excIBE => 6 | excDBE => 7 | excSys => 8 | excBp => 9
  | excRI => 10 | excCpU => 11 | excOv => 12 | excTr => 13 | excVCEI => 14
  | excFPE => 15 | excWATCH => 23 | excVCED => 31
  | excTLBR => 64 | excTLBLR => 65 | excTLBSR => 66
  | excNone => 100 | excAddrError => 101 | excTLB => 102 | excReset => 103

/-- TLB lookup result. -/
inductive tlb_look_t where
  | TLBL_OK | TLBL_REFILL | TLBL_INVALID | TLBL_MODIFIED
  deriving DecidableEq, Repr

open tlb_look_t

/-- Memory access mode. -/
inductive acc_mode_t where
  | AM_FETCH | AM_READ | AM_WRITE
  deriving DecidableEq, Repr

open acc_mode_t

/-- One row of the unaligned-access tables. -/
structure shift_tab_t where
  mask : Nat
  shift : Nat
  deriving DecidableEq, Repr

def shift_tab_left (k : Nat) : shift_tab_t :=
  match k with
  | 0 => ⟨0x00ffffff, 24⟩
  | 1 => ⟨0x0000ffff, 16⟩
  | 2 => ⟨0x000000ff, 8⟩
  | _ => ⟨0x00000000, 0⟩

def shift_tab_right (k : Nat) : shift_tab_t :=
  match k with
  | 0 => ⟨0x00000000, 0⟩
  | 1 => ⟨0xff000000, 8⟩
  | 2 => ⟨0xffff0000, 16⟩
  | _ => ⟨0xffffff00, 24⟩

def shift_tab_left_store (k : Nat) : shift_tab_t :=
  match k with
  | 0 => ⟨0xffffff00, 24⟩
  | 1 => ⟨0xffff0000, 16⟩
  | 2 => ⟨0xff000000, 8⟩
  | _ => ⟨0x00000000, 0⟩

def shift_tab_right_store (k : Nat) : shift_tab_t :=
  match k with
  | 0 => ⟨0x00000000, 0⟩
  | 1 => ⟨0x000000ff, 8⟩
  | 2 => ⟨0x0000ffff, 16⟩
  | _ => ⟨0x00ffffff, 24⟩

/-! ## Decoded instructions -/

/-- Opcode tags: every case label of the `switch` in `execute`. -/
inductive instr_enum where
  | opcADD | opcADDI | opcADDIU | opcADDU | opcAND | opcANDI | opcCLO | opcCLZ
  | opcDADD | opcDADDI | opcDADDIU | opcDADDU | opcDDIV | opcDDIVU | opcDIV
  | opcDIVU | opcDMULT | opcDMULTU | opcDSLL | opcDSLLV | opcDSLL32 | opcDSRA
  | opcDSRAV | opcDSRA32 | opcDSRL | opcDSRLV | opcDSRL32 | opcDSUB | opcDSUBU
  | opcMADD | opcMADDU | opcMSUB | opcMSUBU | opcMUL | opcMOVN | opcMOVZ
  | opcMULT | opcMULTU | opcNOR | opcOR | opcORI | opcSLL | opcSLLV | opcSLT
  | opcSLTI | opcSLTIU | opcSLTU | opcSRA | opcSRAV | opcSRL | opcSRLV | opcSUB
  | opcSUBU | opcXOR | opcXORI
  | opcBC0FL | opcBC1FL | opcBC2FL | opcBC3FL | opcBC0F | opcBC1F | opcBC2F
  | opcBC3F | opcBC0TL | opcBC1TL | opcBC2TL | opcBC3TL | opcBC0T | opcBC1T
  | opcBC2T | opcBC3T | opcBEQ | opcBEQL | opcBGEZAL | opcBGEZ | opcBGEZALL
  | opcBGEZL | opcBGTZ | opcBGTZL | opcBLEZ | opcBLEZL | opcBLTZAL | opcBLTZ
  | opcBLTZALL | opcBLTZL | opcBNE | opcBNEL | opcJAL | opcJ | opcJALR | opcJR
  | opcLB | opcLBU | opcLD | opcLDL | opcLDR | opcLH | opcLHU | opcLL | opcLLD
  | opcLUI | opcLW | opcLWL | opcLWR | opcLWU | opcSB | opcSC | opcSCD | opcSD
  | opcSDL | opcSDR | opcSH | opcSW | opcSWL | opcSWR
  | opcTEQ | opcTEQI | opcTGE | opcTGEI | opcTGEIU | opcTGEU | opcTLT | opcTLTI
  | opcTLTIU | opcTLTU | opcTNE | opcTNEI
  | opcCFC0 | opcCFC1 | opcCFC2 | opcCFC3 | opcCTC0 | opcCTC1 | opcCTC2
  | opcCTC3 | opcERET | opcMFC0 | opcMFHI | opcMFLO | opcMTC0 | opcMTC1
  | opcMTC2 | opcMTC3 | opcSDC1 | opcSDC2 | opcMTHI | opcMTLO | opcSYNC
  | opcSYSCALL | opcRES | opcQRES | opcTLBP | opcTLBR | opcTLBWI | opcTLBWR
  | opcBREAK | opcWAIT | opcNOP
  | opcDVAL | opcDTRC | opcDTRO | opcDRV | opcDHLT | opcDINT
  | opcSPECIAL | opcBCOND | opcSPECIAL2 | opcCACHE | opcCOP0 | opcCOP1
  | opcCOP2 | opcCOP3 | opcDMFC0 | opcDMFC1 | opcDMFC2 | opcDMFC3 | opcDMTC0
  | opcDMTC1 | opcDMTC2 | opcDMTC3 | opcLDC1 | opcLDC2 | opcLWC1 | opcLWC2
  | opcMFC1 | opcMFC2 | opcMFC3 | opcSWC1 | opcSWC2 | opcUNIMP | opcIllegal
  | opcBC | opcC0
  deriving DecidableEq, Repr

open instr_enum

/-- Decoded instruction `instr_info_t`: the fields `execute` reads.  `imm` is a
32-bit word (the decoder's immediate, or the 26-bit target for `J`/`JAL`). -/
structure instr_info_t where
  opcode : instr_enum
  icode : Nat
  rs : Nat
  rt : Nat
  rd : Nat
  shift : Nat
  imm : Nat
  deriving Repr

/-! ## Processor state -/

/-- Modelled from the spec: branch delay slot states of the absent `cpu.h`.
`cpu_step` decrements the state, `COND → PASSED → NONE`, so the numeric order
is `NONE < PASSED < COND`. -/
inductive branch_t where
  | BRANCH_NONE | BRANCH_PASSED | BRANCH_COND
  deriving DecidableEq, Repr

open branch_t

/-- The decrement `cpu->branch--` guarded by `cpu->branch > BRANCH_NONE`. -/
def branch_t.dec : branch_t → branch_t
  | BRANCH_NONE => BRANCH_NONE
  | BRANCH_PASSED => BRANCH_NONE
  | BRANCH_COND => BRANCH_PASSED

/-- Modelled from the spec: one sub-page of a TLB entry (`cpu.h` is absent):
`{pfn, cache-hint, dirty, valid}`. -/
structure tlb_pg_t where
  pfn : Nat
  cohh : Nat
  dirty : Bool
  valid : Bool
  deriving DecidableEq, Repr

/-- Modelled from the spec: a TLB entry (`cpu.h` is absent):
`{mask, vpn2, asid, global, pg[0..1]}`. -/
structure tlb_entry_t where
  mask : Nat
  vpn2 : Nat
  global : Bool
  asid : Nat
  pg0 : tlb_pg_t
  pg1 : tlb_pg_t
  deriving DecidableEq, Repr

/-- The sub-page `entry->pg[i]`. -/
def tlb_entry_t.pg (e : tlb_entry_t) (i : Nat) : tlb_pg_t :=
  if i = 0 then e.pg0 else e.pg1

/-- Modelled from the spec: the processor structure `cpu_t` (`cpu.h` is
absent), with the fields `cpu.c` reads and writes.  Arrays are functions of the
index; the breakpoint list is not touched by the execution engine and is left
out. -/
structure cpu_t where
  procno : Nat
  regs : Nat → Nat
  cp0 : Nat → Nat
  loreg : Nat
  hireg : Nat
  pc : Nat
  pc_next : Nat
  branch : branch_t
  excaddr : Nat
  tlb : Nat → tlb_entry_t
  tlb_hint : Nat
  stdby : Bool
  llbit : Bool
  lladdr : Nat
  wpending : Bool
  wexcaddr : Nat
  waddr : Nat
  k_cycles : Nat
  u_cycles : Nat
  w_cycles : Nat
  tlb_refill : Nat
  tlb_invalid : Nat
  tlb_modified : Nat
  intr : Nat → Nat
  old_regs : Nat → Nat
  old_cp0 : Nat → Nat
  old_loreg : Nat
  old_hireg : Nat

/-- Array store `a[i] = v`. -/
def upd {α : Type} (a : Nat → α) (i : Nat) (v : α) : Nat → α :=
  fun j => if j = i then v else a j

/-! ## CP0 registers

Modelled from the spec: `cpu.h` is absent; register numbers and bit fields
follow the documented R4000 layout (spec §6.2). -/

def cp0_Index : Nat := 0
def cp0_Random : Nat := 1
def cp0_EntryLo0 : Nat := 2
def cp0_EntryLo1 : Nat := 3
def cp0_Context : Nat := 4
def cp0_PageMask : Nat := 5
def cp0_Wired : Nat := 6
def cp0_Res1 : Nat := 7
def cp0_BadVAddr : Nat := 8
def cp0_Count : Nat := 9
def cp0_EntryHi : Nat := 10
def cp0_Compare : Nat := 11
def cp0_Status : Nat := 12
def cp0_Cause : Nat := 13
def cp0_EPC : Nat := 14
def cp0_PRId : Nat := 15
def cp0_Config : Nat := 16
def cp0_LLAddr : Nat := 17
def cp0_WatchLo : Nat := 18
def cp0_WatchHi : Nat := 19
def cp0_XContext : Nat := 20
def cp0_Res2 : Nat := 21
def cp0_Res3 : Nat := 22
def cp0_Res4 : Nat := 23
def cp0_Res5 : Nat := 24
def cp0_Res6 : Nat := 25
def cp0_ECC : Nat := 26
def cp0_CacheErr : Nat := 27
def cp0_TagLo : Nat := 28
def cp0_TagHi : Nat := 29
def cp0_ErrorEPC : Nat := 30
def cp0_Res7 : Nat := 31

def cp0_index_index_mask : Nat := 0x0000003f
def cp0_index_p_shift : Nat := 31
def cp0_random_random_mask : Nat := 0x0000003f
def cp0_status_ie_mask : Nat := 0x00000001
def cp0_status_exl_mask : Nat := 0x00000002
def cp0_status_erl_mask : Nat := 0x00000004
def cp0_status_ksu_mask : Nat := 0x00000018
def cp0_status_ts_mask : Nat := 0x00200000
def cp0_status_bev_mask : Nat := 0x00400000
def cp0_status_cu0_mask : Nat := 0x10000000
def cp0_status_cu1_mask : Nat := 0x20000000
def cp0_status_cu2_mask : Nat := 0x40000000
def cp0_status_cu3_mask : Nat := 0x80000000
def cp0_status_exl_shift : Nat := 1
def cp0_status_erl_shift : Nat := 2
def cp0_status_ksu_shift : Nat := 3
def cp0_status_ts_shift : Nat := 21
def cp0_status_bev_shift : Nat := 22
def cp0_status_cu0_shift : Nat := 28
def cp0_status_cu1_shift : Nat := 29
def cp0_status_cu2_shift : Nat := 30
def cp0_status_cu3_shift : Nat := 31
def cp0_entryhi_asid_mask : Nat := 0x000000ff
def cp0_entryhi_vpn2_mask : Nat := 0xffffe000
def cp0_entrylo_g_mask : Nat := 0x00000001
def cp0_entrylo_v_mask : Nat := 0x00000002
def cp0_entrylo_d_mask : Nat := 0x00000004
def cp0_entrylo_c_mask : Nat := 0x00000038
def cp0_entrylo_pfn_mask : Nat := 0x3fffffc0
def cp0_entrylo_v_shift : Nat := 1
def cp0_entrylo_d_shift : Nat := 2
def cp0_entrylo_c_shift : Nat := 3
def cp0_entrylo_pfn_shift : Nat := 6
def cp0_context_res1_mask : Nat := 0x0000000f
def cp0_context_badvpn2_mask : Nat := 0x007ffff0
def cp0_context_ptebase_mask : Nat := 0xff800000
def cp0_context_addr_shift : Nat := 9
def cp0_pagemask_mask_mask : Nat := 0x01ffe000
def cp0_cause_exccode_mask : Nat := 0x0000007c
def cp0_cause_exccode_shift : Nat := 2
def cp0_cause_ip_mask : Nat := 0x0000ff00
def cp0_cause_ip0_mask : Nat := 0x00000100
def cp0_cause_ip1_mask : Nat := 0x00000200
def cp0_cause_ip0_shift : Nat := 8
def cp0_cause_ip7_shift : Nat := 15
def cp0_cause_ce_mask : Nat := 0x30000000
def cp0_cause_ce_cu1 : Nat := 0x10000000
def cp0_cause_ce_cu2 : Nat := 0x20000000
def cp0_cause_ce_cu3 : Nat := 0x30000000
def cp0_cause_bd_mask : Nat := 0x80000000
def cp0_cause_bd_shift : Nat := 31
def cp0_watchlo_w_mask : Nat := 0x00000001
def cp0_watchlo_r_mask : Nat := 0x00000002
def cp0_watchlo_res_mask : Nat := 0x00000004
def cp0_watchlo_paddr0_mask : Nat := 0xfffffff8
def cp0_watchlo_r_shift : Nat := 1
def cp0_watchlo_paddr0_shift : Nat := 3
def cp0_watchhi_paddr1_mask : Nat := 0x0000000f
def cp0_watchhi_res_mask : Nat := 0xfffffff0
def cp0_ecc_ecc_mask : Nat := 0x000000ff
def cp0_ecc_ecc_shift : Nat := 0

def cp0_status (cpu : cpu_t) : Nat := cpu.cp0 cp0_Status
def cp0_cause (cpu : cpu_t) : Nat := cpu.cp0 cp0_Cause
def cp0_entryhi (cpu : cpu_t) : Nat := cpu.cp0 cp0_EntryHi
def cp0_entrylo0 (cpu : cpu_t) : Nat := cpu.cp0 cp0_EntryLo0
def cp0_entrylo1 (cpu : cpu_t) : Nat := cpu.cp0 cp0_EntryLo1
def cp0_pagemask (cpu : cpu_t) : Nat := cpu.cp0 cp0_PageMask
def cp0_context (cpu : cpu_t) : Nat := cpu.cp0 cp0_Context
def cp0_index (cpu : cpu_t) : Nat := cpu.cp0 cp0_Index
def cp0_random (cpu : cpu_t) : Nat := cpu.cp0 cp0_Random
def cp0_wired (cpu : cpu_t) : Nat := cpu.cp0 cp0_Wired
def cp0_count (cpu : cpu_t) : Nat := cpu.cp0 cp0_Count
def cp0_compare (cpu : cpu_t) : Nat := cpu.cp0 cp0_Compare
def cp0_epc (cpu : cpu_t) : Nat := cpu.cp0 cp0_EPC
def cp0_errorepc (cpu : cpu_t) : Nat := cpu.cp0 cp0_ErrorEPC
def cp0_watchlo (cpu : cpu_t) : Nat := cpu.cp0 cp0_WatchLo
def cp0_watchhi (cpu : cpu_t) : Nat := cpu.cp0 cp0_WatchHi

def cp0_status_ie (cpu : cpu_t) : Nat := cp0_status cpu &&& cp0_status_ie_mask
def cp0_status_exl (cpu : cpu_t) : Nat :=
  (cp0_status cpu &&& cp0_status_exl_mask) >>> cp0_status_exl_shift
def cp0_status_erl (cpu : cpu_t) : Nat :=
  (cp0_status cpu &&& cp0_status_erl_mask) >>> cp0_status_erl_shift
def cp0_status_ksu (cpu : cpu_t) : Nat :=
  (cp0_status cpu &&& cp0_status_ksu_mask) >>> cp0_status_ksu_shift
def cp0_status_ts (cpu : cpu_t) : Nat :=
  (cp0_status cpu &&& cp0_status_ts_mask) >>> cp0_status_ts_shift
def cp0_status_bev (cpu : cpu_t) : Nat :=
  (cp0_status cpu &&& cp0_status_bev_mask) >>> cp0_status_bev_shift
def cp0_status_cu0 (cpu : cpu_t) : Nat :=
  (cp0_status cpu &&& cp0_status_cu0_mask) >>> cp0_status_cu0_shift
def cp0_status_cu1 (cpu : cpu_t) : Nat :=
  (cp0_status cpu &&& cp0_status_cu1_mask) >>> cp0_status_cu1_shift
def cp0_status_cu2 (cpu : cpu_t) : Nat :=
  (cp0_status cpu &&& cp0_status_cu2_mask) >>> cp0_status_cu2_shift
def cp0_status_cu3 (cpu : cpu_t) : Nat :=
  (cp0_status cpu &&& cp0_status_cu3_mask) >>> cp0_status_cu3_shift
def cp0_entryhi_asid (cpu : cpu_t) : Nat := cp0_entryhi cpu &&& cp0_entryhi_asid_mask
def cp0_index_index (cpu : cpu_t) : Nat := cp0_index cpu &&& cp0_index_index_mask
def cp0_random_random (cpu : cpu_t) : Nat := cp0_random cpu &&& cp0_random_random_mask
def cp0_entrylo0_g (cpu : cpu_t) : Nat := cp0_entrylo0 cpu &&& cp0_entrylo_g_mask
def cp0_entrylo0_v (cpu : cpu_t) : Nat :=
  (cp0_entrylo0 cpu &&& cp0_entrylo_v_mask) >>> cp0_entrylo_v_shift
def cp0_entrylo0_d (cpu : cpu_t) : Nat :=
  (cp0_entrylo0 cpu &&& cp0_entrylo_d_mask) >>> cp0_entrylo_d_shift
def cp0_entrylo0_c (cpu : cpu_t) : Nat :=
  (cp0_entrylo0 cpu &&& cp0_entrylo_c_mask) >>> cp0_entrylo_c_shift
def cp0_entrylo0_pfn (cpu : cpu_t) : Nat :=
  (cp0_entrylo0 cpu &&& cp0_entrylo_pfn_mask) >>> cp0_entrylo_pfn_shift
def cp0_entrylo1_g (cpu : cpu_t) : Nat := cp0_entrylo1 cpu &&& cp0_entrylo_g_mask
def cp0_entrylo1_v (cpu : cpu_t) : Nat :=
  (cp0_entrylo1 cpu &&& cp0_entrylo_v_mask) >>> cp0_entrylo_v_shift
def cp0_entrylo1_d (cpu : cpu_t) : Nat :=
  (cp0_entrylo1 cpu &&& cp0_entrylo_d_mask) >>> cp0_entrylo_d_shift
def cp0_entrylo1_c (cpu : cpu_t) : Nat :=
  (cp0_entrylo1 cpu &&& cp0_entrylo_c_mask) >>> cp0_entrylo_c_shift
def cp0_entrylo1_pfn (cpu : cpu_t) : Nat :=
  (cp0_entrylo1 cpu &&& cp0_entrylo_pfn_mask) >>> cp0_entrylo_pfn_shift
def cp0_cause_exccode (cpu : cpu_t) : Nat :=
  (cp0_cause cpu &&& cp0_cause_exccode_mask) >>> cp0_cause_exccode_shift
def cp0_cause_bd (cpu : cpu_t) : Nat :=
  (cp0_cause cpu &&& cp0_cause_bd_mask) >>> cp0_cause_bd_shift
def cp0_watchlo_w (cpu : cpu_t) : Nat := cp0_watchlo cpu &&& cp0_watchlo_w_mask
def cp0_watchlo_r (cpu : cpu_t) : Nat :=
  (cp0_watchlo cpu &&& cp0_watchlo_r_mask) >>> cp0_watchlo_r_shift
def cp0_watchlo_paddr0 (cpu : cpu_t) : Nat :=
  (cp0_watchlo cpu &&& cp0_watchlo_paddr0_mask) >>> cp0_watchlo_paddr0_shift
def cp0_watchhi_paddr1 (cpu : cpu_t) : Nat := cp0_watchhi cpu &&& cp0_watchhi_paddr1_mask

/-- Assignment `cpu->cp0[i] = v`. -/
def cpu_t.set_cp0 (cpu : cpu_t) (i v : Nat) : cpu_t :=
  { cpu with cp0 := upd cpu.cp0 i v }

/-- Assignment `cpu->regs[i] = v`. -/
def cpu_t.set_reg (cpu : cpu_t) (i v : Nat) : cpu_t :=
  { cpu with regs := upd cpu.regs i v }

/-! ## Initialisation -/

/-- The all-zero TLB entry left by `memset`. -/
def tlb_entry_zero : tlb_entry_t :=
  { mask := 0, vpn2 := 0, global := false, asid := 0,
    pg0 := ⟨0, 0, false, false⟩, pg1 := ⟨0, 0, false, false⟩ }

/-- The all-zero processor left by `memset(cpu, 0, sizeof(cpu_t))`. -/
def cpu_zero : cpu_t :=
  { procno := 0, regs := fun _ => 0, cp0 := fun _ => 0, loreg := 0, hireg := 0,
    pc := 0, pc_next := 0, branch := BRANCH_NONE, excaddr := 0,
    tlb := fun _ => tlb_entry_zero, tlb_hint := 0, stdby := false,
    llbit := false, lladdr := 0, wpending := false, wexcaddr := 0, waddr := 0,
    k_cycles := 0, u_cycles := 0, w_cycles := 0, tlb_refill := 0,
    tlb_invalid := 0, tlb_modified := 0, intr := fun _ => 0,
    old_regs := fun _ => 0, old_cp0 := fun _ => 0, old_loreg := 0, old_hireg := 0 }

/-- Set the PC register. -/
def cpu_set_pc (cpu : cpu_t) (value : Nat) : cpu_t :=
  { cpu with pc := value, pc_next := add32 value 4 }

def HARD_RESET_STATUS : Nat := cp0_status_erl_mask ||| cp0_status_bev_mask

/-- Initialize simulation environment. -/
def cpu_init (procno : Nat) : cpu_t :=
  let cpu := { cpu_zero with procno := procno }
  let cpu := cpu_set_pc cpu HARD_RESET_START_ADDRESS
  let cpu := cpu.set_cp0 cp0_Config HARD_RESET_CONFIG
  let cpu := cpu.set_cp0 cp0_Random HARD_RESET_RANDOM
  let cpu := cpu.set_cp0 cp0_Wired HARD_RESET_WIRED
  let cpu := cpu.set_cp0 cp0_PRId HARD_RESET_PROC_ID
  let cpu := cpu.set_cp0 cp0_Status HARD_RESET_STATUS
  let cpu := cpu.set_cp0 cp0_Cause HARD_RESET_CAUSE
  let cpu := cpu.set_cp0 cp0_WatchLo HARD_RESET_WATCHLO
  let cpu := cpu.set_cp0 cp0_WatchHi HARD_RESET_WATCHHI
  cpu

/-! ## Address translation -/

/-- The `for` loop of `tlb_look`: `n` iterations left, loop counter `i`.
Returns the lookup result, the (possibly rewritten) address and the processor
with its updated hint. -/
def tlb_look_loop (cpu : cpu_t) (addr : Nat) (wr : Bool) (hint : Nat) :
    Nat → Nat → tlb_look_t × Nat × cpu_t
  | 0, _ => (TLBL_REFILL, addr, cpu)
  | n + 1, i =>
    let entry := cpu.tlb (u32 (i + hint) % TLB_ENTRIES)
    if (addr &&& entry.mask) = entry.vpn2 then
      if entry.global = false ∧ entry.asid ≠ cp0_entryhi_asid cpu then
        tlb_look_loop cpu addr wr hint n (i + 1)
      else
        let smask := (entry.mask >>> 1) ||| SBIT
        let subpage := if (addr &&& entry.mask) < (addr &&& smask) then 1 else 0
        if (entry.pg subpage).valid = false then (TLBL_INVALID, addr, cpu)
        else if wr = true ∧ (entry.pg subpage).dirty = false then (TLBL_MODIFIED, addr, cpu)
        else
          let amask := addr &&& not32 smask
          (TLBL_OK, amask ||| ((entry.pg subpage).pfn &&& smask), { cpu with tlb_hint := i })
    else tlb_look_loop cpu addr wr hint n (i + 1)

/-- Address translation through the TLB table. -/
def tlb_look (cpu : cpu_t) (addr : Nat) (wr : Bool) : tlb_look_t × Nat × cpu_t :=
  if cp0_status_ts cpu = 1 then (TLBL_OK, addr, cpu)
  else tlb_look_loop cpu addr wr cpu.tlb_hint TLB_ENTRIES 0

/-- Fill up cp0 registers with specified address. -/
def fill_tlb_error (cpu : cpu_t) (addr : Nat) : cpu_t :=
  let cpu := cpu.set_cp0 cp0_BadVAddr addr
  let cpu := cpu.set_cp0 cp0_Context (cp0_context cpu &&& cp0_context_ptebase_mask)
  let cpu := cpu.set_cp0 cp0_Context
    (cp0_context cpu ||| ((addr >>> cp0_context_addr_shift) &&& not32 cp0_context_res1_mask))
  let cpu := cpu.set_cp0 cp0_EntryHi (cp0_entryhi cpu &&& cp0_entryhi_asid_mask)
  let cpu := cpu.set_cp0 cp0_EntryHi (cp0_entryhi cpu ||| (addr &&& cp0_entryhi_vpn2_mask))
  cpu

/-- Fill registers as the Address error exception occurs. -/
def fill_addr_error (cpu : cpu_t) (addr : Nat) (noisy : Bool) : cpu_t :=
  if noisy = true then
    let cpu := cpu.set_cp0 cp0_BadVAddr addr
    let cpu := cpu.set_cp0 cp0_Context (cp0_context cpu &&& not32 cp0_context_badvpn2_mask)
    let cpu := cpu.set_cp0 cp0_EntryHi (cp0_entryhi cpu &&& not32 cp0_entryhi_vpn2_mask)
    cpu
  else cpu

/-- Search through TLB and generate the appropriate exception. -/
def tlb_hit (cpu : cpu_t) (addr : Nat) (wr noisy : Bool) : exc_t × Nat × cpu_t :=
  match tlb_look cpu addr wr with
  | (TLBL_OK, a, c) => (excNone, a, c)
  | (TLBL_REFILL, a, c) =>
    if noisy = true then
      (excTLBR, a, fill_tlb_error { c with tlb_refill := u64 (c.tlb_refill + 1) } a)
    else (excTLBR, a, c)
  | (TLBL_INVALID, a, c) =>
    if noisy = true then
      (excTLB, a, fill_tlb_error { c with tlb_invalid := u64 (c.tlb_invalid + 1) } a)
    else (excTLB, a, c)
  | (TLBL_MODIFIED, a, c) =>
    if noisy = true then
      (excMod, a, fill_tlb_error { c with tlb_modified := u64 (c.tlb_modified + 1) } a)
    else (excMod, a, c)

/-- The user mode address conversion. -/
def convert_addr_user (cpu : cpu_t) (addr : Nat) (wr noisy : Bool) : exc_t × Nat × cpu_t :=
  if addr &&& SBIT ≠ 0 then (excAddrError, addr, fill_addr_error cpu addr noisy)
  else tlb_hit cpu addr wr noisy

/-- The supervisor mode address conversion. -/
def convert_addr_supervisor (cpu : cpu_t) (addr : Nat) (wr noisy : Bool) :
    exc_t × Nat × cpu_t :=
  if addr < 0x80000000 then tlb_hit cpu addr wr noisy
  else if addr < 0xc0000000 then (excAddrError, addr, fill_addr_error cpu addr noisy)
  else if addr < 0xe0000000 then tlb_hit cpu addr wr noisy
  else (excAddrError, addr, fill_addr_error cpu addr noisy)

/-- The kernel mode address conversion. -/
def convert_addr_kernel (cpu : cpu_t) (addr : Nat) (wr noisy : Bool) : exc_t × Nat × cpu_t :=
  if addr < 0x80000000 then
    if cp0_status_erl cpu = 0 then tlb_hit cpu addr wr noisy
    else (excNone, addr, cpu)
  else if addr < 0xa0000000 then (excNone, sub32 addr 0x80000000, cpu)
  else if addr < 0xc0000000 then (excNone, sub32 addr 0xa0000000, cpu)
  else if addr < 0xe0000000 then tlb_hit cpu addr wr noisy
  else tlb_hit cpu addr wr noisy

/-- The conversion of virtual addresses: fault tag, resulting address,
processor. -/
def convert_addr (cpu : cpu_t) (addr : Nat) (write noisy : Bool) : exc_t × Nat × cpu_t :=
  if cp0_status_ksu cpu = 2 ∧ cp0_status_exl cpu = 0 ∧ cp0_status_erl cpu = 0 then
    convert_addr_user cpu addr write noisy
  else if cp0_status_ksu cpu = 1 ∧ cp0_status_exl cpu = 0 ∧ cp0_status_erl cpu = 0 then
    convert_addr_supervisor cpu addr write noisy
  else convert_addr_kernel cpu addr write noisy

/-- Test for correct alignment. -/
def mem_align_test (cpu : cpu_t) (addr size : Nat) (noisy : Bool) : exc_t × cpu_t :=
  if (size = 2 ∧ addr &&& 1 ≠ 0) ∨ (size = 4 ∧ addr &&& 3 ≠ 0) then
    (excAddrError, fill_addr_error cpu addr noisy)
  else (excNone, cpu)

/-! ## The machine around the processor -/

/-- The collaborators of `cpu.c` that live outside it (`machine.c`, `instr.c`),
taken as parameters over a machine state `M`: physical memory read and write,
the LL/SC watch list, and the instruction decoder.  The source passes the
processor to the four bus functions.  `mem_write(cpu, addr, val, size, true)`
can reach back into it: the LL/SC control of the memory clears `cpu->llbit`
when the write goes to the line the processor is linked to;
`write_unlinks m cpu addr val size` tells whether it does so.  The other
functions use the processor to identify it (`register_sc` and `unregister_sc`
receive its number). -/
structure machine_t (M : Type) where
  mem_read : M → Nat → Nat → Nat × M
  mem_write : M → Nat → Nat → Nat → M
  write_unlinks : M → cpu_t → Nat → Nat → Nat → Bool
  register_sc : M → Nat → M
  unregister_sc : M → Nat → M
  decode_instr : Nat → instr_info_t

/-- Everything a step can change: the processor, the machine state behind the
bus, and the simulator's global flags.  `killed` tells that the host process
running the simulator has been killed by a trap of the host processor (the
signed division of `opcDIV` on `INT32_MIN / -1`): the run has ended there, and
a state with `killed = true` is the state of no running simulator. -/
structure sim_t (M : Type) where
  cpu : cpu_t
  mem : M
  totrace : Bool
  tohalt : Bool
  interactive : Bool
  killed : Bool := false

variable {M : Type}

/-- The processor after `mem_write(cpu, addr, val, size, true)`: the LL bit is
cleared when the memory finds the write on the linked line. -/
def bus_write_cpu (E : machine_t M) (m : M) (cpu : cpu_t) (addr val size : Nat) : cpu_t :=
  if E.write_unlinks m cpu addr val size = true then { cpu with llbit := false } else cpu

/-- The final part of `acc_mem`: the physical access when the translation
succeeded. -/
def acc_mem_access (E : machine_t M) (s : sim_t M) (mode : acc_mode_t) (res : exc_t)
    (addr size value : Nat) : exc_t × Nat × sim_t M :=
  if res = excNone then
    if mode = AM_WRITE then
      (res, value, { s with cpu := bus_write_cpu E s.mem s.cpu addr value size,
                            mem := E.mem_write s.mem addr value size })
    else (res, u32 (E.mem_read s.mem addr size).1, { s with mem := (E.mem_read s.mem addr size).2 })
  else (res, value, s)

/-- Access the virtual memory: fault tag, the value (unchanged on a fault or a
write), and the new state. -/
def acc_mem (E : machine_t M) (s : sim_t M) (mode : acc_mode_t) (addr size value : Nat)
    (noisy : Bool) : exc_t × Nat × sim_t M :=
  match mem_align_test s.cpu addr size noisy with
  | (excNone, cpu) =>
    match convert_addr cpu addr (decide (mode = AM_WRITE)) noisy with
    | (res, paddr, cpu) =>
      if ((cp0_watchlo_r cpu ≠ 0 ∧ mode = AM_READ) ∨ (cp0_watchlo_w cpu ≠ 0 ∧ mode = AM_WRITE))
          ∧ cpu.waddr = paddr >>> 3 then
        if cp0_status_exl cpu = 1 then
          acc_mem_access E { s with cpu := { cpu with wpending := true, wexcaddr := cpu.pc } }
            mode res paddr size value
        else (excWATCH, value, { s with cpu := cpu })
      else acc_mem_access E { s with cpu := cpu } mode res paddr size value
  | (res, cpu) => (res, value, { s with cpu := cpu })

/-- Perform the read access from the virtual memory. -/
def cpu_read_mem (E : machine_t M) (s : sim_t M) (addr size value : Nat) (noisy : Bool) :
    exc_t × Nat × sim_t M :=
  match acc_mem E s AM_READ addr size value noisy with
  | (excAddrError, v, s) => (excAdEL, v, s)
  | (excTLB, v, s) => (excTLBL, v, s)
  | (excTLBR, v, s) => (excTLBLR, v, s)
  | (excWATCH, v, s) => (excWATCH, v, s)
  | (_, v, s) => (excNone, v, s)

/-- Perform the fetch access from the virtual memory. -/
def cpu_fetch_mem (E : machine_t M) (s : sim_t M) (addr size value : Nat) (noisy : Bool) :
    exc_t × Nat × sim_t M :=
  match acc_mem E s AM_FETCH addr size value noisy with
  | (excAddrError, v, s) => (excAdEL, v, s)
  | (excTLB, v, s) => (excTLBL, v, s)
  | (excTLBR, v, s) => (excTLBLR, v, s)
  | (_, v, s) => (excNone, v, s)

/-- Perform the write operation to the virtual memory.  The `default` branch of
the source aborts the simulator; `acc_mem` never produces a tag that reaches
it, and it is rendered by the source's trailing `return excNone`. -/
def cpu_write_mem (E : machine_t M) (s : sim_t M) (addr size value : Nat) (noisy : Bool) :
    exc_t × sim_t M :=
  match acc_mem E s AM_WRITE addr size value noisy with
  | (excAddrError, _, s) => (excAdES, s)
  | (excTLB, _, s) => (excTLBS, s)
  | (excTLBR, _, s) => (excTLBSR, s)
  | (excMod, _, s) => (excMod, s)
  | (excWATCH, _, s) => (excWATCH, s)
  | (excNone, _, s) => (excNone, s)
  | (_, _, s) => (excNone, s)

/-- Read an instruction. -/
def cpu_read_ins (E : machine_t M) (s : sim_t M) (addr value : Nat) (noisy : Bool) :
    exc_t × Nat × sim_t M :=
  match cpu_fetch_mem E s addr BITS_32 value noisy with
  | (res, v, s) =>
    if res ≠ excNone ∧ s.cpu.branch = BRANCH_NONE then
      (res, v, { s with cpu := { s.cpu with excaddr := s.cpu.pc } })
    else (res, v, s)

/-- Assert the specified interrupt. -/
def cpu_interrupt_up (cpu : cpu_t) (no : Nat) : cpu_t :=
  { cpu with
    cp0 := upd cpu.cp0 cp0_Cause (cp0_cause cpu ||| shl32 1 (cp0_cause_ip0_shift + no)),
    intr := upd cpu.intr no (u64 (cpu.intr no + 1)) }

/-- Deassert the specified interrupt. -/
def cpu_interrupt_down (cpu : cpu_t) (no : Nat) : cpu_t :=
  cpu.set_cp0 cp0_Cause (cp0_cause cpu &&& not32 (shl32 1 (cp0_cause_ip0_shift + no)))

/-- Update the copy of registers. -/
def cpu_update_debug (cpu : cpu_t) : cpu_t :=
  { cpu with old_regs := cpu.regs, old_cp0 := cpu.cp0,
             old_loreg := cpu.loreg, old_hireg := cpu.hireg }

/-! ## Arithmetic helpers of `execute` -/

/-- Perform the multiplication of two integers. -/
def multiply (cpu : cpu_t) (a b : Nat) (sign : Bool) : cpu_t :=
  if a = 0 ∨ b = 0 then { cpu with hireg := 0, loreg := 0 }
  else if sign = true then
    let r : Nat := ((toInt32 a * toInt32 b) % 18446744073709551616).toNat
    { cpu with loreg := r &&& 0xffffffff, hireg := r >>> 32 }
  else
    let r : Nat := u64 (a * b)
    { cpu with loreg := r &&& 0xffffffff, hireg := r >>> 32 }

/-- The accumulator `((uint64_t) cpu->hireg << 32) | cpu->loreg`. -/
def acc64 (cpu : cpu_t) : Nat := u64 (cpu.hireg <<< 32) ||| cpu.loreg

/-- Store a 64-bit value into `hireg`/`loreg`. -/
def set_acc64 (cpu : cpu_t) (v : Nat) : cpu_t :=
  { cpu with hireg := v >>> 32, loreg := v &&& 0xffffffff }

/-- The counting loop of `CLO`: `f` iterations left, count `n`, shifted word
`b`. -/
def clo_loop : Nat → Nat → Nat → Nat
  | 0, n, _ => n
  | f + 1, n, b =>
    if b &&& 0x80000000 ≠ 0 ∧ n < 32 then clo_loop f (n + 1) (shl32 b 1) else n

/-- The counting loop of `CLZ`: `f` iterations left, count `n`, shifted word
`b`. -/
def clz_loop : Nat → Nat → Nat → Nat
  | 0, n, _ => n
  | f + 1, n, b =>
    if b &&& 0x80000000 = 0 ∧ n < 32 then clz_loop f (n + 1) (shl32 b 1) else n

/-- Result of the `switch` of `execute`: the fault tag `res`, the prospective
`pca`, and the state. -/
structure exec_t (M : Type) where
  res : exc_t
  pca : Nat
  s : sim_t M

/-- Assignment `cpu->regs[i] = v` on the whole state. -/
def sim_t.wreg (s : sim_t M) (i v : Nat) : sim_t M :=
  { s with cpu := s.cpu.set_reg i v }

/-- The branch target `cpu->pc_next + (((int32_t) ii.imm) << TARGET_SHIFT)`. -/
def br_target (cpu : cpu_t) (ii : instr_info_t) : Nat :=
  add32 cpu.pc_next (shl32 ii.imm TARGET_SHIFT)

/-- Taken branch: `pca = target; cpu->branch = BRANCH_COND`. -/
def br_taken (s : sim_t M) (target : Nat) : exec_t M :=
  ⟨excNone, target, { s with cpu := { s.cpu with branch := BRANCH_COND } }⟩

/-- Annulled delay slot of a likely branch:
`cpu->pc_next += 4; pca = cpu->pc_next + 4`. -/
def br_annul (s : sim_t M) : exec_t M :=
  ⟨excNone, add32 (add32 s.cpu.pc_next 4) 4,
    { s with cpu := { s.cpu with pc_next := add32 s.cpu.pc_next 4 } }⟩

/-- A conditional branch: taken or falling through with `pca` untouched. -/
def br_cond (s : sim_t M) (ii : instr_info_t) (pca : Nat) (c : Prop) [Decidable c] :
    exec_t M :=
  if c then br_taken s (br_target s.cpu ii) else ⟨excNone, pca, s⟩

/-- A likely conditional branch: taken or annulling its delay slot. -/
def br_likely (s : sim_t M) (ii : instr_info_t) (c : Prop) [Decidable c] : exec_t M :=
  if c then br_taken s (br_target s.cpu ii) else br_annul s

/-- The `Coprocessor unusable` path for coprocessor 0:
`res = excCpU; cp0_cause(cpu) &= ~cp0_cause_ce_mask`. -/
def cpu_unusable (s : sim_t M) (pca : Nat) : exec_t M :=
  ⟨excCpU, pca,
    { s with cpu := s.cpu.set_cp0 cp0_Cause (cp0_cause s.cpu &&& not32 cp0_cause_ce_mask) }⟩

/-- The `Coprocessor unusable` path for coprocessors 1 to 3, which also
records the coprocessor number `ce` in `Cause.CE`. -/
def cpu_unusable_ce (s : sim_t M) (pca ce : Nat) : exec_t M :=
  ⟨excCpU, pca,
    { s with
      cpu := s.cpu.set_cp0 cp0_Cause ((cp0_cause s.cpu &&& not32 cp0_cause_ce_mask) ||| ce) }⟩

/-- The coprocessor-0 test written with `== 1` comparisons (branches on
coprocessor condition, `MFC0`, `TLBP`, `TLBR`, `TLBW`). -/
def cp0_usable (cpu : cpu_t) : Prop :=
  cp0_status_cu0 cpu = 1 ∨ (cp0_status_ksu cpu = 0 ∨ cp0_status_exl cpu = 1
    ∨ cp0_status_erl cpu = 1)

instance (cpu : cpu_t) : Decidable (cp0_usable cpu) := by
  unfold cp0_usable; infer_instance

/-! ## Loads and stores -/

/-- The effective address `urrs + ((int32_t) ii.imm)`. -/
def eff_addr (urrs : Nat) (ii : instr_info_t) : Nat := add32 urrs ii.imm

/-- A load of `size` bytes whose value is passed through `f` into `rt`. -/
def exec_load (E : machine_t M) (s : sim_t M) (ii : instr_info_t) (pca urrs size : Nat)
    (f : Nat → Nat) : exec_t M :=
  match cpu_read_mem E s (eff_addr urrs ii) size 0 true with
  | (res, v, s1) => if res = excNone then ⟨res, pca, s1.wreg ii.rt (f v)⟩ else ⟨res, pca, s1⟩

def exec_LB (v : Nat) : Nat := if v &&& 0x80 ≠ 0 then v ||| 0xffffff00 else v &&& 0xff
def exec_LBU (v : Nat) : Nat := v &&& 0xff
def exec_LH (v : Nat) : Nat := if v &&& 0x8000 ≠ 0 then v ||| 0xffff0000 else v &&& 0xffff
def exec_LHU (v : Nat) : Nat := v &&& 0xffff

/-- The case `opcLW`: the word is read straight into `cpu->regs[ii.rt]`, which
keeps its value when the access faults. -/
def exec_LW (E : machine_t M) (s : sim_t M) (ii : instr_info_t) (pca urrs : Nat) : exec_t M :=
  match cpu_read_mem E s (eff_addr urrs ii) BITS_32 (s.cpu.regs ii.rt) true with
  | (res, v, s1) => ⟨res, pca, s1.wreg ii.rt v⟩

/-- The case `opcLL`. -/
def exec_LL (E : machine_t M) (s : sim_t M) (ii : instr_info_t) (pca urrs : Nat) : exec_t M :=
  let addr := eff_addr urrs ii
  match cpu_read_mem E s addr BITS_32 0 true with
  | (res, v, s1) =>
    if res = excNone then
      let s2 := s1.wreg ii.rt v
      match convert_addr s2.cpu addr false false with
      | (_, paddr, cpu) =>
        ⟨res, pca, { s2 with mem := E.register_sc s2.mem cpu.procno,
                              cpu := { cpu with llbit := true, lladdr := paddr } }⟩
    else
      ⟨res, pca, { s1 with mem := E.unregister_sc s1.mem s1.cpu.procno,
                            cpu := { s1.cpu with llbit := false } }⟩

/-- The cases `opcLWL` (`left = true`) and `opcLWR`. -/
def exec_LWx (E : machine_t M) (s : sim_t M) (ii : instr_info_t) (pca urrs : Nat)
    (left : Bool) : exec_t M :=
  let addr := eff_addr urrs ii &&& 0xfffffffc
  match cpu_read_mem E s addr BITS_32 0 true with
  | (res, v, s1) =>
    if res = excNone then
      let index := eff_addr urrs ii &&& 0x03
      if left = true then
        ⟨res, pca, s1.wreg ii.rt
          ((s1.cpu.regs ii.rt &&& (shift_tab_left index).mask)
            ||| shl32 v (shift_tab_left index).shift)⟩
      else
        ⟨res, pca, s1.wreg ii.rt
          ((s1.cpu.regs ii.rt &&& (shift_tab_right index).mask)
            ||| ((v >>> (shift_tab_right index).shift)
                  &&& not32 (shift_tab_right index).mask))⟩
    else ⟨res, pca, s1⟩

/-- A plain store (`SB`, `SH`, `SW`) of `cpu->regs[ii.rt]` to `addr`. -/
def exec_store (E : machine_t M) (s : sim_t M) (ii : instr_info_t) (pca addr size : Nat) :
    exec_t M :=
  match cpu_write_mem E s addr size (s.cpu.regs ii.rt) true with
  | (res, s1) => ⟨res, pca, s1⟩

/-- The case `opcSC`. -/
def exec_SC (E : machine_t M) (s : sim_t M) (ii : instr_info_t) (pca urrs : Nat) : exec_t M :=
  if s.cpu.llbit = false then ⟨excNone, pca, s.wreg ii.rt 0⟩
  else
    let addr := eff_addr urrs ii
    match cpu_write_mem E s addr BITS_32 (s.cpu.regs ii.rt) true with
    | (res, s1) =>
      if res = excNone then
        let s2 := s1.wreg ii.rt 1
        match convert_addr s2.cpu addr false false with
        | (_, _, cpu) =>
          ⟨res, pca, { s2 with mem := E.unregister_sc s2.mem cpu.procno,
                                cpu := { cpu with llbit := false } }⟩
      else
        ⟨res, pca, { s1 with mem := E.unregister_sc s1.mem s1.cpu.procno,
                              cpu := { s1.cpu with llbit := false } }⟩

/-- The cases `opcSWL` (`left = true`) and `opcSWR`. -/
def exec_SWx (E : machine_t M) (s : sim_t M) (ii : instr_info_t) (pca urrs : Nat)
    (left : Bool) : exec_t M :=
  let addr := eff_addr urrs ii &&& 0xfffffffc
  match cpu_read_mem E s addr BITS_32 0 true with
  | (res, v, s1) =>
    if res = excNone then
      let index := eff_addr urrs ii &&& 0x03
      let w :=
        if left = true then
          (v &&& (shift_tab_left_store index).mask)
            ||| ((s1.cpu.regs ii.rt >>> (shift_tab_left_store index).shift)
                  &&& not32 (shift_tab_left_store index).mask)
        else
          (v &&& (shift_tab_right_store index).mask)
            ||| shl32 (s1.cpu.regs ii.rt) (shift_tab_right_store index).shift
      match cpu_write_mem E s1 addr BITS_32 w true with
      | (res2, s2) => ⟨res2, pca, s2⟩
    else ⟨res, pca, s1⟩

/-! ## Coprocessor 0 and TLB instructions -/

/-- Write a new entry into the TLB (the usable branch of `TLBW`). -/
def tlbw_entry (cpu : cpu_t) : tlb_entry_t :=
  let mask := cp0_entryhi_vpn2_mask &&& not32 (cp0_pagemask cpu)
  { mask := mask,
    vpn2 := cp0_entryhi cpu &&& mask,
    global := decide (cp0_entrylo0_g cpu &&& cp0_entrylo1_g cpu ≠ 0),
    asid := cp0_entryhi_asid cpu,
    pg0 := { pfn := shl32 (cp0_entrylo0_pfn cpu) 12, cohh := cp0_entrylo0_c cpu,
             dirty := decide (cp0_entrylo0_d cpu ≠ 0),
             valid := decide (cp0_entrylo0_v cpu ≠ 0) },
    pg1 := { pfn := shl32 (cp0_entrylo1_pfn cpu) 12, cohh := cp0_entrylo1_c cpu,
             dirty := decide (cp0_entrylo1_d cpu ≠ 0),
             valid := decide (cp0_entrylo1_v cpu ≠ 0) } }

/-- Write a new entry into the TLB; the index comes from `Random` (`TLBWR`)
or `Index` (`TLBWI`). -/
def TLBW (s : sim_t M) (pca : Nat) (random : Bool) : exec_t M :=
  if cp0_usable s.cpu then
    let index := if random = true then cp0_random_random s.cpu else cp0_index_index s.cpu
    if index > 47 then ⟨excNone, pca, s⟩
    else ⟨excNone, pca, { s with cpu := { s.cpu with tlb := upd s.cpu.tlb index (tlbw_entry s.cpu) } }⟩
  else cpu_unusable s pca

/-- The probe loop of `TLBP`: `n` iterations left, loop counter `i`; returns
the value left in `Index`. -/
def tlbp_loop (cpu : cpu_t) (xvpn2 xasid index : Nat) : Nat → Nat → Nat
  | 0, _ => index
  | n + 1, i =>
    if (cpu.tlb i).vpn2 = (xvpn2 &&& (cpu.tlb i).mask)
        ∧ ((cpu.tlb i).global = true ∨ (cpu.tlb i).asid = xasid) then i
    else tlbp_loop cpu xvpn2 xasid index n (i + 1)

/-- The case `opcTLBP`. -/
def exec_TLBP (s : sim_t M) (pca : Nat) : exec_t M :=
  if cp0_usable s.cpu then
    let xvpn2 := cp0_entryhi s.cpu &&& cp0_entryhi_vpn2_mask
    let xasid := cp0_entryhi s.cpu &&& cp0_entryhi_asid_mask
    let cpu := s.cpu.set_cp0 cp0_Index (shl32 1 cp0_index_p_shift)
    let index := tlbp_loop cpu xvpn2 xasid (cp0_index cpu) TLB_ENTRIES 0
    ⟨excNone, pca, { s with cpu := cpu.set_cp0 cp0_Index index }⟩
  else cpu_unusable s pca

/-- The value `TLBR` puts into `EntryLo0`/`EntryLo1` for a sub-page. -/
def tlbr_entrylo (pg : tlb_pg_t) (global : Bool) : Nat :=
  (pg.pfn >>> 6) ||| shl32 pg.cohh 3 ||| ((if pg.dirty then 1 else 0) <<< 2)
    ||| ((if pg.valid then 1 else 0) <<< 1) ||| (if global then 1 else 0)

/-- The case `opcTLBR`. -/
def exec_TLBR (s : sim_t M) (pca : Nat) : exec_t M :=
  if cp0_usable s.cpu then
    let i := cp0_index_index s.cpu
    if i > 47 then
      let cpu := s.cpu.set_cp0 cp0_PageMask 0
      let cpu := cpu.set_cp0 cp0_EntryHi 0
      let cpu := cpu.set_cp0 cp0_EntryLo0 0
      let cpu := cpu.set_cp0 cp0_EntryLo1 0
      ⟨excNone, pca, { s with cpu := cpu }⟩
    else
      let e := s.cpu.tlb i
      let cpu := s.cpu.set_cp0 cp0_PageMask (not32 e.mask &&& 0x01ffe000)
      let cpu := cpu.set_cp0 cp0_EntryHi (e.vpn2 ||| e.asid)
      let cpu := cpu.set_cp0 cp0_EntryLo0 (tlbr_entrylo e.pg0 e.global)
      let cpu := cpu.set_cp0 cp0_EntryLo1 (tlbr_entrylo e.pg1 e.global)
      ⟨excNone, pca, { s with cpu := cpu }⟩
  else cpu_unusable s pca

/-- The case `opcERET`. -/
def exec_ERET (E : machine_t M) (s : sim_t M) (pca : Nat) : exec_t M :=
  if cp0_status_cu0 s.cpu ≠ 0 ∨ cp0_status_ksu s.cpu = 0 ∨ cp0_status_exl s.cpu ≠ 0
      ∨ cp0_status_erl s.cpu ≠ 0 then
    let s1 : sim_t M :=
      { s with cpu := { s.cpu with llbit := false },
               mem := E.unregister_sc s.mem s.cpu.procno }
    if cp0_status_erl s1.cpu ≠ 0 then
      let cpu := { s1.cpu with pc_next := cp0_errorepc s1.cpu }
      ⟨excNone, add32 cpu.pc_next 4,
        { s1 with cpu := cpu.set_cp0 cp0_Status (cp0_status cpu &&& not32 cp0_status_erl_mask) }⟩
    else
      let cpu := { s1.cpu with pc_next := cp0_epc s1.cpu }
      ⟨excNone, add32 cpu.pc_next 4,
        { s1 with cpu := cpu.set_cp0 cp0_Status (cp0_status cpu &&& not32 cp0_status_exl_mask) }⟩
  else cpu_unusable s pca

/-- The case `opcMFC0`. -/
def exec_MFC0 (s : sim_t M) (ii : instr_info_t) (pca : Nat) : exec_t M :=
  if cp0_usable s.cpu then ⟨excNone, pca, s.wreg ii.rt (s.cpu.cp0 ii.rd)⟩
  else cpu_unusable s pca

/-- The cached watch address recomputed after a write to `WatchLo`/`WatchHi`.
Modelled from the spec: `waddr` is a 32-bit field of the absent `cpu.h`. -/
def watch_addr (cpu : cpu_t) : Nat :=
  shl32 (cp0_watchhi_paddr1 cpu) (32 - cp0_watchlo_paddr0_shift) ||| cp0_watchlo_paddr0 cpu

/-- The inner `switch (ii.rd)` of the case `opcMTC0`. -/
def mtc0_write (cpu : cpu_t) (rd urrt : Nat) : cpu_t :=
  match rd with
  | 0 => cpu.set_cp0 cp0_Index (urrt &&& 0x3f)
  | 1 => cpu
  | 2 => cpu.set_cp0 cp0_EntryLo0 (urrt &&& 0x3fffffff)
  | 3 => cpu.set_cp0 cp0_EntryLo1 (urrt &&& 0x3fffffff)
  | 4 => cpu.set_cp0 cp0_Context (urrt &&& 0xfffffff0)
  | 5 =>
    let cpu := cpu.set_cp0 cp0_PageMask 0
    if urrt = 0x0 ∨ urrt = 0x6000 ∨ urrt = 0x1e000 ∨ urrt = 0x7e000 ∨ urrt = 0x1fe000
        ∨ urrt = 0x7fe000 ∨ urrt = 0x1ffe000 then
      cpu.set_cp0 cp0_PageMask (urrt &&& cp0_pagemask_mask_mask)
    else cpu
  | 6 => (cpu.set_cp0 cp0_Random 47).set_cp0 cp0_Wired (urrt &&& 0x3f)
  | 7 => cpu
  | 8 => cpu
  | 9 => cpu.set_cp0 cp0_Count urrt
  | 10 => cpu.set_cp0 cp0_EntryHi (urrt &&& 0xfffff0ff)
  | 11 =>
    let cpu := cpu.set_cp0 cp0_Compare urrt
    cpu.set_cp0 cp0_Cause (cp0_cause cpu &&& not32 (shl32 1 cp0_cause_ip7_shift))
  | 12 => cpu.set_cp0 cp0_Status (urrt &&& 0xff77ff1f)
  | 13 =>
    let cpu := cpu.set_cp0 cp0_Cause
      (cp0_cause cpu &&& not32 (cp0_cause_ip0_mask ||| cp0_cause_ip1_mask))
    cpu.set_cp0 cp0_Cause (cp0_cause cpu ||| (urrt &&& (cp0_cause_ip0_mask ||| cp0_cause_ip1_mask)))
  | 14 => cpu.set_cp0 cp0_EPC urrt
  | 15 => cpu
  | 16 => cpu.set_cp0 cp0_Config (urrt &&& 0xffffefff)
  | 17 => cpu.set_cp0 cp0_LLAddr urrt
  | 18 =>
    let cpu := cpu.set_cp0 cp0_WatchLo (urrt &&& not32 cp0_watchlo_res_mask)
    { cpu with waddr := watch_addr cpu }
  | 19 =>
    let cpu := cpu.set_cp0 cp0_WatchHi (urrt &&& not32 cp0_watchhi_res_mask)
    { cpu with waddr := watch_addr cpu }
  | 26 => cpu.set_cp0 cp0_ECC (shl32 (urrt &&& cp0_ecc_ecc_mask) cp0_ecc_ecc_shift)
  | 28 => cpu.set_cp0 cp0_TagLo urrt
  | 29 => cpu.set_cp0 cp0_TagHi urrt
  | 30 => cpu.set_cp0 cp0_ErrorEPC urrt
  | _ => cpu

/-- The case `opcMTC0`. -/
def exec_MTC0 (s : sim_t M) (ii : instr_info_t) (pca urrt : Nat) : exec_t M :=
  if cp0_status_cu0 s.cpu = 1 ∨ (cp0_status_ksu s.cpu = 0 ∨ cp0_status_exl s.cpu ≠ 0
      ∨ cp0_status_erl s.cpu ≠ 0) then
    ⟨excNone, pca, { s with cpu := mtc0_write s.cpu ii.rd urrt }⟩
  else cpu_unusable s pca

/-- The cases `CFCz`, `CTCz`, `MTCz` for coprocessors 1 to 3: ignored when the
coprocessor is usable (`cu` is the `Status.CUz` test), else unusable. -/
def exec_copz (s : sim_t M) (pca : Nat) (cu : Prop) [Decidable cu] (ce : Nat) : exec_t M :=
  if cu then ⟨excNone, pca, s⟩ else cpu_unusable_ce s pca ce

/-! ## The instruction switch -/

/-- The `switch (ii.opcode)` of `execute`, with the locals `pca`, `urrs` and
`urrt` initialised as in the source. -/
def exec_switch (E : machine_t M) (s : sim_t M) (ii : instr_info_t) : exec_t M :=
  let pca := add32 s.cpu.pc_next 4
  let urrs := s.cpu.regs ii.rs
  let urrt := s.cpu.regs ii.rt
  match ii.opcode with
  | opcADD =>
    if (urrs ^^^ urrt) &&& SBIT = 0 ∧ (urrs ^^^ add32 urrs urrt) &&& SBIT ≠ 0 then
      ⟨excOv, pca, s⟩
    else ⟨excNone, pca, s.wreg ii.rd (add32 urrs urrt)⟩
  | opcADDI =>
    if (urrs ^^^ ii.imm) &&& SBIT = 0 ∧ (ii.imm ^^^ add32 urrs ii.imm) &&& SBIT ≠ 0 then
      ⟨excOv, pca, s⟩
    else ⟨excNone, pca, s.wreg ii.rt (add32 urrs ii.imm)⟩
  | opcADDIU => ⟨excNone, pca, s.wreg ii.rt (add32 urrs ii.imm)⟩
  | opcADDU => ⟨excNone, pca, s.wreg ii.rd (add32 urrs urrt)⟩
  | opcAND => ⟨excNone, pca, s.wreg ii.rd (urrs &&& urrt)⟩
  | opcANDI => ⟨excNone, pca, s.wreg ii.rt (urrs &&& (ii.imm &&& 0xffff))⟩
  | opcCLO => ⟨excNone, pca, s.wreg ii.rd (clo_loop 32 0 urrs)⟩
  | opcCLZ => ⟨excNone, pca, s.wreg ii.rd (clz_loop 32 0 urrs)⟩
  | opcDADD | opcDADDI | opcDADDIU | opcDADDU | opcDDIV | opcDDIVU => ⟨excRI, pca, s⟩
  | opcDIV =>
    if urrt = 0 then ⟨excNone, pca, { s with cpu := { s.cpu with loreg := 0, hireg := 0 } }⟩
    else if div_traps urrs urrt then ⟨excNone, pca, { s with killed := true }⟩
    else
      ⟨excNone, pca, { s with cpu := { s.cpu with
        loreg := ofInt32 (Int.tdiv (toInt32 urrs) (toInt32 urrt)),
        hireg := ofInt32 (Int.tmod (toInt32 urrs) (toInt32 urrt)) } }⟩
  | opcDIVU =>
    if urrt = 0 then ⟨excNone, pca, { s with cpu := { s.cpu with loreg := 0, hireg := 0 } }⟩
    else ⟨excNone, pca, { s with cpu := { s.cpu with loreg := urrs / urrt, hireg := urrs % urrt } }⟩
  | opcDMULT | opcDMULTU | opcDSLL | opcDSLLV | opcDSLL32 | opcDSRA | opcDSRAV | opcDSRA32
  | opcDSRL | opcDSRLV | opcDSRL32 | opcDSUB | opcDSUBU => ⟨excRI, pca, s⟩
  | opcMADD =>
    let cpu := multiply s.cpu urrs urrt true
    ⟨excNone, pca, { s with cpu := set_acc64 cpu (u64 (acc64 s.cpu + acc64 cpu)) }⟩
  | opcMADDU =>
    let cpu := multiply s.cpu urrs urrt false
    ⟨excNone, pca, { s with cpu := set_acc64 cpu (u64 (acc64 s.cpu + acc64 cpu)) }⟩
  | opcMSUB =>
    let cpu := multiply s.cpu urrs urrt true
    let acc := u64 (acc64 s.cpu + 18446744073709551616 - acc64 cpu)
    ⟨excNone, pca, { s with cpu := set_acc64 cpu acc }⟩
  | opcMSUBU =>
    let cpu := multiply s.cpu urrs urrt false
    let acc := u64 (acc64 s.cpu + 18446744073709551616 - acc64 cpu)
    ⟨excNone, pca, { s with cpu := set_acc64 cpu acc }⟩
  | opcMUL => ⟨excNone, pca, s.wreg ii.rd (u64 (urrs * urrt) &&& 0xffffffff)⟩
  | opcMOVN => if urrt ≠ 0 then ⟨excNone, pca, s.wreg ii.rd urrs⟩ else ⟨excNone, pca, s⟩
  | opcMOVZ => if urrt = 0 then ⟨excNone, pca, s.wreg ii.rd urrs⟩ else ⟨excNone, pca, s⟩
  | opcMULT => ⟨excNone, pca, { s with cpu := multiply s.cpu urrs urrt true }⟩
  | opcMULTU => ⟨excNone, pca, { s with cpu := multiply s.cpu urrs urrt false }⟩
  | opcNOR => ⟨excNone, pca, s.wreg ii.rd (not32 (urrs ||| urrt))⟩
  | opcOR => ⟨excNone, pca, s.wreg ii.rd (urrs ||| urrt)⟩
  | opcORI => ⟨excNone, pca, s.wreg ii.rt (urrs ||| (ii.imm &&& 0xffff))⟩
  | opcSLL => ⟨excNone, pca, s.wreg ii.rd (shl32 urrt ii.shift)⟩
  | opcSLLV => ⟨excNone, pca, s.wreg ii.rd (shl32 urrt (urrs &&& 0x1f))⟩
  | opcSLT =>
    ⟨excNone, pca, s.wreg ii.rd (if toInt32 urrs < toInt32 urrt then 1 else 0)⟩
  | opcSLTI =>
    ⟨excNone, pca, s.wreg ii.rt (if toInt32 urrs < toInt32 ii.imm then 1 else 0)⟩
  | opcSLTIU => ⟨excNone, pca, s.wreg ii.rt (if urrs < ii.imm then 1 else 0)⟩
  | opcSLTU => ⟨excNone, pca, s.wreg ii.rd (if urrs < urrt then 1 else 0)⟩
  | opcSRA => ⟨excNone, pca, s.wreg ii.rd (ofInt32 (Int.fdiv (toInt32 urrt) (2 ^ ii.shift)))⟩
  | opcSRAV =>
    ⟨excNone, pca, s.wreg ii.rd (ofInt32 (Int.fdiv (toInt32 urrt) (2 ^ (urrs &&& 0x1f))))⟩
  | opcSRL => ⟨excNone, pca, s.wreg ii.rd (urrt >>> ii.shift)⟩
  | opcSRLV => ⟨excNone, pca, s.wreg ii.rd (urrt >>> (urrs &&& 0x1f))⟩
  | opcSUB =>
    if (urrs ^^^ urrt) &&& SBIT ≠ 0 ∧ (urrs ^^^ sub32 urrs urrt) &&& SBIT ≠ 0 then
      ⟨excOv, pca, s⟩
    else ⟨excNone, pca, s.wreg ii.rd (sub32 urrs urrt)⟩
  | opcSUBU => ⟨excNone, pca, s.wreg ii.rd (sub32 urrs urrt)⟩
  | opcXOR => ⟨excNone, pca, s.wreg ii.rd (urrs ^^^ urrt)⟩
  | opcXORI => ⟨excNone, pca, s.wreg ii.rt (urrs ^^^ (ii.imm &&& 0xffff))⟩
  -- Branches and jumps
  | opcBC0FL | opcBC1FL | opcBC2FL | opcBC3FL =>
    if cp0_usable s.cpu then br_annul s else cpu_unusable s pca
  | opcBC0F | opcBC1F | opcBC2F | opcBC3F =>
    if cp0_usable s.cpu then ⟨excNone, pca, s⟩ else cpu_unusable s pca
  | opcBC0TL | opcBC1TL | opcBC2TL | opcBC3TL =>
    if cp0_usable s.cpu then br_taken s (br_target s.cpu ii) else cpu_unusable s pca
  | opcBC0T | opcBC1T | opcBC2T | opcBC3T =>
    if cp0_usable s.cpu then br_taken s (br_target s.cpu ii) else cpu_unusable s pca
  | opcBEQ => br_cond s ii pca (urrs = urrt)
  | opcBEQL => br_likely s ii (urrs = urrt)
  | opcBGEZAL => br_cond (s.wreg 31 (add32 s.cpu.pc 8)) ii pca (urrs &&& SBIT = 0)
  | opcBGEZ => br_cond s ii pca (urrs &&& SBIT = 0)
  | opcBGEZALL => br_likely (s.wreg 31 (add32 s.cpu.pc 8)) ii (urrs &&& SBIT = 0)
  | opcBGEZL => br_likely s ii (urrs &&& SBIT = 0)
  | opcBGTZ => br_cond s ii pca (toInt32 urrs > 0)
  | opcBGTZL => br_likely s ii (toInt32 urrs > 0)
  | opcBLEZ => br_cond s ii pca (toInt32 urrs ≤ 0)
  | opcBLEZL => br_likely s ii (toInt32 urrs ≤ 0)
  | opcBLTZAL => br_cond (s.wreg 31 (add32 s.cpu.pc_next 4)) ii pca (urrs &&& SBIT ≠ 0)
  | opcBLTZ => br_cond s ii pca (urrs &&& SBIT ≠ 0)
  | opcBLTZALL => br_likely (s.wreg 31 (add32 s.cpu.pc_next 4)) ii (urrs &&& SBIT ≠ 0)
  | opcBLTZL => br_likely s ii (urrs &&& SBIT ≠ 0)
  | opcBNE => br_cond s ii pca (urrs ≠ urrt)
  | opcBNEL => br_likely s ii (urrs ≠ urrt)
  | opcJAL =>
    br_taken (s.wreg 31 (add32 s.cpu.pc_next 4))
      ((s.cpu.pc_next &&& TARGET_COMB) ||| shl32 ii.imm TARGET_SHIFT)
  | opcJ => br_taken s ((s.cpu.pc_next &&& TARGET_COMB) ||| shl32 ii.imm TARGET_SHIFT)
  | opcJALR => br_taken (s.wreg ii.rd (add32 s.cpu.pc_next 4)) urrs
  | opcJR => br_taken s urrs
  -- Load, store
  | opcLB => exec_load E s ii pca urrs BITS_8 exec_LB
  | opcLBU => exec_load E s ii pca urrs BITS_8 exec_LBU
  | opcLD | opcLDL | opcLDR => ⟨excRI, pca, s⟩
  | opcLH => exec_load E s ii pca urrs BITS_16 exec_LH
  | opcLHU => exec_load E s ii pca urrs BITS_16 exec_LHU
  | opcLL => exec_LL E s ii pca urrs
  | opcLLD => ⟨excRI, pca, s⟩
  | opcLUI => ⟨excNone, pca, s.wreg ii.rt (shl32 ii.imm 16)⟩
  | opcLW => exec_LW E s ii pca urrs
  | opcLWL => exec_LWx E s ii pca urrs true
  | opcLWR => exec_LWx E s ii pca urrs false
  | opcLWU => ⟨excRI, pca, s⟩
  | opcSB => exec_store E s ii pca (eff_addr urrs ii) BITS_8
  | opcSC => exec_SC E s ii pca urrs
  | opcSCD | opcSD | opcSDL | opcSDR => ⟨excRI, pca, s⟩
  | opcSH => exec_store E s ii pca (add32 urrs (sext16 ii.imm)) BITS_16
  | opcSW => exec_store E s ii pca (add32 urrs (sext16 ii.imm)) BITS_32
  | opcSWL => exec_SWx E s ii pca urrs true
  | opcSWR => exec_SWx E s ii pca urrs false
  -- Traps
  | opcTEQ => ⟨if urrs = urrt then excTr else excNone, pca, s⟩
  | opcTEQI => ⟨if urrs = ii.imm then excTr else excNone, pca, s⟩
  | opcTGE => ⟨if toInt32 urrs ≥ toInt32 urrt then excTr else excNone, pca, s⟩
  | opcTGEI => ⟨if toInt32 urrs ≥ toInt32 ii.imm then excTr else excNone, pca, s⟩
  | opcTGEIU => ⟨if urrs ≥ ii.imm then excTr else excNone, pca, s⟩
  | opcTGEU => ⟨if urrs ≥ urrt then excTr else excNone, pca, s⟩
  | opcTLT => ⟨if toInt32 urrs < toInt32 urrt then excTr else excNone, pca, s⟩
  | opcTLTI => ⟨if toInt32 urrs < toInt32 ii.imm then excTr else excNone, pca, s⟩
  | opcTLTIU => ⟨if urrs < ii.imm then excTr else excNone, pca, s⟩
  | opcTLTU => ⟨if urrs < urrt then excTr else excNone, pca, s⟩
  | opcTNE => ⟨if urrs ≠ urrt then excTr else excNone, pca, s⟩
  | opcTNEI => ⟨if urrs ≠ ii.imm then excTr else excNone, pca, s⟩
  -- Special instructions
  | opcCFC0 => ⟨excNone, pca, s⟩
  | opcCFC1 => exec_copz s pca (cp0_status_cu1 s.cpu = 1) cp0_cause_ce_cu1
  | opcCFC2 => exec_copz s pca (cp0_status_cu2 s.cpu = 1) cp0_cause_ce_cu2
  | opcCFC3 => exec_copz s pca (cp0_status_cu3 s.cpu = 1) cp0_cause_ce_cu3
  | opcCTC0 => ⟨excNone, pca, s⟩
  | opcCTC1 => exec_copz s pca (cp0_status_cu1 s.cpu = 1) cp0_cause_ce_cu1
  | opcCTC2 => exec_copz s pca (cp0_status_cu2 s.cpu = 1) cp0_cause_ce_cu2
  | opcCTC3 => exec_copz s pca (cp0_status_cu3 s.cpu ≠ 0) cp0_cause_ce_cu3
  | opcERET => exec_ERET E s pca
  | opcMFC0 => exec_MFC0 s ii pca
  | opcMFHI => ⟨excNone, pca, s.wreg ii.rd s.cpu.hireg⟩
  | opcMFLO => ⟨excNone, pca, s.wreg ii.rd s.cpu.loreg⟩
  | opcMTC0 => exec_MTC0 s ii pca urrt
  | opcMTC1 => exec_copz s pca (cp0_status_cu1 s.cpu = 1) cp0_cause_ce_cu1
  | opcMTC2 => exec_copz s pca (cp0_status_cu2 s.cpu = 1) cp0_cause_ce_cu2
  | opcMTC3 => exec_copz s pca (cp0_status_cu3 s.cpu = 1) cp0_cause_ce_cu3
  | opcSDC1 | opcSDC2 => ⟨excRI, pca, s⟩
  | opcMTHI => ⟨excNone, pca, { s with cpu := { s.cpu with hireg := urrs } }⟩
  | opcMTLO => ⟨excNone, pca, { s with cpu := { s.cpu with loreg := urrs } }⟩
  | opcSYNC => ⟨excNone, pca, s⟩
  | opcSYSCALL => ⟨excSys, pca, s⟩
  | opcRES => ⟨excRI, pca, s⟩
  | opcQRES => ⟨excNone, pca, s⟩
  | opcTLBP => exec_TLBP s pca
  | opcTLBR => exec_TLBR s pca
  | opcTLBWI => TLBW s pca false
  | opcTLBWR => TLBW s pca true
  | opcBREAK => ⟨excBp, pca, s⟩
  | opcWAIT =>
    ⟨excNone, pca, { s with cpu := { s.cpu with pc_next := s.cpu.pc, stdby := true } }⟩
  | opcNOP => ⟨excNone, pca, s⟩
  -- Machine debugging instructions
  | opcDVAL => ⟨excNone, pca, s⟩
  | opcDTRC => ⟨excNone, pca, { s with cpu := cpu_update_debug s.cpu, totrace := true }⟩
  | opcDTRO => ⟨excNone, pca, { s with totrace := false }⟩
  | opcDRV => ⟨excNone, pca, s⟩
  | opcDHLT => ⟨excNone, pca, { s with tohalt := true }⟩
  | opcDINT => ⟨excNone, pca, { s with interactive := true }⟩
  -- Unimplemented instructions
  | opcSPECIAL | opcBCOND | opcSPECIAL2 | opcCACHE | opcCOP0 | opcCOP1 | opcCOP2 | opcCOP3
  | opcDMFC0 | opcDMFC1 | opcDMFC2 | opcDMFC3 | opcDMTC0 | opcDMTC1 | opcDMTC2 | opcDMTC3
  | opcLDC1 | opcLDC2 | opcLWC1 | opcLWC2 | opcMFC1 | opcMFC2 | opcMFC3 | opcSWC1 | opcSWC2
  | opcUNIMP | opcIllegal | opcBC | opcC0 => ⟨excRI, pca, s⟩

/-- Execute the instruction specified by the opcode: the switch, then the
branch test, the PC update and the hard-wired zero register. -/
def execute (E : machine_t M) (s : sim_t M) (ii : instr_info_t) : exc_t × sim_t M :=
  let r := exec_switch E s ii
  let cpu := r.s.cpu
  let cpu :=
    if cpu.branch = BRANCH_COND ∨ cpu.branch = BRANCH_NONE then { cpu with excaddr := cpu.pc }
    else cpu
  let cpu :=
    if r.res = excNone then { cpu with pc := cpu.pc_next, pc_next := r.pca } else cpu
  let cpu := cpu.set_reg 0 0
  (r.res, { r.s with cpu := cpu })

/-! ## Exceptions and the cycle manager -/

/-- The code `handle_exception` delivers for a fault: the TLB refill tags are
converted to `excTLBL` / `excTLBS`. -/
def exc_base (res : exc_t) : exc_t :=
  if res = excTLBLR then excTLBL else if res = excTLBSR then excTLBS else res

/-- Part of `handle_exception`: the standby mode is cancelled by the
exception. -/
def he_standby (cpu : cpu_t) : cpu_t :=
  let cpu := if cpu.stdby = true then cpu_set_pc cpu (add32 cpu.pc 4) else cpu
  { cpu with stdby := false }

/-- Part of `handle_exception`: `Cause.ExcCode` and `Cause.BD`. -/
def he_cause (cpu : cpu_t) (res : exc_t) : cpu_t :=
  let cpu := cpu.set_cp0 cp0_Cause (cp0_cause cpu &&& not32 cp0_cause_exccode_mask)
  let cpu := cpu.set_cp0 cp0_Cause (cp0_cause cpu ||| shl32 res.code cp0_cause_exccode_shift)
  let cpu := cpu.set_cp0 cp0_Cause (cp0_cause cpu &&& not32 cp0_cause_bd_mask)
  if cpu.branch = BRANCH_PASSED then cpu.set_cp0 cp0_Cause (cp0_cause cpu ||| cp0_cause_bd_mask)
  else cpu

/-- Part of `handle_exception`: the write of `EPC` when `Status.EXL` is
clear. -/
def he_epc (cpu : cpu_t) (res : exc_t) : cpu_t :=
  if cp0_status_exl cpu = 0 then
    let cpu := cpu.set_cp0 cp0_EPC cpu.excaddr
    if res = excInt ∧ cpu.branch ≠ BRANCH_COND then cpu.set_cp0 cp0_EPC cpu.pc else cpu
  else cpu

/-- Part of `handle_exception`: the exception vector `exc_pc`, base address
plus offset. -/
def he_vector (cpu : cpu_t) (res : exc_t) (tlb_refill : Bool) : Nat :=
  let exc_pc : Nat :=
    if cp0_status_bev cpu ≠ 0 then (if res ≠ excReset then 0xbfc00200 else 0xbfc00000)
    else (if res ≠ excReset then 0x80000000 else 0xbfc00000)
  if cp0_status_exl cpu ≠ 0 ∨ tlb_refill = false then add32 exc_pc EXCEPTION_OFFSET
  else exc_pc

/-- Change the processor state according to the exception type. -/
def handle_exception (cpu : cpu_t) (res : exc_t) : cpu_t :=
  let tlb_refill : Bool := decide (res = excTLBLR ∨ res = excTLBSR)
  let res := exc_base res
  let cpu := he_standby cpu
  let cpu := he_cause cpu res
  let cpu := he_epc cpu res
  let cpu := cpu_set_pc cpu (he_vector cpu res tlb_refill)
  cpu.set_cp0 cp0_Status (cp0_status cpu ||| cp0_status_exl_mask)

/-- The fault `manage` acts on: the instruction's, or a synthesised `Int` when
an interrupt is deliverable. -/
def manage_res (cpu : cpu_t) (res : exc_t) : exc_t :=
  if res = excNone ∧ cp0_status_exl cpu = 0 ∧ cp0_status_erl cpu = 0
      ∧ cp0_status_ie cpu ≠ 0
      ∧ (cp0_cause cpu &&& cp0_status cpu) &&& cp0_cause_ip_mask ≠ 0 then excInt
  else res

/-- Part of `manage`: increase the counter and decrease the random register. -/
def manage_count (cpu : cpu_t) : cpu_t :=
  let cpu := cpu.set_cp0 cp0_Count (add32 (cp0_count cpu) 1)
  let old_random := cp0_random cpu
  let cpu := cpu.set_cp0 cp0_Random (sub32 old_random 1)
  let cpu := if old_random = 0 then cpu.set_cp0 cp0_Random 47 else cpu
  if cp0_random cpu < cp0_wired cpu then cpu.set_cp0 cp0_Random 47 else cpu

/-- Part of `manage`: the timer control. -/
def manage_timer (cpu : cpu_t) : cpu_t :=
  if cp0_count cpu = cp0_compare cpu then
    cpu.set_cp0 cp0_Cause (cp0_cause cpu ||| shl32 1 cp0_cause_ip7_shift)
  else cpu

/-- React on interrupt requests, update the internal timer and the random
register. -/
def manage (cpu : cpu_t) (res : exc_t) : cpu_t :=
  let res := manage_res cpu res
  let cpu := if res ≠ excNone then handle_exception cpu res else cpu
  manage_timer (manage_count cpu)

/-- Simulate one instruction: fetch, decode, execute. -/
def instruction (E : machine_t M) (s : sim_t M) : exc_t × sim_t M :=
  match cpu_read_ins E s s.cpu.pc 0 true with
  | (res, icode, s1) =>
    if res = excNone then execute E s1 (E.decode_instr icode) else (res, s1)

/-- The first statement of `cpu_step`: `res = excNone`, and the instruction
when the processor is not in standby. -/
def cpu_step_instr (E : machine_t M) (s : sim_t M) : exc_t × sim_t M :=
  if s.cpu.stdby = false then instruction E s else (excNone, s)

/-- Simulate one step of the processor. -/
def cpu_step (E : machine_t M) (s : sim_t M) : sim_t M :=
  let r := cpu_step_instr E s
  let cpu := manage r.2.cpu r.1
  let cpu :=
    if cpu.stdby = true then { cpu with w_cycles := u64 (cpu.w_cycles + 1) }
    else if cp0_status_ksu cpu = 0 ∨ cp0_status_exl cpu = 1 ∨ cp0_status_erl cpu = 1 then
      { cpu with k_cycles := u64 (cpu.k_cycles + 1) }
    else { cpu with u_cycles := u64 (cpu.u_cycles + 1) }
  { r.2 with cpu := { cpu with branch := cpu.branch.dec } }

/-! ## A concrete machine: RAM and the R4000 instruction encodings -/

/-- Modelled from the spec: a RAM region behind the memory bus (`machine.c` is
absent): one byte per physical address. -/
abbrev ram_t : Type := Nat → Nat

/-- Modelled from the spec: aligned 1/2/4-byte read from RAM (`mem_read` of
the absent `machine.c`), little-endian byte order. -/
def ram_read (m : ram_t) (addr size : Nat) : Nat :=
  match size with
  | 1 => m addr % 256
  | 2 => m addr % 256 + 256 * (m (addr + 1) % 256)
  | _ => m addr % 256 + 256 * (m (addr + 1) % 256) + 65536 * (m (addr + 2) % 256)
          + 16777216 * (m (addr + 3) % 256)

/-- Modelled from the spec: aligned 1/2/4-byte write to RAM (`mem_write` of
the absent `machine.c`), little-endian byte order. -/
def ram_write (m : ram_t) (addr val size : Nat) : ram_t :=
  fun a => if addr ≤ a ∧ a < addr + size then (val >>> (8 * (a - addr))) % 256 else m a

/-- Modelled from the spec: the `SPECIAL` function field of the R4000
encoding (`instr.c` is absent). -/
def decode_special (funct : Nat) : instr_enum :=
  match funct with
  | 0 => opcSLL | 2 => opcSRL | 3 => opcSRA | 4 => opcSLLV | 6 => opcSRLV | 7 => opcSRAV
  | 8 => opcJR | 9 => opcJALR | 10 => opcMOVZ | 11 => opcMOVN | 12 => opcSYSCALL
  | 13 => opcBREAK | 15 => opcSYNC | 16 => opcMFHI | 17 => opcMTHI | 18 => opcMFLO
  | 19 => opcMTLO | 20 => opcDSLLV | 22 => opcDSRLV | 23 => opcDSRAV | 24 => opcMULT
  | 25 => opcMULTU | 26 => opcDIV | 27 => opcDIVU | 28 => opcDMULT | 29 => opcDMULTU
  | 30 => opcDDIV | 31 => opcDDIVU | 32 => opcADD | 33 => opcADDU | 34 => opcSUB
  | 35 => opcSUBU | 36 => opcAND | 37 => opcOR | 38 => opcXOR | 39 => opcNOR
  | 42 => opcSLT | 43 => opcSLTU | 44 => opcDADD | 45 => opcDADDU | 46 => opcDSUB
  | 47 => opcDSUBU | 48 => opcTGE | 49 => opcTGEU | 50 => opcTLT | 51 => opcTLTU
  | 52 => opcTEQ | 54 => opcTNE | 56 => opcDSLL | 58 => opcDSRL | 59 => opcDSRA
  | 60 => opcDSLL32 | 62 => opcDSRL32 | 63 => opcDSRA32
  | _ => opcRES

/-- Modelled from the spec: the `REGIMM` `rt` field of the R4000 encoding
(`instr.c` is absent). -/
def decode_regimm (rt : Nat) : instr_enum :=
  match rt with
  | 0 => opcBLTZ | 1 => opcBGEZ | 2 => opcBLTZL | 3 => opcBGEZL
  | 8 => opcTGEI | 9 => opcTGEIU | 10 => opcTLTI | 11 => opcTLTIU | 12 => opcTEQI
  | 14 => opcTNEI | 16 => opcBLTZAL | 17 => opcBGEZAL | 18 => opcBLTZALL
  | 19 => opcBGEZALL
  | _ => opcRES

/-- Modelled from the spec: the coprocessor-0 encodings of the R4000
(`instr.c` is absent). -/
def decode_cop0 (rs funct : Nat) : instr_enum :=
  match rs with
  | 0 => opcMFC0
  | 4 => opcMTC0
  | 16 =>
    match funct with
    | 1 => opcTLBR | 2 => opcTLBWI | 6 => opcTLBWR | 8 => opcTLBP | 24 => opcERET
    | 32 => opcWAIT
    | _ => opcRES
  | _ => opcRES

/-- Modelled from the spec: the opcode of an instruction word under the
R4000 encoding (`instr.c` is absent); the all-zero word is `NOP`. -/
def decode_opcode (icode : Nat) : instr_enum :=
  if icode = 0 then opcNOP
  else
    match (icode >>> 26) &&& 0x3f with
    | 0 => decode_special (icode &&& 0x3f)
    | 1 => decode_regimm ((icode >>> 16) &&& 0x1f)
    | 2 => opcJ | 3 => opcJAL | 4 => opcBEQ | 5 => opcBNE | 6 => opcBLEZ | 7 => opcBGTZ
    | 8 => opcADDI | 9 => opcADDIU | 10 => opcSLTI | 11 => opcSLTIU | 12 => opcANDI
    | 13 => opcORI | 14 => opcXORI | 15 => opcLUI
    | 16 => decode_cop0 ((icode >>> 21) &&& 0x1f) (icode &&& 0x3f)
    | 20 => opcBEQL | 21 => opcBNEL | 22 => opcBLEZL | 23 => opcBGTZL
    | 24 => opcDADDI | 25 => opcDADDIU | 26 => opcLDL | 27 => opcLDR
    | 32 => opcLB | 33 => opcLH | 34 => opcLWL | 35 => opcLW | 36 => opcLBU | 37 => opcLHU
    | 38 => opcLWR | 39 => opcLWU | 40 => opcSB | 41 => opcSH | 42 => opcSWL | 43 => opcSW
    | 44 => opcSDL | 45 => opcSDR | 46 => opcSWR | 47 => opcCACHE | 48 => opcLL
    | 52 => opcLLD | 55 => opcLD | 56 => opcSC | 60 => opcSCD | 63 => opcSD
    | _ => opcRES

/-- Modelled from the spec: `decode_instr` of the absent `instr.c`: the
register and shift fields, and the immediate: the 26-bit target for `J`/`JAL`,
otherwise the low 16 bits, sign-extended to 32 bits. -/
def mips_decode (icode : Nat) : instr_info_t :=
  { opcode := decode_opcode icode,
    icode := icode,
    rs := (icode >>> 21) &&& 0x1f,
    rt := (icode >>> 16) &&& 0x1f,
    rd := (icode >>> 11) &&& 0x1f,
    shift := (icode >>> 6) &&& 0x1f,
    imm :=
      if (icode >>> 26) &&& 0x3f = 2 ∨ (icode >>> 26) &&& 0x3f = 3 then icode &&& 0x03ffffff
      else sext16 icode }

/-- Modelled from the spec: the LL/SC control of the memory (`mem_write` of
the absent `machine.c`; the glossary: a store-conditional succeeds only if no
other write to the linked line has occurred since the load-linked): a write
into the word at `lladdr` clears the LL bit of a linked processor. -/
def ram_write_unlinks (cpu : cpu_t) (addr : Nat) : Bool :=
  cpu.llbit && decide (addr &&& 0xfffffffc = cpu.lladdr &&& 0xfffffffc)

/-- The machine made of RAM and the R4000 decoder, for one processor: the
LL/SC watch list is not kept, a write to the linked word clears the LL bit. -/
def ram_machine : machine_t ram_t :=
  { mem_read := fun m a sz => (ram_read m a sz, m),
    mem_write := ram_write,
    write_unlinks := fun _ cpu a _ _ => ram_write_unlinks cpu a,
    register_sc := fun m _ => m,
    unregister_sc := fun m _ => m,
    decode_instr := mips_decode }

/-- A RAM holding the 32-bit words of `prog` at consecutive physical
addresses from `base`, zero elsewhere. -/
def ram_load (base : Nat) (prog : List Nat) : ram_t :=
  fun a =>
    if base ≤ a ∧ a < base + 4 * prog.length then
      (prog.getD ((a - base) / 4) 0 >>> (8 * ((a - base) % 4))) % 256
    else 0

/-- The state of a freshly initialised simulator around a given RAM. -/
def sim_init (m : ram_t) : sim_t ram_t :=
  { cpu := cpu_init 0, mem := m, totrace := false, tohalt := false, interactive := false }

/-- The reset state with `r1 = 0x7FFFFFFF` and `r2 = 1`, around an empty RAM:
the operands of the overflowing `ADD r3, r1, r2` (word `0x00221820`). -/
def ov_state : sim_t ram_t := ((sim_init (ram_load 0 [])).wreg 1 0x7fffffff).wreg 2 1

/-- The reset state with `r1 = 1` and the program `BEQL r0, r1, +8` (word
`0x50010002`) followed by `NOP`s at the reset vector. -/
def beql_state : sim_t ram_t :=
  (sim_init (ram_load 0x1fc00000 [0x50010002, 0, 0, 0])).wreg 1 1

/-- The reset state with a `NOP` at the reset vector. -/
def nop_state : sim_t ram_t := sim_init (ram_load 0x1fc00000 [0, 0])


/-- The reset state with `BEQ r0, r0, +12` (word `0x10000003`) at the reset
vector and `WAIT` (word `0x42000020`) in its delay slot. -/
def beq_wait_state : sim_t ram_t :=
  sim_init (ram_load 0x1fc00000 [0x10000003, 0x42000020, 0, 0, 0])

/-- The reset state with `BEQ r0, r0, +12` (word `0x10000003`) at the reset
vector and `NOP` in its delay slot. -/
def beq_state : sim_t ram_t :=
  sim_init (ram_load 0x1fc00000 [0x10000003, 0, 0, 0, 0])


/-- The reset state with `J 0xBFC00100` (word `0x0BF00040`) at the reset
vector and `BGEZAL r0, +4` (word `0x04110001`) in its delay slot. -/
def jump_bgezal_state : sim_t ram_t :=
  sim_init (ram_load 0x1fc00000 [0x0bf00040, 0x04110001, 0, 0])

/-- The part of the processor that a memory access leaves alone. -/
structure acc_frame (c c' : cpu_t) : Prop where
  procno : c'.procno = c.procno
  regs : c'.regs = c.regs
  loreg : c'.loreg = c.loreg
  hireg : c'.hireg = c.hireg
  pc : c'.pc = c.pc
  pc_next : c'.pc_next = c.pc_next
  branch : c'.branch = c.branch
  excaddr : c'.excaddr = c.excaddr
  tlb : c'.tlb = c.tlb
  stdby : c'.stdby = c.stdby
  llbit : c'.llbit = c.llbit
  lladdr : c'.lladdr = c.lladdr
  waddr : c'.waddr = c.waddr
  cp0 : ∀ i, i ≠ cp0_BadVAddr → i ≠ cp0_Context → i ≠ cp0_EntryHi → c'.cp0 i = c.cp0 i

/-- The part of the processor that a memory write leaves alone: as for
`acc_frame`, but the bus may clear the LL bit (it never sets it). -/
structure st_frame (c c' : cpu_t) : Prop where
  procno : c'.procno = c.procno
  regs : c'.regs = c.regs
  loreg : c'.loreg = c.loreg
  hireg : c'.hireg = c.hireg
  pc : c'.pc = c.pc
  pc_next : c'.pc_next = c.pc_next
  branch : c'.branch = c.branch
  excaddr : c'.excaddr = c.excaddr
  tlb : c'.tlb = c.tlb
  stdby : c'.stdby = c.stdby
  llbit : c'.llbit = true → c.llbit = true
  lladdr : c'.lladdr = c.lladdr
  waddr : c'.waddr = c.waddr
  cp0 : ∀ i, i ≠ cp0_BadVAddr → i ≠ cp0_Context → i ≠ cp0_EntryHi → c'.cp0 i = c.cp0 i

/-- The part of the processor that a faulting instruction leaves alone. -/
structure exc_frame (c c' : cpu_t) : Prop where
  procno : c'.procno = c.procno
  regs : c'.regs = c.regs
  loreg : c'.loreg = c.loreg
  hireg : c'.hireg = c.hireg
  pc : c'.pc = c.pc
  pc_next : c'.pc_next = c.pc_next
  branch : c'.branch = c.branch
  excaddr : c'.excaddr = c.excaddr
  tlb : c'.tlb = c.tlb
  stdby : c'.stdby = c.stdby
  waddr : c'.waddr = c.waddr
  cp0 : ∀ i, i ≠ cp0_BadVAddr → i ≠ cp0_Context → i ≠ cp0_EntryHi → i ≠ cp0_Cause →
    c'.cp0 i = c.cp0 i


/-- The exact signed result `z` does not fit a 32-bit two's-complement word. -/
def int32_overflows (z : Int) : Prop := z < -2147483648 ∨ 2147483647 < z

instance (z : Int) : Decidable (int32_overflows z) := by
  unfold int32_overflows; infer_instance


/-- User mode: `Status.KSU = 2` with `EXL` and `ERL` clear. -/
def user_mode (cpu : cpu_t) : Prop :=
  cp0_status_ksu cpu = 2 ∧ cp0_status_exl cpu = 0 ∧ cp0_status_erl cpu = 0
/-- Supervisor mode: `Status.KSU = 1` with `EXL` and `ERL` clear. -/
def supervisor_mode (cpu : cpu_t) : Prop :=
  cp0_status_ksu cpu = 1 ∧ cp0_status_exl cpu = 0 ∧ cp0_status_erl cpu = 0
/-- Kernel mode: `Status.KSU = 0`, or `EXL` set, or `ERL` set. -/
def kernel_mode (cpu : cpu_t) : Prop :=
  cp0_status_ksu cpu = 0 ∨ cp0_status_exl cpu = 1 ∨ cp0_status_erl cpu = 1

instance (cpu : cpu_t) : Decidable (user_mode cpu) := by unfold user_mode; infer_instance
instance (cpu : cpu_t) : Decidable (supervisor_mode cpu) := by
  unfold supervisor_mode; infer_instance
instance (cpu : cpu_t) : Decidable (kernel_mode cpu) := by unfold kernel_mode; infer_instance


/-- The branch condition of a conditional branch opcode on the values of `rs`
and `rt`, as the architecture words it (signed comparisons with zero). -/
def br_condition (op : instr_enum) (urrs urrt : Nat) : Prop :=
  match op with
  | opcBEQ | opcBEQL => urrs = urrt
  | opcBNE | opcBNEL => urrs ≠ urrt
  | opcBGEZ | opcBGEZL | opcBGEZAL | opcBGEZALL => 0 ≤ toInt32 urrs
  | opcBGTZ | opcBGTZL => 0 < toInt32 urrs
  | opcBLEZ | opcBLEZL => toInt32 urrs ≤ 0
  | opcBLTZ | opcBLTZL | opcBLTZAL | opcBLTZALL => toInt32 urrs < 0
  | _ => False

instance (op : instr_enum) (urrs urrt : Nat) : Decidable (br_condition op urrs urrt) := by
  unfold br_condition; split <;> infer_instance

/-- The branch-likely opcodes. -/
def is_likely (op : instr_enum) : Prop :=
  op = opcBEQL ∨ op = opcBNEL ∨ op = opcBGEZL ∨ op = opcBGTZL ∨ op = opcBLEZL ∨ op = opcBLTZL
    ∨ op = opcBGEZALL ∨ op = opcBLTZALL

instance (op : instr_enum) : Decidable (is_likely op) := by unfold is_likely; infer_instance

/-- The non-likely conditional branch opcodes without link. -/
def is_cond_branch (op : instr_enum) : Prop :=
  op = opcBEQ ∨ op = opcBNE ∨ op = opcBGEZ ∨ op = opcBGTZ ∨ op = opcBLEZ ∨ op = opcBLTZ

instance (op : instr_enum) : Decidable (is_cond_branch op) := by
  unfold is_cond_branch; infer_instance

/-- The likely branches on a coprocessor condition that is always false. -/
def is_bcfl (op : instr_enum) : Prop :=
  op = opcBC0FL ∨ op = opcBC1FL ∨ op = opcBC2FL ∨ op = opcBC3FL

instance (op : instr_enum) : Decidable (is_bcfl op) := by unfold is_bcfl; infer_instance

/-- The instruction annuls its delay slot: a branch-likely whose condition is
false. -/
def annulled (cpu : cpu_t) (ii : instr_info_t) : Prop :=
  (is_likely ii.opcode ∧ ¬ br_condition ii.opcode (cpu.regs ii.rs) (cpu.regs ii.rt))
    ∨ is_bcfl ii.opcode

instance (cpu : cpu_t) (ii : instr_info_t) : Decidable (annulled cpu ii) := by
  unfold annulled; infer_instance

/-- The address of the instruction executed after `ii` when `ii` raises no
fault: `PC_next`, except after `WAIT`, `ERET` and an annulled delay slot. -/
def pc_after (cpu : cpu_t) (ii : instr_info_t) : Nat :=
  if ii.opcode = opcWAIT then cpu.pc
  else if ii.opcode = opcERET then
    (if cp0_status_erl cpu ≠ 0 then cp0_errorepc cpu else cp0_epc cpu)
  else if annulled cpu ii then add32 cpu.pc_next 4
  else cpu.pc_next

/-- The program-counter part of the processor. -/
structure pc_frame (c c' : cpu_t) : Prop where
  pc : c'.pc = c.pc
  pc_next : c'.pc_next = c.pc_next
  branch : c'.branch = c.branch
  excaddr : c'.excaddr = c.excaddr
  stdby : c'.stdby = c.stdby


/-- The decoded instruction that a step starting in state `s` fetches. -/
def fetched (E : machine_t M) (s : sim_t M) : instr_info_t :=
  E.decode_instr (cpu_read_ins E s s.cpu.pc 0 true).2.1

/-- The state in which that instruction executes: `s` after the fetch. -/
def after_fetch (E : machine_t M) (s : sim_t M) : sim_t M :=
  (cpu_read_ins E s s.cpu.pc 0 true).2.2

/-- The exception a step delivers: the fault of its instruction, else `Int`
when an interrupt is deliverable, else `excNone`. -/
def step_exception (E : machine_t M) (s : sim_t M) : exc_t :=
  manage_res (cpu_step_instr E s).2.cpu (cpu_step_instr E s).1

/-- The tags an instruction can end with: `excNone` or a synchronous fault
(every tag but `Int`, the bus and cache errors, `Reset` and the tags internal
to the memory access). -/
def exc_t.instr_result : exc_t → Bool
  | excNone | excMod | excTLBL | excTLBS | excAdEL | excAdES | excSys | excBp | excRI
  | excCpU | excOv | excTr | excWATCH | excTLBLR | excTLBSR => true
  | _ => false

/-! ## TLB lookup in the words of the specification -/

/-- An entry matches a virtual address, in the words of the specification:
`(vaddr & entry.mask) == entry.vpn2`, and the entry is global or carries the
current ASID. -/
def tlb_entry_matches (cpu : cpu_t) (vaddr : Nat) (e : tlb_entry_t) : Prop :=
  (vaddr &&& e.mask) = e.vpn2 ∧ (e.global = true ∨ e.asid = cp0_entryhi_asid cpu)

instance (cpu : cpu_t) (vaddr : Nat) (e : tlb_entry_t) :
    Decidable (tlb_entry_matches cpu vaddr e) := by
  unfold tlb_entry_matches; infer_instance

/-- The `j`-th entry of the TLB in circular order starting at `tlb_hint`. -/
def tlb_circ (cpu : cpu_t) (j : Nat) : tlb_entry_t :=
  cpu.tlb ((cpu.tlb_hint + j) % TLB_ENTRIES)

/-- The legal `PageMask` value of page size `2^k`: bits `k .. 13`. -/
def page_mask (k : Nat) : Nat := 2 ^ (k + 1) - 2 ^ 13

/-- The exponents of the seven page sizes, 4 KiB to 16 MiB. -/
def page_size_exponents : List Nat := [12, 14, 16, 18, 20, 22, 24]

/-- The outcome of a lookup that hits entry `e` of page size `2^k`, in the
words of the specification: the sub-page is bit `k` of the address; `INVALID`
if it is not valid, else `MODIFIED` for a write to a clean page, else `OK`
with the page frame spliced over the address. -/
def tlb_entry_outcome (e : tlb_entry_t) (k vaddr : Nat) (wr : Bool) : tlb_look_t × Nat :=
  let s := (vaddr >>> k) % 2
  if (e.pg s).valid = false then (TLBL_INVALID, vaddr)
  else if wr = true ∧ (e.pg s).dirty = false then (TLBL_MODIFIED, vaddr)
  else (TLBL_OK, ((e.pg s).pfn &&& not32 (2 ^ k - 1)) ||| (vaddr &&& (2 ^ k - 1)))

/-- The body of the loop of `tlb_look` at an entry that hits, with loop
counter `i`. -/
def tlb_look_entry (cpu : cpu_t) (addr : Nat) (wr : Bool) (entry : tlb_entry_t) (i : Nat) :
    tlb_look_t × Nat × cpu_t :=
  let smask := (entry.mask >>> 1) ||| SBIT
  let subpage := if (addr &&& entry.mask) < (addr &&& smask) then 1 else 0
  if (entry.pg subpage).valid = false then (TLBL_INVALID, addr, cpu)
  else if wr = true ∧ (entry.pg subpage).dirty = false then (TLBL_MODIFIED, addr, cpu)
  else
    let amask := addr &&& not32 smask
    (TLBL_OK, amask ||| ((entry.pg subpage).pfn &&& smask), { cpu with tlb_hint := i })

/-- The reset processor with two 4 KiB TLB entries written: entry 0 maps the
page pair at `0x00800000`, entry 1 the pair at `0x00400000`, whose even page
is valid and dirty with frame `0x00123000`. -/
def tlb_demo_cpu : cpu_t :=
  { cpu_init 0 with
    tlb := upd (upd (cpu_init 0).tlb 0
        { mask := 0xffffe000, vpn2 := 0x00800000, global := true, asid := 0,
          pg0 := { pfn := 0x00200000, cohh := 0, dirty := true, valid := true },
          pg1 := { pfn := 0x00201000, cohh := 0, dirty := true, valid := true } })
      1
        { mask := 0xffffe000, vpn2 := 0x00400000, global := true, asid := 0,
          pg0 := { pfn := 0x00123000, cohh := 0, dirty := true, valid := true },
          pg1 := { pfn := 0x00124000, cohh := 0, dirty := false, valid := false } } }

/-- Modelled from the spec: field `PTEBase` of `Context`, bits 31..23 (an
accessor of the absent `cpu.h`). -/
def cp0_context_ptebase (cpu : cpu_t) : Nat :=
  (cp0_context cpu &&& cp0_context_ptebase_mask) >>> 23

/-- Modelled from the spec: field `BadVPN2` of `Context`, bits 22..4 (an
accessor of the absent `cpu.h`). -/
def cp0_context_badvpn2 (cpu : cpu_t) : Nat :=
  (cp0_context cpu &&& cp0_context_badvpn2_mask) >>> 4

/-- Modelled from the spec: the reserved bits 3..0 of `Context` (an accessor
of the absent `cpu.h`). -/
def cp0_context_res1 (cpu : cpu_t) : Nat := cp0_context cpu &&& cp0_context_res1_mask

/-- Modelled from the spec: field `VPN2` of `EntryHi`, bits 31..13 (an
accessor of the absent `cpu.h`). -/
def cp0_entryhi_vpn2 (cpu : cpu_t) : Nat :=
  (cp0_entryhi cpu &&& cp0_entryhi_vpn2_mask) >>> 13

/-- The load opcodes whose access is a plain `cpu_read_mem` of the effective
address. -/
def is_plain_load (op : instr_enum) : Prop :=
  op = opcLB ∨ op = opcLBU ∨ op = opcLH ∨ op = opcLHU ∨ op = opcLW

instance (op : instr_enum) : Decidable (is_plain_load op) := by
  unfold is_plain_load; infer_instance

/-- The processor of `cpu_init` put into user mode (`Status = 0x10`: `KSU = 2`
with `EXL`, `ERL`, `BEV` and `TS` clear) with `PC = 0x00400000`, around an
empty RAM; the TLB and `EntryHi` are as `cpu_init` left them. -/
def user_init_state : sim_t ram_t :=
  { sim_init (ram_load 0 []) with
    cpu := cpu_set_pc ((cpu_init 0).set_cp0 cp0_Status 0x10) 0x00400000 }

/-- A user-mode processor (`Status = 0x10`) whose 48 TLB entries all map the
4 KiB page pair at `0x00800000` to the frames at physical address 0, with
`PC = 0x00800000`, `r1 = 0x00400000` and `LW r2, 0(r1)` (word `0x8C220000`)
stored at physical address 0. -/
def user_mapped_state : sim_t ram_t :=
  ({ sim_init (ram_load 0 [0x8c220000, 0, 0, 0]) with
    cpu := { cpu_set_pc ((cpu_init 0).set_cp0 cp0_Status 0x10) 0x00800000 with
      tlb := fun _ =>
        { mask := 0xffffe000, vpn2 := 0x00800000, global := true, asid := 0,
          pg0 := { pfn := 0, cohh := 0, dirty := true, valid := true },
          pg1 := { pfn := 0x1000, cohh := 0, dirty := true, valid := true } } } }).wreg 1
    0x00400000

/-- The state after executing `iiW` and then `iiR`. -/
def execute_two (E : machine_t M) (s : sim_t M) (iiW iiR : instr_info_t) : sim_t M :=
  (execute E (execute E s iiW).2 iiR).2

/-- The reset processor with `Index = 0`, `EntryLo0 = 1` (only `G` set) and
`EntryLo1 = 0`, values `MTC0` can write. -/
def tlbw_demo_state : sim_t ram_t :=
  { sim_init (ram_load 0 []) with cpu := (cpu_init 0).set_cp0 cp0_EntryLo0 1 }

/-- The reset processor with `Index = 5`, `PageMask = 0x6000`,
`EntryHi = 0x00408012`, `EntryLo0 = 0x0012345F` and `EntryLo1 = 0x00ABCDC1`. -/
def tlbw_round_state : sim_t ram_t :=
  { sim_init (ram_load 0 []) with
    cpu := (((((cpu_init 0).set_cp0 cp0_Index 5).set_cp0 cp0_PageMask 0x6000).set_cp0
      cp0_EntryHi 0x00408012).set_cp0 cp0_EntryLo0 0x0012345f).set_cp0 cp0_EntryLo1 0x00abcdc1 }

/-- The seven legal `PageMask` values, 4 KiB to 16 MiB pages. -/
def legal_pagemask (m : Nat) : Prop :=
  m = 0 ∨ m = 0x6000 ∨ m = 0x1e000 ∨ m = 0x7e000 ∨ m = 0x1fe000 ∨ m = 0x7fe000 ∨ m = 0x1ffe000

instance (m : Nat) : Decidable (legal_pagemask m) := by
  unfold legal_pagemask; infer_instance

/-- The reset processor with `r1 = 0x6000` and `r3 = 0x4000`. -/
def pagemask_demo_state : sim_t ram_t :=
  ((sim_init (ram_load 0 [])).wreg 1 0x6000).wreg 3 0x4000

/-- The coprocessor 0 registers that an instruction other than `MTC0` can
write: `Index` (`TLBP`), `EntryLo0`, `EntryLo1`, `PageMask` (`TLBR`),
`Context`, `BadVAddr`, `EntryHi` (memory faults, `TLBR`), `Status` (`ERET`) and
`Cause` (coprocessor unusable). -/
def cp0_instr_written (i : Nat) : Bool :=
  i == cp0_Index || i == cp0_EntryLo0 || i == cp0_EntryLo1 || i == cp0_Context
    || i == cp0_PageMask || i == cp0_BadVAddr || i == cp0_EntryHi || i == cp0_Status
    || i == cp0_Cause

/-- The coprocessor 0 registers outside `cp0_instr_written` are the same in
`c` and `c2`. -/
def ctl_frame (c c2 : cpu_t) : Prop :=
  ∀ i, cp0_instr_written i = false → c2.cp0 i = c.cp0 i

/-- What the code maintains about `Random` and `Wired`: `Random <= 47`,
`Wired` is a 6-bit value, `Wired <= Random` while `Wired <= 47`, and
`Random = 47` while `Wired` is above 47. -/
def random_inv (cpu : cpu_t) : Prop :=
  cp0_random cpu ≤ 47 ∧ cp0_wired cpu ≤ 63 ∧ (cp0_wired cpu ≤ 47 → cp0_wired cpu ≤ cp0_random cpu)
    ∧ (47 < cp0_wired cpu → cp0_random cpu = 47)

instance (cpu : cpu_t) : Decidable (random_inv cpu) := by
  unfold random_inv; infer_instance

/-- The states reachable from `cpu_init`: any processor number, memory and
simulator flags to begin with, then `cpu_step`s, the memory behind the bus
being free to change between them. -/
inductive reachable (E : machine_t M) : sim_t M → Prop
  | init (procno : Nat) (m : M) (tr th ia : Bool) :
      reachable E { cpu := cpu_init procno, mem := m, totrace := tr, tohalt := th,
                    interactive := ia }
  | step (s : sim_t M) : reachable E s → reachable E (cpu_step E s)
  | mem (s : sim_t M) (m : M) : reachable E s → reachable E { s with mem := m }

/-- The reset state with `ORI r1, r0, 63` (word `0x3401003F`) and
`MTC0 r1, Wired` (word `0x40813000`) at the reset vector. -/
def wired_demo_state : sim_t ram_t :=
  sim_init (ram_load 0x1fc00000 [0x3401003f, 0x40813000, 0, 0])

/-- The reset state with `ORI r1, r0, 40` (word `0x34010028`) and
`MTC0 r1, Wired` (word `0x40813000`) at the reset vector. -/
def wired_ok_state : sim_t ram_t :=
  sim_init (ram_load 0x1fc00000 [0x34010028, 0x40813000, 0, 0])

/-! ## TLB probe, coprocessor 0 usability, ERET and interrupts -/

/-- Entry `i` answers a probe, in the words of the specification: its `vpn2`
equals `EntryHi.VPN2` masked with the entry's mask, and it is global or carries
the ASID of `EntryHi`. -/
def tlbp_matches (cpu : cpu_t) (i : Nat) : Prop :=
  (cpu.tlb i).vpn2 = ((cp0_entryhi cpu &&& cp0_entryhi_vpn2_mask) &&& (cpu.tlb i).mask)
    ∧ ((cpu.tlb i).global = true ∨ (cpu.tlb i).asid = cp0_entryhi_asid cpu)

instance (cpu : cpu_t) (i : Nat) : Decidable (tlbp_matches cpu i) := by
  unfold tlbp_matches; infer_instance

/-- The reset processor with `Index = 5`, `EntryHi = 0x00408012` and every TLB
entry holding a 4 KiB page pair at `0x00800000` with ASID 1. -/
def tlbp_demo_state : sim_t ram_t :=
  { sim_init (ram_load 0 []) with
    cpu := { ((cpu_init 0).set_cp0 cp0_Index 5).set_cp0 cp0_EntryHi 0x00408012 with
      tlb := fun _ =>
        { mask := 0xffffe000, vpn2 := 0x00800000, global := false, asid := 1,
          pg0 := { pfn := 0, cohh := 0, dirty := true, valid := true },
          pg1 := { pfn := 0x1000, cohh := 0, dirty := true, valid := true } } } }

/-- Modelled from the spec: field `CE` of `Cause`, bits 29..28 (an accessor
of the absent `cpu.h`). -/
def cp0_cause_ce (cpu : cpu_t) : Nat := (cp0_cause cpu &&& cp0_cause_ce_mask) >>> 28

/-- The coprocessor 0 instructions of the claim. -/
def is_cp0_instr (op : instr_enum) : Prop :=
  op = opcMFC0 ∨ op = opcMTC0 ∨ op = opcERET ∨ op = opcTLBP ∨ op = opcTLBR ∨ op = opcTLBWI
    ∨ op = opcTLBWR

instance (op : instr_enum) : Decidable (is_cp0_instr op) := by
  unfold is_cp0_instr; infer_instance

/-- Coprocessor 0 is not usable: `CU0 = 0` in user or supervisor mode with
`EXL` and `ERL` clear. -/
def cp0_not_usable (cpu : cpu_t) : Prop :=
  cp0_status_cu0 cpu = 0 ∧ cp0_status_ksu cpu ≠ 0 ∧ cp0_status_exl cpu = 0
    ∧ cp0_status_erl cpu = 0

instance (cpu : cpu_t) : Decidable (cp0_not_usable cpu) := by
  unfold cp0_not_usable; infer_instance

/-- The reset processor put into user mode (`Status = 0x10`) with `r1 = 7`. -/
def user_cp0_state : sim_t ram_t :=
  { sim_init (ram_load 0 []) with
    cpu := ((cpu_init 0).set_cp0 cp0_Status 0x10).set_reg 1 7 }

/-- The reset processor (`ERL = 1`) with `ErrorEPC = 0x80001000` and `ERET`
(word `0x42000018`) at the reset vector, followed by `ORI r1, r0, 1`. -/
def eret_erl_state : sim_t ram_t :=
  { sim_init (ram_load 0x1fc00000 [0x42000018, 0x34010001, 0, 0]) with
    cpu := (cpu_init 0).set_cp0 cp0_ErrorEPC 0x80001000 }

/-- A processor at exception level (`Status = EXL`) with `EPC = 0x80002000`,
`LL` bit set, and `ERET` (word `0x42000018`) at the reset vector, followed by
`ORI r1, r0, 1`. -/
def eret_exl_state : sim_t ram_t :=
  { sim_init (ram_load 0x1fc00000 [0x42000018, 0x34010001, 0, 0]) with
    cpu := { ((cpu_init 0).set_cp0 cp0_Status 0x2).set_cp0 cp0_EPC 0x80002000 with
      llbit := true } }

/-- Modelled from the spec: the mask of `Status.IM`, bits 15..8 (`cpu.h` is
absent; R4000 layout, the bits `manage` selects with `cp0_cause_ip_mask`). -/
def cp0_status_im_mask : Nat := 0x0000ff00

/-- Modelled from the spec: the field `Cause.IP`, bits 15..8 of `Cause`. -/
def cp0_cause_ip (cpu : cpu_t) : Nat :=
  (cp0_cause cpu &&& cp0_cause_ip_mask) >>> cp0_cause_ip0_shift

/-- Modelled from the spec: the field `Status.IM`, bits 15..8 of `Status`. -/
def cp0_status_im (cpu : cpu_t) : Nat :=
  (cp0_status cpu &&& cp0_status_im_mask) >>> cp0_cause_ip0_shift

/-- An interrupt is deliverable in `cpu`: `EXL = 0`, `ERL = 0`, `IE = 1` and
`Cause.IP & Status.IM` is not zero. -/
def int_deliverable (cpu : cpu_t) : Prop :=
  cp0_status_exl cpu = 0 ∧ cp0_status_erl cpu = 0 ∧ cp0_status_ie cpu = 1
    ∧ cp0_cause_ip cpu &&& cp0_status_im cpu ≠ 0

instance (cpu : cpu_t) : Decidable (int_deliverable cpu) := by
  unfold int_deliverable; infer_instance

/-- The reset processor in kernel mode with interrupts enabled
(`Status = IM7 | IE`), the timer interrupt pending (`Cause = IP7`) and `NOP`s
at the reset vector. -/
def int_pending_state : sim_t ram_t :=
  { sim_init (ram_load 0x1fc00000 [0, 0]) with
    cpu := ((cpu_init 0).set_cp0 cp0_Status 0x8001).set_cp0 cp0_Cause 0x8000 }

/-- The same processor in standby (after `WAIT`). -/
def int_standby_state : sim_t ram_t :=
  { int_pending_state with cpu := { int_pending_state.cpu with stdby := true } }

/-- The same pending interrupt with an `ADD` that overflows at the reset
vector (`r1 = 0x7fffffff`, `r2 = 1`, `ADD r3, r1, r2`). -/
def int_fault_state : sim_t ram_t :=
  { ((sim_init (ram_load 0x1fc00000 [0x00221820, 0])).wreg 1 0x7fffffff).wreg 2 1 with
    cpu := (((((sim_init (ram_load 0x1fc00000 [0x00221820, 0])).wreg 1 0x7fffffff).wreg 2 1).cpu.set_cp0
      cp0_Status 0x8001).set_cp0 cp0_Cause 0x8000) }

/-! ## States for the EPC of an interrupt -/

/-- A processor in kernel mode with interrupts enabled (`Status = IM7 | IE`),
`Count = 0`, `Compare = 1`, and `J 0xBFC00100` (word `0x0BF00040`) at the reset
vector with a `NOP` in its delay slot: the timer interrupt becomes pending at
the end of the first step and is delivered at the end of the second, after the
delay slot has run. -/
def int_passed_state : sim_t ram_t :=
  { sim_init (ram_load 0x1fc00000 [0x0bf00040, 0, 0, 0]) with
    cpu := ((cpu_init 0).set_cp0 cp0_Status 0x8001).set_cp0 cp0_Compare 1 }

/-- The same program with the interrupt already pending (`Cause = IP7`): it is
delivered at the end of the first step, right after the jump. -/
def int_cond_state : sim_t ram_t :=
  { sim_init (ram_load 0x1fc00000 [0x0bf00040, 0, 0, 0]) with
    cpu := ((cpu_init 0).set_cp0 cp0_Status 0x8001).set_cp0 cp0_Cause 0x8000 }

/-! ## Watch test -/

/-- The watch test of `acc_mem`: the access is a read with `WatchLo.R` set or a
write with `WatchLo.W` set, and the cached watch address equals the 8-byte
aligned physical address. -/
def watch_hit (cpu : cpu_t) (paddr : Nat) (mode : acc_mode_t) : Prop :=
  ((cp0_watchlo_r cpu ≠ 0 ∧ mode = AM_READ) ∨ (cp0_watchlo_w cpu ≠ 0 ∧ mode = AM_WRITE))
    ∧ cpu.waddr = paddr >>> 3

instance (cpu : cpu_t) (paddr : Nat) (mode : acc_mode_t) : Decidable (watch_hit cpu paddr mode) := by
  unfold watch_hit; infer_instance

/-- The deferred-watch fields are the same in `c` and `c2`. -/
def watch_kept (c c2 : cpu_t) : Prop :=
  c2.wpending = c.wpending ∧ c2.wexcaddr = c.wexcaddr

/-- The reset processor with the watch registers set up for reads and writes
of the physical doubleword at `0x1000` (`WatchLo = 0x1003`, cached watch
address `0x200`), around a RAM holding the word `0x11223344` there. -/
def watch_state : sim_t ram_t :=
  { sim_init (ram_load 0x1000 [0x11223344]) with
    cpu := { (cpu_init 0).set_cp0 cp0_WatchLo 0x1003 with waddr := 0x200 } }

/-- The same watch set-up at exception level (`Status = EXL`). -/
def watch_exl_state : sim_t ram_t :=
  { sim_init (ram_load 0x1000 [0x11223344]) with
    cpu := { ((cpu_init 0).set_cp0 cp0_WatchLo 0x1003).set_cp0 cp0_Status 0x2 with
      waddr := 0x200, pc := 0x80000180 } }

/-! ## States for the store conditional -/

/-- The reset processor with `r3 = 0x55`, the LL bit clear, and a RAM holding
the word `0x11223344` at `0x1000`. -/
def sc_unlinked_state : sim_t ram_t :=
  (sim_init (ram_load 0x1000 [0x11223344])).wreg 3 0x55

/-- The reset state with the program `LL r2, 0x2000(r0)` (word `0xC0022000`),
`ORI r3, r0, 0x55` (word `0x34030055`), `SC r3, 0x1000(r0)` (word
`0xE0031000`) at the reset vector: the store-conditional goes to another
address than the load-linked. -/
def sc_mismatch_state : sim_t ram_t :=
  sim_init (ram_load 0x1fc00000 [0xc0022000, 0x34030055, 0xe0031000, 0])

/-! ## Load-side and store-side faults -/

/-- The load-side codes of an address-translation or alignment fault. -/
def exc_t.load_side : exc_t → Bool
  | excAdEL | excTLBL | excTLBLR => true
  | _ => false

/-- The store-side codes of an address-translation or alignment fault. -/
def exc_t.store_side : exc_t → Bool
  | excAdES | excTLBS | excTLBSR | excMod => true
  | _ => false

/-- An address-translation or alignment fault, of either side. -/
def exc_t.mem_fault (r : exc_t) : Bool := r.load_side || r.store_side

/-- The stores that only write: `SB`, `SH`, `SW`, `SC`. -/
def is_plain_store (op : instr_enum) : Prop :=
  op = opcSB ∨ op = opcSH ∨ op = opcSW ∨ op = opcSC

instance (op : instr_enum) : Decidable (is_plain_store op) := by
  unfold is_plain_store; infer_instance

/-- The stores that reach `mem_write` without testing the LL bit: `SB`, `SH`,
`SW`, `SWL`, `SWR`. -/
def is_bus_store (op : instr_enum) : Prop :=
  op = opcSB ∨ op = opcSH ∨ op = opcSW ∨ op = opcSWL ∨ op = opcSWR

instance (op : instr_enum) : Decidable (is_bus_store op) := by
  unfold is_bus_store; infer_instance

/-- The loads: `LB`, `LBU`, `LH`, `LHU`, `LW`, `LWL`, `LWR`, `LL`. -/
def is_load_instr (op : instr_enum) : Prop :=
  op = opcLB ∨ op = opcLBU ∨ op = opcLH ∨ op = opcLHU ∨ op = opcLW ∨ op = opcLWL
    ∨ op = opcLWR ∨ op = opcLL

instance (op : instr_enum) : Decidable (is_load_instr op) := by
  unfold is_load_instr; infer_instance

/-- A processor in kernel mode with `ERL` and `EXL` clear (`Status = 0`),
`r1 = 0x55`, and the TLB as `cpu_init` leaves it: the address `0` is mapped
and has no valid translation. -/
def swl_state : sim_t ram_t :=
  { sim_init (ram_load 0 []) with cpu := ((cpu_init 0).set_cp0 cp0_Status 0).set_reg 1 0x55 }

/-- The processor of `swl_state` with `SWL r1, 0(r0)` (word `0xA8010000`) at
the reset vector. -/
def swl_step_state : sim_t ram_t :=
  { sim_init (ram_load 0x1fc00000 [0xa8010000, 0, 0, 0]) with
    cpu := ((cpu_init 0).set_cp0 cp0_Status 0).set_reg 1 0x55 }

/-! ## The reset simulator -/

/-- A simulator right after `cpu_init`: processor number, memory and flags
given. -/
def sim_reset (procno : Nat) (m : M) (tr th ia : Bool) : sim_t M :=
  { cpu := cpu_init procno, mem := m, totrace := tr, tohalt := th, interactive := ia }

/-! ## A state for WAIT -/

/-- The reset state with `WAIT` (word `0x42000020`) at the reset vector. -/
def wait_state : sim_t ram_t :=
  sim_init (ram_load 0x1fc00000 [0x42000020, 0x34010001, 0, 0])

/-! ## Timer predicates and runs -/

/-- The LL bit and the interrupt-pending field `Cause.IP` are the same in `c`
and `c2`. -/
def tick_frame (c c2 : cpu_t) : Prop :=
  c2.llbit = c.llbit
    ∧ c2.cp0 cp0_Cause &&& cp0_cause_ip_mask = c.cp0 cp0_Cause &&& cp0_cause_ip_mask

/-- The timer interrupt is pending: `Cause.IP7`, the bit `manage` sets when
`Count` reaches `Compare`. -/
def ip7_pending (cpu : cpu_t) : Prop :=
  cp0_cause cpu &&& shl32 1 cp0_cause_ip7_shift ≠ 0

instance (cpu : cpu_t) : Decidable (ip7_pending cpu) := by
  unfold ip7_pending; infer_instance

/-- The step from `s` executes an instruction of opcode `op`: the processor is
not in standby and the fetch succeeds. -/
def executes (E : machine_t M) (s : sim_t M) (op : instr_enum) : Prop :=
  s.cpu.stdby = false ∧ (cpu_read_ins E s s.cpu.pc 0 true).1 = excNone
    ∧ (fetched E s).opcode = op

instance (E : machine_t M) (s : sim_t M) (op : instr_enum) : Decidable (executes E s op) := by
  unfold executes; infer_instance

/-- The step from `s` executes an `MTC0` whose destination is the coprocessor 0
register `r`. -/
def mtc0_to (E : machine_t M) (s : sim_t M) (r : Nat) : Prop :=
  executes E s opcMTC0 ∧ (fetched E s).rd = r

instance (E : machine_t M) (s : sim_t M) (r : Nat) : Decidable (mtc0_to E s r) := by
  unfold mtc0_to; infer_instance

/-- The state after `n` consecutive `cpu_step`s from `s`. -/
def cpu_run (E : machine_t M) (s : sim_t M) : Nat → sim_t M
  | 0 => s
  | n + 1 => cpu_step E (cpu_run E s n)

/-- Modelled from the spec: the timer interrupt is enabled: `Status.IM7`, bit
15 of `Status` (`cpu.h` is absent; the bit `manage` pairs with `Cause.IP7`). -/
def im7_enabled (cpu : cpu_t) : Prop :=
  cp0_status cpu &&& shl32 1 cp0_cause_ip7_shift ≠ 0

instance (cpu : cpu_t) : Decidable (im7_enabled cpu) := by
  unfold im7_enabled; infer_instance

/-- A processor in kernel mode with the timer interrupt enabled and
interrupts on (`Status = IM7 | IE`), `Count = 0`, `Compare = 3`, and `NOP`s at
the reset vector. -/
def timer_state : sim_t ram_t :=
  { sim_init (ram_load 0x1fc00000 [0, 0, 0, 0, 0, 0]) with
    cpu := ((cpu_init 0).set_cp0 cp0_Status 0x8001).set_cp0 cp0_Compare 3 }

/-- The reset state (`Status = ERL | BEV`, interrupts off, `Count = 0`) with
`Compare = 1` and `WAIT` (word `0x42000020`) at the reset vector. -/
def timer_wait_state : sim_t ram_t :=
  { sim_init (ram_load 0x1fc00000 [0x42000020, 0, 0, 0]) with
    cpu := (cpu_init 0).set_cp0 cp0_Compare 1 }

/-! ## Linked loads and stores -/

/-- The reset state with `r3 = 0x55` and the program `LL r2, 0x1000(r0)` (word
`0xC0021000`), `SYSCALL` (word `0x0000000C`) at the reset vector and
`SC r3, 0x1000(r0)` (word `0xE0031000`) at the boot-time general exception
vector `0xBFC00380`. -/
def ll_syscall_sc_state : sim_t ram_t :=
  (sim_init (fun a =>
    if 0x1fc00380 ≤ a then ram_load 0x1fc00380 [0xe0031000, 0] a
    else ram_load 0x1fc00000 [0xc0021000, 0x0000000c, 0] a)).wreg 3 0x55

/-- The reset state with `r3 = 0x55`, `ErrorEPC = 0xBFC00008` and the program
`LL r2, 0x1000(r0)` (word `0xC0021000`), `ERET` (word `0x42000018`),
`SC r3, 0x1000(r0)` (word `0xE0031000`) at the reset vector. -/
def ll_eret_sc_state : sim_t ram_t :=
  { (sim_init (ram_load 0x1fc00000 [0xc0021000, 0x42000018, 0xe0031000, 0])).wreg 3 0x55 with
    cpu := (((sim_init (ram_load 0x1fc00000 [0xc0021000, 0x42000018, 0xe0031000, 0])).wreg 3
      0x55).cpu.set_cp0 cp0_ErrorEPC 0xbfc00008) }

/-- The watch test of `acc_mem` ends the access with `WATCH`: the watch hits
and `Status.EXL` is not 1. -/
def watch_faults (cpu : cpu_t) (paddr : Nat) (mode : acc_mode_t) : Prop :=
  watch_hit cpu paddr mode ∧ cp0_status_exl cpu ≠ 1

instance (cpu : cpu_t) (paddr : Nat) (mode : acc_mode_t) :
    Decidable (watch_faults cpu paddr mode) := by
  unfold watch_faults; infer_instance

/-- A processor in kernel mode with the timer interrupt enabled
(`Status = IM7 | IE`), `Count = 0`, `Compare = 3`, and `WAIT` (word
`0x42000020`) at the reset vector: the interrupt arrives in standby. -/
def wait_int_state : sim_t ram_t :=
  { sim_init (ram_load 0x1fc00000 [0x42000020, 0, 0, 0]) with
    cpu := ((cpu_init 0).set_cp0 cp0_Status 0x8001).set_cp0 cp0_Compare 3 }

/-- The same processor with the timer interrupt already pending
(`Cause = IP7`): the interrupt arrives in the step that executes `WAIT`. -/
def wait_pending_state : sim_t ram_t :=
  { sim_init (ram_load 0x1fc00000 [0x42000020, 0, 0, 0]) with
    cpu := ((cpu_init 0).set_cp0 cp0_Status 0x8001).set_cp0 cp0_Cause 0x8000 }

/-! ## Division -/

/-- The reset state with `r1 = 0xFFFFFFF9` (-7) and `r2 = 2`: the operands of
`DIV r1, r2` (word `0x0022001A`) and `DIVU r1, r2` (word `0x0022001B`). -/
def div_state : sim_t ram_t := ((sim_init (ram_load 0 [])).wreg 1 0xfffffff9).wreg 2 2

/-! ## Multiply and accumulate -/

/-- The reset state with `r1 = 0xFFFFFFFE` (-2), `r2 = 3`, `HI = 0` and
`LO = 10`: the operands of `MULT r1, r2` (word `0x00220018`), `MULTU r1, r2`
(word `0x00220019`), `MADD r1, r2` and `MSUB r1, r2`. -/
def mult_state : sim_t ram_t :=
  { ((sim_init (ram_load 0 [])).wreg 1 0xfffffffe).wreg 2 3 with
    cpu := { (((sim_init (ram_load 0 [])).wreg 1 0xfffffffe).wreg 2 3).cpu with
      hireg := 0, loreg := 10 } }

/-! ## Leading bit counts -/

/-- The reset state with `r1 = 0x00012345` (15 leading zeros) and
`r2 = 0xFFF01234` (12 leading ones). -/
def clz_state : sim_t ram_t :=
  ((sim_init (ram_load 0 [])).wreg 1 0x00012345).wreg 2 0xfff01234

/-! ## Silent reads -/

/-- The coprocessor 0 registers and the three TLB fault counters are the same
in `c` and `c2`. -/
def silent_frame (c c2 : cpu_t) : Prop :=
  c2.cp0 = c.cp0 ∧ c2.tlb_refill = c.tlb_refill ∧ c2.tlb_invalid = c.tlb_invalid
    ∧ c2.tlb_modified = c.tlb_modified

/-- The reset processor in user mode (`Status = KSU user`, `ERL` and `EXL`
clear) with the zero-filled TLB of `cpu_init`: every kuseg access hits an
invalid entry and every kernel address is an address error. -/
def user_state : sim_t ram_t :=
  { sim_init (ram_load 0 []) with cpu := (cpu_init 0).set_cp0 cp0_Status 0x10 }

/-! ## TLB shutdown -/

/-- The reset processor in kernel mode with the TLB shut down
(`Status = TS`). -/
def ts_kernel_cpu : cpu_t := (cpu_init 0).set_cp0 cp0_Status 0x00200000

/-- The reset processor in user mode with the TLB shut down
(`Status = TS | KSU user`). -/
def ts_user_cpu : cpu_t := (cpu_init 0).set_cp0 cp0_Status 0x00200010

/-! ## Lookup hint -/

/-- The fault `tlb_hit` returns for a lookup result. -/
def tlb_look_t.fault : tlb_look_t → exc_t
  | TLBL_OK => excNone
  | TLBL_REFILL => excTLBR
  | TLBL_INVALID => excTLB
  | TLBL_MODIFIED => excMod

/-- At most one TLB entry matches the address. -/
def tlb_single_match (cpu : cpu_t) (addr : Nat) : Prop :=
  ∀ i j, i < TLB_ENTRIES → j < TLB_ENTRIES → tlb_entry_matches cpu addr (cpu.tlb i) →
    tlb_entry_matches cpu addr (cpu.tlb j) → i = j

/-- The processor `tlb_demo_cpu` (entries 0 and 1 written, the other 46 entries
as `cpu_init` zeroed them) in kernel mode with `ERL` clear (`Status = 0`) and
the lookup hint `h`. -/
def tlb_hint_cpu (h : Nat) : cpu_t :=
  { tlb_demo_cpu.set_cp0 cp0_Status 0 with tlb_hint := h }

/-- A processor whose 48 TLB entries map 48 different page pairs (entry `i`
the pair at `i * 0x2000`, valid and dirty, frame `0x00100000 + i * 0x2000`),
in kernel mode with `ERL` clear and lookup hint `h`. -/
def tlb_full_cpu (h : Nat) : cpu_t :=
  { (cpu_init 0).set_cp0 cp0_Status 0 with
    tlb := fun i =>
      { mask := 0xffffe000, vpn2 := i * 0x2000, global := true, asid := 0,
        pg0 := { pfn := 0x00100000 + i * 0x2000, cohh := 0, dirty := true, valid := true },
        pg1 := { pfn := 0x00101000 + i * 0x2000, cohh := 0, dirty := true, valid := true } },
    tlb_hint := h }

/-! ## Unaligned word patching -/

/-- The effective address `regs[rs] + imm` of an unaligned load or store. -/
def patch_addr (s : sim_t M) (ii : instr_info_t) : Nat := eff_addr (s.cpu.regs ii.rs) ii

/-- The read of the aligned word containing the effective address, the first
phase of `LWL`, `LWR`, `SWL` and `SWR`. -/
def patch_read (E : machine_t M) (s : sim_t M) (ii : instr_info_t) : exc_t × Nat × sim_t M :=
  cpu_read_mem E s (patch_addr s ii &&& 0xfffffffc) BITS_32 0 true

/-- The row `k` of the word-patch table in the words of the specification
(section 6.3): `LWL.mask, LWL.shl, LWR.mask, LWR.shr, SWL.mask, SWL.shr,
SWR.mask, SWR.shl`. -/
def spec_patch_row (k : Nat) : List Nat :=
  match k with
  | 0 => [0x00FFFFFF, 24, 0x00000000, 0, 0xFFFFFF00, 24, 0x00000000, 0]
  | 1 => [0x0000FFFF, 16, 0xFF000000, 8, 0xFFFF0000, 16, 0x000000FF, 8]
  | 2 => [0x000000FF, 8, 0xFFFF0000, 16, 0xFF000000, 8, 0x0000FFFF, 16]
  | _ => [0x00000000, 0, 0xFFFFFF00, 24, 0x00000000, 0, 0x00FFFFFF, 24]

/-- The same row read from the four tables of the source. -/
def code_patch_row (k : Nat) : List Nat :=
  [(shift_tab_left k).mask, (shift_tab_left k).shift,
   (shift_tab_right k).mask, (shift_tab_right k).shift,
   (shift_tab_left_store k).mask, (shift_tab_left_store k).shift,
   (shift_tab_right_store k).mask, (shift_tab_right_store k).shift]

/-- The reset state with `r1 = 0xAABBCCDD` around a RAM holding the word
`0x11223344` at `0x1000`. -/
def patch_state : sim_t ram_t :=
  (sim_init (ram_load 0x1000 [0x11223344])).wreg 1 0xaabbccdd

/-! ## Unaligned store and load round trip -/

/-- Byte `i` of the word `v`, little-endian: bits `8 i .. 8 i + 7`. -/
def vbyte (v i : Nat) : Nat := (v >>> (8 * i)) % 256

/-- The little-endian word made of the four bytes `b 0 .. b 3`. -/
def le4 (b : Nat → Nat) : Nat := b 0 + 256 * b 1 + 65536 * b 2 + 16777216 * b 3

/-- The memory behind the bus, seen through `bytes`, is a byte-addressed RAM
whose 32-bit accesses are little-endian: a read returns the word made of the
four bytes and leaves the memory alone, a write sets the four bytes. -/
structure byte_ram {M : Type} (E : machine_t M) (bytes : M → Nat → Nat) : Prop where
  byte_lt : ∀ m x, bytes m x < 256
  read : ∀ m p, E.mem_read m p BITS_32 = (le4 (fun i => bytes m (p + i)), m)
  write : ∀ m p v x, bytes (E.mem_write m p v BITS_32) x
    = if p ≤ x ∧ x < p + 4 then vbyte v (x - p) else bytes m x

/-- Kernel mode with the read and write bits of `WatchLo` clear: every data
access to `kseg0` or `kseg1` is translated directly and no access is
watched. -/
def direct_cpu (cpu : cpu_t) : Prop :=
  kernel_mode cpu ∧ cp0_watchlo_r cpu = 0 ∧ cp0_watchlo_w cpu = 0

instance (cpu : cpu_t) : Decidable (direct_cpu cpu) := by unfold direct_cpu; infer_instance

/-- The physical address of a `kseg0` or `kseg1` address. -/
def kseg_phys (addr : Nat) : Nat :=
  if addr < 0xa0000000 then addr - 0x80000000 else addr - 0xa0000000

/-- The state after executing the instructions of the list in turn. -/
def exec_seq {M : Type} (E : machine_t M) (s : sim_t M) : List instr_info_t → sim_t M
  | [] => s
  | ii :: l => exec_seq E (execute E s ii).2 l

/-- The reset state (kernel mode, nothing watched) with `r1 = 0xAABBCCDD`,
`r2 = 0x80001001` (a `kseg0` address with `k = 1`) and `r3 = 0xDEADBEEF`,
around a RAM holding the words `0x11223344` and `0x55667788` at `0x1000` and
`0x1004`. -/
def round_trip_state : sim_t ram_t :=
  (((sim_init (ram_load 0x1000 [0x11223344, 0x55667788])).wreg 1 0xaabbccdd).wreg 2
    0x80001001).wreg 3 0xdeadbeef

/-! ## Watch and failed translations -/

/-- Kernel mode with `ERL` and `EXL` clear (`Status = 0`) over the zero-filled
TLB of `cpu_init`, with the watch registers set up for reads and writes of the
physical doubleword at `0x6000` (`WatchLo = 0x6003`, cached watch address
`0xC00`): the kuseg address `0x6000` is mapped, and its translation fails. -/
def watch_unmapped_state : sim_t ram_t :=
  { sim_init (ram_load 0x6000 [0x11223344]) with
    cpu := { ((cpu_init 0).set_cp0 cp0_WatchLo 0x6003).set_cp0 cp0_Status 0 with
      waddr := 0xc00 } }

/-! # Properties -/

/-! ## Words and sign bits -/

theorem sbit_and_eq (x : Nat) : x &&& SBIT = 0 ↔ x.testBit 31 = false := by
  have h := Nat.and_two_pow x 31
  have e : SBIT = 2 ^ 31 := by decide
  rw [e, h]
  cases x.testBit 31 <;> simp

theorem testBit31_iff (x : Nat) (hx : x < 4294967296) : x.testBit 31 = true ↔ 2147483648 ≤ x := by
  rw [Nat.testBit_to_div_mod]
  simp only [decide_eq_true_eq]
  omega

theorem sbit_zero_iff (x : Nat) (hx : x < 4294967296) : x &&& SBIT = 0 ↔ x < 2147483648 := by
  rw [sbit_and_eq]
  have := testBit31_iff x hx
  cases h : x.testBit 31 <;> simp_all

theorem sbit_xor_zero_iff (a b : Nat) (ha : a < 4294967296) (hb : b < 4294967296) :
    (a ^^^ b) &&& SBIT = 0 ↔ (a < 2147483648 ↔ b < 2147483648) := by
  rw [sbit_and_eq, Nat.testBit_xor]
  have h1 := testBit31_iff a ha
  have h2 := testBit31_iff b hb
  cases h : a.testBit 31 <;> cases h' : b.testBit 31 <;> simp_all
  all_goals omega

theorem add_ov_iff (a b : Nat) (ha : a < 4294967296) (hb : b < 4294967296) :
    ((a ^^^ b) &&& SBIT = 0 ∧ (a ^^^ add32 a b) &&& SBIT ≠ 0) ↔
      (toInt32 a + toInt32 b < -2147483648 ∨ 2147483647 < toInt32 a + toInt32 b) := by
  have hs : add32 a b < 4294967296 := Nat.mod_lt _ (by decide)
  rw [sbit_xor_zero_iff a b ha hb, Ne, sbit_xor_zero_iff a _ ha hs]
  unfold add32 toInt32
  rw [Nat.mod_eq_of_lt ha, Nat.mod_eq_of_lt hb]
  split_ifs <;> omega

/-! ## What a memory access leaves alone -/

theorem acc_frame_refl (c : cpu_t) : acc_frame c c :=
  ⟨rfl, rfl, rfl, rfl, rfl, rfl, rfl, rfl, rfl, rfl, rfl, rfl, rfl, fun _ _ _ _ => rfl⟩

theorem acc_frame_trans {a b c : cpu_t} (h1 : acc_frame a b) (h2 : acc_frame b c) :
    acc_frame a c :=
  ⟨h2.procno.trans h1.procno, h2.regs.trans h1.regs, h2.loreg.trans h1.loreg,
    h2.hireg.trans h1.hireg, h2.pc.trans h1.pc, h2.pc_next.trans h1.pc_next,
    h2.branch.trans h1.branch, h2.excaddr.trans h1.excaddr, h2.tlb.trans h1.tlb,
    h2.stdby.trans h1.stdby, h2.llbit.trans h1.llbit, h2.lladdr.trans h1.lladdr,
    h2.waddr.trans h1.waddr,
    fun i h8 h4 h10 => (h2.cp0 i h8 h4 h10).trans (h1.cp0 i h8 h4 h10)⟩

theorem tlb_look_loop_frame (cpu : cpu_t) (addr : Nat) (wr : Bool) (hint : Nat) :
    ∀ n i, acc_frame cpu (tlb_look_loop cpu addr wr hint n i).2.2 := by
  intro n
  induction n with
  | zero => intro i; exact acc_frame_refl cpu
  | succ n ih =>
    intro i
    simp only [tlb_look_loop]
    split_ifs
    all_goals first
      | exact ih _
      | exact acc_frame_refl cpu
      | exact ⟨rfl, rfl, rfl, rfl, rfl, rfl, rfl, rfl, rfl, rfl, rfl, rfl, rfl, fun _ _ _ _ => rfl⟩

theorem tlb_look_frame (cpu : cpu_t) (addr : Nat) (wr : Bool) :
    acc_frame cpu (tlb_look cpu addr wr).2.2 := by
  unfold tlb_look
  split_ifs
  · exact acc_frame_refl cpu
  · exact tlb_look_loop_frame _ _ _ _ _ _

theorem fill_tlb_error_frame (cpu : cpu_t) (addr : Nat) :
    acc_frame cpu (fill_tlb_error cpu addr) := by
  refine ⟨rfl, rfl, rfl, rfl, rfl, rfl, rfl, rfl, rfl, rfl, rfl, rfl, rfl, ?_⟩
  intro i h8 h4 h10
  simp [fill_tlb_error, cpu_t.set_cp0, upd, h8, h4, h10]

theorem fill_addr_error_frame (cpu : cpu_t) (addr : Nat) (noisy : Bool) :
    acc_frame cpu (fill_addr_error cpu addr noisy) := by
  unfold fill_addr_error
  split_ifs
  · refine ⟨rfl, rfl, rfl, rfl, rfl, rfl, rfl, rfl, rfl, rfl, rfl, rfl, rfl, ?_⟩
    intro i h8 h4 h10
    simp [cpu_t.set_cp0, upd, h8, h4, h10]
  · exact acc_frame_refl cpu

theorem tlb_hit_frame (cpu : cpu_t) (addr : Nat) (wr noisy : Bool) :
    acc_frame cpu (tlb_hit cpu addr wr noisy).2.2 := by
  have h := tlb_look_frame cpu addr wr
  unfold tlb_hit
  rcases hl : tlb_look cpu addr wr with ⟨r, a, c⟩
  rw [hl] at h
  have hc : ∀ c' : cpu_t, acc_frame c c' → acc_frame cpu c' := fun c' h' => acc_frame_trans h h'
  have hcnt : ∀ c' : cpu_t, acc_frame c c' → acc_frame cpu (fill_tlb_error c' a) :=
    fun c' h' => acc_frame_trans (acc_frame_trans h h') (fill_tlb_error_frame _ _)
  cases r <;> simp only <;> (try split_ifs)
  all_goals first
    | exact h
    | exact hcnt _ ⟨rfl, rfl, rfl, rfl, rfl, rfl, rfl, rfl, rfl, rfl, rfl, rfl, rfl, fun _ _ _ _ => rfl⟩

theorem convert_addr_frame (cpu : cpu_t) (addr : Nat) (wr noisy : Bool) :
    acc_frame cpu (convert_addr cpu addr wr noisy).2.2 := by
  have hu : acc_frame cpu (convert_addr_user cpu addr wr noisy).2.2 := by
    unfold convert_addr_user
    split_ifs
    · exact fill_addr_error_frame _ _ _
    · exact tlb_hit_frame _ _ _ _
  have hs : acc_frame cpu (convert_addr_supervisor cpu addr wr noisy).2.2 := by
    unfold convert_addr_supervisor
    split_ifs
    all_goals first
      | exact tlb_hit_frame _ _ _ _
      | exact fill_addr_error_frame _ _ _
  have hk : acc_frame cpu (convert_addr_kernel cpu addr wr noisy).2.2 := by
    unfold convert_addr_kernel
    split_ifs
    all_goals first
      | exact acc_frame_refl _
      | exact tlb_hit_frame _ _ _ _
  unfold convert_addr
  split_ifs
  · exact hu
  · exact hs
  · exact hk

theorem mem_align_test_frame (cpu : cpu_t) (addr size : Nat) (noisy : Bool) :
    acc_frame cpu (mem_align_test cpu addr size noisy).2 := by
  unfold mem_align_test
  split_ifs
  · exact fill_addr_error_frame _ _ _
  · exact acc_frame_refl _

theorem acc_to_st {c c2 : cpu_t} (h : acc_frame c c2) : st_frame c c2 :=
  ⟨h.procno, h.regs, h.loreg, h.hireg, h.pc, h.pc_next, h.branch, h.excaddr, h.tlb, h.stdby,
    fun hl => h.llbit ▸ hl, h.lladdr, h.waddr, h.cp0⟩

theorem st_frame_trans {a b c : cpu_t} (h1 : st_frame a b) (h2 : st_frame b c) :
    st_frame a c :=
  ⟨h2.procno.trans h1.procno, h2.regs.trans h1.regs, h2.loreg.trans h1.loreg,
    h2.hireg.trans h1.hireg, h2.pc.trans h1.pc, h2.pc_next.trans h1.pc_next,
    h2.branch.trans h1.branch, h2.excaddr.trans h1.excaddr, h2.tlb.trans h1.tlb,
    h2.stdby.trans h1.stdby, fun hl => h1.llbit (h2.llbit hl), h2.lladdr.trans h1.lladdr,
    h2.waddr.trans h1.waddr,
    fun i h8 h4 h10 => (h2.cp0 i h8 h4 h10).trans (h1.cp0 i h8 h4 h10)⟩

/-- The write of the bus leaves the processor alone but for the LL bit, which
it can clear. -/
theorem bus_write_cpu_frame (E : machine_t M) (m : M) (c : cpu_t) (a v z : Nat) :
    st_frame c (bus_write_cpu E m c a v z) := by
  unfold bus_write_cpu
  split_ifs
  · exact ⟨rfl, rfl, rfl, rfl, rfl, rfl, rfl, rfl, rfl, rfl, fun h => (by cases h), rfl, rfl,
      fun _ _ _ _ => rfl⟩
  · exact acc_to_st (acc_frame_refl _)

theorem bus_write_cpu_pending (E : machine_t M) (m : M) (c : cpu_t) (a v z : Nat) :
    (bus_write_cpu E m c a v z).wpending = c.wpending
      ∧ (bus_write_cpu E m c a v z).wexcaddr = c.wexcaddr := by
  unfold bus_write_cpu
  split_ifs <;> exact ⟨rfl, rfl⟩

theorem bus_write_cpu_cp0 (E : machine_t M) (m : M) (c : cpu_t) (a v z : Nat) :
    (bus_write_cpu E m c a v z).cp0 = c.cp0 := by
  unfold bus_write_cpu
  split_ifs <;> rfl

theorem acc_mem_access_cpu (E : machine_t M) (s : sim_t M) (mode : acc_mode_t) (res : exc_t)
    (addr size value : Nat) (hm : mode ≠ AM_WRITE) :
    (acc_mem_access E s mode res addr size value).2.2.cpu = s.cpu := by
  unfold acc_mem_access
  rw [if_neg hm]
  split_ifs <;> rfl

theorem acc_mem_access_st (E : machine_t M) (s : sim_t M) (mode : acc_mode_t) (res : exc_t)
    (addr size value : Nat) :
    st_frame s.cpu (acc_mem_access E s mode res addr size value).2.2.cpu := by
  unfold acc_mem_access
  split_ifs
  · exact bus_write_cpu_frame _ _ _ _ _ _
  · exact acc_to_st (acc_frame_refl _)
  · exact acc_to_st (acc_frame_refl _)

/-- A read or a fetch leaves alone what `acc_frame` lists: the LL bit too. -/
theorem acc_mem_frame (E : machine_t M) (s : sim_t M) (mode : acc_mode_t)
    (addr size value : Nat) (noisy : Bool) (hm : mode ≠ AM_WRITE) :
    acc_frame s.cpu (acc_mem E s mode addr size value noisy).2.2.cpu := by
  have h1 := mem_align_test_frame s.cpu addr size noisy
  unfold acc_mem
  rcases ha : mem_align_test s.cpu addr size noisy with ⟨r, c⟩
  rw [ha] at h1
  have h2 := convert_addr_frame c addr (decide (mode = AM_WRITE)) noisy
  rcases hc : convert_addr c addr (decide (mode = AM_WRITE)) noisy with ⟨r2, pa, c2⟩
  rw [hc] at h2
  cases r <;> simp only [hc] <;> (try exact h1)
  split_ifs
  · rw [acc_mem_access_cpu _ _ _ _ _ _ _ hm]
    exact acc_frame_trans (acc_frame_trans h1 h2)
      ⟨rfl, rfl, rfl, rfl, rfl, rfl, rfl, rfl, rfl, rfl, rfl, rfl, rfl, fun _ _ _ _ => rfl⟩
  · exact acc_frame_trans h1 h2
  · rw [acc_mem_access_cpu _ _ _ _ _ _ _ hm]
    exact acc_frame_trans h1 h2

/-- Every access leaves alone what `st_frame` lists. -/
theorem acc_mem_st (E : machine_t M) (s : sim_t M) (mode : acc_mode_t)
    (addr size value : Nat) (noisy : Bool) :
    st_frame s.cpu (acc_mem E s mode addr size value noisy).2.2.cpu := by
  have h1 := mem_align_test_frame s.cpu addr size noisy
  unfold acc_mem
  rcases ha : mem_align_test s.cpu addr size noisy with ⟨r, c⟩
  rw [ha] at h1
  have h2 := convert_addr_frame c addr (decide (mode = AM_WRITE)) noisy
  rcases hc : convert_addr c addr (decide (mode = AM_WRITE)) noisy with ⟨r2, pa, c2⟩
  rw [hc] at h2
  simp only at h2
  cases r <;> simp only [hc] <;> (try exact acc_to_st h1)
  split_ifs
  · have hw : acc_frame c2 { c2 with wpending := true, wexcaddr := c2.pc } :=
      ⟨rfl, rfl, rfl, rfl, rfl, rfl, rfl, rfl, rfl, rfl, rfl, rfl, rfl, fun _ _ _ _ => rfl⟩
    exact st_frame_trans (acc_to_st (acc_frame_trans (acc_frame_trans h1 h2) hw))
      (acc_mem_access_st E { s with cpu := { c2 with wpending := true, wexcaddr := c2.pc } }
        mode r2 pa size value)
  · exact acc_to_st (acc_frame_trans h1 h2)
  · exact st_frame_trans (acc_to_st (acc_frame_trans h1 h2))
      (acc_mem_access_st E { s with cpu := c2 } mode r2 pa size value)


theorem acc_mem_value (E : machine_t M) (s : sim_t M) (mode : acc_mode_t)
    (addr size value : Nat) (noisy : Bool)
    (h : (acc_mem E s mode addr size value noisy).1 ≠ excNone) :
    (acc_mem E s mode addr size value noisy).2.1 = value := by
  unfold acc_mem at h ⊢
  rcases ha : mem_align_test s.cpu addr size noisy with ⟨r, c⟩
  rcases hc : convert_addr c addr (decide (mode = AM_WRITE)) noisy with ⟨r2, pa, c2⟩
  rw [ha] at h
  cases r <;> simp only [hc] at h ⊢
  unfold acc_mem_access at h ⊢
  split_ifs at h ⊢ <;> first | rfl | (exfalso; exact h (by assumption))

theorem cpu_read_mem_frame (E : machine_t M) (s : sim_t M) (addr size value : Nat)
    (noisy : Bool) : acc_frame s.cpu (cpu_read_mem E s addr size value noisy).2.2.cpu := by
  have h := acc_mem_frame E s AM_READ addr size value noisy (by decide)
  unfold cpu_read_mem
  rcases ha : acc_mem E s AM_READ addr size value noisy with ⟨r, v, s1⟩
  rw [ha] at h
  cases r <;> exact h

theorem cpu_read_mem_value (E : machine_t M) (s : sim_t M) (addr size value : Nat)
    (noisy : Bool) (h : (cpu_read_mem E s addr size value noisy).1 ≠ excNone) :
    (cpu_read_mem E s addr size value noisy).2.1 = value := by
  have hv := acc_mem_value E s AM_READ addr size value noisy
  unfold cpu_read_mem at h ⊢
  rcases ha : acc_mem E s AM_READ addr size value noisy with ⟨r, v, s1⟩
  rw [ha] at h hv
  cases r <;> simp at h hv ⊢ <;> exact hv

theorem cpu_fetch_mem_frame (E : machine_t M) (s : sim_t M) (addr size value : Nat)
    (noisy : Bool) : acc_frame s.cpu (cpu_fetch_mem E s addr size value noisy).2.2.cpu := by
  have h := acc_mem_frame E s AM_FETCH addr size value noisy (by decide)
  unfold cpu_fetch_mem
  rcases ha : acc_mem E s AM_FETCH addr size value noisy with ⟨r, v, s1⟩
  rw [ha] at h
  cases r <;> exact h

theorem cpu_write_mem_frame (E : machine_t M) (s : sim_t M) (addr size value : Nat)
    (noisy : Bool) : st_frame s.cpu (cpu_write_mem E s addr size value noisy).2.cpu := by
  have h := acc_mem_st E s AM_WRITE addr size value noisy
  unfold cpu_write_mem
  rcases ha : acc_mem E s AM_WRITE addr size value noisy with ⟨r, v, s1⟩
  rw [ha] at h
  cases r <;> exact h


/-! ## What a faulting instruction leaves alone -/

theorem exc_frame_refl (c : cpu_t) : exc_frame c c :=
  ⟨rfl, rfl, rfl, rfl, rfl, rfl, rfl, rfl, rfl, rfl, rfl, fun _ _ _ _ _ => rfl⟩

theorem exc_frame_trans {a b c : cpu_t} (h1 : exc_frame a b) (h2 : exc_frame b c) :
    exc_frame a c :=
  ⟨h2.procno.trans h1.procno, h2.regs.trans h1.regs, h2.loreg.trans h1.loreg,
    h2.hireg.trans h1.hireg, h2.pc.trans h1.pc, h2.pc_next.trans h1.pc_next,
    h2.branch.trans h1.branch, h2.excaddr.trans h1.excaddr, h2.tlb.trans h1.tlb,
    h2.stdby.trans h1.stdby, h2.waddr.trans h1.waddr,
    fun i h8 h4 h10 h13 => (h2.cp0 i h8 h4 h10 h13).trans (h1.cp0 i h8 h4 h10 h13)⟩

theorem acc_frame_to_exc {a b : cpu_t} (h : acc_frame a b) : exc_frame a b :=
  ⟨h.procno, h.regs, h.loreg, h.hireg, h.pc, h.pc_next, h.branch, h.excaddr, h.tlb,
    h.stdby, h.waddr, fun i h8 h4 h10 _ => h.cp0 i h8 h4 h10⟩

theorem st_frame_to_exc {a b : cpu_t} (h : st_frame a b) : exc_frame a b :=
  ⟨h.procno, h.regs, h.loreg, h.hireg, h.pc, h.pc_next, h.branch, h.excaddr, h.tlb,
    h.stdby, h.waddr, fun i h8 h4 h10 _ => h.cp0 i h8 h4 h10⟩

/-- Clearing the LL bit stays within the frame of a faulting instruction. -/
theorem exc_frame_llbit (c : cpu_t) (b : Bool) : exc_frame c { c with llbit := b } :=
  ⟨rfl, rfl, rfl, rfl, rfl, rfl, rfl, rfl, rfl, rfl, rfl, fun _ _ _ _ _ => rfl⟩

theorem exc_frame_cause (c : cpu_t) (v : Nat) : exc_frame c (c.set_cp0 cp0_Cause v) := by
  refine ⟨rfl, rfl, rfl, rfl, rfl, rfl, rfl, rfl, rfl, rfl, rfl, ?_⟩
  intro i _ _ _ h13
  simp [cpu_t.set_cp0, upd, h13]

theorem upd_self {α : Type} (f : Nat → α) (i : Nat) : upd f i (f i) = f := by
  funext j
  unfold upd
  split_ifs with h
  · rw [h]
  · rfl

theorem cpu_unusable_frame (s : sim_t M) (pca : Nat) :
    exc_frame s.cpu (cpu_unusable s pca).s.cpu := exc_frame_cause _ _

theorem cpu_unusable_ce_frame (s : sim_t M) (pca ce : Nat) :
    exc_frame s.cpu (cpu_unusable_ce s pca ce).s.cpu := exc_frame_cause _ _

theorem br_cond_res (s : sim_t M) (ii : instr_info_t) (pca : Nat) (c : Prop) [Decidable c] :
    (br_cond s ii pca c).res = excNone := by
  unfold br_cond br_taken; split_ifs <;> rfl

theorem br_likely_res (s : sim_t M) (ii : instr_info_t) (c : Prop) [Decidable c] :
    (br_likely s ii c).res = excNone := by
  unfold br_likely br_taken br_annul; split_ifs <;> rfl

theorem exec_load_fault (E : machine_t M) (s : sim_t M) (ii : instr_info_t)
    (pca urrs size : Nat) (f : Nat → Nat)
    (h : (exec_load E s ii pca urrs size f).res ≠ excNone) :
    exc_frame s.cpu (exec_load E s ii pca urrs size f).s.cpu := by
  have hf := cpu_read_mem_frame E s (eff_addr urrs ii) size 0 true
  unfold exec_load at h ⊢
  rcases hr : cpu_read_mem E s (eff_addr urrs ii) size 0 true with ⟨r, v, s1⟩
  rw [hr] at hf h
  simp only at h ⊢
  split_ifs at h ⊢ with h1
  · exact absurd h1 h
  · exact acc_frame_to_exc hf

theorem exec_LW_fault (E : machine_t M) (s : sim_t M) (ii : instr_info_t) (pca urrs : Nat)
    (h : (exec_LW E s ii pca urrs).res ≠ excNone) :
    exc_frame s.cpu (exec_LW E s ii pca urrs).s.cpu := by
  have hf := cpu_read_mem_frame E s (eff_addr urrs ii) BITS_32 (s.cpu.regs ii.rt) true
  have hv := cpu_read_mem_value E s (eff_addr urrs ii) BITS_32 (s.cpu.regs ii.rt) true
  unfold exec_LW at h ⊢
  rcases hr : cpu_read_mem E s (eff_addr urrs ii) BITS_32 (s.cpu.regs ii.rt) true with ⟨r, v, s1⟩
  rw [hr] at hf h hv
  simp only at h hv hf ⊢
  have hv' := hv h
  subst hv'
  have e : (s1.wreg ii.rt (s.cpu.regs ii.rt)).cpu.regs = s.cpu.regs := by
    simp only [sim_t.wreg, cpu_t.set_reg, hf.regs]
    rw [← hf.regs, upd_self]
  exact ⟨hf.procno, e, hf.loreg, hf.hireg, hf.pc, hf.pc_next, hf.branch, hf.excaddr, hf.tlb,
    hf.stdby, hf.waddr, fun i h8 h4 h10 _ => hf.cp0 i h8 h4 h10⟩

theorem exec_LL_fault (E : machine_t M) (s : sim_t M) (ii : instr_info_t) (pca urrs : Nat)
    (h : (exec_LL E s ii pca urrs).res ≠ excNone) :
    exc_frame s.cpu (exec_LL E s ii pca urrs).s.cpu := by
  have hf := cpu_read_mem_frame E s (eff_addr urrs ii) BITS_32 0 true
  unfold exec_LL at h ⊢
  rcases hr : cpu_read_mem E s (eff_addr urrs ii) BITS_32 0 true with ⟨r, v, s1⟩
  rw [hr] at hf
  simp only [hr] at h ⊢
  split_ifs at h ⊢ with h1
  · exact absurd h1 h
  · exact exc_frame_trans (acc_frame_to_exc hf) (exc_frame_llbit _ _)

theorem exec_LWx_fault (E : machine_t M) (s : sim_t M) (ii : instr_info_t) (pca urrs : Nat)
    (left : Bool) (h : (exec_LWx E s ii pca urrs left).res ≠ excNone) :
    exc_frame s.cpu (exec_LWx E s ii pca urrs left).s.cpu := by
  have hf := cpu_read_mem_frame E s (eff_addr urrs ii &&& 0xfffffffc) BITS_32 0 true
  unfold exec_LWx at h ⊢
  rcases hr : cpu_read_mem E s (eff_addr urrs ii &&& 0xfffffffc) BITS_32 0 true with ⟨r, v, s1⟩
  rw [hr] at hf
  simp only [hr] at h ⊢
  split_ifs at h ⊢ with h1 h2
  · exact absurd h1 h
  · exact absurd h1 h
  · exact acc_frame_to_exc hf

theorem exec_store_fault (E : machine_t M) (s : sim_t M) (ii : instr_info_t)
    (pca addr size : Nat) :
    exc_frame s.cpu (exec_store E s ii pca addr size).s.cpu := by
  have hf := cpu_write_mem_frame E s addr size (s.cpu.regs ii.rt) true
  unfold exec_store
  exact st_frame_to_exc hf

theorem exec_SC_fault (E : machine_t M) (s : sim_t M) (ii : instr_info_t) (pca urrs : Nat)
    (h : (exec_SC E s ii pca urrs).res ≠ excNone) :
    exc_frame s.cpu (exec_SC E s ii pca urrs).s.cpu := by
  have hf := cpu_write_mem_frame E s (eff_addr urrs ii) BITS_32 (s.cpu.regs ii.rt) true
  unfold exec_SC at h ⊢
  rcases hr : cpu_write_mem E s (eff_addr urrs ii) BITS_32 (s.cpu.regs ii.rt) true with ⟨r, s1⟩
  rw [hr] at hf
  simp only [hr] at h ⊢
  split_ifs at h ⊢ with h1 h2
  · exact absurd rfl h
  · exact absurd h2 h
  · exact exc_frame_trans (st_frame_to_exc hf) (exc_frame_llbit _ _)

theorem exec_SWx_fault (E : machine_t M) (s : sim_t M) (ii : instr_info_t) (pca urrs : Nat)
    (left : Bool) :
    exc_frame s.cpu (exec_SWx E s ii pca urrs left).s.cpu := by
  have hf := cpu_read_mem_frame E s (eff_addr urrs ii &&& 0xfffffffc) BITS_32 0 true
  unfold exec_SWx
  rcases hr : cpu_read_mem E s (eff_addr urrs ii &&& 0xfffffffc) BITS_32 0 true with ⟨r, v, s1⟩
  rw [hr] at hf
  simp only [hr]
  split_ifs
  all_goals first
    | exact acc_frame_to_exc hf
    | exact exc_frame_trans (acc_frame_to_exc hf) (st_frame_to_exc (cpu_write_mem_frame E s1 _ _ _ _))


theorem TLBW_fault (s : sim_t M) (pca : Nat) (random : Bool)
    (h : (TLBW s pca random).res ≠ excNone) : exc_frame s.cpu (TLBW s pca random).s.cpu := by
  unfold TLBW at h ⊢
  split_ifs at h ⊢
  all_goals first
    | exact cpu_unusable_frame s pca
    | exact absurd rfl h
    | (exfalso; apply h; dsimp only; split_ifs <;> rfl)

theorem exec_TLBP_fault (s : sim_t M) (pca : Nat)
    (h : (exec_TLBP s pca).res ≠ excNone) : exc_frame s.cpu (exec_TLBP s pca).s.cpu := by
  unfold exec_TLBP at h ⊢
  split_ifs at h ⊢
  all_goals first
    | exact cpu_unusable_frame s pca
    | exact absurd rfl h

theorem exec_TLBR_fault (s : sim_t M) (pca : Nat)
    (h : (exec_TLBR s pca).res ≠ excNone) : exc_frame s.cpu (exec_TLBR s pca).s.cpu := by
  unfold exec_TLBR at h ⊢
  split_ifs at h ⊢
  all_goals first
    | exact cpu_unusable_frame s pca
    | exact absurd rfl h
    | (exfalso; apply h; dsimp only; split_ifs <;> rfl)

theorem exec_ERET_fault (E : machine_t M) (s : sim_t M) (pca : Nat)
    (h : (exec_ERET E s pca).res ≠ excNone) : exc_frame s.cpu (exec_ERET E s pca).s.cpu := by
  unfold exec_ERET at h ⊢
  split_ifs at h ⊢
  all_goals first
    | exact cpu_unusable_frame s pca
    | exact absurd rfl h
    | (exfalso; apply h; dsimp only; split_ifs <;> rfl)

theorem exec_MFC0_fault (s : sim_t M) (ii : instr_info_t) (pca : Nat)
    (h : (exec_MFC0 s ii pca).res ≠ excNone) : exc_frame s.cpu (exec_MFC0 s ii pca).s.cpu := by
  unfold exec_MFC0 at h ⊢
  split_ifs at h ⊢
  all_goals first
    | exact cpu_unusable_frame s pca
    | exact absurd rfl h

theorem exec_MTC0_fault (s : sim_t M) (ii : instr_info_t) (pca urrt : Nat)
    (h : (exec_MTC0 s ii pca urrt).res ≠ excNone) :
    exc_frame s.cpu (exec_MTC0 s ii pca urrt).s.cpu := by
  unfold exec_MTC0 at h ⊢
  split_ifs at h ⊢
  all_goals first
    | exact cpu_unusable_frame s pca
    | exact absurd rfl h

theorem exec_copz_fault (s : sim_t M) (pca : Nat) (cu : Prop) [Decidable cu] (ce : Nat) :
    exc_frame s.cpu (exec_copz s pca cu ce).s.cpu := by
  unfold exec_copz
  split_ifs
  · exact exc_frame_refl _
  · exact cpu_unusable_ce_frame s pca ce


set_option maxHeartbeats 1000000 in
theorem exec_switch_fault_frame (E : machine_t M) (s : sim_t M) (ii : instr_info_t)
    (h : (exec_switch E s ii).res ≠ excNone) :
    exc_frame s.cpu (exec_switch E s ii).s.cpu := by
  obtain ⟨op, icode, rs, rt, rd, sh, imm⟩ := ii
  cases op <;> simp only [exec_switch] at h ⊢
  all_goals first
    | with_reducible exact exc_frame_refl _
    | with_reducible exact absurd rfl h
    | with_reducible exact absurd (br_cond_res _ _ _ _) h
    | with_reducible exact absurd (br_likely_res _ _ _) h
    | with_reducible exact exec_load_fault _ _ _ _ _ _ _ h
    | with_reducible exact exec_LW_fault _ _ _ _ _ h
    | with_reducible exact exec_LL_fault _ _ _ _ _ h
    | with_reducible exact exec_LWx_fault _ _ _ _ _ _ h
    | with_reducible exact exec_store_fault _ _ _ _ _ _
    | with_reducible exact exec_SC_fault _ _ _ _ _ h
    | with_reducible exact exec_SWx_fault _ _ _ _ _ _
    | with_reducible exact TLBW_fault _ _ _ h
    | with_reducible exact exec_TLBP_fault _ _ h
    | with_reducible exact exec_TLBR_fault _ _ h
    | with_reducible exact exec_ERET_fault _ _ _ h
    | with_reducible exact exec_MFC0_fault _ _ _ h
    | with_reducible exact exec_MTC0_fault _ _ _ _ h
    | with_reducible exact exec_copz_fault _ _ _ _
    | (split_ifs at h ⊢ <;> first
        | with_reducible exact exc_frame_refl _
        | with_reducible exact absurd rfl h
        | with_reducible exact cpu_unusable_frame _ _)


/-! ## The zero register and faulting instructions -/

theorem execute_res (E : machine_t M) (s : sim_t M) (ii : instr_info_t) :
    (execute E s ii).1 = (exec_switch E s ii).res := rfl

theorem execute_reg0 (E : machine_t M) (s : sim_t M) (ii : instr_info_t) :
    (execute E s ii).2.cpu.regs 0 = 0 := by
  simp [execute, cpu_t.set_reg, upd]

theorem handle_exception_regs (cpu : cpu_t) (res : exc_t) :
    (handle_exception cpu res).regs = cpu.regs := by
  have h1 : (he_standby cpu).regs = cpu.regs := by
    unfold he_standby cpu_set_pc; simp only; split_ifs <;> rfl
  have h2 : ∀ c r, (he_cause c r).regs = c.regs := by
    intro c r; unfold he_cause cpu_t.set_cp0; simp only; split_ifs <;> rfl
  have h3 : ∀ c r, (he_epc c r).regs = c.regs := by
    intro c r; unfold he_epc cpu_t.set_cp0; simp only; split_ifs <;> rfl
  unfold handle_exception
  simp only [cpu_t.set_cp0, cpu_set_pc, h3, h2, h1]

theorem manage_regs (cpu : cpu_t) (res : exc_t) : (manage cpu res).regs = cpu.regs := by
  have h1 : ∀ c, (manage_count c).regs = c.regs := by
    intro c; unfold manage_count cpu_t.set_cp0; simp only; split_ifs <;> rfl
  have h2 : ∀ c, (manage_timer c).regs = c.regs := by
    intro c; unfold manage_timer cpu_t.set_cp0; split_ifs <;> rfl
  unfold manage
  simp only [h2, h1]
  split_ifs
  · exact handle_exception_regs _ _
  · rfl

theorem cpu_read_ins_frame (E : machine_t M) (s : sim_t M) (addr value : Nat) (noisy : Bool) :
    exc_frame { s.cpu with excaddr := (cpu_read_ins E s addr value noisy).2.2.cpu.excaddr }
      (cpu_read_ins E s addr value noisy).2.2.cpu := by
  have h := acc_frame_to_exc (cpu_fetch_mem_frame E s addr BITS_32 value noisy)
  unfold cpu_read_ins
  rcases hr : cpu_fetch_mem E s addr BITS_32 value noisy with ⟨r, v, s1⟩
  rw [hr] at h
  simp only
  split_ifs
  · exact ⟨h.procno, h.regs, h.loreg, h.hireg, h.pc, h.pc_next, h.branch, rfl, h.tlb, h.stdby,
      h.waddr, h.cp0⟩
  · exact ⟨h.procno, h.regs, h.loreg, h.hireg, h.pc, h.pc_next, h.branch, rfl, h.tlb, h.stdby,
      h.waddr, h.cp0⟩

theorem instruction_reg0 (E : machine_t M) (s : sim_t M) (h0 : s.cpu.regs 0 = 0) :
    (instruction E s).2.cpu.regs 0 = 0 := by
  have hf := cpu_read_ins_frame E s s.cpu.pc 0 true
  unfold instruction
  rcases hr : cpu_read_ins E s s.cpu.pc 0 true with ⟨r, v, s1⟩
  rw [hr] at hf
  simp only
  split_ifs
  · exact execute_reg0 _ _ _
  · have := hf.regs
    simp only at this
    rw [this]; exact h0

theorem cpu_step_regs0 (E : machine_t M) (s : sim_t M) :
    (cpu_step E s).cpu.regs = (manage (cpu_step_instr E s).2.cpu (cpu_step_instr E s).1).regs := by
  unfold cpu_step
  simp only
  split_ifs <;> rfl

theorem cpu_step_regs (E : machine_t M) (s : sim_t M) :
    (cpu_step E s).cpu.regs = (cpu_step_instr E s).2.cpu.regs := by
  rw [cpu_step_regs0, manage_regs]

/-- C1: when general register 0 holds 0 before `cpu_step`, it holds 0 after
it, whatever is fetched and whether or not a fault or an interrupt is
delivered. -/
theorem cpu_step_reg0 (E : machine_t M) (s : sim_t M) (h0 : s.cpu.regs 0 = 0) :
    (cpu_step E s).cpu.regs 0 = 0 := by
  rw [cpu_step_regs]
  unfold cpu_step_instr
  split_ifs
  · exact instruction_reg0 E s h0
  · exact h0

theorem cpu_init_reg0 (procno : Nat) : (cpu_init procno).regs 0 = 0 := rfl

/-- C5: an instruction that faults leaves every general register, HI, LO, PC,
PC_next and the branch state as they were. -/
theorem execute_fault_keeps_registers (E : machine_t M) (s : sim_t M) (ii : instr_info_t)
    (h0 : s.cpu.regs 0 = 0) (hf : (execute E s ii).1 ≠ excNone) :
    (∀ i, (execute E s ii).2.cpu.regs i = s.cpu.regs i)
      ∧ (execute E s ii).2.cpu.hireg = s.cpu.hireg
      ∧ (execute E s ii).2.cpu.loreg = s.cpu.loreg
      ∧ (execute E s ii).2.cpu.pc = s.cpu.pc
      ∧ (execute E s ii).2.cpu.pc_next = s.cpu.pc_next
      ∧ (execute E s ii).2.cpu.branch = s.cpu.branch := by
  have hfr := exec_switch_fault_frame E s ii hf
  have hres : (exec_switch E s ii).res ≠ excNone := hf
  unfold execute
  simp only [if_neg hres, cpu_t.set_reg]
  refine ⟨?_, ?_, ?_, ?_, ?_, ?_⟩
  · intro i
    by_cases hi : i = 0
    · subst hi; simp [upd, h0]
    · simp only [upd, if_neg hi]
      split_ifs <;> exact congrFun hfr.regs i
  all_goals split_ifs
  all_goals first
    | exact hfr.hireg
    | exact hfr.loreg
    | exact hfr.pc
    | exact hfr.pc_next
    | exact hfr.branch


theorem cpu_step_reg0_witness :
    (sim_init (ram_load 0x1fc00000 [0x00221820])).cpu.regs 0 = 0
      ∧ (cpu_step ram_machine (sim_init (ram_load 0x1fc00000 [0x00221820]))).cpu.regs 0 = 0 :=
  ⟨rfl, cpu_step_reg0 ram_machine _ rfl⟩

theorem execute_fault_keeps_registers_witness :
    ov_state.cpu.regs 0 = 0
      ∧ (execute ram_machine ov_state
          (mips_decode 0x00221820)).1 ≠ excNone
      ∧ ((∀ i, (execute ram_machine ov_state
            (mips_decode 0x00221820)).2.cpu.regs i
            = ov_state.cpu.regs i)
        ∧ (execute ram_machine ov_state
            (mips_decode 0x00221820)).2.cpu.hireg
            = ov_state.cpu.hireg
        ∧ (execute ram_machine ov_state
            (mips_decode 0x00221820)).2.cpu.loreg
            = ov_state.cpu.loreg
        ∧ (execute ram_machine ov_state
            (mips_decode 0x00221820)).2.cpu.pc
            = ov_state.cpu.pc
        ∧ (execute ram_machine ov_state
            (mips_decode 0x00221820)).2.cpu.pc_next
            = ov_state.cpu.pc_next
        ∧ (execute ram_machine ov_state
            (mips_decode 0x00221820)).2.cpu.branch
            = ov_state.cpu.branch) :=
  ⟨by decide, by decide,
    execute_fault_keeps_registers ram_machine _ _ (by decide) (by decide)⟩

/-! ## The result of `execute` in terms of the switch -/

theorem execute_regs (E : machine_t M) (s : sim_t M) (ii : instr_info_t) (i : Nat) :
    (execute E s ii).2.cpu.regs i = if i = 0 then 0 else (exec_switch E s ii).s.cpu.regs i := by
  unfold execute
  simp only [cpu_t.set_reg, upd]
  split_ifs <;> rfl

theorem execute_pc (E : machine_t M) (s : sim_t M) (ii : instr_info_t) :
    (execute E s ii).2.cpu.pc =
      if (exec_switch E s ii).res = excNone then (exec_switch E s ii).s.cpu.pc_next
      else (exec_switch E s ii).s.cpu.pc := by
  unfold execute
  simp only [cpu_t.set_reg]
  split_ifs <;> rfl

theorem execute_pc_next (E : machine_t M) (s : sim_t M) (ii : instr_info_t) :
    (execute E s ii).2.cpu.pc_next =
      if (exec_switch E s ii).res = excNone then (exec_switch E s ii).pca
      else (exec_switch E s ii).s.cpu.pc_next := by
  unfold execute
  simp only [cpu_t.set_reg]
  split_ifs <;> rfl

theorem execute_branch (E : machine_t M) (s : sim_t M) (ii : instr_info_t) :
    (execute E s ii).2.cpu.branch = (exec_switch E s ii).s.cpu.branch := by
  unfold execute
  simp only [cpu_t.set_reg]
  split_ifs <;> rfl

theorem execute_cp0 (E : machine_t M) (s : sim_t M) (ii : instr_info_t) :
    (execute E s ii).2.cpu.cp0 = (exec_switch E s ii).s.cpu.cp0 := by
  unfold execute
  simp only [cpu_t.set_reg]
  split_ifs <;> rfl

theorem execute_stdby (E : machine_t M) (s : sim_t M) (ii : instr_info_t) :
    (execute E s ii).2.cpu.stdby = (exec_switch E s ii).s.cpu.stdby := by
  unfold execute
  simp only [cpu_t.set_reg]
  split_ifs <;> rfl

theorem execute_excaddr (E : machine_t M) (s : sim_t M) (ii : instr_info_t) :
    (execute E s ii).2.cpu.excaddr =
      if (exec_switch E s ii).s.cpu.branch = BRANCH_COND
          ∨ (exec_switch E s ii).s.cpu.branch = BRANCH_NONE then (exec_switch E s ii).s.cpu.pc
      else (exec_switch E s ii).s.cpu.excaddr := by
  unfold execute
  simp only [cpu_t.set_reg]
  split_ifs <;> rfl


/-! ## Overflow traps -/

theorem addi_ov_iff (a b : Nat) (ha : a < 4294967296) (hb : b < 4294967296) :
    ((a ^^^ b) &&& SBIT = 0 ∧ (b ^^^ add32 a b) &&& SBIT ≠ 0) ↔
      (toInt32 a + toInt32 b < -2147483648 ∨ 2147483647 < toInt32 a + toInt32 b) := by
  have hs : add32 a b < 4294967296 := Nat.mod_lt _ (by decide)
  rw [sbit_xor_zero_iff a b ha hb, Ne, sbit_xor_zero_iff b _ hb hs]
  unfold add32 toInt32
  rw [Nat.mod_eq_of_lt ha, Nat.mod_eq_of_lt hb]
  split_ifs <;> omega

theorem sub_ov_iff (a b : Nat) (ha : a < 4294967296) (hb : b < 4294967296) :
    ((a ^^^ b) &&& SBIT ≠ 0 ∧ (a ^^^ sub32 a b) &&& SBIT ≠ 0) ↔
      (toInt32 a - toInt32 b < -2147483648 ∨ 2147483647 < toInt32 a - toInt32 b) := by
  have hs : sub32 a b < 4294967296 := Nat.mod_lt _ (by decide)
  rw [Ne, Ne, sbit_xor_zero_iff a b ha hb, sbit_xor_zero_iff a _ ha hs]
  unfold sub32 toInt32
  rw [Nat.mod_eq_of_lt ha, Nat.mod_eq_of_lt hb]
  split_ifs <;> omega

theorem add32_eq_ofInt32 (a b : Nat) (ha : a < 4294967296) (hb : b < 4294967296) :
    add32 a b = ofInt32 (toInt32 a + toInt32 b) := by
  unfold add32 ofInt32 toInt32
  rw [Nat.mod_eq_of_lt ha, Nat.mod_eq_of_lt hb]
  split_ifs <;> omega

theorem sub32_eq_ofInt32 (a b : Nat) (ha : a < 4294967296) (hb : b < 4294967296) :
    sub32 a b = ofInt32 (toInt32 a - toInt32 b) := by
  unfold sub32 ofInt32 toInt32
  rw [Nat.mod_eq_of_lt ha, Nat.mod_eq_of_lt hb]
  split_ifs <;> omega

theorem upd_same {α : Type} (f : Nat → α) (i : Nat) (v : α) : upd f i v i = v := by
  simp [upd]

theorem execute_add (E : machine_t M) (s : sim_t M) (ii : instr_info_t)
    (hop : ii.opcode = opcADD)
    (hrs : s.cpu.regs ii.rs < 4294967296) (hrt : s.cpu.regs ii.rt < 4294967296) :
    ((execute E s ii).1 = excOv ↔
        int32_overflows (toInt32 (s.cpu.regs ii.rs) + toInt32 (s.cpu.regs ii.rt)))
      ∧ ((execute E s ii).1 = excOv →
          (execute E s ii).2.cpu.regs ii.rd = if ii.rd = 0 then 0 else s.cpu.regs ii.rd)
      ∧ ((execute E s ii).1 ≠ excOv →
          (execute E s ii).1 = excNone ∧
          (execute E s ii).2.cpu.regs ii.rd = if ii.rd = 0 then 0
            else ofInt32 (toInt32 (s.cpu.regs ii.rs) + toInt32 (s.cpu.regs ii.rt))) := by
  obtain ⟨op, icode, rs, rt, rd, sh, imm⟩ := ii
  simp only at hop hrs hrt ⊢
  subst hop
  have hiff := add_ov_iff _ _ hrs hrt
  have hval := add32_eq_ofInt32 _ _ hrs hrt
  unfold int32_overflows
  rw [← hiff, ← hval, execute_res, execute_regs]
  by_cases hc : (s.cpu.regs rs ^^^ s.cpu.regs rt) &&& SBIT = 0
      ∧ (s.cpu.regs rs ^^^ add32 (s.cpu.regs rs) (s.cpu.regs rt)) &&& SBIT ≠ 0
  · simp only [exec_switch, if_pos hc]
    simp [hc]
  · simp only [exec_switch, if_neg hc]
    simp [hc, sim_t.wreg, cpu_t.set_reg, upd_same]

theorem execute_addi (E : machine_t M) (s : sim_t M) (ii : instr_info_t)
    (hop : ii.opcode = opcADDI)
    (hrs : s.cpu.regs ii.rs < 4294967296) (himm : ii.imm < 4294967296) :
    ((execute E s ii).1 = excOv ↔
        int32_overflows (toInt32 (s.cpu.regs ii.rs) + toInt32 ii.imm))
      ∧ ((execute E s ii).1 = excOv →
          (execute E s ii).2.cpu.regs ii.rt = if ii.rt = 0 then 0 else s.cpu.regs ii.rt)
      ∧ ((execute E s ii).1 ≠ excOv →
          (execute E s ii).1 = excNone ∧
          (execute E s ii).2.cpu.regs ii.rt = if ii.rt = 0 then 0
            else ofInt32 (toInt32 (s.cpu.regs ii.rs) + toInt32 ii.imm)) := by
  obtain ⟨op, icode, rs, rt, rd, sh, imm⟩ := ii
  simp only at hop hrs himm ⊢
  subst hop
  have hiff := addi_ov_iff _ _ hrs himm
  have hval := add32_eq_ofInt32 _ _ hrs himm
  unfold int32_overflows
  rw [← hiff, ← hval, execute_res, execute_regs]
  by_cases hc : (s.cpu.regs rs ^^^ imm) &&& SBIT = 0
      ∧ (imm ^^^ add32 (s.cpu.regs rs) imm) &&& SBIT ≠ 0
  · simp only [exec_switch, if_pos hc]
    simp [hc]
  · simp only [exec_switch, if_neg hc]
    simp [hc, sim_t.wreg, cpu_t.set_reg, upd_same]

theorem execute_sub (E : machine_t M) (s : sim_t M) (ii : instr_info_t)
    (hop : ii.opcode = opcSUB)
    (hrs : s.cpu.regs ii.rs < 4294967296) (hrt : s.cpu.regs ii.rt < 4294967296) :
    ((execute E s ii).1 = excOv ↔
        int32_overflows (toInt32 (s.cpu.regs ii.rs) - toInt32 (s.cpu.regs ii.rt)))
      ∧ ((execute E s ii).1 = excOv →
          (execute E s ii).2.cpu.regs ii.rd = if ii.rd = 0 then 0 else s.cpu.regs ii.rd)
      ∧ ((execute E s ii).1 ≠ excOv →
          (execute E s ii).1 = excNone ∧
          (execute E s ii).2.cpu.regs ii.rd = if ii.rd = 0 then 0
            else ofInt32 (toInt32 (s.cpu.regs ii.rs) - toInt32 (s.cpu.regs ii.rt))) := by
  obtain ⟨op, icode, rs, rt, rd, sh, imm⟩ := ii
  simp only at hop hrs hrt ⊢
  subst hop
  have hiff := sub_ov_iff _ _ hrs hrt
  have hval := sub32_eq_ofInt32 _ _ hrs hrt
  unfold int32_overflows
  rw [← hiff, ← hval, execute_res, execute_regs]
  by_cases hc : (s.cpu.regs rs ^^^ s.cpu.regs rt) &&& SBIT ≠ 0
      ∧ (s.cpu.regs rs ^^^ sub32 (s.cpu.regs rs) (s.cpu.regs rt)) &&& SBIT ≠ 0
  · simp only [exec_switch, if_pos hc]
    simp [hc]
  · simp only [exec_switch, if_neg hc]
    simp [hc, sim_t.wreg, cpu_t.set_reg, upd_same]


/-- C2: `ADD` and `ADDI` return `Ov` exactly when the exact signed sum of the
operands is outside `[-2^31, 2^31-1]`, `SUB` exactly when the exact signed
difference is; on `Ov` the destination register keeps its value, otherwise the
result is `excNone` and the destination receives the result modulo `2^32`
(register 0 reads 0 in either case). -/
theorem add_addi_sub_overflow (E : machine_t M) (s : sim_t M) (ii : instr_info_t)
    (hrs : s.cpu.regs ii.rs < 4294967296) (hrt : s.cpu.regs ii.rt < 4294967296)
    (himm : ii.imm < 4294967296) :
    (ii.opcode = opcADD →
      ((execute E s ii).1 = excOv ↔
          int32_overflows (toInt32 (s.cpu.regs ii.rs) + toInt32 (s.cpu.regs ii.rt)))
        ∧ ((execute E s ii).1 = excOv →
            (execute E s ii).2.cpu.regs ii.rd = if ii.rd = 0 then 0 else s.cpu.regs ii.rd)
        ∧ ((execute E s ii).1 ≠ excOv →
            (execute E s ii).1 = excNone ∧
            (execute E s ii).2.cpu.regs ii.rd = if ii.rd = 0 then 0
              else ofInt32 (toInt32 (s.cpu.regs ii.rs) + toInt32 (s.cpu.regs ii.rt))))
    ∧ (ii.opcode = opcADDI →
      ((execute E s ii).1 = excOv ↔
          int32_overflows (toInt32 (s.cpu.regs ii.rs) + toInt32 ii.imm))
        ∧ ((execute E s ii).1 = excOv →
            (execute E s ii).2.cpu.regs ii.rt = if ii.rt = 0 then 0 else s.cpu.regs ii.rt)
        ∧ ((execute E s ii).1 ≠ excOv →
            (execute E s ii).1 = excNone ∧
            (execute E s ii).2.cpu.regs ii.rt = if ii.rt = 0 then 0
              else ofInt32 (toInt32 (s.cpu.regs ii.rs) + toInt32 ii.imm)))
    ∧ (ii.opcode = opcSUB →
      ((execute E s ii).1 = excOv ↔
          int32_overflows (toInt32 (s.cpu.regs ii.rs) - toInt32 (s.cpu.regs ii.rt)))
        ∧ ((execute E s ii).1 = excOv →
            (execute E s ii).2.cpu.regs ii.rd = if ii.rd = 0 then 0 else s.cpu.regs ii.rd)
        ∧ ((execute E s ii).1 ≠ excOv →
            (execute E s ii).1 = excNone ∧
            (execute E s ii).2.cpu.regs ii.rd = if ii.rd = 0 then 0
              else ofInt32 (toInt32 (s.cpu.regs ii.rs) - toInt32 (s.cpu.regs ii.rt)))) :=
  ⟨fun hop => execute_add E s ii hop hrs hrt, fun hop => execute_addi E s ii hop hrs himm,
    fun hop => execute_sub E s ii hop hrs hrt⟩

theorem add_addi_sub_overflow_witness :
    (ov_state.cpu.regs 1 < 4294967296 ∧ ov_state.cpu.regs 2 < 4294967296)
      ∧ (execute ram_machine ov_state (mips_decode 0x00221820)).1 = excOv
      ∧ (execute ram_machine ov_state (mips_decode 0x00221820)).2.cpu.regs 3
          = ov_state.cpu.regs 3 :=
  ⟨⟨by decide, by decide⟩,
    ((add_addi_sub_overflow ram_machine ov_state (mips_decode 0x00221820)
        (by decide) (by decide) (by decide)).1 rfl).1.mpr (by decide),
    ((add_addi_sub_overflow ram_machine ov_state (mips_decode 0x00221820)
        (by decide) (by decide) (by decide)).1 rfl).2.1 (by decide)⟩


/-! ## Bit fields -/

theorem and_or_self (x m : Nat) : (x &&& m) ||| m = m := by
  apply Nat.eq_of_testBit_eq
  intro i
  simp only [Nat.testBit_or, Nat.testBit_and]
  cases x.testBit i <;> cases m.testBit i <;> rfl

theorem or_and_self (x m : Nat) : (x ||| m) &&& m = m := by
  apply Nat.eq_of_testBit_eq
  intro i
  simp only [Nat.testBit_or, Nat.testBit_and]
  cases x.testBit i <;> cases m.testBit i <;> rfl

theorem bit_field_le (x m k : Nat) : (x &&& m) >>> k ≤ m >>> k := by
  rw [Nat.shiftRight_eq_div_pow, Nat.shiftRight_eq_div_pow]
  exact Nat.div_le_div_right Nat.and_le_right

theorem cp0_status_exl_le (cpu : cpu_t) : cp0_status_exl cpu ≤ 1 :=
  bit_field_le _ _ _

theorem cp0_status_erl_le (cpu : cpu_t) : cp0_status_erl cpu ≤ 1 :=
  bit_field_le _ _ _

theorem cp0_status_bev_le (cpu : cpu_t) : cp0_status_bev cpu ≤ 1 :=
  bit_field_le _ _ _

theorem upd_ne {α : Type} (f : Nat → α) (i j : Nat) (v : α) (h : j ≠ i) : upd f i v j = f j := by
  simp [upd, h]

theorem cp0_status_exl_set (cpu : cpu_t) (v : Nat) :
    cp0_status_exl (cpu.set_cp0 cp0_Status (v ||| cp0_status_exl_mask)) = 1 := by
  unfold cp0_status_exl cp0_status cpu_t.set_cp0
  simp only [upd_same, or_and_self]
  decide

/-! ## Exception delivery -/

theorem he_standby_cp0 (cpu : cpu_t) : (he_standby cpu).cp0 = cpu.cp0 := by
  unfold he_standby cpu_set_pc; simp only; split_ifs <;> rfl

theorem he_standby_branch (cpu : cpu_t) : (he_standby cpu).branch = cpu.branch := by
  unfold he_standby cpu_set_pc; simp only; split_ifs <;> rfl

theorem he_standby_excaddr (cpu : cpu_t) : (he_standby cpu).excaddr = cpu.excaddr := by
  unfold he_standby cpu_set_pc; simp only; split_ifs <;> rfl

theorem he_standby_pc (cpu : cpu_t) :
    (he_standby cpu).pc = if cpu.stdby = true then add32 cpu.pc 4 else cpu.pc := by
  unfold he_standby cpu_set_pc; simp only; split_ifs <;> rfl

theorem he_cause_cp0 (cpu : cpu_t) (res : exc_t) (i : Nat) (hi : i ≠ cp0_Cause) :
    (he_cause cpu res).cp0 i = cpu.cp0 i := by
  unfold he_cause cpu_t.set_cp0; simp only; split_ifs <;> simp only [upd_ne _ _ _ _ hi]

theorem he_cause_branch (cpu : cpu_t) (res : exc_t) : (he_cause cpu res).branch = cpu.branch := by
  unfold he_cause cpu_t.set_cp0; simp only; split_ifs <;> rfl

theorem he_cause_excaddr (cpu : cpu_t) (res : exc_t) :
    (he_cause cpu res).excaddr = cpu.excaddr := by
  unfold he_cause cpu_t.set_cp0; simp only; split_ifs <;> rfl

theorem he_cause_pc (cpu : cpu_t) (res : exc_t) : (he_cause cpu res).pc = cpu.pc := by
  unfold he_cause cpu_t.set_cp0; simp only; split_ifs <;> rfl

theorem he_epc_cp0 (cpu : cpu_t) (res : exc_t) (i : Nat) (hi : i ≠ cp0_EPC) :
    (he_epc cpu res).cp0 i = cpu.cp0 i := by
  unfold he_epc cpu_t.set_cp0; simp only; split_ifs <;> simp only [upd_ne _ _ _ _ hi]

theorem he_vector_congr (c c' : cpu_t) (res : exc_t) (t : Bool)
    (h : c'.cp0 cp0_Status = c.cp0 cp0_Status) : he_vector c' res t = he_vector c res t := by
  unfold he_vector cp0_status_bev cp0_status_exl cp0_status
  rw [h]

theorem handle_exception_status_pre (cpu : cpu_t) (res : exc_t) :
    (he_epc (he_cause (he_standby cpu) res) res).cp0 cp0_Status = cpu.cp0 cp0_Status := by
  rw [he_epc_cp0 _ _ _ (by decide), he_cause_cp0 _ _ _ (by decide), he_standby_cp0]

theorem handle_exception_pc (cpu : cpu_t) (res : exc_t) :
    (handle_exception cpu res).pc
      = he_vector cpu (exc_base res) (decide (res = excTLBLR ∨ res = excTLBSR)) := by
  unfold handle_exception
  simp only [cpu_t.set_cp0, cpu_set_pc]
  exact he_vector_congr _ _ _ _ (handle_exception_status_pre cpu (exc_base res))

theorem handle_exception_pc_next (cpu : cpu_t) (res : exc_t) :
    (handle_exception cpu res).pc_next = add32 (handle_exception cpu res).pc 4 := by
  unfold handle_exception
  simp only [cpu_t.set_cp0, cpu_set_pc]

theorem handle_exception_exl (cpu : cpu_t) (res : exc_t) :
    cp0_status_exl (handle_exception cpu res) = 1 := by
  unfold handle_exception
  simp only
  exact cp0_status_exl_set _ _

theorem exc_base_ne_reset (res : exc_t) (h : res ≠ excReset) : exc_base res ≠ excReset := by
  cases res <;> simp [exc_base] at h ⊢

theorem he_vector_value (cpu : cpu_t) (res : exc_t) (hres : res ≠ excReset) :
    he_vector cpu (exc_base res) (decide (res = excTLBLR ∨ res = excTLBSR))
      = (if cp0_status_bev cpu = 1 then 0xbfc00200 else 0x80000000)
        + (if (res = excTLBLR ∨ res = excTLBSR) ∧ cp0_status_exl cpu = 0 then 0 else 0x180) := by
  have hb := cp0_status_bev_le cpu
  have hr := exc_base_ne_reset res hres
  unfold he_vector
  simp only [ne_eq, hr, not_false_eq_true, if_true, decide_eq_false_iff_not, EXCEPTION_OFFSET,
    add32]
  by_cases h1 : cp0_status_bev cpu = 0 <;> by_cases h2 : cp0_status_exl cpu = 0 <;>
    by_cases h3 : (res = excTLBLR ∨ res = excTLBSR)
  all_goals
    have hb1 : cp0_status_bev cpu = 1 ∨ cp0_status_bev cpu = 0 := by omega
    simp [h1, h2, h3]
  all_goals
    first
      | (have : cp0_status_bev cpu = 1 := by omega
         simp [this])

/-- C4: for every fault other than `Reset`, `handle_exception` leaves
`PC = base + offset` and `PC_next = PC + 4`, with base `0xBFC00200` when
`Status.BEV = 1` and `0x80000000` otherwise, and offset `0` for a TLB refill
taken with `Status.EXL = 0` and `0x180` otherwise; so `PC` is one of four
vectors, and `Status.EXL = 1` afterwards. -/
theorem handle_exception_vector (cpu : cpu_t) (res : exc_t) (hres : res ≠ excReset) :
    (handle_exception cpu res).pc
        = (if cp0_status_bev cpu = 1 then 0xbfc00200 else 0x80000000)
          + (if (res = excTLBLR ∨ res = excTLBSR) ∧ cp0_status_exl cpu = 0 then 0 else 0x180)
      ∧ (handle_exception cpu res).pc_next = (handle_exception cpu res).pc + 4
      ∧ ((handle_exception cpu res).pc = 0x80000000 ∨ (handle_exception cpu res).pc = 0x80000180
          ∨ (handle_exception cpu res).pc = 0xbfc00200
          ∨ (handle_exception cpu res).pc = 0xbfc00380)
      ∧ cp0_status_exl (handle_exception cpu res) = 1 := by
  have hpc := (handle_exception_pc cpu res).trans (he_vector_value cpu res hres)
  have hn := handle_exception_pc_next cpu res
  refine ⟨hpc, ?_, ?_, handle_exception_exl cpu res⟩
  · rw [hn, hpc]; unfold add32; split_ifs <;> rfl
  · rw [hpc]; split_ifs <;> simp

theorem handle_exception_vector_witness :
    excOv ≠ excReset ∧ (handle_exception (cpu_init 0) excOv).pc = 0xbfc00380 :=
  ⟨by decide, (handle_exception_vector (cpu_init 0) excOv (by decide)).1⟩

/-! ## Address translation by segment -/

theorem tlb_hit_ne_addr_error (cpu : cpu_t) (addr : Nat) (wr noisy : Bool) :
    (tlb_hit cpu addr wr noisy).1 ≠ excAddrError := by
  unfold tlb_hit
  rcases tlb_look cpu addr wr with ⟨r, a, c⟩
  cases r <;> simp only <;> (try split_ifs) <;> simp

theorem convert_addr_kernel_eq (cpu : cpu_t) (addr : Nat) (wr noisy : Bool)
    (hk : kernel_mode cpu) :
    convert_addr cpu addr wr noisy = convert_addr_kernel cpu addr wr noisy := by
  unfold convert_addr
  have h1 : ¬ (cp0_status_ksu cpu = 2 ∧ cp0_status_exl cpu = 0 ∧ cp0_status_erl cpu = 0) := by
    unfold kernel_mode at hk; omega
  have h2 : ¬ (cp0_status_ksu cpu = 1 ∧ cp0_status_exl cpu = 0 ∧ cp0_status_erl cpu = 0) := by
    unfold kernel_mode at hk; omega
  rw [if_neg h1, if_neg h2]

theorem convert_addr_kernel_ne_addr_error (cpu : cpu_t) (addr : Nat) (wr noisy : Bool) :
    (convert_addr_kernel cpu addr wr noisy).1 ≠ excAddrError := by
  unfold convert_addr_kernel
  split_ifs
  all_goals first
    | exact tlb_hit_ne_addr_error _ _ _ _
    | simp

theorem convert_addr_addr_error_iff (cpu : cpu_t) (addr : Nat) (wr noisy : Bool)
    (haddr : addr < 4294967296) :
    (convert_addr cpu addr wr noisy).1 = excAddrError ↔
      (user_mode cpu ∧ 0x80000000 ≤ addr)
        ∨ (supervisor_mode cpu
            ∧ ((0x80000000 ≤ addr ∧ addr < 0xc0000000) ∨ 0xe0000000 ≤ addr)) := by
  have hs := sbit_zero_iff addr haddr
  have ht := tlb_hit_ne_addr_error cpu addr wr noisy
  have hkn := convert_addr_kernel_ne_addr_error cpu addr wr noisy
  unfold convert_addr user_mode supervisor_mode
  by_cases hu : cp0_status_ksu cpu = 2 ∧ cp0_status_exl cpu = 0 ∧ cp0_status_erl cpu = 0
  · rw [if_pos hu]
    unfold convert_addr_user
    by_cases hb : addr &&& SBIT = 0
    · simp only [ne_eq, hb, not_true_eq_false, if_false]
      have := hs.mp hb
      constructor
      · intro h; exact absurd h ht
      · intro h; omega
    · simp only [ne_eq, hb, not_false_eq_true, if_true]
      have : ¬ addr < 2147483648 := fun h => hb (hs.mpr h)
      constructor
      · intro _; left; exact ⟨hu, by omega⟩
      · intro _; trivial
  · rw [if_neg hu]
    by_cases hsup : cp0_status_ksu cpu = 1 ∧ cp0_status_exl cpu = 0 ∧ cp0_status_erl cpu = 0
    · rw [if_pos hsup]
      unfold convert_addr_supervisor
      split_ifs with a1 a2 a3
      · constructor
        · intro h; exact absurd h ht
        · intro h; omega
      · constructor
        · intro _; right; exact ⟨hsup, by omega⟩
        · intro _; trivial
      · constructor
        · intro h; exact absurd h ht
        · intro h; omega
      · constructor
        · intro _; right; exact ⟨hsup, by omega⟩
        · intro _; trivial
    · rw [if_neg hsup]
      constructor
      · intro h; exact absurd h hkn
      · intro h; rcases h with h | h
        · exact absurd h.1 hu
        · exact absurd h.1 hsup


theorem sub32_of_le (a b : Nat) (ha : a < 4294967296) (hb : b ≤ a) : sub32 a b = a - b := by
  unfold sub32
  have hb' : b < 4294967296 := by omega
  rw [Nat.mod_eq_of_lt ha, Nat.mod_eq_of_lt hb']
  omega

/-- C10 as the code has it: the address-error cases, the unmapped kernel
segments, and the segments translated through the TLB; in kernel mode a kuseg
address goes through the TLB only when `Status.ERL = 0`, and is returned
untranslated with no fault when `Status.ERL = 1`. -/
theorem convert_addr_segments (cpu : cpu_t) (addr : Nat) (wr noisy : Bool)
    (haddr : addr < 4294967296) :
    ((convert_addr cpu addr wr noisy).1 = excAddrError ↔
      (user_mode cpu ∧ 0x80000000 ≤ addr)
        ∨ (supervisor_mode cpu
            ∧ ((0x80000000 ≤ addr ∧ addr < 0xc0000000) ∨ 0xe0000000 ≤ addr)))
    ∧ (kernel_mode cpu → (convert_addr cpu addr wr noisy).1 ≠ excAddrError)
    ∧ (kernel_mode cpu → 0x80000000 ≤ addr → addr < 0xa0000000 →
        convert_addr cpu addr wr noisy = (excNone, addr - 0x80000000, cpu))
    ∧ (kernel_mode cpu → 0xa0000000 ≤ addr → addr < 0xc0000000 →
        convert_addr cpu addr wr noisy = (excNone, addr - 0xa0000000, cpu))
    ∧ (kernel_mode cpu → 0xc0000000 ≤ addr →
        convert_addr cpu addr wr noisy = tlb_hit cpu addr wr noisy)
    ∧ (kernel_mode cpu → addr < 0x80000000 → cp0_status_erl cpu = 0 →
        convert_addr cpu addr wr noisy = tlb_hit cpu addr wr noisy)
    ∧ (kernel_mode cpu → addr < 0x80000000 → cp0_status_erl cpu = 1 →
        convert_addr cpu addr wr noisy = (excNone, addr, cpu)) := by
  refine ⟨convert_addr_addr_error_iff cpu addr wr noisy haddr, ?_, ?_, ?_, ?_, ?_, ?_⟩
  · intro hk
    rw [convert_addr_kernel_eq _ _ _ _ hk]
    exact convert_addr_kernel_ne_addr_error _ _ _ _
  · intro hk h1 h2
    rw [convert_addr_kernel_eq _ _ _ _ hk]
    unfold convert_addr_kernel
    rw [if_neg (by omega), if_pos h2, sub32_of_le _ _ haddr h1]
  · intro hk h1 h2
    rw [convert_addr_kernel_eq _ _ _ _ hk]
    unfold convert_addr_kernel
    rw [if_neg (by omega), if_neg (by omega), if_pos h2, sub32_of_le _ _ haddr h1]
  · intro hk h1
    rw [convert_addr_kernel_eq _ _ _ _ hk]
    unfold convert_addr_kernel
    rw [if_neg (by omega), if_neg (by omega), if_neg (by omega)]
    split_ifs <;> rfl
  · intro hk h1 h2
    rw [convert_addr_kernel_eq _ _ _ _ hk]
    unfold convert_addr_kernel
    rw [if_pos h1, if_pos h2]
  · intro hk h1 h2
    rw [convert_addr_kernel_eq _ _ _ _ hk]
    unfold convert_addr_kernel
    rw [if_pos h1, if_neg (by omega)]

theorem convert_addr_segments_witness :
    (0x80001000 < 4294967296 ∧ kernel_mode (cpu_init 0))
      ∧ (convert_addr (cpu_init 0) 0x80001000 false true).1 = excNone
      ∧ (convert_addr (cpu_init 0) 0x80001000 false true).2.1 = 0x1000 :=
  ⟨⟨by decide, by decide⟩,
    congrArg Prod.fst ((convert_addr_segments (cpu_init 0) 0x80001000 false true
      (by decide)).2.2.1 (by decide) (by decide) (by decide)),
    congrArg (fun r => r.2.1) ((convert_addr_segments (cpu_init 0) 0x80001000 false true
      (by decide)).2.2.1 (by decide) (by decide) (by decide))⟩

/-- After reset (`Status.ERL = 1`, kernel mode) the kuseg address `0x1000` is
returned untranslated with no fault, while the TLB lookup for it reports an
invalid entry: the address is not translated through the TLB. -/
theorem convert_addr_kuseg_erl_counterexample :
    kernel_mode (cpu_init 0) ∧ 0x1000 < 0x80000000
      ∧ (tlb_hit (cpu_init 0) 0x1000 false true).1 = excTLB
      ∧ (convert_addr (cpu_init 0) 0x1000 false true).1 = excNone
      ∧ (convert_addr (cpu_init 0) 0x1000 false true).2.1 = 0x1000
      ∧ ¬ (convert_addr (cpu_init 0) 0x1000 false true).1
            = (tlb_hit (cpu_init 0) 0x1000 false true).1 := by
  decide


/-! ## Program counters -/

theorem pc_frame_refl (c : cpu_t) : pc_frame c c := ⟨rfl, rfl, rfl, rfl, rfl⟩

theorem pc_frame_trans {a b c : cpu_t} (h1 : pc_frame a b) (h2 : pc_frame b c) :
    pc_frame a c :=
  ⟨h2.pc.trans h1.pc, h2.pc_next.trans h1.pc_next, h2.branch.trans h1.branch,
    h2.excaddr.trans h1.excaddr, h2.stdby.trans h1.stdby⟩

theorem acc_frame_to_pc {a b : cpu_t} (h : acc_frame a b) : pc_frame a b :=
  ⟨h.pc, h.pc_next, h.branch, h.excaddr, h.stdby⟩

theorem st_frame_to_pc {a b : cpu_t} (h : st_frame a b) : pc_frame a b :=
  ⟨h.pc, h.pc_next, h.branch, h.excaddr, h.stdby⟩

theorem exc_frame_to_pc {a b : cpu_t} (h : exc_frame a b) : pc_frame a b :=
  ⟨h.pc, h.pc_next, h.branch, h.excaddr, h.stdby⟩

theorem pc_frame_wreg (s : sim_t M) (i v : Nat) : pc_frame s.cpu (s.wreg i v).cpu :=
  ⟨rfl, rfl, rfl, rfl, rfl⟩

theorem pc_frame_set_cp0 (c : cpu_t) (i v : Nat) : pc_frame c (c.set_cp0 i v) :=
  ⟨rfl, rfl, rfl, rfl, rfl⟩

theorem exec_load_pc_frame (E : machine_t M) (s : sim_t M) (ii : instr_info_t)
    (pca urrs size : Nat) (f : Nat → Nat) :
    pc_frame s.cpu (exec_load E s ii pca urrs size f).s.cpu := by
  have hf := acc_frame_to_pc (cpu_read_mem_frame E s (eff_addr urrs ii) size 0 true)
  unfold exec_load
  rcases hr : cpu_read_mem E s (eff_addr urrs ii) size 0 true with ⟨r, v, s1⟩
  rw [hr] at hf
  simp only
  split_ifs
  · exact pc_frame_trans hf (pc_frame_wreg _ _ _)
  · exact hf

theorem exec_LW_pc_frame (E : machine_t M) (s : sim_t M) (ii : instr_info_t) (pca urrs : Nat) :
    pc_frame s.cpu (exec_LW E s ii pca urrs).s.cpu := by
  have hf := acc_frame_to_pc
    (cpu_read_mem_frame E s (eff_addr urrs ii) BITS_32 (s.cpu.regs ii.rt) true)
  unfold exec_LW
  exact pc_frame_trans hf (pc_frame_wreg _ _ _)

theorem exec_LL_pc_frame (E : machine_t M) (s : sim_t M) (ii : instr_info_t) (pca urrs : Nat) :
    pc_frame s.cpu (exec_LL E s ii pca urrs).s.cpu := by
  have hf := acc_frame_to_pc (cpu_read_mem_frame E s (eff_addr urrs ii) BITS_32 0 true)
  unfold exec_LL
  rcases hr : cpu_read_mem E s (eff_addr urrs ii) BITS_32 0 true with ⟨r, v, s1⟩
  rw [hr] at hf
  simp only [hr]
  split_ifs
  · have hc := acc_frame_to_pc (convert_addr_frame (s1.wreg ii.rt v).cpu (eff_addr urrs ii) false false)
    rcases hca : convert_addr (s1.wreg ii.rt v).cpu (eff_addr urrs ii) false false with ⟨r2, pa, c2⟩
    rw [hca] at hc
    exact pc_frame_trans hf (pc_frame_trans (pc_frame_wreg _ _ _)
      (pc_frame_trans hc ⟨rfl, rfl, rfl, rfl, rfl⟩))
  · exact pc_frame_trans hf ⟨rfl, rfl, rfl, rfl, rfl⟩

theorem exec_LWx_pc_frame (E : machine_t M) (s : sim_t M) (ii : instr_info_t) (pca urrs : Nat)
    (left : Bool) : pc_frame s.cpu (exec_LWx E s ii pca urrs left).s.cpu := by
  have hf := acc_frame_to_pc
    (cpu_read_mem_frame E s (eff_addr urrs ii &&& 0xfffffffc) BITS_32 0 true)
  unfold exec_LWx
  rcases hr : cpu_read_mem E s (eff_addr urrs ii &&& 0xfffffffc) BITS_32 0 true with ⟨r, v, s1⟩
  rw [hr] at hf
  simp only [hr]
  split_ifs
  all_goals first
    | exact hf
    | exact pc_frame_trans hf (pc_frame_wreg _ _ _)

theorem exec_store_pc_frame (E : machine_t M) (s : sim_t M) (ii : instr_info_t)
    (pca addr size : Nat) : pc_frame s.cpu (exec_store E s ii pca addr size).s.cpu :=
  exc_frame_to_pc (exec_store_fault E s ii pca addr size)

theorem exec_SWx_pc_frame (E : machine_t M) (s : sim_t M) (ii : instr_info_t) (pca urrs : Nat)
    (left : Bool) : pc_frame s.cpu (exec_SWx E s ii pca urrs left).s.cpu :=
  exc_frame_to_pc (exec_SWx_fault E s ii pca urrs left)

theorem exec_SC_pc_frame (E : machine_t M) (s : sim_t M) (ii : instr_info_t) (pca urrs : Nat) :
    pc_frame s.cpu (exec_SC E s ii pca urrs).s.cpu := by
  have hf := st_frame_to_pc
    (cpu_write_mem_frame E s (eff_addr urrs ii) BITS_32 (s.cpu.regs ii.rt) true)
  unfold exec_SC
  rcases hr : cpu_write_mem E s (eff_addr urrs ii) BITS_32 (s.cpu.regs ii.rt) true with ⟨r, s1⟩
  rw [hr] at hf
  simp only [hr]
  split_ifs
  · exact pc_frame_wreg _ _ _
  · have hc := acc_frame_to_pc (convert_addr_frame (s1.wreg ii.rt 1).cpu (eff_addr urrs ii) false false)
    rcases hca : convert_addr (s1.wreg ii.rt 1).cpu (eff_addr urrs ii) false false with ⟨r2, pa, c2⟩
    rw [hca] at hc
    exact pc_frame_trans hf (pc_frame_trans (pc_frame_wreg _ _ _)
      (pc_frame_trans hc ⟨rfl, rfl, rfl, rfl, rfl⟩))
  · exact pc_frame_trans hf ⟨rfl, rfl, rfl, rfl, rfl⟩


theorem sbit_zero_iff_nonneg (x : Nat) : x &&& SBIT = 0 ↔ 0 ≤ toInt32 x := by
  rw [sbit_and_eq, Nat.testBit_to_div_mod]
  unfold toInt32
  simp only [decide_eq_false_iff_not]
  split_ifs <;> omega

theorem sbit_ne_zero_iff_neg (x : Nat) : x &&& SBIT ≠ 0 ↔ toInt32 x < 0 := by
  rw [Ne, sbit_zero_iff_nonneg]; omega

theorem multiply_pc_frame (cpu : cpu_t) (a b : Nat) (sign : Bool) :
    pc_frame cpu (multiply cpu a b sign) := by
  unfold multiply
  split_ifs <;> exact ⟨rfl, rfl, rfl, rfl, rfl⟩

theorem set_acc64_pc_frame (cpu : cpu_t) (v : Nat) : pc_frame cpu (set_acc64 cpu v) :=
  ⟨rfl, rfl, rfl, rfl, rfl⟩

theorem mtc0_write_pc_frame (cpu : cpu_t) (rd urrt : Nat) :
    pc_frame cpu (mtc0_write cpu rd urrt) := by
  unfold mtc0_write
  split <;> (try split_ifs) <;> exact ⟨rfl, rfl, rfl, rfl, rfl⟩

theorem cpu_unusable_pc_frame (s : sim_t M) (pca : Nat) :
    pc_frame s.cpu (cpu_unusable s pca).s.cpu := ⟨rfl, rfl, rfl, rfl, rfl⟩

theorem TLBW_pc_frame (s : sim_t M) (pca : Nat) (random : Bool) :
    pc_frame s.cpu (TLBW s pca random).s.cpu := by
  unfold TLBW
  split_ifs
  all_goals first
    | exact cpu_unusable_pc_frame s pca
    | (dsimp only; split_ifs <;> exact ⟨rfl, rfl, rfl, rfl, rfl⟩)

theorem exec_TLBP_pc_frame (s : sim_t M) (pca : Nat) :
    pc_frame s.cpu (exec_TLBP s pca).s.cpu := by
  unfold exec_TLBP
  split_ifs
  · exact ⟨rfl, rfl, rfl, rfl, rfl⟩
  · exact cpu_unusable_pc_frame s pca

theorem exec_TLBR_pc_frame (s : sim_t M) (pca : Nat) :
    pc_frame s.cpu (exec_TLBR s pca).s.cpu := by
  unfold exec_TLBR
  split_ifs
  all_goals first
    | exact cpu_unusable_pc_frame s pca
    | (dsimp only; split_ifs <;> exact ⟨rfl, rfl, rfl, rfl, rfl⟩)

theorem exec_MFC0_pc_frame (s : sim_t M) (ii : instr_info_t) (pca : Nat) :
    pc_frame s.cpu (exec_MFC0 s ii pca).s.cpu := by
  unfold exec_MFC0
  split_ifs
  · exact pc_frame_wreg _ _ _
  · exact cpu_unusable_pc_frame s pca

theorem exec_MTC0_pc_frame (s : sim_t M) (ii : instr_info_t) (pca urrt : Nat) :
    pc_frame s.cpu (exec_MTC0 s ii pca urrt).s.cpu := by
  unfold exec_MTC0
  split_ifs
  · exact mtc0_write_pc_frame _ _ _
  · exact cpu_unusable_pc_frame s pca

theorem exec_copz_pc_frame (s : sim_t M) (pca : Nat) (cu : Prop) [Decidable cu] (ce : Nat) :
    pc_frame s.cpu (exec_copz s pca cu ce).s.cpu :=
  exc_frame_to_pc (exec_copz_fault s pca cu ce)

theorem pc_after_plain (cpu : cpu_t) (ii : instr_info_t) (op : instr_enum)
    (hop : ii.opcode = op)
    (hp : op ≠ opcWAIT ∧ op ≠ opcERET ∧ ¬ is_likely op ∧ ¬ is_bcfl op) :
    pc_after cpu ii = cpu.pc_next := by
  subst hop
  unfold pc_after annulled
  rw [if_neg hp.1, if_neg hp.2.1, if_neg]
  intro h
  rcases h with h | h
  · exact hp.2.2.1 h.1
  · exact hp.2.2.2 h

/-- The three facts about the program counters kept by an instruction that
leaves `pc`, `pc_next` and `excaddr` alone. -/
theorem pcs_of_eq (c : cpu_t) (r : exec_t M) (ii : instr_info_t) (op : instr_enum)
    (hop : ii.opcode = op)
    (hp : op ≠ opcWAIT ∧ op ≠ opcERET ∧ ¬ is_likely op ∧ ¬ is_bcfl op)
    (hpc : r.s.cpu.pc = c.pc) (hn : r.s.cpu.pc_next = c.pc_next)
    (he : r.s.cpu.excaddr = c.excaddr) :
    r.s.cpu.pc = c.pc ∧ r.s.cpu.excaddr = c.excaddr
      ∧ (r.res = excNone → r.s.cpu.pc_next = pc_after c ii) :=
  ⟨hpc, he, fun _ => hn.trans (pc_after_plain c ii op hop hp).symm⟩

theorem pcs_of_frame (c : cpu_t) (r : exec_t M) (ii : instr_info_t) (op : instr_enum)
    (hop : ii.opcode = op)
    (hp : op ≠ opcWAIT ∧ op ≠ opcERET ∧ ¬ is_likely op ∧ ¬ is_bcfl op)
    (hf : pc_frame c r.s.cpu) :
    r.s.cpu.pc = c.pc ∧ r.s.cpu.excaddr = c.excaddr
      ∧ (r.res = excNone → r.s.cpu.pc_next = pc_after c ii) :=
  pcs_of_eq c r ii op hop hp hf.pc hf.pc_next hf.excaddr

theorem br_taken_pcs (s s' : sim_t M) (ii : instr_info_t) (target : Nat) (op : instr_enum)
    (hop : ii.opcode = op)
    (hp : op ≠ opcWAIT ∧ op ≠ opcERET ∧ ¬ is_likely op ∧ ¬ is_bcfl op)
    (hs : pc_frame s.cpu s'.cpu) :
    (br_taken s' target).s.cpu.pc = s.cpu.pc ∧ (br_taken s' target).s.cpu.excaddr = s.cpu.excaddr
      ∧ ((br_taken s' target).res = excNone →
          (br_taken s' target).s.cpu.pc_next = pc_after s.cpu ii) :=
  pcs_of_eq s.cpu _ ii op hop hp hs.pc hs.pc_next hs.excaddr

theorem br_cond_pcs (s s' : sim_t M) (ii : instr_info_t) (pca : Nat) (c : Prop)
    [Decidable c] (op : instr_enum) (hop : ii.opcode = op)
    (hp : op ≠ opcWAIT ∧ op ≠ opcERET ∧ ¬ is_likely op ∧ ¬ is_bcfl op)
    (hs : pc_frame s.cpu s'.cpu) :
    (br_cond s' ii pca c).s.cpu.pc = s.cpu.pc
      ∧ (br_cond s' ii pca c).s.cpu.excaddr = s.cpu.excaddr
      ∧ ((br_cond s' ii pca c).res = excNone →
          (br_cond s' ii pca c).s.cpu.pc_next = pc_after s.cpu ii) := by
  apply pcs_of_eq s.cpu _ ii op hop hp
  all_goals unfold br_cond br_taken; split_ifs
  all_goals first
    | exact hs.pc
    | exact hs.pc_next
    | exact hs.excaddr

theorem br_likely_pcs (s s' : sim_t M) (ii : instr_info_t) (c : Prop) [Decidable c]
    (op : instr_enum) (hop : ii.opcode = op)
    (hp : op ≠ opcWAIT ∧ op ≠ opcERET ∧ is_likely op ∧ ¬ is_bcfl op)
    (hc : c ↔ br_condition op (s.cpu.regs ii.rs) (s.cpu.regs ii.rt))
    (hs : pc_frame s.cpu s'.cpu) :
    (br_likely s' ii c).s.cpu.pc = s.cpu.pc
      ∧ (br_likely s' ii c).s.cpu.excaddr = s.cpu.excaddr
      ∧ ((br_likely s' ii c).res = excNone →
          (br_likely s' ii c).s.cpu.pc_next = pc_after s.cpu ii) := by
  subst hop
  unfold pc_after annulled
  rw [if_neg hp.1, if_neg hp.2.1]
  unfold br_likely br_taken br_annul
  by_cases h : c
  · have hb := hc.mp h
    simp only [if_pos h]
    refine ⟨hs.pc, hs.excaddr, fun _ => ?_⟩
    rw [if_neg]
    · exact hs.pc_next
    · intro h'
      rcases h' with h' | h'
      · exact h'.2 hb
      · exact hp.2.2.2 h'
  · have hb : ¬ br_condition ii.opcode (s.cpu.regs ii.rs) (s.cpu.regs ii.rt) :=
      fun h' => h (hc.mpr h')
    simp only [if_neg h]
    refine ⟨hs.pc, hs.excaddr, fun _ => ?_⟩
    rw [if_pos (Or.inl ⟨hp.2.2.1, hb⟩), hs.pc_next]


theorem bcfl_pcs (s : sim_t M) (ii : instr_info_t) (pca : Nat) (op : instr_enum)
    (hop : ii.opcode = op) (hp : op ≠ opcWAIT ∧ op ≠ opcERET ∧ is_bcfl op) :
    (if cp0_usable s.cpu then br_annul s else cpu_unusable s pca).s.cpu.pc = s.cpu.pc
      ∧ (if cp0_usable s.cpu then br_annul s else cpu_unusable s pca).s.cpu.excaddr
          = s.cpu.excaddr
      ∧ ((if cp0_usable s.cpu then br_annul s else cpu_unusable s pca).res = excNone →
          (if cp0_usable s.cpu then br_annul s else cpu_unusable s pca).s.cpu.pc_next
            = pc_after s.cpu ii) := by
  subst hop
  unfold pc_after annulled
  rw [if_neg hp.1, if_neg hp.2.1, if_pos (Or.inr hp.2.2)]
  split_ifs
  · exact ⟨rfl, rfl, fun _ => rfl⟩
  · exact ⟨rfl, rfl, fun h' => absurd h' (by simp [cpu_unusable])⟩

theorem wait_pcs (s : sim_t M) (ii : instr_info_t) (pca : Nat) (h : ii.opcode = opcWAIT)
    (r : exec_t M)
    (hr : r = ⟨excNone, pca, { s with cpu := { s.cpu with pc_next := s.cpu.pc, stdby := true } }⟩) :
    r.s.cpu.pc = s.cpu.pc ∧ r.s.cpu.excaddr = s.cpu.excaddr
      ∧ (r.res = excNone → r.s.cpu.pc_next = pc_after s.cpu ii) := by
  subst hr
  unfold pc_after
  rw [if_pos h]
  exact ⟨rfl, rfl, fun _ => rfl⟩

theorem exec_ERET_pcs (E : machine_t M) (s : sim_t M) (ii : instr_info_t) (pca : Nat)
    (h : ii.opcode = opcERET) :
    (exec_ERET E s pca).s.cpu.pc = s.cpu.pc
      ∧ (exec_ERET E s pca).s.cpu.excaddr = s.cpu.excaddr
      ∧ ((exec_ERET E s pca).res = excNone →
          (exec_ERET E s pca).s.cpu.pc_next = pc_after s.cpu ii) := by
  unfold pc_after
  rw [if_neg (by rw [h]; decide), if_pos h]
  have e : ∀ (c : cpu_t) (b : Bool), cp0_status_erl { c with llbit := b } = cp0_status_erl c :=
    fun _ _ => rfl
  have e1 : ∀ (c : cpu_t) (b : Bool), cp0_errorepc { c with llbit := b } = cp0_errorepc c :=
    fun _ _ => rfl
  have e2 : ∀ (c : cpu_t) (b : Bool), cp0_epc { c with llbit := b } = cp0_epc c :=
    fun _ _ => rfl
  unfold exec_ERET
  by_cases hu : cp0_status_cu0 s.cpu ≠ 0 ∨ cp0_status_ksu s.cpu = 0 ∨ cp0_status_exl s.cpu ≠ 0
      ∨ cp0_status_erl s.cpu ≠ 0
  · rw [if_pos hu]
    simp only [e, e1, e2]
    by_cases he : cp0_status_erl s.cpu ≠ 0
    · simp only [if_pos he]
      exact ⟨rfl, rfl, fun _ => rfl⟩
    · simp only [if_neg he]
      exact ⟨rfl, rfl, fun _ => rfl⟩
  · rw [if_neg hu]
    exact ⟨rfl, rfl, fun h' => absurd h' (by simp [cpu_unusable])⟩


set_option maxHeartbeats 4000000 in
/-- The switch never writes `pc` or `excaddr`, and when it raises no fault it
leaves in `pc_next` the address given by `pc_after`. -/
theorem exec_switch_pcs (E : machine_t M) (s : sim_t M) (ii : instr_info_t) :
    (exec_switch E s ii).s.cpu.pc = s.cpu.pc
      ∧ (exec_switch E s ii).s.cpu.excaddr = s.cpu.excaddr
      ∧ ((exec_switch E s ii).res = excNone →
          (exec_switch E s ii).s.cpu.pc_next = pc_after s.cpu ii) := by
  cases hop : ii.opcode
  case opcWAIT => exact wait_pcs s ii (add32 s.cpu.pc_next 4) hop _ (by simp only [exec_switch, hop])
  case opcERET => simp only [exec_switch, hop]; exact exec_ERET_pcs E s ii _ hop
  case opcBC0FL | opcBC1FL | opcBC2FL | opcBC3FL =>
    simp only [exec_switch, hop]; exact bcfl_pcs s ii _ _ hop (by decide)
  case opcBEQL | opcBNEL | opcBGTZL | opcBLEZL =>
    simp only [exec_switch, hop]
    exact br_likely_pcs s s ii _ _ hop (by decide) Iff.rfl (pc_frame_refl _)
  case opcBGEZL =>
    simp only [exec_switch, hop]
    exact br_likely_pcs s s ii _ _ hop (by decide) (sbit_zero_iff_nonneg _) (pc_frame_refl _)
  case opcBGEZALL =>
    simp only [exec_switch, hop]
    exact br_likely_pcs s _ ii _ _ hop (by decide) (sbit_zero_iff_nonneg _)
      (pc_frame_wreg _ _ _)
  case opcBLTZL =>
    simp only [exec_switch, hop]
    exact br_likely_pcs s s ii _ _ hop (by decide) (sbit_ne_zero_iff_neg _) (pc_frame_refl _)
  case opcBLTZALL =>
    simp only [exec_switch, hop]
    exact br_likely_pcs s _ ii _ _ hop (by decide) (sbit_ne_zero_iff_neg _)
      (pc_frame_wreg _ _ _)
  case opcBEQ | opcBNE | opcBGEZ | opcBGTZ | opcBLEZ | opcBLTZ =>
    simp only [exec_switch, hop]
    exact br_cond_pcs s s ii _ _ _ hop (by decide) (pc_frame_refl _)
  case opcBGEZAL | opcBLTZAL =>
    simp only [exec_switch, hop]
    exact br_cond_pcs s _ ii _ _ _ hop (by decide) (pc_frame_wreg _ _ _)
  case opcJ | opcJR =>
    simp only [exec_switch, hop]
    exact br_taken_pcs s s ii _ _ hop (by decide) (pc_frame_refl _)
  case opcJAL | opcJALR =>
    simp only [exec_switch, hop]
    exact br_taken_pcs s _ ii _ _ hop (by decide) (pc_frame_wreg _ _ _)
  case opcBC0TL | opcBC1TL | opcBC2TL | opcBC3TL | opcBC0T | opcBC1T | opcBC2T | opcBC3T =>
    simp only [exec_switch, hop]
    split_ifs
    · exact br_taken_pcs s s ii _ _ hop (by decide) (pc_frame_refl _)
    · exact pcs_of_frame s.cpu (cpu_unusable s _) ii _ hop (by decide)
        (cpu_unusable_pc_frame _ _)
  all_goals
    refine pcs_of_frame s.cpu (exec_switch E s ii) ii _ hop (by decide) ?_
    simp only [exec_switch, hop]
    first
      | with_reducible exact pc_frame_refl _
      | with_reducible exact pc_frame_wreg _ _ _
      | with_reducible exact ⟨rfl, rfl, rfl, rfl, rfl⟩
      | with_reducible exact exec_load_pc_frame _ _ _ _ _ _ _
      | with_reducible exact exec_LW_pc_frame _ _ _ _ _
      | with_reducible exact exec_LL_pc_frame _ _ _ _ _
      | with_reducible exact exec_LWx_pc_frame _ _ _ _ _ _
      | with_reducible exact exec_store_pc_frame _ _ _ _ _ _
      | with_reducible exact exec_SC_pc_frame _ _ _ _ _
      | with_reducible exact exec_SWx_pc_frame _ _ _ _ _ _
      | with_reducible exact TLBW_pc_frame _ _ _
      | with_reducible exact exec_TLBP_pc_frame _ _
      | with_reducible exact exec_TLBR_pc_frame _ _
      | with_reducible exact exec_MFC0_pc_frame _ _ _
      | with_reducible exact exec_MTC0_pc_frame _ _ _ _
      | with_reducible exact exec_copz_pc_frame _ _ _ _
      | with_reducible exact multiply_pc_frame _ _ _ _
      | with_reducible exact pc_frame_trans (multiply_pc_frame _ _ _ _) (set_acc64_pc_frame _ _)
      | (split_ifs <;> first
          | with_reducible exact pc_frame_refl _
          | with_reducible exact pc_frame_wreg _ _ _
          | with_reducible exact ⟨rfl, rfl, rfl, rfl, rfl⟩
          | with_reducible exact cpu_unusable_pc_frame _ _)
      | exact ⟨rfl, rfl, rfl, rfl, rfl⟩


/-! ## Steps without exception -/

theorem manage_res_none (cpu : cpu_t) (res : exc_t) (h : manage_res cpu res = excNone) :
    res = excNone := by
  unfold manage_res at h
  split_ifs at h
  exact h

theorem manage_count_cp0_only (cpu : cpu_t) :
    pc_frame cpu (manage_count cpu) ∧ (manage_count cpu).regs = cpu.regs := by
  unfold manage_count cpu_t.set_cp0
  simp only
  split_ifs <;> exact ⟨⟨rfl, rfl, rfl, rfl, rfl⟩, rfl⟩

theorem manage_timer_cp0_only (cpu : cpu_t) :
    pc_frame cpu (manage_timer cpu) ∧ (manage_timer cpu).regs = cpu.regs := by
  unfold manage_timer cpu_t.set_cp0
  split_ifs <;> exact ⟨⟨rfl, rfl, rfl, rfl, rfl⟩, rfl⟩

theorem manage_no_exception (cpu : cpu_t) (res : exc_t) (h : manage_res cpu res = excNone) :
    manage cpu res = manage_timer (manage_count cpu) := by
  unfold manage
  simp only [h, ne_eq, not_true_eq_false, if_false]

theorem manage_pc_frame (cpu : cpu_t) (res : exc_t) (h : manage_res cpu res = excNone) :
    pc_frame cpu (manage cpu res) := by
  rw [manage_no_exception cpu res h]
  exact pc_frame_trans (manage_count_cp0_only cpu).1 (manage_timer_cp0_only _).1

theorem cpu_step_pc0 (E : machine_t M) (s : sim_t M) :
    (cpu_step E s).cpu.pc = (manage (cpu_step_instr E s).2.cpu (cpu_step_instr E s).1).pc := by
  unfold cpu_step
  simp only
  split_ifs <;> rfl

theorem cpu_step_pc_next0 (E : machine_t M) (s : sim_t M) :
    (cpu_step E s).cpu.pc_next
      = (manage (cpu_step_instr E s).2.cpu (cpu_step_instr E s).1).pc_next := by
  unfold cpu_step
  simp only
  split_ifs <;> rfl

theorem cpu_step_branch0 (E : machine_t M) (s : sim_t M) :
    (cpu_step E s).cpu.branch
      = (manage (cpu_step_instr E s).2.cpu (cpu_step_instr E s).1).branch.dec := by
  unfold cpu_step
  simp only
  split_ifs <;> rfl

theorem cpu_step_cp0 (E : machine_t M) (s : sim_t M) :
    (cpu_step E s).cpu.cp0 = (manage (cpu_step_instr E s).2.cpu (cpu_step_instr E s).1).cp0 := by
  unfold cpu_step
  simp only
  split_ifs <;> rfl

theorem cpu_step_excaddr0 (E : machine_t M) (s : sim_t M) :
    (cpu_step E s).cpu.excaddr
      = (manage (cpu_step_instr E s).2.cpu (cpu_step_instr E s).1).excaddr := by
  unfold cpu_step
  simp only
  split_ifs <;> rfl

theorem cpu_step_stdby0 (E : machine_t M) (s : sim_t M) :
    (cpu_step E s).cpu.stdby
      = (manage (cpu_step_instr E s).2.cpu (cpu_step_instr E s).1).stdby := by
  unfold cpu_step
  simp only
  split_ifs <;> rfl

theorem instruction_eq (E : machine_t M) (s : sim_t M) :
    instruction E s =
      if (cpu_read_ins E s s.cpu.pc 0 true).1 = excNone then
        execute E (after_fetch E s) (fetched E s)
      else ((cpu_read_ins E s s.cpu.pc 0 true).1, after_fetch E s) := by
  unfold instruction after_fetch fetched
  rcases cpu_read_ins E s s.cpu.pc 0 true with ⟨r, v, s1⟩
  rfl

theorem cpu_read_ins_ok_frame (E : machine_t M) (s : sim_t M) (addr value : Nat)
    (noisy : Bool) (h : (cpu_read_ins E s addr value noisy).1 = excNone) :
    acc_frame s.cpu (cpu_read_ins E s addr value noisy).2.2.cpu := by
  have hf := cpu_fetch_mem_frame E s addr BITS_32 value noisy
  unfold cpu_read_ins at h ⊢
  rcases hr : cpu_fetch_mem E s addr BITS_32 value noisy with ⟨r, v, s1⟩
  rw [hr] at hf
  simp only [hr] at h ⊢
  split_ifs at h ⊢ with h1
  · exact absurd h h1.1
  · exact hf

/-- A step that runs an instruction and delivers no exception: the fetch
succeeded and the instruction raised no fault. -/
theorem step_no_exception (E : machine_t M) (s : sim_t M) (hs : s.cpu.stdby = false)
    (hx : step_exception E s = excNone) :
    (cpu_read_ins E s s.cpu.pc 0 true).1 = excNone
      ∧ (exec_switch E (after_fetch E s) (fetched E s)).res = excNone
      ∧ cpu_step_instr E s = execute E (after_fetch E s) (fetched E s) := by
  unfold step_exception at hx
  have h1 := manage_res_none _ _ hx
  unfold cpu_step_instr at h1 ⊢
  rw [if_pos hs] at h1 ⊢
  rw [instruction_eq] at h1 ⊢
  by_cases hf : (cpu_read_ins E s s.cpu.pc 0 true).1 = excNone
  · rw [if_pos hf] at h1 ⊢
    exact ⟨hf, h1, rfl⟩
  · rw [if_neg hf] at h1
    exact absurd h1 hf

theorem pc_after_congr (c c' : cpu_t) (ii : instr_info_t) (h : acc_frame c c') :
    pc_after c' ii = pc_after c ii := by
  unfold pc_after annulled cp0_status_erl cp0_status cp0_errorepc cp0_epc
  simp only [h.pc, h.pc_next, h.regs, h.cp0 cp0_Status (by decide) (by decide) (by decide),
    h.cp0 cp0_ErrorEPC (by decide) (by decide) (by decide),
    h.cp0 cp0_EPC (by decide) (by decide) (by decide)]

/-- The PC after a step that runs an instruction and delivers no exception. -/
theorem step_pc_running (E : machine_t M) (s : sim_t M)
    (hx : step_exception E s = excNone) (hs : s.cpu.stdby = false) :
    (cpu_step E s).cpu.pc = pc_after s.cpu (fetched E s) := by
  obtain ⟨hf, hr, he⟩ := step_no_exception E s hs hx
  rw [cpu_step_pc0, (manage_pc_frame _ _ hx).pc, he, execute_pc, if_pos hr,
    (exec_switch_pcs E (after_fetch E s) (fetched E s)).2.2 hr]
  exact pc_after_congr _ _ _ (cpu_read_ins_ok_frame E s _ _ _ hf)

/-- C6 as the code has it: in a step that delivers no exception, the PC after
the step is `PC_next` before it, except that `WAIT` leaves the PC on itself,
`ERET` sets it to `ErrorEPC` (when `ERL` is set) or `EPC`, and an annulled
delay slot (a branch-likely whose condition is false) sets it to
`PC_next + 4`; these are the cases of `pc_after`.  In standby no instruction
runs and the PC does not move. -/
theorem cpu_step_pc_after (E : machine_t M) (s : sim_t M)
    (hx : step_exception E s = excNone) :
    (s.cpu.stdby = false → (cpu_step E s).cpu.pc = pc_after s.cpu (fetched E s))
      ∧ (s.cpu.stdby = true → (cpu_step E s).cpu.pc = s.cpu.pc) := by
  have hm := manage_pc_frame _ _ hx
  constructor
  · intro hs
    obtain ⟨hf, hr, he⟩ := step_no_exception E s hs hx
    rw [cpu_step_pc0, hm.pc, he, execute_pc, if_pos hr,
      (exec_switch_pcs E (after_fetch E s) (fetched E s)).2.2 hr]
    exact pc_after_congr _ _ _ (cpu_read_ins_ok_frame E s _ _ _ hf)
  · intro hs
    rw [cpu_step_pc0, hm.pc]
    unfold cpu_step_instr
    rw [if_neg (by simp [hs])]


theorem cpu_step_pc_after_witness :
    step_exception ram_machine nop_state = excNone
      ∧ (cpu_step ram_machine nop_state).cpu.pc = 0xbfc00004 :=
  ⟨by decide,
    ((cpu_step_pc_after ram_machine nop_state (by decide)).1 (by decide)).trans (by decide)⟩

/-- `BEQL r0, r1, +8` with `r1 = 1`: no fault, no exception, and the PC after
the step is `PC_next + 4`, not `PC_next`. -/
theorem cpu_step_pc_counterexample :
    beql_state.cpu.stdby = false
      ∧ step_exception ram_machine beql_state = excNone
      ∧ beql_state.cpu.pc_next = 0xbfc00004
      ∧ (cpu_step ram_machine beql_state).cpu.pc = 0xbfc00008
      ∧ (cpu_step ram_machine beql_state).cpu.pc ≠ beql_state.cpu.pc_next := by
  decide


/-! ## Branches -/


theorem add32_add32 (a b c : Nat) : add32 (add32 a b) c = add32 a (b + c) := by
  unfold add32; omega

theorem br_target_eq (p imm : Nat) :
    add32 (add32 p 4) (shl32 imm 2) = ofInt32 ((p : Int) + 4 + toInt32 imm * 4) := by
  unfold add32 shl32 ofInt32 toInt32
  rw [Nat.shiftLeft_eq]
  split_ifs <;> omega

/-- What a likely branch leaves behind, in terms of the branch condition. -/
theorem br_likely_spec (s s' : sim_t M) (ii : instr_info_t) (c : Prop) [Decidable c]
    (op : instr_enum)
    (hc : c ↔ br_condition op (s.cpu.regs ii.rs) (s.cpu.regs ii.rt))
    (hs : pc_frame s.cpu s'.cpu) :
    (br_likely s' ii c).res = excNone
      ∧ (br_likely s' ii c).s.cpu.stdby = s.cpu.stdby
      ∧ (br_condition op (s.cpu.regs ii.rs) (s.cpu.regs ii.rt) →
          (br_likely s' ii c).pca = br_target s.cpu ii
            ∧ (br_likely s' ii c).s.cpu.branch = BRANCH_COND)
      ∧ (¬ br_condition op (s.cpu.regs ii.rs) (s.cpu.regs ii.rt) →
          (br_likely s' ii c).pca = add32 (add32 s.cpu.pc_next 4) 4
            ∧ (br_likely s' ii c).s.cpu.branch = s.cpu.branch) := by
  unfold br_likely br_taken br_annul br_target
  by_cases h : c
  · rw [if_pos h]
    exact ⟨rfl, hs.stdby, fun _ => ⟨by rw [hs.pc_next], rfl⟩, fun h' => absurd (hc.mp h) h'⟩
  · rw [if_neg h]
    exact ⟨rfl, hs.stdby, fun h' => absurd (hc.mpr h') h,
      fun _ => ⟨by rw [hs.pc_next], hs.branch⟩⟩

/-- What a conditional branch leaves behind, in terms of the branch
condition. -/
theorem br_cond_spec (s s' : sim_t M) (ii : instr_info_t) (pca : Nat) (c : Prop) [Decidable c]
    (op : instr_enum)
    (hc : c ↔ br_condition op (s.cpu.regs ii.rs) (s.cpu.regs ii.rt))
    (hs : pc_frame s.cpu s'.cpu) :
    (br_cond s' ii pca c).res = excNone
      ∧ (br_cond s' ii pca c).s.cpu.stdby = s.cpu.stdby
      ∧ (br_condition op (s.cpu.regs ii.rs) (s.cpu.regs ii.rt) →
          (br_cond s' ii pca c).pca = br_target s.cpu ii
            ∧ (br_cond s' ii pca c).s.cpu.branch = BRANCH_COND)
      ∧ (¬ br_condition op (s.cpu.regs ii.rs) (s.cpu.regs ii.rt) →
          (br_cond s' ii pca c).pca = pca
            ∧ (br_cond s' ii pca c).s.cpu.branch = s.cpu.branch) := by
  unfold br_cond br_taken br_target
  by_cases h : c
  · rw [if_pos h]
    exact ⟨rfl, hs.stdby, fun _ => ⟨by rw [hs.pc_next], rfl⟩, fun h' => absurd (hc.mp h) h'⟩
  · rw [if_neg h]
    exact ⟨rfl, hs.stdby, fun h' => absurd (hc.mpr h') h, fun _ => ⟨rfl, hs.branch⟩⟩

theorem exec_switch_likely (E : machine_t M) (s : sim_t M) (ii : instr_info_t)
    (hl : is_likely ii.opcode) :
    (exec_switch E s ii).res = excNone
      ∧ (exec_switch E s ii).s.cpu.stdby = s.cpu.stdby
      ∧ (br_condition ii.opcode (s.cpu.regs ii.rs) (s.cpu.regs ii.rt) →
          (exec_switch E s ii).pca = br_target s.cpu ii
            ∧ (exec_switch E s ii).s.cpu.branch = BRANCH_COND)
      ∧ (¬ br_condition ii.opcode (s.cpu.regs ii.rs) (s.cpu.regs ii.rt) →
          (exec_switch E s ii).pca = add32 (add32 s.cpu.pc_next 4) 4
            ∧ (exec_switch E s ii).s.cpu.branch = s.cpu.branch) := by
  rcases hl with h | h | h | h | h | h | h | h <;> simp only [exec_switch, h]
  · exact br_likely_spec s s ii _ _ Iff.rfl (pc_frame_refl _)
  · exact br_likely_spec s s ii _ _ Iff.rfl (pc_frame_refl _)
  · exact br_likely_spec s s ii _ opcBGEZL (sbit_zero_iff_nonneg _) (pc_frame_refl _)
  · exact br_likely_spec s s ii _ opcBGTZL Iff.rfl (pc_frame_refl _)
  · exact br_likely_spec s s ii _ opcBLEZL Iff.rfl (pc_frame_refl _)
  · exact br_likely_spec s s ii _ opcBLTZL (sbit_ne_zero_iff_neg _) (pc_frame_refl _)
  · exact br_likely_spec s _ ii _ opcBGEZALL (sbit_zero_iff_nonneg _) (pc_frame_wreg _ _ _)
  · exact br_likely_spec s _ ii _ opcBLTZALL (sbit_ne_zero_iff_neg _) (pc_frame_wreg _ _ _)

theorem exec_switch_cond_branch (E : machine_t M) (s : sim_t M) (ii : instr_info_t)
    (hl : is_cond_branch ii.opcode) :
    (exec_switch E s ii).res = excNone
      ∧ (exec_switch E s ii).s.cpu.stdby = s.cpu.stdby
      ∧ (br_condition ii.opcode (s.cpu.regs ii.rs) (s.cpu.regs ii.rt) →
          (exec_switch E s ii).pca = br_target s.cpu ii
            ∧ (exec_switch E s ii).s.cpu.branch = BRANCH_COND)
      ∧ (¬ br_condition ii.opcode (s.cpu.regs ii.rs) (s.cpu.regs ii.rt) →
          (exec_switch E s ii).pca = add32 s.cpu.pc_next 4
            ∧ (exec_switch E s ii).s.cpu.branch = s.cpu.branch) := by
  rcases hl with h | h | h | h | h | h <;> simp only [exec_switch, h]
  · exact br_cond_spec s s ii _ _ opcBEQ Iff.rfl (pc_frame_refl _)
  · exact br_cond_spec s s ii _ _ opcBNE Iff.rfl (pc_frame_refl _)
  · exact br_cond_spec s s ii _ _ opcBGEZ (sbit_zero_iff_nonneg _) (pc_frame_refl _)
  · exact br_cond_spec s s ii _ _ opcBGTZ Iff.rfl (pc_frame_refl _)
  · exact br_cond_spec s s ii _ _ opcBLEZ Iff.rfl (pc_frame_refl _)
  · exact br_cond_spec s s ii _ _ opcBLTZ (sbit_ne_zero_iff_neg _) (pc_frame_refl _)


/-- The program counters, branch state and standby flag after a step that
delivers no exception, in terms of the instruction switch. -/
theorem cpu_step_no_exception_fields (E : machine_t M) (s : sim_t M)
    (hs : s.cpu.stdby = false) (hx : step_exception E s = excNone) :
    (cpu_step E s).cpu.pc_next = (exec_switch E (after_fetch E s) (fetched E s)).pca
      ∧ (cpu_step E s).cpu.branch
          = (exec_switch E (after_fetch E s) (fetched E s)).s.cpu.branch.dec
      ∧ (cpu_step E s).cpu.stdby
          = (exec_switch E (after_fetch E s) (fetched E s)).s.cpu.stdby
      ∧ (cpu_step E s).cpu.excaddr
          = (if (exec_switch E (after_fetch E s) (fetched E s)).s.cpu.branch = BRANCH_COND
                ∨ (exec_switch E (after_fetch E s) (fetched E s)).s.cpu.branch = BRANCH_NONE
             then s.cpu.pc
             else s.cpu.excaddr)
      ∧ acc_frame s.cpu (after_fetch E s).cpu := by
  have hm := manage_pc_frame _ _ hx
  obtain ⟨hf, hr, he⟩ := step_no_exception E s hs hx
  have hfr := cpu_read_ins_ok_frame E s _ _ _ hf
  have hp := exec_switch_pcs E (after_fetch E s) (fetched E s)
  refine ⟨?_, ?_, ?_, ?_, hfr⟩
  · rw [cpu_step_pc_next0, hm.pc_next, he, execute_pc_next, if_pos hr]
  · rw [cpu_step_branch0, hm.branch, he, execute_branch]
  · rw [cpu_step_stdby0, hm.stdby, he, execute_stdby]
  · rw [cpu_step_excaddr0, hm.excaddr, he, execute_excaddr, hp.1, hp.2.1]
    have h1 : (after_fetch E s).cpu.pc = s.cpu.pc := hfr.pc
    have h2 : (after_fetch E s).cpu.excaddr = s.cpu.excaddr := hfr.excaddr
    rw [h1, h2]

theorem is_likely_not_special (op : instr_enum) (h : is_likely op) :
    op ≠ opcWAIT ∧ op ≠ opcERET ∧ ¬ is_bcfl op := by
  rcases h with h | h | h | h | h | h | h | h <;> subst h <;> decide

theorem is_cond_branch_plain (op : instr_enum) (h : is_cond_branch op) :
    op ≠ opcWAIT ∧ op ≠ opcERET ∧ ¬ is_likely op ∧ ¬ is_bcfl op := by
  rcases h with h | h | h | h | h | h <;> subst h <;> decide

/-- C8: a branch-likely at `PC = p` with `PC_next = p + 4`, in a step that
delivers no exception: when its condition is false the step ends with
`PC = p + 8`, `PC_next = p + 12` and branch state `NONE` (the delay slot is
skipped); when it is true the step ends with `PC = p + 4` and
`PC_next = p + 4 + (imm << 2)`, the immediate read as a signed word.  The
branch state is `NONE` or `PASSED` at every step boundary, which is the
hypothesis `hb`. -/
theorem likely_branch_step (E : machine_t M) (s : sim_t M)
    (hs : s.cpu.stdby = false) (hx : step_exception E s = excNone)
    (hl : is_likely (fetched E s).opcode)
    (hp : s.cpu.pc_next = add32 s.cpu.pc 4) (hb : s.cpu.branch ≠ BRANCH_COND) :
    (¬ br_condition (fetched E s).opcode (s.cpu.regs (fetched E s).rs)
          (s.cpu.regs (fetched E s).rt) →
        (cpu_step E s).cpu.pc = add32 s.cpu.pc 8
          ∧ (cpu_step E s).cpu.pc_next = add32 s.cpu.pc 12
          ∧ (cpu_step E s).cpu.branch = BRANCH_NONE)
      ∧ (br_condition (fetched E s).opcode (s.cpu.regs (fetched E s).rs)
          (s.cpu.regs (fetched E s).rt) →
        (cpu_step E s).cpu.pc = add32 s.cpu.pc 4
          ∧ (cpu_step E s).cpu.pc_next
              = ofInt32 ((s.cpu.pc : Int) + 4 + toInt32 (fetched E s).imm * 4)) := by
  obtain ⟨hn, hbr, _, _, hfr⟩ := cpu_step_no_exception_fields E s hs hx
  have hpc := step_pc_running E s hx hs
  obtain ⟨_, _, ht, hf⟩ := exec_switch_likely E (after_fetch E s) (fetched E s) hl
  obtain ⟨h1, h2, h3⟩ := is_likely_not_special _ hl
  have hregs : (after_fetch E s).cpu.regs = s.cpu.regs := hfr.regs
  have hpn : (after_fetch E s).cpu.pc_next = s.cpu.pc_next := hfr.pc_next
  have hbra : (after_fetch E s).cpu.branch = s.cpu.branch := hfr.branch
  rw [hregs] at ht hf
  constructor
  · intro hc
    obtain ⟨hpca, hbranch⟩ := hf hc
    refine ⟨?_, ?_, ?_⟩
    · rw [hpc]
      unfold pc_after annulled
      rw [if_neg h1, if_neg h2, if_pos (Or.inl ⟨hl, hc⟩), hp, add32_add32]
    · rw [hn, hpca, hpn, hp, add32_add32, add32_add32]
    · rw [hbr, hbranch, hbra]
      cases hcase : s.cpu.branch
      · rfl
      · rfl
      · exact absurd hcase hb
  · intro hc
    obtain ⟨hpca, _⟩ := ht hc
    refine ⟨?_, ?_⟩
    · rw [hpc]
      unfold pc_after annulled
      rw [if_neg h1, if_neg h2, if_neg, hp]
      intro h
      rcases h with h | h
      · exact h.2 hc
      · exact h3 h
    · rw [hn, hpca]
      unfold br_target TARGET_SHIFT
      rw [hpn, hp, br_target_eq]

theorem likely_branch_step_witness :
    (beql_state.cpu.stdby = false ∧ step_exception ram_machine beql_state = excNone
        ∧ is_likely (fetched ram_machine beql_state).opcode
        ∧ beql_state.cpu.pc_next = add32 beql_state.cpu.pc 4
        ∧ beql_state.cpu.branch ≠ BRANCH_COND)
      ∧ (cpu_step ram_machine beql_state).cpu.pc = add32 beql_state.cpu.pc 8
      ∧ (cpu_step ram_machine beql_state).cpu.pc_next = add32 beql_state.cpu.pc 12
      ∧ (cpu_step ram_machine beql_state).cpu.branch = BRANCH_NONE :=
  ⟨⟨by decide, by decide, by decide, by decide, by decide⟩,
    (likely_branch_step ram_machine beql_state (by decide) (by decide) (by decide) (by decide)
      (by decide)).1 (by decide)⟩

theorem pc_after_not_redirected (cpu : cpu_t) (ii : instr_info_t) (h1 : ii.opcode ≠ opcWAIT)
    (h2 : ii.opcode ≠ opcERET) (h3 : ¬ annulled cpu ii) : pc_after cpu ii = cpu.pc_next := by
  unfold pc_after
  rw [if_neg h1, if_neg h2, if_neg h3]

/-- C7 as the code has it: a non-likely conditional branch at `PC = p` with
`PC_next = p + 4`, in a step that delivers no exception, ends with
`PC = p + 4` and `PC_next` the branch target `p + 4 + (imm << 2)` (immediate
read as a signed word) when the condition holds, `p + 8` otherwise; and when
the step of the delay-slot instruction delivers no exception and that
instruction is neither `WAIT`, nor `ERET`, nor a branch-likely that annuls, the
step after it starts at that target (respectively `p + 8`). -/
theorem cond_branch_step (E : machine_t M) (s : sim_t M)
    (hs : s.cpu.stdby = false) (hx : step_exception E s = excNone)
    (hc : is_cond_branch (fetched E s).opcode)
    (hp : s.cpu.pc_next = add32 s.cpu.pc 4) :
    (cpu_step E s).cpu.pc = add32 s.cpu.pc 4
      ∧ (cpu_step E s).cpu.pc_next
          = (if br_condition (fetched E s).opcode (s.cpu.regs (fetched E s).rs)
                (s.cpu.regs (fetched E s).rt)
             then ofInt32 ((s.cpu.pc : Int) + 4 + toInt32 (fetched E s).imm * 4)
             else add32 s.cpu.pc 8)
      ∧ (step_exception E (cpu_step E s) = excNone →
          (fetched E (cpu_step E s)).opcode ≠ opcWAIT →
          (fetched E (cpu_step E s)).opcode ≠ opcERET →
          ¬ annulled (cpu_step E s).cpu (fetched E (cpu_step E s)) →
          (cpu_step E (cpu_step E s)).cpu.pc = (cpu_step E s).cpu.pc_next) := by
  obtain ⟨hn, _, hst, _, hfr⟩ := cpu_step_no_exception_fields E s hs hx
  have hpc := step_pc_running E s hx hs
  obtain ⟨_, hstd, ht, hf⟩ := exec_switch_cond_branch E (after_fetch E s) (fetched E s) hc
  obtain ⟨h1, h2, h3, h4⟩ := is_cond_branch_plain _ hc
  have hregs : (after_fetch E s).cpu.regs = s.cpu.regs := hfr.regs
  have hpn : (after_fetch E s).cpu.pc_next = s.cpu.pc_next := hfr.pc_next
  have hsb : (after_fetch E s).cpu.stdby = s.cpu.stdby := hfr.stdby
  rw [hregs] at ht hf
  refine ⟨?_, ?_, ?_⟩
  · rw [hpc, pc_after_plain s.cpu _ _ rfl ⟨h1, h2, h3, h4⟩, hp]
  · rw [hn]
    split_ifs with hcond
    · rw [(ht hcond).1]
      unfold br_target TARGET_SHIFT
      rw [hpn, hp, br_target_eq]
    · rw [(hf hcond).1, hpn, hp, add32_add32]
  · intro hx2 hw he ha
    have hs2 : (cpu_step E s).cpu.stdby = false := by rw [hst, hstd, hsb, hs]
    rw [step_pc_running E (cpu_step E s) hx2 hs2, pc_after_not_redirected _ _ hw he ha]

theorem cond_branch_step_witness :
    (beq_state.cpu.stdby = false ∧ step_exception ram_machine beq_state = excNone
        ∧ is_cond_branch (fetched ram_machine beq_state).opcode
        ∧ beq_state.cpu.pc_next = add32 beq_state.cpu.pc 4)
      ∧ (cpu_step ram_machine beq_state).cpu.pc = 0xbfc00004
      ∧ (cpu_step ram_machine beq_state).cpu.pc_next = 0xbfc00010
      ∧ (cpu_step ram_machine (cpu_step ram_machine beq_state)).cpu.pc = 0xbfc00010 :=
  ⟨⟨by decide, by decide, by decide, by decide⟩,
    (cond_branch_step ram_machine beq_state (by decide) (by decide) (by decide)
      (by decide)).1.trans (by decide),
    (cond_branch_step ram_machine beq_state (by decide) (by decide) (by decide)
      (by decide)).2.1.trans (by decide),
    ((cond_branch_step ram_machine beq_state (by decide) (by decide) (by decide)
      (by decide)).2.2 (by decide) (by decide) (by decide) (by decide)).trans (by decide)⟩

/-- `BEQ r0, r0, +12` with `WAIT` in its delay slot: neither step raises a
fault or delivers an exception, the branch is taken to `0xBFC00010`, and after
the delay-slot step the PC is still `0xBFC00004`, the address of the `WAIT`. -/
theorem cond_branch_delay_slot_counterexample :
    beq_wait_state.cpu.stdby = false
      ∧ step_exception ram_machine beq_wait_state = excNone
      ∧ is_cond_branch (fetched ram_machine beq_wait_state).opcode
      ∧ beq_wait_state.cpu.pc_next = add32 beq_wait_state.cpu.pc 4
      ∧ br_condition (fetched ram_machine beq_wait_state).opcode
          (beq_wait_state.cpu.regs (fetched ram_machine beq_wait_state).rs)
          (beq_wait_state.cpu.regs (fetched ram_machine beq_wait_state).rt)
      ∧ (cpu_step ram_machine beq_wait_state).cpu.pc = 0xbfc00004
      ∧ (cpu_step ram_machine beq_wait_state).cpu.pc_next = 0xbfc00010
      ∧ step_exception ram_machine (cpu_step ram_machine beq_wait_state) = excNone
      ∧ (cpu_step ram_machine (cpu_step ram_machine beq_wait_state)).cpu.pc = 0xbfc00004
      ∧ (cpu_step ram_machine (cpu_step ram_machine beq_wait_state)).cpu.pc
          ≠ (cpu_step ram_machine beq_wait_state).cpu.pc_next := by
  decide


/-! ## Link registers -/

theorem br_cond_regs (s : sim_t M) (ii : instr_info_t) (pca : Nat) (c : Prop) [Decidable c] :
    (br_cond s ii pca c).s.cpu.regs = s.cpu.regs := by
  unfold br_cond br_taken; split_ifs <;> rfl

theorem br_likely_regs (s : sim_t M) (ii : instr_info_t) (c : Prop) [Decidable c] :
    (br_likely s ii c).s.cpu.regs = s.cpu.regs := by
  unfold br_likely br_taken br_annul; split_ifs <;> rfl

/-- The link register after each linking instruction: `PC_next + 4` for `JAL`,
`JALR`, `BLTZAL` and `BLTZALL`, but `PC + 8` for `BGEZAL` and `BGEZALL`. -/
theorem link_register_value (E : machine_t M) (s : sim_t M) (ii : instr_info_t) :
    (ii.opcode = opcJAL → (execute E s ii).2.cpu.regs 31 = add32 s.cpu.pc_next 4)
      ∧ (ii.opcode = opcJALR → ii.rd ≠ 0 →
          (execute E s ii).2.cpu.regs ii.rd = add32 s.cpu.pc_next 4)
      ∧ (ii.opcode = opcBLTZAL → (execute E s ii).2.cpu.regs 31 = add32 s.cpu.pc_next 4)
      ∧ (ii.opcode = opcBLTZALL → (execute E s ii).2.cpu.regs 31 = add32 s.cpu.pc_next 4)
      ∧ (ii.opcode = opcBGEZAL → (execute E s ii).2.cpu.regs 31 = add32 s.cpu.pc 8)
      ∧ (ii.opcode = opcBGEZALL → (execute E s ii).2.cpu.regs 31 = add32 s.cpu.pc 8) := by
  refine ⟨?_, ?_, ?_, ?_, ?_, ?_⟩
  · intro h
    rw [execute_regs, if_neg (by decide)]
    simp only [exec_switch, h, br_taken, sim_t.wreg, cpu_t.set_reg, upd_same]
  · intro h hrd
    rw [execute_regs, if_neg hrd]
    simp only [exec_switch, h, br_taken, sim_t.wreg, cpu_t.set_reg, upd_same]
  · intro h
    rw [execute_regs, if_neg (by decide)]
    simp only [exec_switch, h, br_cond_regs, sim_t.wreg, cpu_t.set_reg, upd_same]
  · intro h
    rw [execute_regs, if_neg (by decide)]
    simp only [exec_switch, h, br_likely_regs, sim_t.wreg, cpu_t.set_reg, upd_same]
  · intro h
    rw [execute_regs, if_neg (by decide)]
    simp only [exec_switch, h, br_cond_regs, sim_t.wreg, cpu_t.set_reg, upd_same]
  · intro h
    rw [execute_regs, if_neg (by decide)]
    simp only [exec_switch, h, br_likely_regs, sim_t.wreg, cpu_t.set_reg, upd_same]

/-- C9 at its failing input: `BGEZAL r0` executed in the delay slot of a jump
to `0xBFC00100` starts with `PC = 0xBFC00004` and `PC_next = 0xBFC00100`; it
leaves `r31 = PC + 8 = 0xBFC0000C`, not `PC_next + 4 = 0xBFC00104`. -/
theorem bgezal_link_in_delay_slot :
    (cpu_step ram_machine jump_bgezal_state).cpu.pc = 0xbfc00004
      ∧ (cpu_step ram_machine jump_bgezal_state).cpu.pc_next = 0xbfc00100
      ∧ (fetched ram_machine (cpu_step ram_machine jump_bgezal_state)).opcode = opcBGEZAL
      ∧ step_exception ram_machine (cpu_step ram_machine jump_bgezal_state) = excNone
      ∧ (cpu_step ram_machine (cpu_step ram_machine jump_bgezal_state)).cpu.regs 31
          = 0xbfc0000c
      ∧ add32 (cpu_step ram_machine jump_bgezal_state).cpu.pc_next 4 = 0xbfc00104 := by
  decide

/-! ## Faults raised by instructions -/

theorem cpu_read_mem_res (E : machine_t M) (s : sim_t M) (addr size value : Nat)
    (noisy : Bool) : (cpu_read_mem E s addr size value noisy).1.instr_result = true := by
  unfold cpu_read_mem
  rcases acc_mem E s AM_READ addr size value noisy with ⟨r, v, s1⟩
  cases r <;> rfl

theorem cpu_fetch_mem_res (E : machine_t M) (s : sim_t M) (addr size value : Nat)
    (noisy : Bool) : (cpu_fetch_mem E s addr size value noisy).1.instr_result = true := by
  unfold cpu_fetch_mem
  rcases acc_mem E s AM_FETCH addr size value noisy with ⟨r, v, s1⟩
  cases r <;> rfl

theorem cpu_write_mem_res (E : machine_t M) (s : sim_t M) (addr size value : Nat)
    (noisy : Bool) : (cpu_write_mem E s addr size value noisy).1.instr_result = true := by
  unfold cpu_write_mem
  rcases acc_mem E s AM_WRITE addr size value noisy with ⟨r, v, s1⟩
  cases r <;> rfl

theorem cpu_read_ins_res (E : machine_t M) (s : sim_t M) (addr value : Nat) (noisy : Bool) :
    (cpu_read_ins E s addr value noisy).1.instr_result = true := by
  have h := cpu_fetch_mem_res E s addr BITS_32 value noisy
  unfold cpu_read_ins
  rcases hr : cpu_fetch_mem E s addr BITS_32 value noisy with ⟨r, v, s1⟩
  rw [hr] at h
  simp only
  split_ifs <;> exact h

theorem exec_load_res (E : machine_t M) (s : sim_t M) (ii : instr_info_t)
    (pca urrs size : Nat) (f : Nat → Nat) :
    (exec_load E s ii pca urrs size f).res.instr_result = true := by
  have h := cpu_read_mem_res E s (eff_addr urrs ii) size 0 true
  unfold exec_load
  rcases hr : cpu_read_mem E s (eff_addr urrs ii) size 0 true with ⟨r, v, s1⟩
  rw [hr] at h
  simp only
  split_ifs <;> exact h

theorem exec_LW_res (E : machine_t M) (s : sim_t M) (ii : instr_info_t) (pca urrs : Nat) :
    (exec_LW E s ii pca urrs).res.instr_result = true :=
  cpu_read_mem_res E s (eff_addr urrs ii) BITS_32 (s.cpu.regs ii.rt) true

theorem exec_LL_res (E : machine_t M) (s : sim_t M) (ii : instr_info_t) (pca urrs : Nat) :
    (exec_LL E s ii pca urrs).res.instr_result = true := by
  have h := cpu_read_mem_res E s (eff_addr urrs ii) BITS_32 0 true
  unfold exec_LL
  rcases hr : cpu_read_mem E s (eff_addr urrs ii) BITS_32 0 true with ⟨r, v, s1⟩
  rw [hr] at h
  simp only [hr]
  split_ifs <;> exact h

theorem exec_LWx_res (E : machine_t M) (s : sim_t M) (ii : instr_info_t) (pca urrs : Nat)
    (left : Bool) : (exec_LWx E s ii pca urrs left).res.instr_result = true := by
  have h := cpu_read_mem_res E s (eff_addr urrs ii &&& 0xfffffffc) BITS_32 0 true
  unfold exec_LWx
  rcases hr : cpu_read_mem E s (eff_addr urrs ii &&& 0xfffffffc) BITS_32 0 true with ⟨r, v, s1⟩
  rw [hr] at h
  simp only [hr]
  split_ifs <;> exact h

theorem exec_store_res (E : machine_t M) (s : sim_t M) (ii : instr_info_t)
    (pca addr size : Nat) : (exec_store E s ii pca addr size).res.instr_result = true :=
  cpu_write_mem_res E s addr size (s.cpu.regs ii.rt) true

theorem exec_SC_res (E : machine_t M) (s : sim_t M) (ii : instr_info_t) (pca urrs : Nat) :
    (exec_SC E s ii pca urrs).res.instr_result = true := by
  have h := cpu_write_mem_res E s (eff_addr urrs ii) BITS_32 (s.cpu.regs ii.rt) true
  unfold exec_SC
  rcases hr : cpu_write_mem E s (eff_addr urrs ii) BITS_32 (s.cpu.regs ii.rt) true with ⟨r, s1⟩
  rw [hr] at h
  simp only [hr]
  split_ifs
  all_goals first
    | rfl
    | exact h

theorem exec_SWx_res (E : machine_t M) (s : sim_t M) (ii : instr_info_t) (pca urrs : Nat)
    (left : Bool) : (exec_SWx E s ii pca urrs left).res.instr_result = true := by
  have h := cpu_read_mem_res E s (eff_addr urrs ii &&& 0xfffffffc) BITS_32 0 true
  unfold exec_SWx
  rcases hr : cpu_read_mem E s (eff_addr urrs ii &&& 0xfffffffc) BITS_32 0 true with ⟨r, v, s1⟩
  rw [hr] at h
  simp only [hr]
  split_ifs
  all_goals first
    | exact h
    | exact cpu_write_mem_res E s1 _ _ _ _

theorem TLBW_res (s : sim_t M) (pca : Nat) (random : Bool) :
    (TLBW s pca random).res.instr_result = true := by
  unfold TLBW
  split_ifs
  all_goals first
    | rfl
    | (dsimp only; split_ifs <;> rfl)

theorem exec_TLBP_res (s : sim_t M) (pca : Nat) :
    (exec_TLBP s pca).res.instr_result = true := by
  unfold exec_TLBP; split_ifs <;> rfl

theorem exec_TLBR_res (s : sim_t M) (pca : Nat) :
    (exec_TLBR s pca).res.instr_result = true := by
  unfold exec_TLBR
  split_ifs
  all_goals first
    | rfl
    | (dsimp only; split_ifs <;> rfl)

theorem exec_ERET_res (E : machine_t M) (s : sim_t M) (pca : Nat) :
    (exec_ERET E s pca).res.instr_result = true := by
  unfold exec_ERET
  split_ifs
  all_goals first
    | rfl
    | (dsimp only; split_ifs <;> rfl)

theorem exec_MFC0_res (s : sim_t M) (ii : instr_info_t) (pca : Nat) :
    (exec_MFC0 s ii pca).res.instr_result = true := by
  unfold exec_MFC0; split_ifs <;> rfl

theorem exec_MTC0_res (s : sim_t M) (ii : instr_info_t) (pca urrt : Nat) :
    (exec_MTC0 s ii pca urrt).res.instr_result = true := by
  unfold exec_MTC0; split_ifs <;> rfl

theorem exec_copz_res (s : sim_t M) (pca : Nat) (cu : Prop) [Decidable cu] (ce : Nat) :
    (exec_copz s pca cu ce).res.instr_result = true := by
  unfold exec_copz; split_ifs <;> rfl

theorem br_cond_instr_result (s : sim_t M) (ii : instr_info_t) (pca : Nat) (c : Prop)
    [Decidable c] : (br_cond s ii pca c).res.instr_result = true := by
  rw [br_cond_res]; rfl

theorem br_likely_instr_result (s : sim_t M) (ii : instr_info_t) (c : Prop) [Decidable c] :
    (br_likely s ii c).res.instr_result = true := by
  rw [br_likely_res]; rfl

set_option maxHeartbeats 4000000 in
/-- The switch ends with `excNone` or a synchronous fault. -/
theorem exec_switch_res (E : machine_t M) (s : sim_t M) (ii : instr_info_t) :
    (exec_switch E s ii).res.instr_result = true := by
  cases hop : ii.opcode
  all_goals
    simp only [exec_switch, hop]
    first
      | with_reducible rfl
      | with_reducible exact br_cond_instr_result _ _ _ _
      | with_reducible exact br_likely_instr_result _ _ _
      | with_reducible exact exec_load_res _ _ _ _ _ _ _
      | with_reducible exact exec_LW_res _ _ _ _ _
      | with_reducible exact exec_LL_res _ _ _ _ _
      | with_reducible exact exec_LWx_res _ _ _ _ _ _
      | with_reducible exact exec_store_res _ _ _ _ _ _
      | with_reducible exact exec_SC_res _ _ _ _ _
      | with_reducible exact exec_SWx_res _ _ _ _ _ _
      | with_reducible exact TLBW_res _ _ _
      | with_reducible exact exec_TLBP_res _ _
      | with_reducible exact exec_TLBR_res _ _
      | with_reducible exact exec_ERET_res _ _ _
      | with_reducible exact exec_MFC0_res _ _ _
      | with_reducible exact exec_MTC0_res _ _ _ _
      | with_reducible exact exec_copz_res _ _ _ _
      | rfl
      | (split_ifs <;> rfl)

theorem instr_result_fault (res : exc_t) (h : res.instr_result = true) (hne : res ≠ excNone) :
    res ≠ excInt ∧ exc_base res ≠ excInt
      ∧ (shl32 (exc_base res).code cp0_cause_exccode_shift &&& cp0_cause_exccode_mask)
          >>> cp0_cause_exccode_shift = (exc_base res).code := by
  revert h hne
  cases res <;> decide

theorem cpu_read_ins_excaddr (E : machine_t M) (s : sim_t M) (addr value : Nat) (noisy : Bool) :
    (cpu_read_ins E s addr value noisy).2.2.cpu.excaddr =
      if (cpu_read_ins E s addr value noisy).1 ≠ excNone ∧ s.cpu.branch = BRANCH_NONE
      then s.cpu.pc else s.cpu.excaddr := by
  have h := cpu_fetch_mem_frame E s addr BITS_32 value noisy
  unfold cpu_read_ins
  rcases hr : cpu_fetch_mem E s addr BITS_32 value noisy with ⟨r, v, s1⟩
  rw [hr] at h
  simp only at h ⊢
  rw [h.branch]
  split_ifs
  · exact h.pc
  · exact h.excaddr

/-- The processor after an instruction that faulted, at the fetch or in
`execute`. -/
theorem step_fault_state (E : machine_t M) (s : sim_t M) (hs : s.cpu.stdby = false)
    (hf : (cpu_step_instr E s).1 ≠ excNone) :
    (cpu_step_instr E s).1.instr_result = true
      ∧ (cpu_step_instr E s).2.cpu.pc = s.cpu.pc
      ∧ (cpu_step_instr E s).2.cpu.branch = s.cpu.branch
      ∧ (cpu_step_instr E s).2.cpu.stdby = false
      ∧ (cpu_step_instr E s).2.cpu.cp0 cp0_Status = s.cpu.cp0 cp0_Status
      ∧ (s.cpu.branch = BRANCH_NONE → (cpu_step_instr E s).2.cpu.excaddr = s.cpu.pc)
      ∧ (s.cpu.branch = BRANCH_PASSED →
          (cpu_step_instr E s).2.cpu.excaddr = s.cpu.excaddr) := by
  unfold cpu_step_instr at hf ⊢
  rw [if_pos hs] at hf ⊢
  rw [instruction_eq] at hf ⊢
  by_cases hok : (cpu_read_ins E s s.cpu.pc 0 true).1 = excNone
  · rw [if_pos hok] at hf ⊢
    have hfr := cpu_read_ins_ok_frame E s _ _ _ hok
    have hx := exec_switch_fault_frame E (after_fetch E s) (fetched E s) hf
    have h1 : (after_fetch E s).cpu.pc = s.cpu.pc := hfr.pc
    have h2 : (after_fetch E s).cpu.branch = s.cpu.branch := hfr.branch
    have h3 : (after_fetch E s).cpu.stdby = s.cpu.stdby := hfr.stdby
    have h4 : (after_fetch E s).cpu.excaddr = s.cpu.excaddr := hfr.excaddr
    have h5 : (after_fetch E s).cpu.cp0 cp0_Status = s.cpu.cp0 cp0_Status :=
      hfr.cp0 _ (by decide) (by decide) (by decide)
    have hres : (exec_switch E (after_fetch E s) (fetched E s)).res ≠ excNone := hf
    refine ⟨exec_switch_res _ _ _, ?_, ?_, ?_, ?_, ?_, ?_⟩
    · rw [execute_pc, if_neg hres, hx.pc, h1]
    · rw [execute_branch, hx.branch, h2]
    · rw [execute_stdby, hx.stdby, h3, hs]
    · rw [execute_cp0, hx.cp0 _ (by decide) (by decide) (by decide) (by decide), h5]
    · intro hb
      rw [execute_excaddr, hx.branch, h2, if_pos (Or.inr hb), hx.pc, h1]
    · intro hb
      rw [execute_excaddr, hx.branch, h2, if_neg (by rw [hb]; decide), hx.excaddr, h4]
  · rw [if_neg hok] at hf ⊢
    have hfr := cpu_read_ins_frame E s s.cpu.pc 0 true
    have he := cpu_read_ins_excaddr E s s.cpu.pc 0 true
    refine ⟨cpu_read_ins_res _ _ _ _ _, hfr.pc, hfr.branch, ?_,
      hfr.cp0 _ (by decide) (by decide) (by decide) (by decide), ?_, ?_⟩
    · exact hfr.stdby.trans hs
    · intro hb
      unfold after_fetch
      rw [he, if_pos ⟨hok, hb⟩]
    · intro hb
      unfold after_fetch
      rw [he, if_neg (by rw [hb]; intro h; exact absurd h.2 (by decide))]

/-! ## Exception registers after a fault -/

theorem field_after_writes (x a k b m : Nat) (ha : a &&& m = 0) (hb : b &&& m = m) :
    ((x &&& a ||| k) &&& b) &&& m = k &&& m := by
  apply Nat.eq_of_testBit_eq
  intro i
  have ha1 := congrArg (fun n => Nat.testBit n i) ha
  have hb1 := congrArg (fun n => Nat.testBit n i) hb
  simp only [Nat.testBit_and, Nat.testBit_or, Nat.zero_testBit] at ha1 hb1 ⊢
  cases hx : x.testBit i <;> cases hA : a.testBit i <;> cases hk : k.testBit i <;>
    cases hB : b.testBit i <;> cases hm : m.testBit i <;> simp_all

theorem or_and_disjoint (x k m : Nat) (h : k &&& m = 0) : (x ||| k) &&& m = x &&& m := by
  apply Nat.eq_of_testBit_eq
  intro i
  have h1 := congrArg (fun n => Nat.testBit n i) h
  simp only [Nat.testBit_and, Nat.testBit_or, Nat.zero_testBit] at h1 ⊢
  cases hx : x.testBit i <;> cases hk : k.testBit i <;> cases hm : m.testBit i <;> simp_all

theorem and_and_disjoint (x b m : Nat) (h : b &&& m = 0) : (x &&& b) &&& m = 0 := by
  rw [Nat.and_assoc, h, Nat.and_zero]

theorem manage_res_fault (cpu : cpu_t) (res : exc_t) (h : res ≠ excNone) :
    manage_res cpu res = res := by
  unfold manage_res
  rw [if_neg (fun hh => h hh.1)]

theorem manage_fault (cpu : cpu_t) (res : exc_t) (h : res ≠ excNone) :
    manage cpu res = manage_timer (manage_count (handle_exception cpu res)) := by
  unfold manage
  simp only [manage_res_fault cpu res h]
  rw [if_pos h]

theorem manage_count_cp0 (cpu : cpu_t) (i : Nat) (h1 : i ≠ cp0_Count) (h2 : i ≠ cp0_Random) :
    (manage_count cpu).cp0 i = cpu.cp0 i := by
  unfold manage_count cpu_t.set_cp0
  simp only
  split_ifs <;> simp only [upd_ne _ _ _ _ h1, upd_ne _ _ _ _ h2]

theorem manage_timer_cp0 (cpu : cpu_t) (i : Nat) (h : i ≠ cp0_Cause) :
    (manage_timer cpu).cp0 i = cpu.cp0 i := by
  unfold manage_timer cpu_t.set_cp0
  split_ifs
  · simp only [upd_ne _ _ _ _ h]
  · rfl

theorem manage_timer_exccode (cpu : cpu_t) :
    cp0_cause_exccode (manage_timer cpu) = cp0_cause_exccode cpu := by
  unfold manage_timer cp0_cause_exccode cp0_cause cpu_t.set_cp0
  split_ifs
  · simp only [upd_same]
    rw [or_and_disjoint _ _ _ (by decide)]
  · rfl

theorem manage_timer_bd (cpu : cpu_t) : cp0_cause_bd (manage_timer cpu) = cp0_cause_bd cpu := by
  unfold manage_timer cp0_cause_bd cp0_cause cpu_t.set_cp0
  split_ifs
  · simp only [upd_same]
    rw [or_and_disjoint _ _ _ (by decide)]
  · rfl

theorem he_cause_exccode (cpu : cpu_t) (res : exc_t) :
    cp0_cause_exccode (he_cause cpu res)
      = (shl32 res.code cp0_cause_exccode_shift &&& cp0_cause_exccode_mask)
          >>> cp0_cause_exccode_shift := by
  unfold he_cause cp0_cause_exccode cp0_cause cpu_t.set_cp0
  simp only [upd_same]
  split_ifs
  · simp only [upd_same]
    rw [or_and_disjoint _ _ _ (by decide), field_after_writes _ _ _ _ _ (by decide) (by decide)]
  · simp only [upd_same]
    rw [field_after_writes _ _ _ _ _ (by decide) (by decide)]

theorem he_cause_bd (cpu : cpu_t) (res : exc_t) :
    cp0_cause_bd (he_cause cpu res) = if cpu.branch = BRANCH_PASSED then 1 else 0 := by
  unfold he_cause cp0_cause_bd cp0_cause cpu_t.set_cp0
  simp only [upd_same]
  split_ifs
  · simp only [upd_same]
    rw [or_and_self]
    decide
  · simp only [upd_same]
    rw [and_and_disjoint _ _ _ (by decide)]
    decide

theorem handle_exception_cause (cpu : cpu_t) (res : exc_t) :
    (handle_exception cpu res).cp0 cp0_Cause
      = (he_cause (he_standby cpu) (exc_base res)).cp0 cp0_Cause := by
  unfold handle_exception
  simp only [cpu_t.set_cp0, cpu_set_pc]
  rw [upd_ne _ _ _ _ (by decide), he_epc_cp0 _ _ _ (by decide)]

theorem handle_exception_epc (cpu : cpu_t) (res : exc_t) (hexl : cp0_status_exl cpu = 0)
    (hint : exc_base res ≠ excInt) :
    (handle_exception cpu res).cp0 cp0_EPC = cpu.excaddr := by
  have hst : cp0_status_exl (he_cause (he_standby cpu) (exc_base res)) = 0 := by
    unfold cp0_status_exl cp0_status at hexl ⊢
    rw [he_cause_cp0 _ _ _ (by decide), he_standby_cp0]
    exact hexl
  unfold handle_exception
  simp only [cpu_t.set_cp0, cpu_set_pc]
  rw [upd_ne _ _ _ _ (by decide)]
  unfold he_epc
  rw [if_pos hst]
  simp only
  rw [if_neg (fun h => hint h.1)]
  simp only [cpu_t.set_cp0, upd_same]
  rw [he_cause_excaddr, he_standby_excaddr]

/-- The coprocessor 0 registers a faulting step leaves behind. -/
theorem cpu_step_fault_cp0 (E : machine_t M) (s : sim_t M) (hs : s.cpu.stdby = false)
    (hexl : cp0_status_exl s.cpu = 0) (hf : (cpu_step_instr E s).1 ≠ excNone) :
    cp0_epc (cpu_step E s).cpu = (cpu_step_instr E s).2.cpu.excaddr
      ∧ cp0_cause_bd (cpu_step E s).cpu = (if s.cpu.branch = BRANCH_PASSED then 1 else 0)
      ∧ cp0_cause_exccode (cpu_step E s).cpu = (exc_base (cpu_step_instr E s).1).code
      ∧ cp0_status_exl (cpu_step E s).cpu = 1 := by
  obtain ⟨hr, -, hbr, -, hst, -, -⟩ := step_fault_state E s hs hf
  obtain ⟨-, hint, hcode⟩ := instr_result_fault _ hr hf
  have hexl1 : cp0_status_exl (cpu_step_instr E s).2.cpu = 0 := by
    unfold cp0_status_exl cp0_status at hexl ⊢
    rw [hst]
    exact hexl
  have hm := manage_fault (cpu_step_instr E s).2.cpu _ hf
  refine ⟨?_, ?_, ?_, ?_⟩
  · unfold cp0_epc
    rw [cpu_step_cp0, hm, manage_timer_cp0 _ _ (by decide),
      manage_count_cp0 _ _ (by decide) (by decide), handle_exception_epc _ _ hexl1 hint]
  · have e : cp0_cause_bd (cpu_step E s).cpu
        = cp0_cause_bd (manage (cpu_step_instr E s).2.cpu (cpu_step_instr E s).1) := by
      unfold cp0_cause_bd cp0_cause
      rw [cpu_step_cp0]
    rw [e, hm, manage_timer_bd]
    have e2 : cp0_cause_bd (manage_count (handle_exception (cpu_step_instr E s).2.cpu
          (cpu_step_instr E s).1))
        = cp0_cause_bd (he_cause (he_standby (cpu_step_instr E s).2.cpu)
            (exc_base (cpu_step_instr E s).1)) := by
      unfold cp0_cause_bd cp0_cause
      rw [manage_count_cp0 _ _ (by decide) (by decide), handle_exception_cause]
    rw [e2, he_cause_bd, he_standby_branch, hbr]
  · have e : cp0_cause_exccode (cpu_step E s).cpu
        = cp0_cause_exccode (manage (cpu_step_instr E s).2.cpu (cpu_step_instr E s).1) := by
      unfold cp0_cause_exccode cp0_cause
      rw [cpu_step_cp0]
    rw [e, hm, manage_timer_exccode]
    have e2 : cp0_cause_exccode (manage_count (handle_exception (cpu_step_instr E s).2.cpu
          (cpu_step_instr E s).1))
        = cp0_cause_exccode (he_cause (he_standby (cpu_step_instr E s).2.cpu)
            (exc_base (cpu_step_instr E s).1)) := by
      unfold cp0_cause_exccode cp0_cause
      rw [manage_count_cp0 _ _ (by decide) (by decide), handle_exception_cause]
    rw [e2, he_cause_exccode, hcode]
  · have e : cp0_status_exl (cpu_step E s).cpu
        = cp0_status_exl (handle_exception (cpu_step_instr E s).2.cpu
            (cpu_step_instr E s).1) := by
      unfold cp0_status_exl cp0_status
      rw [cpu_step_cp0, hm, manage_timer_cp0 _ _ (by decide),
        manage_count_cp0 _ _ (by decide) (by decide)]
    rw [e, handle_exception_exl]

theorem cpu_step_instr_standby (E : machine_t M) (s : sim_t M)
    (hf : (cpu_step_instr E s).1 ≠ excNone) : s.cpu.stdby = false := by
  cases h : s.cpu.stdby
  · rfl
  · exfalso
    apply hf
    unfold cpu_step_instr
    rw [if_neg (by rw [h]; decide)]

theorem testBit_high_mask (k i : Nat) (hk : k ≤ 32) :
    (2 ^ 32 - 2 ^ k).testBit i = (decide (k ≤ i) && decide (i < 32)) := by
  have e : 2 ^ 32 - 2 ^ k = (2 ^ (32 - k) - 1) <<< k := by
    rw [Nat.shiftLeft_eq, Nat.sub_mul, ← Nat.pow_add, Nat.one_mul, Nat.sub_add_cancel hk]
  rw [e, Nat.testBit_shiftLeft, Nat.testBit_two_pow_sub_one]
  by_cases h1 : k ≤ i
  · by_cases h2 : i < 32
    · have : i - k < 32 - k := by omega
      simp [h1, h2, this]
    · have : ¬ i - k < 32 - k := by omega
      simp [h1, h2, this]
  · simp [h1]

/-- The sub-page test of `tlb_look` reads bit `k` of the address. -/
theorem subpage_test (addr k : Nat) (hk : k < 32) :
    (addr &&& (2 ^ 32 - 2 ^ (k + 1))) < (addr &&& (2 ^ 32 - 2 ^ k)) ↔ (addr >>> k) % 2 = 1 := by
  have hbit : addr.testBit k = decide ((addr >>> k) % 2 = 1) := by
    rw [Nat.testBit_to_div_mod, Nat.shiftRight_eq_div_pow]
  constructor
  · intro h
    by_contra hne
    have hb : addr.testBit k = false := by rw [hbit]; simp [hne]
    have : (addr &&& (2 ^ 32 - 2 ^ (k + 1))) = (addr &&& (2 ^ 32 - 2 ^ k)) := by
      apply Nat.eq_of_testBit_eq
      intro i
      rw [Nat.testBit_and, Nat.testBit_and, testBit_high_mask _ _ (by omega),
        testBit_high_mask _ _ (by omega)]
      by_cases hik : i = k
      · subst hik; simp [hb]
      · have : (k + 1 ≤ i) ↔ (k ≤ i) := by omega
        simp [this]
    omega
  · intro h
    have hb : addr.testBit k = true := by rw [hbit]; simp [h]
    apply Nat.lt_of_testBit k
    · rw [Nat.testBit_and, testBit_high_mask _ _ (by omega)]; simp
    · rw [Nat.testBit_and, testBit_high_mask _ _ (by omega), hb]; simp [hk]
    · intro j hj
      rw [Nat.testBit_and, Nat.testBit_and, testBit_high_mask _ _ (by omega),
        testBit_high_mask _ _ (by omega)]
      have h1 : k + 1 ≤ j := hj
      have h2 : k ≤ j := by omega
      simp [h1, h2]

/-- The masks of an entry of page size `2^k`. -/
theorem page_masks :
    ∀ k ∈ page_size_exponents,
      cp0_entryhi_vpn2_mask &&& not32 (page_mask k) = 2 ^ 32 - 2 ^ (k + 1)
        ∧ ((2 ^ 32 - 2 ^ (k + 1)) >>> 1) ||| SBIT = 2 ^ 32 - 2 ^ k
        ∧ not32 (2 ^ 32 - 2 ^ k) = 2 ^ k - 1
        ∧ not32 (2 ^ k - 1) = 2 ^ 32 - 2 ^ k
        ∧ k < 32 := by
  decide

theorem tlb_look_loop_step (cpu : cpu_t) (addr : Nat) (wr : Bool) (hint n i : Nat) :
    tlb_look_loop cpu addr wr hint (n + 1) i
      = if tlb_entry_matches cpu addr (cpu.tlb (u32 (i + hint) % TLB_ENTRIES)) then
          tlb_look_entry cpu addr wr (cpu.tlb (u32 (i + hint) % TLB_ENTRIES)) i
        else tlb_look_loop cpu addr wr hint n (i + 1) := by
  rw [tlb_look_loop]
  simp only [tlb_entry_matches, tlb_look_entry]
  by_cases h1 : (addr &&& (cpu.tlb (u32 (i + hint) % TLB_ENTRIES)).mask)
      = (cpu.tlb (u32 (i + hint) % TLB_ENTRIES)).vpn2
  · rw [if_pos h1]
    by_cases h2 : (cpu.tlb (u32 (i + hint) % TLB_ENTRIES)).global = false
        ∧ (cpu.tlb (u32 (i + hint) % TLB_ENTRIES)).asid ≠ cp0_entryhi_asid cpu
    · have hm : ¬ ((addr &&& (cpu.tlb (u32 (i + hint) % TLB_ENTRIES)).mask)
            = (cpu.tlb (u32 (i + hint) % TLB_ENTRIES)).vpn2
          ∧ ((cpu.tlb (u32 (i + hint) % TLB_ENTRIES)).global = true
            ∨ (cpu.tlb (u32 (i + hint) % TLB_ENTRIES)).asid = cp0_entryhi_asid cpu)) := by
        rintro ⟨-, h3 | h3⟩
        · rw [h2.1] at h3; exact absurd h3 (by decide)
        · exact h2.2 h3
      rw [if_pos h2, if_neg hm]
    · have hm : (addr &&& (cpu.tlb (u32 (i + hint) % TLB_ENTRIES)).mask)
            = (cpu.tlb (u32 (i + hint) % TLB_ENTRIES)).vpn2
          ∧ ((cpu.tlb (u32 (i + hint) % TLB_ENTRIES)).global = true
            ∨ (cpu.tlb (u32 (i + hint) % TLB_ENTRIES)).asid = cp0_entryhi_asid cpu) := by
        refine ⟨h1, ?_⟩
        by_cases hg : (cpu.tlb (u32 (i + hint) % TLB_ENTRIES)).global = true
        · exact Or.inl hg
        · right
          by_contra hne
          exact h2 ⟨by simpa using hg, hne⟩
      rw [if_neg h2, if_pos hm]
  · rw [if_neg h1, if_neg (fun h => h1 h.1)]

theorem tlb_look_loop_miss (cpu : cpu_t) (addr : Nat) (wr : Bool) (hint : Nat) :
    ∀ n i, (∀ j, i ≤ j → j < i + n →
        ¬ tlb_entry_matches cpu addr (cpu.tlb (u32 (j + hint) % TLB_ENTRIES))) →
      tlb_look_loop cpu addr wr hint n i = (TLBL_REFILL, addr, cpu) := by
  intro n
  induction n with
  | zero => intro i _; rfl
  | succ n ih =>
    intro i h
    rw [tlb_look_loop_step, if_neg (h i (Nat.le_refl _) (by omega))]
    exact ih (i + 1) (fun j h1 h2 => h j (by omega) (by omega))

theorem tlb_look_loop_hit (cpu : cpu_t) (addr : Nat) (wr : Bool) (hint : Nat) :
    ∀ n i j, i ≤ j → j < i + n →
      tlb_entry_matches cpu addr (cpu.tlb (u32 (j + hint) % TLB_ENTRIES)) →
      (∀ j', i ≤ j' → j' < j →
        ¬ tlb_entry_matches cpu addr (cpu.tlb (u32 (j' + hint) % TLB_ENTRIES))) →
      tlb_look_loop cpu addr wr hint n i
        = tlb_look_entry cpu addr wr (cpu.tlb (u32 (j + hint) % TLB_ENTRIES)) j := by
  intro n
  induction n with
  | zero => intro i j h1 h2; omega
  | succ n ih =>
    intro i j h1 h2 hm hfirst
    rw [tlb_look_loop_step]
    by_cases hij : i = j
    · subst hij
      rw [if_pos hm]
    · rw [if_neg (hfirst i (Nat.le_refl _) (by omega))]
      exact ih (i + 1) j (by omega) (by omega) hm (fun j' h3 h4 => hfirst j' (by omega) h4)

/-- A hit never ends in `REFILL`. -/
theorem tlb_look_entry_ne_refill (cpu : cpu_t) (addr : Nat) (wr : Bool) (e : tlb_entry_t)
    (i : Nat) : (tlb_look_entry cpu addr wr e i).1 ≠ TLBL_REFILL := by
  unfold tlb_look_entry
  simp only
  split_ifs <;> simp

/-- The loop body at an entry of page size `2^k` is the outcome the
specification describes. -/
theorem tlb_look_entry_outcome (cpu : cpu_t) (addr : Nat) (wr : Bool) (e : tlb_entry_t)
    (i k : Nat) (hk : k ∈ page_size_exponents)
    (hmask : e.mask = cp0_entryhi_vpn2_mask &&& not32 (page_mask k)) :
    ((tlb_look_entry cpu addr wr e i).1, (tlb_look_entry cpu addr wr e i).2.1)
      = tlb_entry_outcome e k addr wr := by
  obtain ⟨h1, h2, h3, h4, h5⟩ := page_masks k hk
  unfold tlb_look_entry tlb_entry_outcome
  simp only [hmask, h1, h2, h3, h4, subpage_test addr k h5]
  have hs : (if (addr >>> k) % 2 = 1 then 1 else 0) = (addr >>> k) % 2 := by
    split_ifs with h
    · exact h.symm
    · omega
  rw [hs]
  split_ifs
  · rfl
  · rfl
  · simp only [Nat.lor_comm]

theorem circ_index (hint j : Nat) (hh : hint < 48) (hj : j < 48) :
    u32 (j + hint) % TLB_ENTRIES = (hint + j) % TLB_ENTRIES := by
  unfold u32 TLB_ENTRIES
  omega

/-- C11: with `Status.TS = 0` (and the hint an index of the TLB), `tlb_look`
ends in `REFILL` exactly when no entry matches the address; otherwise it
decides on the first matching entry in circular order from `tlb_hint`, and for
an entry of page size `2^k`, `k` in `12, 14, .., 24`, the sub-page is bit `k` of
the address and the result is `INVALID`, `MODIFIED` or `OK` with the address
`(pfn & ~(2^k - 1)) | (vaddr & (2^k - 1))`, as the specification says. -/
theorem tlb_look_first_match (cpu : cpu_t) (vaddr : Nat) (wr : Bool)
    (hts : cp0_status_ts cpu = 0) (hh : cpu.tlb_hint < TLB_ENTRIES) :
    ((tlb_look cpu vaddr wr).1 = TLBL_REFILL
        ↔ ∀ i, i < TLB_ENTRIES → ¬ tlb_entry_matches cpu vaddr (cpu.tlb i))
      ∧ ∀ j, j < TLB_ENTRIES → tlb_entry_matches cpu vaddr (tlb_circ cpu j) →
          (∀ j2, j2 < j → ¬ tlb_entry_matches cpu vaddr (tlb_circ cpu j2)) →
          (tlb_look cpu vaddr wr).1 ≠ TLBL_REFILL
            ∧ ∀ k, k ∈ page_size_exponents →
                (tlb_circ cpu j).mask = 0xffffe000 &&& not32 (page_mask k) →
                ((tlb_look cpu vaddr wr).1, (tlb_look cpu vaddr wr).2.1)
                  = tlb_entry_outcome (tlb_circ cpu j) k vaddr wr := by
  have hlook : tlb_look cpu vaddr wr
      = tlb_look_loop cpu vaddr wr cpu.tlb_hint TLB_ENTRIES 0 := by
    unfold tlb_look
    rw [if_neg (by rw [hts]; decide)]
  have hh48 : cpu.tlb_hint < 48 := hh
  have hfirst : ∀ j, j < TLB_ENTRIES → tlb_entry_matches cpu vaddr (tlb_circ cpu j) →
      (∀ j2, j2 < j → ¬ tlb_entry_matches cpu vaddr (tlb_circ cpu j2)) →
      tlb_look cpu vaddr wr = tlb_look_entry cpu vaddr wr (tlb_circ cpu j) j := by
    intro j hj hm hf
    have hj48 : j < 48 := hj
    rw [hlook, tlb_look_loop_hit cpu vaddr wr cpu.tlb_hint TLB_ENTRIES 0 j (Nat.zero_le _)
      (by omega) (by rw [circ_index _ _ hh48 hj48]; exact hm)
      (fun j2 _ h2 => by
        rw [circ_index _ _ hh48 (by omega)]
        exact hf j2 h2),
      circ_index _ _ hh48 hj48]
    rfl
  refine ⟨⟨?_, ?_⟩, ?_⟩
  · intro hr i hi hm
    have hi48 : i < 48 := hi
    have hex : ∃ j, j < TLB_ENTRIES ∧ tlb_entry_matches cpu vaddr (tlb_circ cpu j) := by
      refine ⟨(i + 48 - cpu.tlb_hint) % 48, Nat.mod_lt _ (by decide), ?_⟩
      have e : (cpu.tlb_hint + (i + 48 - cpu.tlb_hint) % 48) % TLB_ENTRIES = i := by
        unfold TLB_ENTRIES
        omega
      unfold tlb_circ
      rw [e]
      exact hm
    have hj := Nat.find_spec hex
    have hmin : ∀ j2, j2 < Nat.find hex → ¬ tlb_entry_matches cpu vaddr (tlb_circ cpu j2) := by
      intro j2 h2 hm2
      have hlt : j2 < TLB_ENTRIES := Nat.lt_trans h2 hj.1
      exact Nat.find_min hex h2 ⟨hlt, hm2⟩
    rw [hfirst _ hj.1 hj.2 hmin] at hr
    exact tlb_look_entry_ne_refill _ _ _ _ _ hr
  · intro hno
    rw [hlook, tlb_look_loop_miss cpu vaddr wr cpu.tlb_hint TLB_ENTRIES 0
      (fun j _ h2 => hno _ (Nat.mod_lt _ (by decide)))]
  · intro j hj hm hf
    rw [hfirst j hj hm hf]
    refine ⟨tlb_look_entry_ne_refill _ _ _ _ _, ?_⟩
    intro k hk hmask
    exact tlb_look_entry_outcome cpu vaddr wr _ j k hk hmask

/-- A read of `0x00400ABC` with the two entries of `tlb_demo_cpu`: entry 0
does not match, entry 1 does, bit 12 of the address is clear, and the lookup
ends `OK` with physical address `0x00123ABC`. -/
theorem tlb_look_first_match_witness :
    (cp0_status_ts tlb_demo_cpu = 0 ∧ tlb_demo_cpu.tlb_hint < TLB_ENTRIES
        ∧ tlb_entry_matches tlb_demo_cpu 0x00400abc (tlb_circ tlb_demo_cpu 1)
        ∧ ¬ tlb_entry_matches tlb_demo_cpu 0x00400abc (tlb_circ tlb_demo_cpu 0))
      ∧ ((tlb_look tlb_demo_cpu 0x00400abc false).1,
          (tlb_look tlb_demo_cpu 0x00400abc false).2.1) = (TLBL_OK, 0x00123abc) :=
  ⟨⟨by decide, by decide, by decide, by decide⟩,
    ((((tlb_look_first_match tlb_demo_cpu 0x00400abc false (by decide) (by decide)).2 1
      (by decide) (by decide) (by decide)).2 12 (by decide) (by decide)).trans (by decide))⟩

/-! ## TLB faults -/

theorem testBit_range_mask (hi lo i : Nat) (h : lo ≤ hi) :
    (2 ^ hi - 2 ^ lo).testBit i = (decide (lo ≤ i) && decide (i < hi)) := by
  have e : 2 ^ hi - 2 ^ lo = (2 ^ (hi - lo) - 1) <<< lo := by
    rw [Nat.shiftLeft_eq, Nat.sub_mul, ← Nat.pow_add, Nat.one_mul, Nat.sub_add_cancel h]
  rw [e, Nat.testBit_shiftLeft, Nat.testBit_two_pow_sub_one]
  by_cases h1 : lo ≤ i
  · by_cases h2 : i < hi
    · have : i - lo < hi - lo := by omega
      simp [h1, h2, this]
    · have : ¬ i - lo < hi - lo := by omega
      simp [h1, h2, this]
  · simp [h1]

theorem testBit_mask (m hi lo i : Nat) (hm : m = 2 ^ hi - 2 ^ lo) (h : lo ≤ hi) :
    m.testBit i = (decide (lo ≤ i) && decide (i < hi)) := by
  rw [hm, testBit_range_mask hi lo i h]

theorem testBit_u32_high (a i : Nat) (ha : a < 2 ^ 32) (hi : 32 ≤ i) : a.testBit i = false :=
  Nat.testBit_lt_two_pow (Nat.lt_of_lt_of_le ha (Nat.pow_le_pow_right (by decide) hi))

/-- `Context` after `fill_tlb_error`: `PTEBase` is kept. -/
theorem context_ptebase_kept (c a : Nat) (ha : a < 2 ^ 32) :
    ((c &&& cp0_context_ptebase_mask)
        ||| ((a >>> cp0_context_addr_shift) &&& not32 cp0_context_res1_mask))
      &&& cp0_context_ptebase_mask = c &&& cp0_context_ptebase_mask := by
  apply Nat.eq_of_testBit_eq
  intro i
  simp only [Nat.testBit_and, Nat.testBit_or, Nat.testBit_shiftRight, cp0_context_addr_shift,
    testBit_mask cp0_context_ptebase_mask 32 23 i (by decide) (by decide),
    testBit_mask (not32 cp0_context_res1_mask) 32 4 i (by decide) (by decide)]
  by_cases h1 : 23 ≤ i
  · have h2 : a.testBit (9 + i) = false := testBit_u32_high a _ ha (by omega)
    simp [h1, h2]
  · simp [h1]

/-- `Context` after `fill_tlb_error`: `BadVPN2` is bits 31..13 of the address. -/
theorem context_badvpn2_set (c a : Nat) (ha : a < 2 ^ 32) :
    (((c &&& cp0_context_ptebase_mask)
        ||| ((a >>> cp0_context_addr_shift) &&& not32 cp0_context_res1_mask))
      &&& cp0_context_badvpn2_mask) >>> 4 = a >>> 13 := by
  apply Nat.eq_of_testBit_eq
  intro i
  simp only [Nat.testBit_and, Nat.testBit_or, Nat.testBit_shiftRight, cp0_context_addr_shift,
    testBit_mask cp0_context_ptebase_mask 32 23 (4 + i) (by decide) (by decide),
    testBit_mask (not32 cp0_context_res1_mask) 32 4 (4 + i) (by decide) (by decide),
    testBit_mask cp0_context_badvpn2_mask 23 4 (4 + i) (by decide) (by decide)]
  have e : 9 + (4 + i) = 13 + i := by omega
  rw [e]
  by_cases h1 : 4 + i < 23
  · have h2 : ¬ 23 ≤ 4 + i := by omega
    have h3 : 4 + i < 32 := by omega
    simp [h1, h2, h3]
  · have h2 : a.testBit (13 + i) = false := testBit_u32_high a _ ha (by omega)
    simp [h1, h2]

/-- `Context` after `fill_tlb_error`: bits 3..0 are zero. -/
theorem context_res1_zero (c a : Nat) :
    ((c &&& cp0_context_ptebase_mask)
        ||| ((a >>> cp0_context_addr_shift) &&& not32 cp0_context_res1_mask))
      &&& cp0_context_res1_mask = 0 := by
  apply Nat.eq_of_testBit_eq
  intro i
  simp only [Nat.testBit_and, Nat.testBit_or, Nat.testBit_shiftRight, cp0_context_addr_shift,
    Nat.zero_testBit,
    testBit_mask cp0_context_ptebase_mask 32 23 i (by decide) (by decide),
    testBit_mask (not32 cp0_context_res1_mask) 32 4 i (by decide) (by decide),
    testBit_mask cp0_context_res1_mask 4 0 i (by decide) (by decide)]
  by_cases h1 : i < 4
  · have h2 : ¬ 23 ≤ i := by omega
    have h3 : ¬ 4 ≤ i := by omega
    simp [h1, h2, h3]
  · simp [h1]

/-- `EntryHi` after `fill_tlb_error`: the ASID is kept. -/
theorem entryhi_asid_kept (e a : Nat) :
    ((e &&& cp0_entryhi_asid_mask) ||| (a &&& cp0_entryhi_vpn2_mask)) &&& cp0_entryhi_asid_mask
      = e &&& cp0_entryhi_asid_mask := by
  apply Nat.eq_of_testBit_eq
  intro i
  simp only [Nat.testBit_and, Nat.testBit_or,
    testBit_mask cp0_entryhi_asid_mask 8 0 i (by decide) (by decide),
    testBit_mask cp0_entryhi_vpn2_mask 32 13 i (by decide) (by decide)]
  by_cases h1 : i < 8
  · have h2 : ¬ 13 ≤ i := by omega
    simp [h1, h2]
  · simp [h1]

/-- `EntryHi` after `fill_tlb_error`: `VPN2` is bits 31..13 of the address. -/
theorem entryhi_vpn2_set (e a : Nat) (ha : a < 2 ^ 32) :
    (((e &&& cp0_entryhi_asid_mask) ||| (a &&& cp0_entryhi_vpn2_mask))
      &&& cp0_entryhi_vpn2_mask) >>> 13 = a >>> 13 := by
  apply Nat.eq_of_testBit_eq
  intro i
  simp only [Nat.testBit_and, Nat.testBit_or, Nat.testBit_shiftRight,
    testBit_mask cp0_entryhi_asid_mask 8 0 (13 + i) (by decide) (by decide),
    testBit_mask cp0_entryhi_vpn2_mask 32 13 (13 + i) (by decide) (by decide)]
  have h0 : ¬ 13 + i < 8 := by omega
  by_cases h1 : 13 + i < 32
  · simp [h0, h1]
  · have h2 : a.testBit (13 + i) = false := testBit_u32_high a _ ha (by omega)
    simp [h0, h1, h2]

theorem tlb_look_entry_not_ok (cpu : cpu_t) (addr : Nat) (wr : Bool) (e : tlb_entry_t)
    (i : Nat) (h : (tlb_look_entry cpu addr wr e i).1 ≠ TLBL_OK) :
    (tlb_look_entry cpu addr wr e i).2 = (addr, cpu) := by
  unfold tlb_look_entry at h ⊢
  simp only at h ⊢
  split_ifs at h ⊢
  all_goals first
    | rfl
    | exact absurd rfl h

theorem tlb_look_loop_not_ok (cpu : cpu_t) (addr : Nat) (wr : Bool) (hint : Nat) :
    ∀ n i, (tlb_look_loop cpu addr wr hint n i).1 ≠ TLBL_OK →
      (tlb_look_loop cpu addr wr hint n i).2 = (addr, cpu) := by
  intro n
  induction n with
  | zero => intro i _; rfl
  | succ n ih =>
    intro i h
    rw [tlb_look_loop_step] at h ⊢
    split_ifs at h ⊢
    · exact tlb_look_entry_not_ok _ _ _ _ _ h
    · exact ih _ h

/-- A lookup that does not end `OK` leaves the address and the processor as
they were. -/
theorem tlb_look_not_ok (cpu : cpu_t) (addr : Nat) (wr : Bool)
    (h : (tlb_look cpu addr wr).1 ≠ TLBL_OK) : (tlb_look cpu addr wr).2 = (addr, cpu) := by
  unfold tlb_look at h ⊢
  split_ifs at h ⊢
  · exact absurd rfl h
  · exact tlb_look_loop_not_ok _ _ _ _ _ _ h

/-- The three faults of a noisy `tlb_hit`, each with its counter. -/
theorem tlb_hit_noisy (cpu : cpu_t) (addr : Nat) (wr : Bool) :
    ((tlb_look cpu addr wr).1 = TLBL_OK ∧ (tlb_hit cpu addr wr true).1 = excNone)
      ∨ ((tlb_look cpu addr wr).1 = TLBL_REFILL ∧ tlb_hit cpu addr wr true
          = (excTLBR, addr,
              fill_tlb_error { cpu with tlb_refill := u64 (cpu.tlb_refill + 1) } addr))
      ∨ ((tlb_look cpu addr wr).1 = TLBL_INVALID ∧ tlb_hit cpu addr wr true
          = (excTLB, addr,
              fill_tlb_error { cpu with tlb_invalid := u64 (cpu.tlb_invalid + 1) } addr))
      ∨ ((tlb_look cpu addr wr).1 = TLBL_MODIFIED ∧ tlb_hit cpu addr wr true
          = (excMod, addr,
              fill_tlb_error { cpu with tlb_modified := u64 (cpu.tlb_modified + 1) } addr)) := by
  have h := tlb_look_not_ok cpu addr wr
  unfold tlb_hit
  rcases hl : tlb_look cpu addr wr with ⟨r, a, c⟩
  rw [hl] at h
  cases r
  · exact Or.inl ⟨rfl, rfl⟩
  · have e := h (by simp)
    simp only [Prod.mk.injEq] at e
    obtain ⟨rfl, rfl⟩ := e
    exact Or.inr (Or.inl ⟨rfl, rfl⟩)
  · have e := h (by simp)
    simp only [Prod.mk.injEq] at e
    obtain ⟨rfl, rfl⟩ := e
    exact Or.inr (Or.inr (Or.inl ⟨rfl, rfl⟩))
  · have e := h (by simp)
    simp only [Prod.mk.injEq] at e
    obtain ⟨rfl, rfl⟩ := e
    exact Or.inr (Or.inr (Or.inr ⟨rfl, rfl⟩))

/-- A translation ends in the result of `tlb_hit`, in an address error, or
without fault. -/
theorem convert_addr_cases (cpu : cpu_t) (addr : Nat) (wr noisy : Bool) :
    convert_addr cpu addr wr noisy = tlb_hit cpu addr wr noisy
      ∨ (convert_addr cpu addr wr noisy).1 = excAddrError
      ∨ (convert_addr cpu addr wr noisy).1 = excNone := by
  unfold convert_addr convert_addr_user convert_addr_supervisor convert_addr_kernel
  split_ifs
  all_goals first
    | exact Or.inl rfl
    | exact Or.inr (Or.inl rfl)
    | exact Or.inr (Or.inr rfl)

theorem fill_tlb_error_badvaddr (c : cpu_t) (a : Nat) :
    (fill_tlb_error c a).cp0 cp0_BadVAddr = a := by
  unfold fill_tlb_error cpu_t.set_cp0
  simp only
  rw [upd_ne _ _ _ _ (by decide), upd_ne _ _ _ _ (by decide), upd_ne _ _ _ _ (by decide),
    upd_ne _ _ _ _ (by decide), upd_same]

theorem fill_tlb_error_context (c : cpu_t) (a : Nat) :
    (fill_tlb_error c a).cp0 cp0_Context
      = (c.cp0 cp0_Context &&& cp0_context_ptebase_mask)
          ||| ((a >>> cp0_context_addr_shift) &&& not32 cp0_context_res1_mask) := by
  unfold fill_tlb_error cpu_t.set_cp0 cp0_context
  simp only
  rw [upd_ne _ _ _ _ (by decide), upd_ne _ _ _ _ (by decide), upd_same, upd_same,
    upd_ne _ _ _ _ (by decide)]

theorem fill_tlb_error_entryhi (c : cpu_t) (a : Nat) :
    (fill_tlb_error c a).cp0 cp0_EntryHi
      = (c.cp0 cp0_EntryHi &&& cp0_entryhi_asid_mask) ||| (a &&& cp0_entryhi_vpn2_mask) := by
  unfold fill_tlb_error cpu_t.set_cp0 cp0_entryhi
  simp only
  rw [upd_same, upd_same, upd_ne _ _ _ _ (by decide), upd_ne _ _ _ _ (by decide),
    upd_ne _ _ _ _ (by decide)]

theorem fill_tlb_error_counters (c : cpu_t) (a : Nat) :
    (fill_tlb_error c a).tlb_refill = c.tlb_refill
      ∧ (fill_tlb_error c a).tlb_invalid = c.tlb_invalid
      ∧ (fill_tlb_error c a).tlb_modified = c.tlb_modified := ⟨rfl, rfl, rfl⟩

/-- The registers `fill_tlb_error` leaves behind. -/
theorem fill_tlb_error_fields (c c0 : cpu_t) (a : Nat) (ha : a < 2 ^ 32) (h : c.cp0 = c0.cp0) :
    (fill_tlb_error c a).cp0 cp0_BadVAddr = a
      ∧ cp0_context_ptebase (fill_tlb_error c a) = cp0_context_ptebase c0
      ∧ cp0_context_badvpn2 (fill_tlb_error c a) = a >>> 13
      ∧ cp0_context_res1 (fill_tlb_error c a) = 0
      ∧ cp0_entryhi_asid (fill_tlb_error c a) = cp0_entryhi_asid c0
      ∧ cp0_entryhi_vpn2 (fill_tlb_error c a) = a >>> 13 := by
  refine ⟨fill_tlb_error_badvaddr c a, ?_, ?_, ?_, ?_, ?_⟩
  · unfold cp0_context_ptebase cp0_context
    rw [fill_tlb_error_context, context_ptebase_kept _ _ ha, h]
  · unfold cp0_context_badvpn2 cp0_context
    rw [fill_tlb_error_context, context_badvpn2_set _ _ ha]
  · unfold cp0_context_res1 cp0_context
    rw [fill_tlb_error_context, context_res1_zero]
  · unfold cp0_entryhi_asid cp0_entryhi
    rw [fill_tlb_error_entryhi, entryhi_asid_kept, h]
  · unfold cp0_entryhi_vpn2 cp0_entryhi
    rw [fill_tlb_error_entryhi, entryhi_vpn2_set _ _ ha]

/-- C13: when the noisy translation of `vaddr` ends in a TLB refill
(`excTLBR`), TLB invalid (`excTLB`) or TLB modified (`excMod`) fault, then
afterwards `BadVAddr = vaddr`, `Context` keeps `PTEBase` and has `BadVPN2`
equal to bits 31..13 of `vaddr` and bits 3..0 zero, `EntryHi` keeps its ASID
and has `VPN2` equal to bits 31..13 of `vaddr`, and the counter of the fault
kind, and only that one, is incremented by 1 (as a 64-bit counter). -/
theorem tlb_fault_registers (cpu : cpu_t) (vaddr : Nat) (wr : Bool) (hv : vaddr < 2 ^ 32)
    (h : (convert_addr cpu vaddr wr true).1 = excTLBR
      ∨ (convert_addr cpu vaddr wr true).1 = excTLB
      ∨ (convert_addr cpu vaddr wr true).1 = excMod) :
    (convert_addr cpu vaddr wr true).2.2.cp0 cp0_BadVAddr = vaddr
      ∧ cp0_context_ptebase (convert_addr cpu vaddr wr true).2.2 = cp0_context_ptebase cpu
      ∧ cp0_context_badvpn2 (convert_addr cpu vaddr wr true).2.2 = vaddr >>> 13
      ∧ cp0_context_res1 (convert_addr cpu vaddr wr true).2.2 = 0
      ∧ cp0_entryhi_asid (convert_addr cpu vaddr wr true).2.2 = cp0_entryhi_asid cpu
      ∧ cp0_entryhi_vpn2 (convert_addr cpu vaddr wr true).2.2 = vaddr >>> 13
      ∧ (convert_addr cpu vaddr wr true).2.2.tlb_refill
          = (if (convert_addr cpu vaddr wr true).1 = excTLBR then u64 (cpu.tlb_refill + 1)
             else cpu.tlb_refill)
      ∧ (convert_addr cpu vaddr wr true).2.2.tlb_invalid
          = (if (convert_addr cpu vaddr wr true).1 = excTLB then u64 (cpu.tlb_invalid + 1)
             else cpu.tlb_invalid)
      ∧ (convert_addr cpu vaddr wr true).2.2.tlb_modified
          = (if (convert_addr cpu vaddr wr true).1 = excMod then u64 (cpu.tlb_modified + 1)
             else cpu.tlb_modified) := by
  rcases convert_addr_cases cpu vaddr wr true with hc | hc | hc
  · rw [hc] at h ⊢
    rcases tlb_hit_noisy cpu vaddr wr with ⟨-, h1⟩ | ⟨-, h1⟩ | ⟨-, h1⟩ | ⟨-, h1⟩
    · rw [h1] at h
      rcases h with h | h | h <;> exact absurd h (by decide)
    all_goals
      rw [h1]
      obtain ⟨f1, f2, f3, f4, f5, f6⟩ := fill_tlb_error_fields _ cpu vaddr hv rfl
      exact ⟨f1, f2, f3, f4, f5, f6, rfl, rfl, rfl⟩
  · rw [hc] at h
    rcases h with h | h | h <;> exact absurd h (by decide)
  · rw [hc] at h
    rcases h with h | h | h <;> exact absurd h (by decide)

/-- A read of the kseg2 address `0xC0001000`: the two written entries of
`tlb_demo_cpu` do not match, the zero-filled entry 2 does and is not valid, so
the translation ends in `excTLB`; `BadVAddr` is the address, `BadVPN2` its bits
31..13, and `tlb_invalid` counts 1. -/
theorem tlb_fault_registers_witness :
    ((0xc0001000 : Nat) < 2 ^ 32 ∧ (convert_addr tlb_demo_cpu 0xc0001000 false true).1 = excTLB)
      ∧ (convert_addr tlb_demo_cpu 0xc0001000 false true).2.2.cp0 cp0_BadVAddr = 0xc0001000
      ∧ cp0_context_badvpn2 (convert_addr tlb_demo_cpu 0xc0001000 false true).2.2 = 0x60000
      ∧ (convert_addr tlb_demo_cpu 0xc0001000 false true).2.2.tlb_invalid = 1
      ∧ (convert_addr tlb_demo_cpu 0xc0001000 false true).2.2.tlb_refill = 0 :=
  ⟨⟨by decide, by decide⟩,
    (tlb_fault_registers tlb_demo_cpu 0xc0001000 false (by decide)
      (Or.inr (Or.inl (by decide)))).1,
    (tlb_fault_registers tlb_demo_cpu 0xc0001000 false (by decide)
      (Or.inr (Or.inl (by decide)))).2.2.1.trans (by decide),
    (tlb_fault_registers tlb_demo_cpu 0xc0001000 false (by decide)
      (Or.inr (Or.inl (by decide)))).2.2.2.2.2.2.2.1.trans (by decide),
    (tlb_fault_registers tlb_demo_cpu 0xc0001000 false (by decide)
      (Or.inr (Or.inl (by decide)))).2.2.2.2.2.2.1.trans (by decide)⟩

theorem and_sbit_of_lt (a : Nat) (ha : a < 0x80000000) : a &&& SBIT = 0 := by
  rw [sbit_and_eq]
  exact Nat.testBit_lt_two_pow ha

/-- With a zero-filled TLB and ASID 0 every lookup of a kuseg address hits the
first entry visited, whose page is not valid. -/
theorem tlb_look_zero_tlb (cpu : cpu_t) (addr : Nat) (wr : Bool)
    (hts : cp0_status_ts cpu = 0) (hz : ∀ i, i < TLB_ENTRIES → cpu.tlb i = tlb_entry_zero)
    (hasid : cp0_entryhi_asid cpu = 0) (ha : addr < 0x80000000) :
    tlb_look cpu addr wr = (TLBL_INVALID, addr, cpu) := by
  unfold tlb_look
  rw [if_neg (by rw [hts]; decide)]
  have e : TLB_ENTRIES = 47 + 1 := rfl
  have hm : tlb_entry_matches cpu addr tlb_entry_zero := by
    unfold tlb_entry_matches
    exact ⟨Nat.and_zero addr, Or.inr hasid.symm⟩
  conv_lhs => rw [e]
  rw [tlb_look_loop_step, hz _ (Nat.mod_lt _ (by decide)), if_pos hm]
  unfold tlb_look_entry
  have h0 : (tlb_entry_zero.mask >>> 1) ||| SBIT = SBIT := by decide
  have h1 : addr &&& tlb_entry_zero.mask = 0 := Nat.and_zero addr
  simp only [h0, h1, and_sbit_of_lt addr ha, Nat.lt_irrefl, if_false]
  rfl

/-- With no matching entry the lookup ends in `REFILL`. -/
theorem tlb_look_no_match (cpu : cpu_t) (addr : Nat) (wr : Bool)
    (hts : cp0_status_ts cpu = 0)
    (hno : ∀ i, i < TLB_ENTRIES → ¬ tlb_entry_matches cpu addr (cpu.tlb i)) :
    tlb_look cpu addr wr = (TLBL_REFILL, addr, cpu) := by
  unfold tlb_look
  rw [if_neg (by rw [hts]; decide)]
  exact tlb_look_loop_miss cpu addr wr cpu.tlb_hint TLB_ENTRIES 0
    (fun j _ _ => hno _ (Nat.mod_lt _ (by decide)))

theorem convert_addr_user_kuseg (cpu : cpu_t) (addr : Nat) (wr noisy : Bool)
    (hu : user_mode cpu) (ha : addr < 0x80000000) :
    convert_addr cpu addr wr noisy = tlb_hit cpu addr wr noisy := by
  unfold user_mode at hu
  unfold convert_addr convert_addr_user
  rw [if_pos hu, if_neg (by rw [and_sbit_of_lt addr ha]; simp)]

/-- The translation of a kuseg address in user mode over a zero-filled TLB:
TLB invalid. -/
theorem convert_addr_zero_tlb (cpu : cpu_t) (addr : Nat) (wr : Bool) (hu : user_mode cpu)
    (hts : cp0_status_ts cpu = 0) (hz : ∀ i, i < TLB_ENTRIES → cpu.tlb i = tlb_entry_zero)
    (hasid : cp0_entryhi_asid cpu = 0) (ha : addr < 0x80000000) :
    convert_addr cpu addr wr true
      = (excTLB, addr,
          fill_tlb_error { cpu with tlb_invalid := u64 (cpu.tlb_invalid + 1) } addr) := by
  rw [convert_addr_user_kuseg cpu addr wr true hu ha]
  unfold tlb_hit
  rw [tlb_look_zero_tlb cpu addr wr hts hz hasid ha]
  rfl

/-- The translation of a kuseg address in user mode when no entry matches:
TLB refill. -/
theorem convert_addr_no_match (cpu : cpu_t) (addr : Nat) (wr : Bool) (hu : user_mode cpu)
    (hts : cp0_status_ts cpu = 0)
    (hno : ∀ i, i < TLB_ENTRIES → ¬ tlb_entry_matches cpu addr (cpu.tlb i))
    (ha : addr < 0x80000000) :
    convert_addr cpu addr wr true
      = (excTLBR, addr,
          fill_tlb_error { cpu with tlb_refill := u64 (cpu.tlb_refill + 1) } addr) := by
  rw [convert_addr_user_kuseg cpu addr wr true hu ha]
  unfold tlb_hit
  rw [tlb_look_no_match cpu addr wr hts hno]
  rfl

theorem mem_align_test_ok (cpu : cpu_t) (addr size : Nat) (noisy : Bool)
    (hal : addr &&& 3 = 0) : mem_align_test cpu addr size noisy = (excNone, cpu) := by
  have h1 : addr &&& 1 = 0 := by
    have e3 : addr &&& 3 = addr % 4 := Nat.and_pow_two_sub_one_eq_mod addr 2
    have e1 : addr &&& 1 = addr % 2 := Nat.and_pow_two_sub_one_eq_mod addr 1
    omega
  unfold mem_align_test
  rw [if_neg]
  rintro (⟨-, h⟩ | ⟨-, h⟩)
  · exact h h1
  · exact h hal

/-- A read or fetch access whose translation faults with the read watch off
returns the tag of the translation and the processor it left. -/
theorem acc_mem_translation_fault (E : machine_t M) (s : sim_t M) (mode : acc_mode_t)
    (addr size value : Nat) (res : exc_t) (a : Nat) (c : cpu_t) (hal : addr &&& 3 = 0)
    (hc : convert_addr s.cpu addr (decide (mode = AM_WRITE)) true = (res, a, c))
    (hres : res ≠ excNone)
    (hw : mode = AM_FETCH ∨ (mode = AM_READ ∧ cp0_watchlo_r c = 0)) :
    acc_mem E s mode addr size value true = (res, value, { s with cpu := c }) := by
  unfold acc_mem
  rw [mem_align_test_ok s.cpu addr size true hal]
  simp only [hc]
  have hcond : ¬ (((cp0_watchlo_r c ≠ 0 ∧ mode = AM_READ)
      ∨ (cp0_watchlo_w c ≠ 0 ∧ mode = AM_WRITE)) ∧ c.waddr = a >>> 3) := by
    rintro ⟨h | h, -⟩
    · rcases hw with hw | hw
      · rw [hw] at h; exact absurd h.2 (by decide)
      · exact h.1 hw.2
    · rcases hw with hw | hw
      · rw [hw] at h; exact absurd h.2 (by decide)
      · rw [hw.1] at h; exact absurd h.2 (by decide)
  rw [if_neg hcond]
  unfold acc_mem_access
  rw [if_neg hres]

theorem fill_tlb_error_watchlo (c : cpu_t) (a : Nat) :
    cp0_watchlo_r (fill_tlb_error c a) = cp0_watchlo_r c := by
  unfold cp0_watchlo_r cp0_watchlo fill_tlb_error cpu_t.set_cp0
  simp only
  rw [upd_ne _ _ _ _ (by decide), upd_ne _ _ _ _ (by decide), upd_ne _ _ _ _ (by decide),
    upd_ne _ _ _ _ (by decide), upd_ne _ _ _ _ (by decide)]

theorem tlb_look_entry_cp0 (cpu : cpu_t) (addr : Nat) (wr : Bool) (e : tlb_entry_t) (i : Nat) :
    (tlb_look_entry cpu addr wr e i).2.2.cp0 = cpu.cp0 := by
  unfold tlb_look_entry
  simp only
  split_ifs <;> rfl

theorem tlb_look_loop_cp0 (cpu : cpu_t) (addr : Nat) (wr : Bool) (hint : Nat) :
    ∀ n i, (tlb_look_loop cpu addr wr hint n i).2.2.cp0 = cpu.cp0 := by
  intro n
  induction n with
  | zero => intro i; rfl
  | succ n ih =>
    intro i
    rw [tlb_look_loop_step]
    split_ifs
    · exact tlb_look_entry_cp0 _ _ _ _ _
    · exact ih _

/-- The lookup itself never writes a coprocessor 0 register. -/
theorem tlb_look_cp0 (cpu : cpu_t) (addr : Nat) (wr : Bool) :
    (tlb_look cpu addr wr).2.2.cp0 = cpu.cp0 := by
  unfold tlb_look
  split_ifs
  · rfl
  · exact tlb_look_loop_cp0 _ _ _ _ _ _

theorem tlb_hit_ok_cp0 (cpu : cpu_t) (addr : Nat) (wr noisy : Bool)
    (h : (tlb_hit cpu addr wr noisy).1 = excNone) :
    (tlb_hit cpu addr wr noisy).2.2.cp0 = cpu.cp0 := by
  have hl := tlb_look_cp0 cpu addr wr
  unfold tlb_hit at h ⊢
  rcases hr : tlb_look cpu addr wr with ⟨r, a, c⟩
  rw [hr] at hl h
  cases r
  · exact hl
  · simp only at h
    split_ifs at h
  · simp only at h
    split_ifs at h
  · simp only at h
    split_ifs at h

/-- A translation without fault leaves the coprocessor 0 registers alone. -/
theorem convert_addr_ok_cp0 (cpu : cpu_t) (addr : Nat) (wr noisy : Bool)
    (h : (convert_addr cpu addr wr noisy).1 = excNone) :
    (convert_addr cpu addr wr noisy).2.2.cp0 = cpu.cp0 := by
  unfold convert_addr convert_addr_user convert_addr_supervisor convert_addr_kernel at h ⊢
  split_ifs at h ⊢
  all_goals first
    | with_reducible rfl
    | exact tlb_hit_ok_cp0 _ _ _ _ h

theorem acc_mem_access_cp0 (E : machine_t M) (s : sim_t M) (mode : acc_mode_t) (res : exc_t)
    (addr size value : Nat) :
    (acc_mem_access E s mode res addr size value).2.2.cpu.cp0 = s.cpu.cp0
      ∧ (acc_mem_access E s mode res addr size value).1 = res := by
  unfold acc_mem_access
  split_ifs
  · exact ⟨bus_write_cpu_cp0 _ _ _ _ _ _, rfl⟩
  · exact ⟨rfl, rfl⟩
  · exact ⟨rfl, rfl⟩

theorem mem_align_test_ok_cpu (cpu : cpu_t) (addr size : Nat) (noisy : Bool)
    (h : (mem_align_test cpu addr size noisy).1 = excNone) :
    (mem_align_test cpu addr size noisy).2 = cpu := by
  unfold mem_align_test at h ⊢
  split_ifs at h ⊢
  rfl

/-- An access without fault leaves the coprocessor 0 registers alone. -/
theorem acc_mem_ok_cp0 (E : machine_t M) (s : sim_t M) (mode : acc_mode_t)
    (addr size value : Nat) (noisy : Bool)
    (h : (acc_mem E s mode addr size value noisy).1 = excNone) :
    (acc_mem E s mode addr size value noisy).2.2.cpu.cp0 = s.cpu.cp0 := by
  have hal := mem_align_test_ok_cpu s.cpu addr size noisy
  unfold acc_mem at h ⊢
  rcases ha : mem_align_test s.cpu addr size noisy with ⟨r, c⟩
  rw [ha] at h hal
  have hcc := convert_addr_ok_cp0 c addr (decide (mode = AM_WRITE)) noisy
  rcases hc : convert_addr c addr (decide (mode = AM_WRITE)) noisy with ⟨r2, pa, c2⟩
  rw [hc] at hcc
  cases r <;> simp only [hc] at h ⊢
  all_goals try (cases h)
  have hcs : c = s.cpu := hal rfl
  subst hcs
  split_ifs at h ⊢
  · have h1 := acc_mem_access_cp0 E
      { s with cpu := { c2 with wpending := true, wexcaddr := c2.pc } } mode r2 pa size value
    rw [h1.1]
    rw [h1.2] at h
    exact hcc h
  · have h1 := acc_mem_access_cp0 E { s with cpu := c2 } mode r2 pa size value
    rw [h1.1]
    rw [h1.2] at h
    exact hcc h

theorem cpu_fetch_mem_ok_cp0 (E : machine_t M) (s : sim_t M) (addr size value : Nat)
    (noisy : Bool) (h : (acc_mem E s AM_FETCH addr size value noisy).1 = excNone) :
    (cpu_fetch_mem E s addr size value noisy).2.2.cpu.cp0 = s.cpu.cp0 := by
  have h1 := acc_mem_ok_cp0 E s AM_FETCH addr size value noisy h
  unfold cpu_fetch_mem
  rcases hr : acc_mem E s AM_FETCH addr size value noisy with ⟨r, v, s1⟩
  rw [hr] at h h1
  simp only at h
  subst h
  exact h1

theorem tlb_look_entry_read (cpu : cpu_t) (addr : Nat) (e : tlb_entry_t) (i : Nat) :
    (tlb_look_entry cpu addr false e i).1 ≠ TLBL_MODIFIED := by
  unfold tlb_look_entry
  simp only
  split_ifs
  all_goals first
    | (rename_i h; exact absurd h.1 (by simp))
    | (intro h; cases h)

theorem tlb_look_loop_read (cpu : cpu_t) (addr hint : Nat) :
    ∀ n i, (tlb_look_loop cpu addr false hint n i).1 ≠ TLBL_MODIFIED := by
  intro n
  induction n with
  | zero => intro i; simp [tlb_look_loop]
  | succ n ih =>
    intro i
    rw [tlb_look_loop_step]
    split_ifs
    · exact tlb_look_entry_read _ _ _ _
    · exact ih _

/-- A lookup for a read never ends in `MODIFIED`. -/
theorem tlb_look_read (cpu : cpu_t) (addr : Nat) :
    (tlb_look cpu addr false).1 ≠ TLBL_MODIFIED := by
  unfold tlb_look
  split_ifs
  · simp
  · exact tlb_look_loop_read _ _ _ _ _

/-- The tags of `tlb_hit`; `excMod` only for a write. -/
theorem tlb_hit_tags (cpu : cpu_t) (addr : Nat) (wr noisy : Bool) :
    (tlb_hit cpu addr wr noisy).1 = excNone ∨ (tlb_hit cpu addr wr noisy).1 = excTLBR
      ∨ (tlb_hit cpu addr wr noisy).1 = excTLB
      ∨ ((tlb_hit cpu addr wr noisy).1 = excMod ∧ wr = true) := by
  have hr := tlb_look_read cpu addr
  unfold tlb_hit
  rcases hl : tlb_look cpu addr wr with ⟨r, a, c⟩
  cases r
  · exact Or.inl rfl
  · right; left
    simp only
    split_ifs <;> rfl
  · right; right; left
    simp only
    split_ifs <;> rfl
  · right; right; right
    refine ⟨by simp only; split_ifs <;> rfl, ?_⟩
    cases wr
    · rw [hl] at hr
      exact absurd rfl hr
    · rfl

/-- The tags of `convert_addr`; `excMod` only for a write. -/
theorem convert_addr_tags (cpu : cpu_t) (addr : Nat) (wr noisy : Bool) :
    (convert_addr cpu addr wr noisy).1 = excNone
      ∨ (convert_addr cpu addr wr noisy).1 = excAddrError
      ∨ (convert_addr cpu addr wr noisy).1 = excTLBR
      ∨ (convert_addr cpu addr wr noisy).1 = excTLB
      ∨ ((convert_addr cpu addr wr noisy).1 = excMod ∧ wr = true) := by
  rcases convert_addr_cases cpu addr wr noisy with h | h | h
  · rw [h]
    rcases tlb_hit_tags cpu addr wr noisy with h1 | h1 | h1 | h1
    · exact Or.inl h1
    · exact Or.inr (Or.inr (Or.inl h1))
    · exact Or.inr (Or.inr (Or.inr (Or.inl h1)))
    · exact Or.inr (Or.inr (Or.inr (Or.inr h1)))
  · exact Or.inr (Or.inl h)
  · exact Or.inl h

/-- The tags of `acc_mem`: `excMod` only for a write, `excWATCH` never for a
fetch. -/
theorem acc_mem_tags (E : machine_t M) (s : sim_t M) (mode : acc_mode_t)
    (addr size value : Nat) (noisy : Bool) :
    (acc_mem E s mode addr size value noisy).1 = excNone
      ∨ (acc_mem E s mode addr size value noisy).1 = excAddrError
      ∨ (acc_mem E s mode addr size value noisy).1 = excTLBR
      ∨ (acc_mem E s mode addr size value noisy).1 = excTLB
      ∨ ((acc_mem E s mode addr size value noisy).1 = excMod ∧ mode = AM_WRITE)
      ∨ ((acc_mem E s mode addr size value noisy).1 = excWATCH ∧ mode ≠ AM_FETCH) := by
  unfold acc_mem mem_align_test
  split_ifs
  · exact Or.inr (Or.inl rfl)
  · simp only
    have hc := convert_addr_tags s.cpu addr (decide (mode = AM_WRITE)) noisy
    rcases hr : convert_addr s.cpu addr (decide (mode = AM_WRITE)) noisy with ⟨r, a, c⟩
    rw [hr] at hc
    simp only at hc ⊢
    have hres : r = excNone ∨ r = excAddrError ∨ r = excTLBR ∨ r = excTLB
        ∨ (r = excMod ∧ mode = AM_WRITE) := by
      simpa using hc
    have hlift : ∀ x : exc_t, x = r →
        (x = excNone ∨ x = excAddrError ∨ x = excTLBR ∨ x = excTLB
          ∨ (x = excMod ∧ mode = AM_WRITE) ∨ (x = excWATCH ∧ mode ≠ AM_FETCH)) := by
      intro x hx
      rw [hx]
      tauto
    split_ifs with hw hx
    · exact hlift _ (acc_mem_access_cp0 E _ mode r a size value).2
    · refine Or.inr (Or.inr (Or.inr (Or.inr (Or.inr ⟨rfl, ?_⟩))))
      rcases hw.1 with h | h
      · rw [h.2]; decide
      · rw [h.2]; decide
    · exact hlift _ (acc_mem_access_cp0 E _ mode r a size value).2

/-- A fetch that reports no fault made its access without fault. -/
theorem cpu_fetch_mem_ok (E : machine_t M) (s : sim_t M) (addr size value : Nat)
    (noisy : Bool) (h : (cpu_fetch_mem E s addr size value noisy).1 = excNone) :
    (acc_mem E s AM_FETCH addr size value noisy).1 = excNone := by
  have ht := acc_mem_tags E s AM_FETCH addr size value noisy
  unfold cpu_fetch_mem at h
  rcases hr : acc_mem E s AM_FETCH addr size value noisy with ⟨r, v, s1⟩
  rw [hr] at h ht
  simp only at ht ⊢
  rcases ht with h1 | h1 | h1 | h1 | h1 | h1
  · exact h1
  · subst h1; cases h
  · subst h1; cases h
  · subst h1; cases h
  · exact absurd h1.2 (by decide)
  · exact absurd rfl h1.2

/-- A successful instruction fetch leaves the coprocessor 0 registers
alone. -/
theorem cpu_read_ins_ok_cp0 (E : machine_t M) (s : sim_t M) (addr value : Nat) (noisy : Bool)
    (h : (cpu_read_ins E s addr value noisy).1 = excNone) :
    (cpu_read_ins E s addr value noisy).2.2.cpu.cp0 = s.cpu.cp0 := by
  have h1 : (cpu_fetch_mem E s addr BITS_32 value noisy).1 = excNone := by
    unfold cpu_read_ins at h
    rcases hr : cpu_fetch_mem E s addr BITS_32 value noisy with ⟨r, v, s1⟩
    rw [hr] at h
    simp only at h ⊢
    split_ifs at h <;> exact h
  have h2 := cpu_fetch_mem_ok_cp0 E s addr BITS_32 value noisy
    (cpu_fetch_mem_ok E s addr BITS_32 value noisy h1)
  unfold cpu_read_ins
  rcases hr : cpu_fetch_mem E s addr BITS_32 value noisy with ⟨r, v, s1⟩
  rw [hr] at h1 h2
  simp only at h1 h2 ⊢
  rw [if_neg (fun hh => hh.1 h1)]
  exact h2

theorem handle_exception_cp0_other (cpu : cpu_t) (res : exc_t) (i : Nat)
    (h1 : i ≠ cp0_Cause) (h2 : i ≠ cp0_EPC) (h3 : i ≠ cp0_Status) :
    (handle_exception cpu res).cp0 i = cpu.cp0 i := by
  unfold handle_exception
  simp only [cpu_t.set_cp0, cpu_set_pc]
  rw [upd_ne _ _ _ _ h3, he_epc_cp0 _ _ _ h2, he_cause_cp0 _ _ _ h1, he_standby_cp0]

theorem manage_fault_pc (cpu : cpu_t) (res : exc_t) (h : res ≠ excNone) :
    (manage cpu res).pc = (handle_exception cpu res).pc := by
  rw [manage_fault cpu res h, (manage_timer_cp0_only _).1.pc, (manage_count_cp0_only _).1.pc]

/-- A step whose instruction ends in a load-side TLB fault, taken with `EXL`
and `BEV` clear: the vector is `0x80000000` for a refill and `0x80000180`
otherwise. -/
theorem cpu_step_tlb_load_fault (E : machine_t M) (s : sim_t M)
    (hexl : cp0_status_exl s.cpu = 0) (hbev : cp0_status_bev s.cpu = 0)
    (hf : (cpu_step_instr E s).1 = excTLBL ∨ (cpu_step_instr E s).1 = excTLBLR) :
    (cpu_step E s).cpu.cp0 cp0_BadVAddr = (cpu_step_instr E s).2.cpu.cp0 cp0_BadVAddr
      ∧ cp0_cause_exccode (cpu_step E s).cpu = 2
      ∧ cp0_status_exl (cpu_step E s).cpu = 1
      ∧ (cpu_step E s).cpu.pc
          = (if (cpu_step_instr E s).1 = excTLBLR then 0x80000000 else 0x80000180) := by
  have hne : (cpu_step_instr E s).1 ≠ excNone := by
    rcases hf with h | h <;> rw [h] <;> decide
  have hs := cpu_step_instr_standby E s hne
  obtain ⟨-, -, -, -, hst, -, -⟩ := step_fault_state E s hs hne
  obtain ⟨-, -, h3, h4⟩ := cpu_step_fault_cp0 E s hs hexl hne
  have hexl1 : cp0_status_exl (cpu_step_instr E s).2.cpu = 0 := by
    unfold cp0_status_exl cp0_status at hexl ⊢
    rw [hst]; exact hexl
  have hbev1 : cp0_status_bev (cpu_step_instr E s).2.cpu = 0 := by
    unfold cp0_status_bev cp0_status at hbev ⊢
    rw [hst]; exact hbev
  refine ⟨?_, ?_, h4, ?_⟩
  · rw [cpu_step_cp0, manage_fault _ _ hne, manage_timer_cp0 _ _ (by decide),
      manage_count_cp0 _ _ (by decide) (by decide),
      handle_exception_cp0_other _ _ _ (by decide) (by decide) (by decide)]
  · rw [h3]
    rcases hf with h | h <;> rw [h] <;> decide
  · rw [cpu_step_pc0, manage_fault_pc _ _ hne, handle_exception_pc,
      he_vector_value _ _ (by rcases hf with h | h <;> rw [h] <;> decide), hbev1, hexl1]
    rcases hf with h | h <;> rw [h] <;> decide

theorem cpu_read_mem_tlb_fault (E : machine_t M) (s : sim_t M) (addr size value : Nat)
    (res : exc_t) (a : Nat) (c : cpu_t) (hal : addr &&& 3 = 0)
    (hc : convert_addr s.cpu addr false true = (res, a, c))
    (hres : res = excTLB ∨ res = excTLBR) (hw : cp0_watchlo_r c = 0) :
    cpu_read_mem E s addr size value true
      = (if res = excTLB then excTLBL else excTLBLR, value, { s with cpu := c }) := by
  have hne : res ≠ excNone := by rcases hres with h | h <;> rw [h] <;> decide
  unfold cpu_read_mem
  rw [acc_mem_translation_fault E s AM_READ addr size value res a c hal hc hne
    (Or.inr ⟨rfl, hw⟩)]
  rcases hres with h | h <;> subst h <;> rfl

theorem cpu_read_ins_tlb_fault (E : machine_t M) (s : sim_t M) (addr value : Nat)
    (res : exc_t) (a : Nat) (c : cpu_t) (hal : addr &&& 3 = 0)
    (hc : convert_addr s.cpu addr false true = (res, a, c))
    (hres : res = excTLB ∨ res = excTLBR) :
    (cpu_read_ins E s addr value true).1 = (if res = excTLB then excTLBL else excTLBLR)
      ∧ (cpu_read_ins E s addr value true).2.2.cpu.cp0 = c.cp0 := by
  have hne : res ≠ excNone := by rcases hres with h | h <;> rw [h] <;> decide
  unfold cpu_read_ins cpu_fetch_mem
  rw [acc_mem_translation_fault E s AM_FETCH addr BITS_32 value res a c hal hc hne (Or.inl rfl)]
  rcases hres with h | h
  · subst h
    rw [if_pos rfl]
    dsimp only
    split_ifs <;> exact ⟨rfl, rfl⟩
  · subst h
    rw [if_neg (by decide)]
    dsimp only
    split_ifs <;> exact ⟨rfl, rfl⟩

/-- The plain loads end with the tag of their `cpu_read_mem`, and on a fault
with the coprocessor 0 registers it left. -/
theorem exec_switch_plain_load (E : machine_t M) (s : sim_t M) (ii : instr_info_t)
    (hop : is_plain_load ii.opcode) :
    ∃ size value,
      (exec_switch E s ii).res
          = (cpu_read_mem E s (eff_addr (s.cpu.regs ii.rs) ii) size value true).1
        ∧ ((exec_switch E s ii).res ≠ excNone →
            (exec_switch E s ii).s.cpu.cp0
              = (cpu_read_mem E s (eff_addr (s.cpu.regs ii.rs) ii) size value true).2.2.cpu.cp0) := by
  have hl : ∀ size (f : Nat → Nat),
      (exec_load E s ii (add32 s.cpu.pc_next 4) (s.cpu.regs ii.rs) size f).res
          = (cpu_read_mem E s (eff_addr (s.cpu.regs ii.rs) ii) size 0 true).1
        ∧ ((exec_load E s ii (add32 s.cpu.pc_next 4) (s.cpu.regs ii.rs) size f).res ≠ excNone →
          (exec_load E s ii (add32 s.cpu.pc_next 4) (s.cpu.regs ii.rs) size f).s.cpu.cp0
            = (cpu_read_mem E s (eff_addr (s.cpu.regs ii.rs) ii) size 0 true).2.2.cpu.cp0) := by
    intro size f
    unfold exec_load
    rcases cpu_read_mem E s (eff_addr (s.cpu.regs ii.rs) ii) size 0 true with ⟨r, v, s1⟩
    simp only
    split_ifs with h
    · exact ⟨rfl, fun h2 => absurd h h2⟩
    · exact ⟨rfl, fun _ => rfl⟩
  rcases hop with hop | hop | hop | hop | hop
  · refine ⟨BITS_8, 0, ?_⟩
    simp only [exec_switch, hop]
    exact hl _ _
  · refine ⟨BITS_8, 0, ?_⟩
    simp only [exec_switch, hop]
    exact hl _ _
  · refine ⟨BITS_16, 0, ?_⟩
    simp only [exec_switch, hop]
    exact hl _ _
  · refine ⟨BITS_16, 0, ?_⟩
    simp only [exec_switch, hop]
    exact hl _ _
  · refine ⟨BITS_32, s.cpu.regs ii.rt, ?_⟩
    simp only [exec_switch, hop]
    exact ⟨rfl, fun _ => rfl⟩

theorem user_mode_congr (c c2 : cpu_t) (h : c2.cp0 = c.cp0) (hu : user_mode c) :
    user_mode c2 := by
  unfold user_mode cp0_status_ksu cp0_status_exl cp0_status_erl cp0_status at hu ⊢
  rw [h]; exact hu

theorem cpu_step_instr_fetch_fault (E : machine_t M) (s : sim_t M) (hstd : s.cpu.stdby = false)
    (h : (cpu_read_ins E s s.cpu.pc 0 true).1 ≠ excNone) :
    cpu_step_instr E s = ((cpu_read_ins E s s.cpu.pc 0 true).1, after_fetch E s) := by
  unfold cpu_step_instr
  rw [if_pos hstd, instruction_eq, if_neg h]

theorem cpu_step_instr_fetch_ok (E : machine_t M) (s : sim_t M) (hstd : s.cpu.stdby = false)
    (h : (cpu_read_ins E s s.cpu.pc 0 true).1 = excNone) :
    cpu_step_instr E s = execute E (after_fetch E s) (fetched E s) := by
  unfold cpu_step_instr
  rw [if_pos hstd, instruction_eq, if_pos h]

/-- TLB faults of a step in user mode with `BEV` and `TS` clear: a step
that fetches from the aligned kuseg address `vaddr` over the zero-filled TLB of
`cpu_init` (ASID 0) ends in a TLB-invalid fault: `BadVAddr = vaddr`,
`Cause.ExcCode = 2`, `Status.EXL = 1` and `PC = 0x80000180`, the general
vector; when no TLB entry matches `vaddr`, a step that fetches from `vaddr`, or
whose `LB`, `LBU`, `LH`, `LHU` or `LW` loads from it with the read watch off,
ends in a TLB refill: the same registers and `PC = 0x80000000`. -/
theorem user_tlb_fault_vector (E : machine_t M) (s : sim_t M) (vaddr : Nat)
    (hu : user_mode s.cpu) (hbev : cp0_status_bev s.cpu = 0) (hts : cp0_status_ts s.cpu = 0)
    (hstd : s.cpu.stdby = false) (hv : vaddr < 0x80000000) (hal : vaddr &&& 3 = 0) :
    ((∀ i, i < TLB_ENTRIES → s.cpu.tlb i = tlb_entry_zero) → cp0_entryhi_asid s.cpu = 0 →
        s.cpu.pc = vaddr →
        (cpu_step_instr E s).1 = excTLBL
          ∧ (cpu_step E s).cpu.cp0 cp0_BadVAddr = vaddr
          ∧ cp0_cause_exccode (cpu_step E s).cpu = 2
          ∧ cp0_status_exl (cpu_step E s).cpu = 1
          ∧ (cpu_step E s).cpu.pc = 0x80000180)
      ∧ ((∀ i, i < TLB_ENTRIES → ¬ tlb_entry_matches s.cpu vaddr (s.cpu.tlb i)) →
          (s.cpu.pc = vaddr
            ∨ ((cpu_read_ins E s s.cpu.pc 0 true).1 = excNone
              ∧ is_plain_load (fetched E s).opcode
              ∧ eff_addr (s.cpu.regs (fetched E s).rs) (fetched E s) = vaddr
              ∧ cp0_watchlo_r s.cpu = 0)) →
          (cpu_step_instr E s).1 = excTLBLR
            ∧ (cpu_step E s).cpu.cp0 cp0_BadVAddr = vaddr
            ∧ cp0_cause_exccode (cpu_step E s).cpu = 2
            ∧ cp0_status_exl (cpu_step E s).cpu = 1
            ∧ (cpu_step E s).cpu.pc = 0x80000000) := by
  have hexl : cp0_status_exl s.cpu = 0 := hu.2.1
  refine ⟨?_, ?_⟩
  · intro hz hasid hpc
    have hc := convert_addr_zero_tlb s.cpu vaddr false hu hts hz hasid hv
    obtain ⟨h1, h2⟩ := cpu_read_ins_tlb_fault E s vaddr 0 excTLB vaddr _ hal hc (Or.inl rfl)
    rw [if_pos rfl] at h1
    have hi := cpu_step_instr_fetch_fault E s hstd (by rw [hpc, h1]; decide)
    rw [hpc] at hi
    have hres : (cpu_step_instr E s).1 = excTLBL := by rw [hi]; exact h1
    obtain ⟨g1, g2, g3, g4⟩ := cpu_step_tlb_load_fault E s hexl hbev (Or.inl hres)
    refine ⟨hres, ?_, g2, g3, ?_⟩
    · rw [g1, hi]
      show (after_fetch E s).cpu.cp0 cp0_BadVAddr = vaddr
      unfold after_fetch
      rw [hpc, h2, fill_tlb_error_badvaddr]
    · rw [g4, hres]; decide
  · intro hno hcase
    rcases hcase with hpc | ⟨hok, hop, hea, hw⟩
    · have hc := convert_addr_no_match s.cpu vaddr false hu hts hno hv
      obtain ⟨h1, h2⟩ := cpu_read_ins_tlb_fault E s vaddr 0 excTLBR vaddr _ hal hc (Or.inr rfl)
      rw [if_neg (by decide)] at h1
      have hi := cpu_step_instr_fetch_fault E s hstd (by rw [hpc, h1]; decide)
      rw [hpc] at hi
      have hres : (cpu_step_instr E s).1 = excTLBLR := by rw [hi]; exact h1
      obtain ⟨g1, g2, g3, g4⟩ := cpu_step_tlb_load_fault E s hexl hbev (Or.inr hres)
      refine ⟨hres, ?_, g2, g3, ?_⟩
      · rw [g1, hi]
        show (after_fetch E s).cpu.cp0 cp0_BadVAddr = vaddr
        unfold after_fetch
        rw [hpc, h2, fill_tlb_error_badvaddr]
      · rw [g4, hres]; decide
    · have hfr := cpu_read_ins_ok_frame E s _ _ _ hok
      have hcp : (after_fetch E s).cpu.cp0 = s.cpu.cp0 := cpu_read_ins_ok_cp0 E s _ _ _ hok
      have htlb : (after_fetch E s).cpu.tlb = s.cpu.tlb := hfr.tlb
      have hregs : (after_fetch E s).cpu.regs = s.cpu.regs := hfr.regs
      have hu1 : user_mode (after_fetch E s).cpu := user_mode_congr _ _ hcp hu
      have hts1 : cp0_status_ts (after_fetch E s).cpu = 0 := by
        unfold cp0_status_ts cp0_status at hts ⊢
        rw [hcp]; exact hts
      have hno1 : ∀ i, i < TLB_ENTRIES →
          ¬ tlb_entry_matches (after_fetch E s).cpu vaddr ((after_fetch E s).cpu.tlb i) := by
        intro i hi
        have := hno i hi
        unfold tlb_entry_matches cp0_entryhi_asid cp0_entryhi at this ⊢
        rw [htlb, hcp]; exact this
      have hc := convert_addr_no_match (after_fetch E s).cpu vaddr false hu1 hts1 hno1 hv
      have hw1 : cp0_watchlo_r (fill_tlb_error
          { (after_fetch E s).cpu with
            tlb_refill := u64 ((after_fetch E s).cpu.tlb_refill + 1) } vaddr) = 0 := by
        rw [fill_tlb_error_watchlo]
        unfold cp0_watchlo_r cp0_watchlo at hw ⊢
        show (((after_fetch E s).cpu.cp0 cp0_WatchLo) &&& cp0_watchlo_r_mask)
          >>> cp0_watchlo_r_shift = 0
        rw [hcp]; exact hw
      obtain ⟨size, value, e1, e2⟩ := exec_switch_plain_load E (after_fetch E s) (fetched E s) hop
      rw [hregs, hea] at e1 e2
      rw [cpu_read_mem_tlb_fault E (after_fetch E s) vaddr size value excTLBR vaddr _ hal hc
        (Or.inr rfl) hw1, if_neg (by decide)] at e1 e2
      have e3 : (exec_switch E (after_fetch E s) (fetched E s)).res = excTLBLR := e1
      have hi := cpu_step_instr_fetch_ok E s hstd hok
      have hres : (cpu_step_instr E s).1 = excTLBLR := by rw [hi, execute_res]; exact e3
      obtain ⟨g1, g2, g3, g4⟩ := cpu_step_tlb_load_fault E s hexl hbev (Or.inr hres)
      refine ⟨hres, ?_, g2, g3, ?_⟩
      · rw [g1, hi, execute_cp0, e2 (by rw [e3]; decide)]
        exact fill_tlb_error_badvaddr _ _
      · rw [g4, hres]; decide

/-- The reset processor put into user mode fetches from `0x00400000`: the
fault is TLB invalid and the step ends at the general vector `0x80000180`;
with every entry mapping another page, `LW r2, 0(r1)` with `r1 = 0x00400000`
ends in a TLB refill at `0x80000000`. -/
theorem user_tlb_fault_vector_witness :
    (user_mode user_init_state.cpu ∧ cp0_status_bev user_init_state.cpu = 0
        ∧ cp0_status_ts user_init_state.cpu = 0 ∧ user_init_state.cpu.stdby = false
        ∧ (0x00400000 : Nat) < 0x80000000 ∧ (0x00400000 : Nat) &&& 3 = 0
        ∧ cp0_entryhi_asid user_init_state.cpu = 0 ∧ user_init_state.cpu.pc = 0x00400000)
      ∧ ((cpu_step ram_machine user_init_state).cpu.cp0 cp0_BadVAddr = 0x00400000
        ∧ (cpu_step ram_machine user_init_state).cpu.pc = 0x80000180)
      ∧ (user_mode user_mapped_state.cpu ∧ cp0_status_bev user_mapped_state.cpu = 0
        ∧ cp0_status_ts user_mapped_state.cpu = 0 ∧ user_mapped_state.cpu.stdby = false
        ∧ (cpu_read_ins ram_machine user_mapped_state user_mapped_state.cpu.pc 0 true).1 = excNone
        ∧ is_plain_load (fetched ram_machine user_mapped_state).opcode
        ∧ eff_addr (user_mapped_state.cpu.regs (fetched ram_machine user_mapped_state).rs)
            (fetched ram_machine user_mapped_state) = 0x00400000
        ∧ cp0_watchlo_r user_mapped_state.cpu = 0)
      ∧ ((cpu_step ram_machine user_mapped_state).cpu.cp0 cp0_BadVAddr = 0x00400000
        ∧ (cpu_step ram_machine user_mapped_state).cpu.pc = 0x80000000) :=
  ⟨⟨by decide, by decide, by decide, by decide, by decide, by decide, by decide, by decide⟩,
    ⟨((user_tlb_fault_vector ram_machine user_init_state 0x00400000 (by decide) (by decide)
        (by decide) (by decide) (by decide) (by decide)).1 (fun _ _ => rfl) (by decide)
        (by decide)).2.1,
      ((user_tlb_fault_vector ram_machine user_init_state 0x00400000 (by decide) (by decide)
        (by decide) (by decide) (by decide) (by decide)).1 (fun _ _ => rfl) (by decide)
        (by decide)).2.2.2.2⟩,
    ⟨by decide, by decide, by decide, by decide, by decide, by decide, by decide, by decide⟩,
    ⟨((user_tlb_fault_vector ram_machine user_mapped_state 0x00400000 (by decide) (by decide)
        (by decide) (by decide) (by decide) (by decide)).2 (by decide)
        (Or.inr ⟨by decide, by decide, by decide, by decide⟩)).2.1,
      ((user_tlb_fault_vector ram_machine user_mapped_state 0x00400000 (by decide) (by decide)
        (by decide) (by decide) (by decide) (by decide)).2 (by decide)
        (Or.inr ⟨by decide, by decide, by decide, by decide⟩)).2.2.2.2⟩⟩

/-- In user mode (`KSU = 2`, `EXL = ERL = 0`) with `Status.TS = 0`, ASID 0 and
the zero-filled TLB of `cpu_init`, the fetch of a step faults whatever the PC
is: an address error at or above `0x80000000` and at an unaligned PC, TLB
invalid below `0x80000000`, where every zero entry matches.  No step in such a
state executes an instruction. -/
theorem user_zero_tlb_fetch_faults (E : machine_t M) (s : sim_t M) (hu : user_mode s.cpu)
    (hts : cp0_status_ts s.cpu = 0) (hz : ∀ i, i < TLB_ENTRIES → s.cpu.tlb i = tlb_entry_zero)
    (hasid : cp0_entryhi_asid s.cpu = 0) (hpc : s.cpu.pc < 4294967296) :
    (cpu_read_ins E s s.cpu.pc 0 true).1 ≠ excNone ∧ ∀ op, ¬ executes E s op := by
  have key : (cpu_read_ins E s s.cpu.pc 0 true).1 ≠ excNone := by
    by_cases hal : s.cpu.pc &&& 3 = 0
    · by_cases hb : s.cpu.pc < 0x80000000
      · have hc := convert_addr_zero_tlb s.cpu s.cpu.pc false hu hts hz hasid hb
        rw [(cpu_read_ins_tlb_fault E s s.cpu.pc 0 excTLB _ _ hal hc (Or.inl rfl)).1]
        decide
      · have hsb : s.cpu.pc &&& SBIT ≠ 0 := fun h => hb ((sbit_zero_iff _ hpc).1 h)
        have hc : convert_addr s.cpu s.cpu.pc (decide (AM_FETCH = AM_WRITE)) true
            = (excAddrError, s.cpu.pc, fill_addr_error s.cpu s.cpu.pc true) := by
          have hu2 := hu
          unfold user_mode at hu2
          unfold convert_addr convert_addr_user
          rw [if_pos hu2, if_pos hsb]
        unfold cpu_read_ins cpu_fetch_mem
        rw [acc_mem_translation_fault E s AM_FETCH s.cpu.pc BITS_32 0 excAddrError _ _ hal hc
          (by decide) (Or.inl rfl)]
        simp only
        split_ifs <;> exact fun h => (by cases h)
    · have hm : mem_align_test s.cpu s.cpu.pc BITS_32 true
          = (excAddrError, fill_addr_error s.cpu s.cpu.pc true) := by
        unfold mem_align_test
        rw [if_pos (Or.inr ⟨rfl, hal⟩)]
      unfold cpu_read_ins cpu_fetch_mem acc_mem
      rw [hm]
      simp only
      split_ifs <;> exact fun h => (by cases h)
  exact ⟨key, fun op h => key h.2.1⟩

/-! ## TLB write and read back -/

theorem testBit_not32 (a i : Nat) :
    (not32 a).testBit i = (decide (i < 32) && !a.testBit i) := by
  have h : a % 4294967296 < 2 ^ 32 := Nat.mod_lt _ (by decide)
  have e : not32 a = 2 ^ 32 - (a % 4294967296 + 1) := by
    unfold not32
    omega
  rw [e, Nat.testBit_two_pow_sub_succ h]
  have e2 : (4294967296 : Nat) = 2 ^ 32 := by decide
  rw [e2, Nat.testBit_mod_two_pow]
  by_cases h1 : i < 32 <;> simp [h1]

theorem testBit_shl32 (a n i : Nat) :
    (shl32 a n).testBit i = (decide (i < 32) && (decide (n ≤ i) && a.testBit (i - n))) := by
  unfold shl32
  have e2 : (4294967296 : Nat) = 2 ^ 32 := by decide
  rw [e2, Nat.testBit_mod_two_pow, Nat.testBit_shiftLeft]

/-- `PageMask` read back by `TLBR` from the mask written by `TLBW`. -/
theorem pagemask_read_back (pm : Nat) :
    not32 (cp0_entryhi_vpn2_mask &&& not32 pm) &&& 0x01ffe000 = pm &&& 0x01ffe000 := by
  apply Nat.eq_of_testBit_eq
  intro i
  simp only [Nat.testBit_and, testBit_not32,
    testBit_mask cp0_entryhi_vpn2_mask 32 13 i (by decide) (by decide),
    testBit_mask 0x01ffe000 25 13 i (by decide) (by decide)]
  by_cases h1 : 13 ≤ i <;> by_cases h2 : i < 25
  · have h3 : i < 32 := by omega
    simp [h1, h2, h3]
  · simp [h1, h2]
  · simp [h1, h2]
  · simp [h1, h2]

/-- The page frame field read back by `TLBR`: bits 25..6 of `EntryLo`. -/
theorem entrylo_pfn_read_back (l : Nat) :
    (shl32 ((l &&& cp0_entrylo_pfn_mask) >>> cp0_entrylo_pfn_shift) 12) >>> 6
      = l &&& 0x03ffffc0 := by
  apply Nat.eq_of_testBit_eq
  intro i
  simp only [Nat.testBit_and, Nat.testBit_shiftRight, testBit_shl32, cp0_entrylo_pfn_shift,
    testBit_mask cp0_entrylo_pfn_mask 30 6 (6 + (6 + i - 12)) (by decide) (by decide),
    testBit_mask 0x03ffffc0 26 6 i (by decide) (by decide)]
  by_cases h1 : 6 ≤ i
  · have e : 6 + (6 + i - 12) = i := by omega
    have h2 : 12 ≤ 6 + i := by omega
    rw [e]
    by_cases h3 : i < 26
    · have h4 : 6 + i < 32 := by omega
      have h5 : i < 30 := by omega
      simp [h1, h2, h3, h4, h5]
    · have h4 : ¬ 6 + i < 32 := by omega
      simp [h1, h3, h4]
  · have h2 : ¬ 12 ≤ 6 + i := by omega
    simp [h1, h2]

/-- The coherency field read back by `TLBR`. -/
theorem entrylo_c_read_back (l : Nat) :
    shl32 ((l &&& cp0_entrylo_c_mask) >>> cp0_entrylo_c_shift) 3 = l &&& cp0_entrylo_c_mask := by
  apply Nat.eq_of_testBit_eq
  intro i
  simp only [Nat.testBit_and, Nat.testBit_shiftRight, testBit_shl32, cp0_entrylo_c_shift,
    testBit_mask cp0_entrylo_c_mask 6 3 (3 + (i - 3)) (by decide) (by decide),
    testBit_mask cp0_entrylo_c_mask 6 3 i (by decide) (by decide)]
  by_cases h1 : 3 ≤ i
  · have e : 3 + (i - 3) = i := by omega
    rw [e]
    by_cases h3 : i < 6
    · have h4 : i < 32 := by omega
      simp [h1, h3, h4]
    · simp [h1, h3]
  · simp [h1]

/-- A one-bit flag read back by `TLBR`. -/
theorem entrylo_flag_read_back (l m k : Nat) (hm : m = 2 ^ k) :
    (if decide ((l &&& m) >>> k ≠ 0) = true then 1 else 0) <<< k = l &&& m := by
  subst hm
  rw [Nat.and_two_pow]
  cases l.testBit k
  · simp
  · have h : ((true.toNat * 2 ^ k) >>> k) = 1 := by
      rw [Nat.shiftRight_eq_div_pow]
      simp
    rw [h]
    simp [Nat.shiftLeft_eq]

/-- The global flag read back by `TLBR`: both `G` bits. -/
theorem entrylo_g_read_back (l0 l1 : Nat) :
    (if decide ((l0 &&& cp0_entrylo_g_mask) &&& (l1 &&& cp0_entrylo_g_mask) ≠ 0) = true
      then 1 else 0) = l0 &&& l1 &&& 1 := by
  have e : (l0 &&& cp0_entrylo_g_mask) &&& (l1 &&& cp0_entrylo_g_mask) = l0 &&& l1 &&& 1 := by
    apply Nat.eq_of_testBit_eq
    intro i
    simp only [Nat.testBit_and, cp0_entrylo_g_mask]
    cases l0.testBit i <;> cases l1.testBit i <;> cases Nat.testBit 1 i <;> rfl
  rw [e]
  have h2 := Nat.and_two_pow (l0 &&& l1) 0
  simp only [Nat.pow_zero, Nat.mul_one] at h2
  rw [h2]
  cases (l0 &&& l1).testBit 0 <;> simp

/-- The fields of `EntryLo` put together again. -/
theorem entrylo_fields (l g : Nat) :
    (l &&& 0x03ffffc0) ||| (l &&& cp0_entrylo_c_mask) ||| (l &&& cp0_entrylo_d_mask)
        ||| (l &&& cp0_entrylo_v_mask) ||| g
      = (l &&& 0x03fffffe) ||| g := by
  apply Nat.eq_of_testBit_eq
  intro i
  simp only [Nat.testBit_and, Nat.testBit_or,
    testBit_mask 0x03ffffc0 26 6 i (by decide) (by decide),
    testBit_mask cp0_entrylo_c_mask 6 3 i (by decide) (by decide),
    testBit_mask cp0_entrylo_d_mask 3 2 i (by decide) (by decide),
    testBit_mask cp0_entrylo_v_mask 2 1 i (by decide) (by decide),
    testBit_mask 0x03fffffe 26 1 i (by decide) (by decide)]
  have hc : i = 0 ∨ i = 1 ∨ i = 2 ∨ (3 ≤ i ∧ i < 6) ∨ (6 ≤ i ∧ i < 26) ∨ 26 ≤ i := by omega
  rcases hc with rfl | rfl | rfl | ⟨a, b⟩ | ⟨a, b⟩ | a
  · simp
  · simp
  · simp
  · simp [show 1 ≤ i from by omega, show ¬ i < 2 from by omega, show 2 ≤ i from by omega,
      show ¬ i < 3 from by omega, a, b, show ¬ 6 ≤ i from by omega, show i < 26 from by omega]
  · simp [show 1 ≤ i from by omega, show ¬ i < 2 from by omega, show 2 ≤ i from by omega,
      show ¬ i < 3 from by omega, show 3 ≤ i from by omega, show ¬ i < 6 from by omega, a, b]
  · simp [show 1 ≤ i from by omega, show ¬ i < 2 from by omega, show 2 ≤ i from by omega,
      show ¬ i < 3 from by omega, show 3 ≤ i from by omega, show ¬ i < 6 from by omega,
      show 6 ≤ i from by omega, show ¬ i < 26 from by omega]

/-- The value `TLBR` reads back into an `EntryLo` register that `TLBW` wrote
from `l`, the two registers being `l0` and `l1`. -/
theorem tlbr_entrylo_tlbw (l l0 l1 : Nat) :
    tlbr_entrylo
        { pfn := shl32 ((l &&& cp0_entrylo_pfn_mask) >>> cp0_entrylo_pfn_shift) 12,
          cohh := (l &&& cp0_entrylo_c_mask) >>> cp0_entrylo_c_shift,
          dirty := decide ((l &&& cp0_entrylo_d_mask) >>> cp0_entrylo_d_shift ≠ 0),
          valid := decide ((l &&& cp0_entrylo_v_mask) >>> cp0_entrylo_v_shift ≠ 0) }
        (decide ((l0 &&& cp0_entrylo_g_mask) &&& (l1 &&& cp0_entrylo_g_mask) ≠ 0))
      = (l &&& 0x03fffffe) ||| (l0 &&& l1 &&& 1) := by
  unfold tlbr_entrylo
  simp only
  rw [entrylo_pfn_read_back, entrylo_c_read_back]
  simp only [cp0_entrylo_d_shift, cp0_entrylo_v_shift]
  rw [entrylo_flag_read_back l cp0_entrylo_d_mask 2 (by decide),
    entrylo_flag_read_back l cp0_entrylo_v_mask 1 (by decide),
    entrylo_g_read_back, entrylo_fields]

theorem execute_tlb (E : machine_t M) (s : sim_t M) (ii : instr_info_t) :
    (execute E s ii).2.cpu.tlb = (exec_switch E s ii).s.cpu.tlb := by
  unfold execute
  simp only [cpu_t.set_reg]
  split_ifs <;> rfl

theorem exec_switch_TLBWI (E : machine_t M) (s : sim_t M) (ii : instr_info_t)
    (hop : ii.opcode = opcTLBWI) (hu : cp0_usable s.cpu) (hi : cp0_index_index s.cpu ≤ 47) :
    exec_switch E s ii = ⟨excNone, add32 s.cpu.pc_next 4,
      { s with cpu := { s.cpu with
          tlb := upd s.cpu.tlb (cp0_index_index s.cpu) (tlbw_entry s.cpu) } }⟩ := by
  simp only [exec_switch, hop]
  unfold TLBW
  rw [if_pos hu]
  simp only [Bool.false_eq_true, if_false]
  rw [if_neg (by omega)]

theorem exec_switch_TLBR (E : machine_t M) (s : sim_t M) (ii : instr_info_t)
    (hop : ii.opcode = opcTLBR) (hu : cp0_usable s.cpu) (hi : cp0_index_index s.cpu ≤ 47) :
    (exec_switch E s ii).res = excNone
      ∧ (exec_switch E s ii).s.cpu.cp0
        = upd (upd (upd (upd s.cpu.cp0 cp0_PageMask
              (not32 (s.cpu.tlb (cp0_index_index s.cpu)).mask &&& 0x01ffe000))
            cp0_EntryHi
              ((s.cpu.tlb (cp0_index_index s.cpu)).vpn2
                ||| (s.cpu.tlb (cp0_index_index s.cpu)).asid))
            cp0_EntryLo0
              (tlbr_entrylo (s.cpu.tlb (cp0_index_index s.cpu)).pg0
                (s.cpu.tlb (cp0_index_index s.cpu)).global))
            cp0_EntryLo1
              (tlbr_entrylo (s.cpu.tlb (cp0_index_index s.cpu)).pg1
                (s.cpu.tlb (cp0_index_index s.cpu)).global) := by
  simp only [exec_switch, hop]
  unfold exec_TLBR
  rw [if_pos hu]
  simp only
  rw [if_neg (by omega)]
  exact ⟨rfl, rfl⟩

theorem cp0_usable_congr (c c2 : cpu_t) (h : c2.cp0 = c.cp0) (hu : cp0_usable c) :
    cp0_usable c2 := by
  unfold cp0_usable cp0_status_cu0 cp0_status_ksu cp0_status_exl cp0_status_erl cp0_status
    at hu ⊢
  rw [h]; exact hu

theorem entryhi_restored (eh pm : Nat) (h32 : eh < 2 ^ 32) (h1 : eh &&& 0x1f00 = 0)
    (h2 : eh &&& pm = 0) :
    (eh &&& (cp0_entryhi_vpn2_mask &&& not32 pm)) ||| (eh &&& cp0_entryhi_asid_mask) = eh := by
  apply Nat.eq_of_testBit_eq
  intro i
  have b1 := congrArg (fun n => Nat.testBit n i) h1
  have b2 := congrArg (fun n => Nat.testBit n i) h2
  simp only [Nat.testBit_and, Nat.zero_testBit,
    testBit_mask 0x1f00 13 8 i (by decide) (by decide)] at b1 b2
  simp only [Nat.testBit_and, Nat.testBit_or, testBit_not32,
    testBit_mask cp0_entryhi_vpn2_mask 32 13 i (by decide) (by decide),
    testBit_mask cp0_entryhi_asid_mask 8 0 i (by decide) (by decide)]
  have hc : i < 8 ∨ (8 ≤ i ∧ i < 13) ∨ (13 ≤ i ∧ i < 32) ∨ 32 ≤ i := by omega
  rcases hc with a | ⟨a, b⟩ | ⟨a, b⟩ | a
  · simp [a, show ¬ 13 ≤ i from by omega]
  · simp [a, b, show ¬ i < 8 from by omega, show ¬ 13 ≤ i from by omega] at b1 ⊢
    exact b1
  · simp [a, b, show ¬ i < 8 from by omega]
    cases hx : eh.testBit i <;> cases hp : pm.testBit i <;> simp_all
  · have : eh.testBit i = false := testBit_u32_high eh i h32 a
    simp [this]

theorem entrylo_restored (l l0 l1 : Nat) (h26 : l < 2 ^ 26) (hl : l &&& 1 = l0 &&& l1 &&& 1) :
    (l &&& 0x03fffffe) ||| (l0 &&& l1 &&& 1) = l := by
  rw [← hl]
  apply Nat.eq_of_testBit_eq
  intro i
  simp only [Nat.testBit_and, Nat.testBit_or,
    testBit_mask 0x03fffffe 26 1 i (by decide) (by decide),
    testBit_mask 1 1 0 i (by decide) (by decide)]
  have hc : i = 0 ∨ (1 ≤ i ∧ i < 26) ∨ 26 ≤ i := by omega
  rcases hc with rfl | ⟨a, b⟩ | a
  · simp
  · simp [a, b, show ¬ i < 1 from by omega]
  · have : l.testBit i = false :=
      Nat.testBit_lt_two_pow (Nat.lt_of_lt_of_le h26 (Nat.pow_le_pow_right (by decide) a))
    simp [this]

theorem and_one_idem_of_eq (l0 l1 : Nat) (h : l0 &&& 1 = l1 &&& 1) :
    l0 &&& 1 = l0 &&& l1 &&& 1 ∧ l1 &&& 1 = l0 &&& l1 &&& 1 := by
  have e : l0 &&& l1 &&& 1 = (l0 &&& 1) &&& (l1 &&& 1) := by
    apply Nat.eq_of_testBit_eq
    intro i
    simp only [Nat.testBit_and]
    cases l0.testBit i <;> cases l1.testBit i <;> cases Nat.testBit 1 i <;> rfl
  rw [e, h, Nat.and_self]
  exact ⟨rfl, rfl⟩

/-- C14 as the code has it: with coprocessor 0 usable and `Index` in
`[0, 47]`, `TLBWI` followed by `TLBR` raises no fault and reads back
`PageMask & 0x01FFE000` (the legal masks unchanged), `EntryHi` as
`(EntryHi & 0xFFFFE000 & ~PageMask) | ASID`, and each `EntryLo` as
`(EntryLo & 0x03FFFFFE) | (EntryLo0.G & EntryLo1.G)`; so the four registers are
restored exactly when `PageMask` is a mask within `0x01FFE000`, `EntryHi` is a
32-bit value with no bit under `PageMask` or in bits 12..8, both `EntryLo` are
below `2^26`, and the two `G` bits agree. -/
theorem tlbwi_tlbr_read_back (E : machine_t M) (s : sim_t M) (iiW iiR : instr_info_t)
    (hW : iiW.opcode = opcTLBWI) (hR : iiR.opcode = opcTLBR) (hu : cp0_usable s.cpu)
    (hi : cp0_index_index s.cpu ≤ 47) :
    (execute E s iiW).1 = excNone
      ∧ (execute E (execute E s iiW).2 iiR).1 = excNone
      ∧ cp0_pagemask (execute_two E s iiW iiR).cpu = cp0_pagemask s.cpu &&& 0x01ffe000
      ∧ cp0_entryhi (execute_two E s iiW iiR).cpu
          = (cp0_entryhi s.cpu &&& (0xffffe000 &&& not32 (cp0_pagemask s.cpu)))
              ||| cp0_entryhi_asid s.cpu
      ∧ cp0_entrylo0 (execute_two E s iiW iiR).cpu
          = (cp0_entrylo0 s.cpu &&& 0x03fffffe)
              ||| (cp0_entrylo0 s.cpu &&& cp0_entrylo1 s.cpu &&& 1)
      ∧ cp0_entrylo1 (execute_two E s iiW iiR).cpu
          = (cp0_entrylo1 s.cpu &&& 0x03fffffe)
              ||| (cp0_entrylo0 s.cpu &&& cp0_entrylo1 s.cpu &&& 1)
      ∧ (cp0_pagemask s.cpu &&& 0x01ffe000 = cp0_pagemask s.cpu →
          cp0_entryhi s.cpu < 2 ^ 32 → cp0_entryhi s.cpu &&& 0x1f00 = 0 →
          cp0_entryhi s.cpu &&& cp0_pagemask s.cpu = 0 →
          cp0_entrylo0 s.cpu < 2 ^ 26 → cp0_entrylo1 s.cpu < 2 ^ 26 →
          cp0_entrylo0 s.cpu &&& 1 = cp0_entrylo1 s.cpu &&& 1 →
          cp0_pagemask (execute_two E s iiW iiR).cpu = cp0_pagemask s.cpu
            ∧ cp0_entryhi (execute_two E s iiW iiR).cpu = cp0_entryhi s.cpu
            ∧ cp0_entrylo0 (execute_two E s iiW iiR).cpu = cp0_entrylo0 s.cpu
            ∧ cp0_entrylo1 (execute_two E s iiW iiR).cpu = cp0_entrylo1 s.cpu) := by
  have hw := exec_switch_TLBWI E s iiW hW hu hi
  have hcp1 : (execute E s iiW).2.cpu.cp0 = s.cpu.cp0 := by rw [execute_cp0, hw]
  have htlb1 : (execute E s iiW).2.cpu.tlb
      = upd s.cpu.tlb (cp0_index_index s.cpu) (tlbw_entry s.cpu) := by rw [execute_tlb, hw]
  have hidx : cp0_index_index (execute E s iiW).2.cpu = cp0_index_index s.cpu := by
    unfold cp0_index_index cp0_index
    rw [hcp1]
  have hu1 : cp0_usable (execute E s iiW).2.cpu := cp0_usable_congr _ _ hcp1 hu
  obtain ⟨hr1, hr2⟩ := exec_switch_TLBR E (execute E s iiW).2 iiR hR hu1 (by rw [hidx]; exact hi)
  rw [hidx, htlb1, upd_same, hcp1] at hr2
  have hcp2 : (execute_two E s iiW iiR).cpu.cp0
      = (exec_switch E (execute E s iiW).2 iiR).s.cpu.cp0 := by
    unfold execute_two
    rw [execute_cp0]
  rw [hr2] at hcp2
  have hpm : cp0_pagemask (execute_two E s iiW iiR).cpu = cp0_pagemask s.cpu &&& 0x01ffe000 := by
    unfold cp0_pagemask
    rw [hcp2, upd_ne _ _ _ _ (by decide), upd_ne _ _ _ _ (by decide), upd_ne _ _ _ _ (by decide),
      upd_same]
    exact pagemask_read_back _
  have heh : cp0_entryhi (execute_two E s iiW iiR).cpu
      = (cp0_entryhi s.cpu &&& (0xffffe000 &&& not32 (cp0_pagemask s.cpu)))
          ||| cp0_entryhi_asid s.cpu := by
    unfold cp0_entryhi
    rw [hcp2, upd_ne _ _ _ _ (by decide), upd_ne _ _ _ _ (by decide), upd_same]
    rfl
  have hl0 : cp0_entrylo0 (execute_two E s iiW iiR).cpu
      = (cp0_entrylo0 s.cpu &&& 0x03fffffe)
          ||| (cp0_entrylo0 s.cpu &&& cp0_entrylo1 s.cpu &&& 1) := by
    unfold cp0_entrylo0
    rw [hcp2, upd_ne _ _ _ _ (by decide), upd_same]
    exact tlbr_entrylo_tlbw _ _ _
  have hl1 : cp0_entrylo1 (execute_two E s iiW iiR).cpu
      = (cp0_entrylo1 s.cpu &&& 0x03fffffe)
          ||| (cp0_entrylo0 s.cpu &&& cp0_entrylo1 s.cpu &&& 1) := by
    unfold cp0_entrylo1
    rw [hcp2, upd_same]
    exact tlbr_entrylo_tlbw _ _ _
  refine ⟨by rw [execute_res, hw], by rw [execute_res]; exact hr1, hpm, heh, hl0, hl1, ?_⟩
  intro c1 c2 c3 c4 c5 c6 c7
  obtain ⟨g0, g1⟩ := and_one_idem_of_eq _ _ c7
  refine ⟨by rw [hpm, c1], ?_, ?_, ?_⟩
  · rw [heh]
    exact entryhi_restored _ _ c2 c3 c4
  · rw [hl0]
    exact entrylo_restored _ _ _ c5 g0
  · rw [hl1]
    exact entrylo_restored _ _ _ c6 g1

/-- `TLBWI` then `TLBR` at `Index = 5` with `PageMask = 0x6000`,
`EntryHi = 0x00408012`, `EntryLo0 = 0x0012345F` and `EntryLo1 = 0x00ABCDC1`
(both global): the four registers are read back unchanged. -/
theorem tlbwi_tlbr_read_back_witness :
    ((mips_decode 0x42000002).opcode = opcTLBWI ∧ (mips_decode 0x42000001).opcode = opcTLBR
        ∧ cp0_usable tlbw_round_state.cpu ∧ cp0_index_index tlbw_round_state.cpu ≤ 47)
      ∧ cp0_pagemask (execute_two ram_machine tlbw_round_state (mips_decode 0x42000002)
          (mips_decode 0x42000001)).cpu = 0x6000
      ∧ cp0_entryhi (execute_two ram_machine tlbw_round_state (mips_decode 0x42000002)
          (mips_decode 0x42000001)).cpu = 0x00408012
      ∧ cp0_entrylo0 (execute_two ram_machine tlbw_round_state (mips_decode 0x42000002)
          (mips_decode 0x42000001)).cpu = 0x0012345f
      ∧ cp0_entrylo1 (execute_two ram_machine tlbw_round_state (mips_decode 0x42000002)
          (mips_decode 0x42000001)).cpu = 0x00abcdc1 :=
  ⟨⟨by decide, by decide, by decide, by decide⟩,
    (tlbwi_tlbr_read_back ram_machine tlbw_round_state (mips_decode 0x42000002)
      (mips_decode 0x42000001) (by decide) (by decide) (by decide) (by decide)).2.2.2.2.2.2
      (by decide) (by decide) (by decide) (by decide) (by decide) (by decide) (by decide)⟩

/-- C14 fails as stated: with `Index = 0`, `EntryLo0 = 1` and `EntryLo1 = 0`,
values `MTC0` can write, `TLBWI` then `TLBR` raise no fault and leave
`EntryLo0 = 0`: the entry has one global flag, `G0 & G1`. -/
theorem tlbwi_tlbr_counterexample :
    cp0_usable tlbw_demo_state.cpu ∧ cp0_index_index tlbw_demo_state.cpu = 0
      ∧ cp0_entrylo0 tlbw_demo_state.cpu = 1
      ∧ cp0_entrylo0 tlbw_demo_state.cpu &&& 0x3fffffff = cp0_entrylo0 tlbw_demo_state.cpu
      ∧ (mips_decode 0x42000002).opcode = opcTLBWI ∧ (mips_decode 0x42000001).opcode = opcTLBR
      ∧ (execute ram_machine tlbw_demo_state (mips_decode 0x42000002)).1 = excNone
      ∧ (execute ram_machine (execute ram_machine tlbw_demo_state (mips_decode 0x42000002)).2
          (mips_decode 0x42000001)).1 = excNone
      ∧ cp0_entrylo0 (execute_two ram_machine tlbw_demo_state (mips_decode 0x42000002)
          (mips_decode 0x42000001)).cpu = 0
      ∧ cp0_entrylo0 (execute_two ram_machine tlbw_demo_state (mips_decode 0x42000002)
          (mips_decode 0x42000001)).cpu ≠ cp0_entrylo0 tlbw_demo_state.cpu := by
  decide

theorem execute_regs_ne (E : machine_t M) (s : sim_t M) (ii : instr_info_t) (i : Nat)
    (hi : i ≠ 0) : (execute E s ii).2.cpu.regs i = (exec_switch E s ii).s.cpu.regs i := by
  unfold execute
  simp only [cpu_t.set_reg]
  split_ifs <;> simp only [upd_ne _ _ _ _ hi]

theorem cp0_usable_mtc0 (cpu : cpu_t) (hu : cp0_usable cpu) :
    cp0_status_cu0 cpu = 1 ∨ (cp0_status_ksu cpu = 0 ∨ cp0_status_exl cpu ≠ 0
      ∨ cp0_status_erl cpu ≠ 0) := by
  rcases hu with h | h | h | h
  · exact Or.inl h
  · exact Or.inr (Or.inl h)
  · exact Or.inr (Or.inr (Or.inl (by rw [h]; decide)))
  · exact Or.inr (Or.inr (Or.inr (by rw [h]; decide)))

theorem exec_switch_MTC0 (E : machine_t M) (s : sim_t M) (ii : instr_info_t)
    (hop : ii.opcode = opcMTC0) (hu : cp0_usable s.cpu) :
    exec_switch E s ii = ⟨excNone, add32 s.cpu.pc_next 4,
      { s with cpu := mtc0_write s.cpu ii.rd (s.cpu.regs ii.rt) }⟩ := by
  simp only [exec_switch, hop]
  unfold exec_MTC0
  rw [if_pos (cp0_usable_mtc0 _ hu)]

theorem exec_switch_MFC0 (E : machine_t M) (s : sim_t M) (ii : instr_info_t)
    (hop : ii.opcode = opcMFC0) (hu : cp0_usable s.cpu) :
    exec_switch E s ii = ⟨excNone, add32 s.cpu.pc_next 4, s.wreg ii.rt (s.cpu.cp0 ii.rd)⟩ := by
  simp only [exec_switch, hop]
  unfold exec_MFC0
  rw [if_pos hu]

/-- `PageMask` after the `MTC0` write of `v`. -/
theorem mtc0_write_pagemask (cpu : cpu_t) (v : Nat) :
    (mtc0_write cpu cp0_PageMask v).cp0 cp0_PageMask = (if legal_pagemask v then v else 0)
      ∧ ∀ i, i ≠ cp0_PageMask → (mtc0_write cpu cp0_PageMask v).cp0 i = cpu.cp0 i := by
  have hm : mtc0_write cpu cp0_PageMask v
      = if legal_pagemask v then
          (cpu.set_cp0 cp0_PageMask 0).set_cp0 cp0_PageMask (v &&& cp0_pagemask_mask_mask)
        else cpu.set_cp0 cp0_PageMask 0 := rfl
  rw [hm]
  by_cases hl : legal_pagemask v
  · rw [if_pos hl, if_pos hl]
    refine ⟨?_, ?_⟩
    · simp only [cpu_t.set_cp0, upd_same]
      rcases hl with h | h | h | h | h | h | h <;> subst h <;> decide
    · intro i hi
      simp only [cpu_t.set_cp0, upd_ne _ _ _ _ hi]
  · rw [if_neg hl, if_neg hl]
    refine ⟨?_, ?_⟩
    · simp only [cpu_t.set_cp0, upd_same]
    · intro i hi
      simp only [cpu_t.set_cp0, upd_ne _ _ _ _ hi]

/-- C15: with coprocessor 0 usable, `MTC0` of the value `v` of `rt` to
`PageMask` followed by `MFC0` from `PageMask` into a register other than `r0`
raises no fault and reads `v` when `v` is one of the seven legal masks, and 0
for every other value. -/
theorem pagemask_mtc0_mfc0 (E : machine_t M) (s : sim_t M) (iiT iiF : instr_info_t)
    (hT : iiT.opcode = opcMTC0) (hTrd : iiT.rd = cp0_PageMask) (hF : iiF.opcode = opcMFC0)
    (hFrd : iiF.rd = cp0_PageMask) (hFrt : iiF.rt ≠ 0) (hu : cp0_usable s.cpu) :
    (execute E s iiT).1 = excNone
      ∧ (execute E (execute E s iiT).2 iiF).1 = excNone
      ∧ (execute_two E s iiT iiF).cpu.regs iiF.rt
          = (if legal_pagemask (s.cpu.regs iiT.rt) then s.cpu.regs iiT.rt else 0) := by
  have hw := exec_switch_MTC0 E s iiT hT hu
  obtain ⟨hp1, hp2⟩ := mtc0_write_pagemask s.cpu (s.cpu.regs iiT.rt)
  have hcp : (execute E s iiT).2.cpu.cp0 = (mtc0_write s.cpu cp0_PageMask (s.cpu.regs iiT.rt)).cp0 := by
    rw [execute_cp0, hw, hTrd]
  have hu1 : cp0_usable (execute E s iiT).2.cpu := by
    unfold cp0_usable cp0_status_cu0 cp0_status_ksu cp0_status_exl cp0_status_erl cp0_status
      at hu ⊢
    rw [hcp, hp2 _ (by decide)]
    exact hu
  have hr := exec_switch_MFC0 E (execute E s iiT).2 iiF hF hu1
  refine ⟨by rw [execute_res, hw], by rw [execute_res, hr], ?_⟩
  unfold execute_two
  rw [execute_regs_ne _ _ _ _ hFrt, hr, hFrd, hcp, hp1]
  simp only [sim_t.wreg, cpu_t.set_reg, upd_same]

/-- `MTC0 r1, PageMask` with `r1 = 0x6000` then `MFC0 r2, PageMask` reads
`0x6000`; with `r3 = 0x4000`, not a legal mask, the read gives 0. -/
theorem pagemask_mtc0_mfc0_witness :
    ((mips_decode 0x40812800).opcode = opcMTC0 ∧ (mips_decode 0x40812800).rd = cp0_PageMask
        ∧ (mips_decode 0x40812800).rt = 1
        ∧ (mips_decode 0x40832800).opcode = opcMTC0 ∧ (mips_decode 0x40832800).rd = cp0_PageMask
        ∧ (mips_decode 0x40832800).rt = 3
        ∧ (mips_decode 0x40022800).opcode = opcMFC0 ∧ (mips_decode 0x40022800).rd = cp0_PageMask
        ∧ (mips_decode 0x40022800).rt = 2 ∧ cp0_usable pagemask_demo_state.cpu)
      ∧ (execute_two ram_machine pagemask_demo_state (mips_decode 0x40812800)
          (mips_decode 0x40022800)).cpu.regs 2 = 0x6000
      ∧ (execute_two ram_machine pagemask_demo_state (mips_decode 0x40832800)
          (mips_decode 0x40022800)).cpu.regs 2 = 0 :=
  ⟨⟨by decide, by decide, by decide, by decide, by decide, by decide, by decide, by decide,
      by decide, by decide⟩,
    (pagemask_mtc0_mfc0 ram_machine pagemask_demo_state (mips_decode 0x40812800)
      (mips_decode 0x40022800) (by decide) (by decide) (by decide) (by decide) (by decide)
      (by decide)).2.2.trans (by decide),
    (pagemask_mtc0_mfc0 ram_machine pagemask_demo_state (mips_decode 0x40832800)
      (mips_decode 0x40022800) (by decide) (by decide) (by decide) (by decide) (by decide)
      (by decide)).2.2.trans (by decide)⟩

/-! ## Coprocessor 0 footprint of the instructions -/

theorem cp0_instr_written_ne (i j : Nat) (h : cp0_instr_written i = false)
    (hj : cp0_instr_written j = true) : i ≠ j := by
  intro e
  rw [e, hj] at h
  exact absurd h (by decide)

theorem ctl_frame_refl (c : cpu_t) : ctl_frame c c := fun _ _ => rfl

theorem ctl_frame_trans {a b c : cpu_t} (h1 : ctl_frame a b) (h2 : ctl_frame b c) :
    ctl_frame a c := fun i hi => (h2 i hi).trans (h1 i hi)

theorem acc_frame_to_ctl {c c2 : cpu_t} (h : acc_frame c c2) : ctl_frame c c2 :=
  fun i hi => h.cp0 i (cp0_instr_written_ne i _ hi (by decide))
    (cp0_instr_written_ne i _ hi (by decide)) (cp0_instr_written_ne i _ hi (by decide))

theorem st_frame_to_ctl {c c2 : cpu_t} (h : st_frame c c2) : ctl_frame c c2 :=
  fun i hi => h.cp0 i (cp0_instr_written_ne i _ hi (by decide))
    (cp0_instr_written_ne i _ hi (by decide)) (cp0_instr_written_ne i _ hi (by decide))

theorem exc_frame_to_ctl {c c2 : cpu_t} (h : exc_frame c c2) : ctl_frame c c2 :=
  fun i hi => h.cp0 i (cp0_instr_written_ne i _ hi (by decide))
    (cp0_instr_written_ne i _ hi (by decide)) (cp0_instr_written_ne i _ hi (by decide))
    (cp0_instr_written_ne i _ hi (by decide))

theorem pc_cp0_to_ctl {c c2 : cpu_t} (h : c2.cp0 = c.cp0) : ctl_frame c c2 :=
  fun i _ => by rw [h]

theorem ctl_frame_set_cp0 (c : cpu_t) (j v : Nat) (hj : cp0_instr_written j = true) :
    ctl_frame c (c.set_cp0 j v) := by
  intro i hi
  simp only [cpu_t.set_cp0, upd_ne _ _ _ _ (cp0_instr_written_ne i j hi hj)]

theorem ctl_frame_wreg (s : sim_t M) (i v : Nat) : ctl_frame s.cpu (s.wreg i v).cpu :=
  fun _ _ => rfl

theorem exec_load_ctl (E : machine_t M) (s : sim_t M) (ii : instr_info_t)
    (pca urrs size : Nat) (f : Nat → Nat) :
    ctl_frame s.cpu (exec_load E s ii pca urrs size f).s.cpu := by
  have hf := acc_frame_to_ctl (cpu_read_mem_frame E s (eff_addr urrs ii) size 0 true)
  unfold exec_load
  rcases hr : cpu_read_mem E s (eff_addr urrs ii) size 0 true with ⟨r, v, s1⟩
  rw [hr] at hf
  simp only
  split_ifs
  · exact ctl_frame_trans hf (ctl_frame_wreg _ _ _)
  · exact hf

theorem exec_LW_ctl (E : machine_t M) (s : sim_t M) (ii : instr_info_t) (pca urrs : Nat) :
    ctl_frame s.cpu (exec_LW E s ii pca urrs).s.cpu := by
  have hf := acc_frame_to_ctl
    (cpu_read_mem_frame E s (eff_addr urrs ii) BITS_32 (s.cpu.regs ii.rt) true)
  unfold exec_LW
  exact ctl_frame_trans hf (ctl_frame_wreg _ _ _)

theorem exec_LL_ctl (E : machine_t M) (s : sim_t M) (ii : instr_info_t) (pca urrs : Nat) :
    ctl_frame s.cpu (exec_LL E s ii pca urrs).s.cpu := by
  have hf := acc_frame_to_ctl (cpu_read_mem_frame E s (eff_addr urrs ii) BITS_32 0 true)
  unfold exec_LL
  rcases hr : cpu_read_mem E s (eff_addr urrs ii) BITS_32 0 true with ⟨r, v, s1⟩
  rw [hr] at hf
  simp only [hr]
  split_ifs
  · have hc := acc_frame_to_ctl
      (convert_addr_frame (s1.wreg ii.rt v).cpu (eff_addr urrs ii) false false)
    rcases hca : convert_addr (s1.wreg ii.rt v).cpu (eff_addr urrs ii) false false
      with ⟨r2, pa, c2⟩
    rw [hca] at hc
    exact ctl_frame_trans hf (ctl_frame_trans (ctl_frame_wreg _ _ _)
      (ctl_frame_trans hc (fun _ _ => rfl)))
  · exact ctl_frame_trans hf (fun _ _ => rfl)

theorem exec_LWx_ctl (E : machine_t M) (s : sim_t M) (ii : instr_info_t) (pca urrs : Nat)
    (left : Bool) : ctl_frame s.cpu (exec_LWx E s ii pca urrs left).s.cpu := by
  have hf := acc_frame_to_ctl
    (cpu_read_mem_frame E s (eff_addr urrs ii &&& 0xfffffffc) BITS_32 0 true)
  unfold exec_LWx
  rcases hr : cpu_read_mem E s (eff_addr urrs ii &&& 0xfffffffc) BITS_32 0 true with ⟨r, v, s1⟩
  rw [hr] at hf
  simp only [hr]
  split_ifs
  all_goals exact hf

theorem exec_store_ctl (E : machine_t M) (s : sim_t M) (ii : instr_info_t)
    (pca addr size : Nat) : ctl_frame s.cpu (exec_store E s ii pca addr size).s.cpu :=
  exc_frame_to_ctl (exec_store_fault E s ii pca addr size)

theorem exec_SWx_ctl (E : machine_t M) (s : sim_t M) (ii : instr_info_t) (pca urrs : Nat)
    (left : Bool) : ctl_frame s.cpu (exec_SWx E s ii pca urrs left).s.cpu :=
  exc_frame_to_ctl (exec_SWx_fault E s ii pca urrs left)

theorem exec_SC_ctl (E : machine_t M) (s : sim_t M) (ii : instr_info_t) (pca urrs : Nat) :
    ctl_frame s.cpu (exec_SC E s ii pca urrs).s.cpu := by
  have hf := st_frame_to_ctl
    (cpu_write_mem_frame E s (eff_addr urrs ii) BITS_32 (s.cpu.regs ii.rt) true)
  unfold exec_SC
  rcases hr : cpu_write_mem E s (eff_addr urrs ii) BITS_32 (s.cpu.regs ii.rt) true with ⟨r, s1⟩
  rw [hr] at hf
  simp only [hr]
  split_ifs
  · exact ctl_frame_wreg _ _ _
  · have hc := acc_frame_to_ctl
      (convert_addr_frame (s1.wreg ii.rt 1).cpu (eff_addr urrs ii) false false)
    rcases hca : convert_addr (s1.wreg ii.rt 1).cpu (eff_addr urrs ii) false false
      with ⟨r2, pa, c2⟩
    rw [hca] at hc
    exact ctl_frame_trans hf (ctl_frame_trans (ctl_frame_wreg _ _ _)
      (ctl_frame_trans hc (fun _ _ => rfl)))
  · exact ctl_frame_trans hf (fun _ _ => rfl)

theorem cpu_unusable_ctl (s : sim_t M) (pca : Nat) :
    ctl_frame s.cpu (cpu_unusable s pca).s.cpu :=
  exc_frame_to_ctl (cpu_unusable_frame s pca)

theorem TLBW_ctl (s : sim_t M) (pca : Nat) (random : Bool) :
    ctl_frame s.cpu (TLBW s pca random).s.cpu := by
  unfold TLBW
  split_ifs
  all_goals first
    | exact cpu_unusable_ctl s pca
    | (dsimp only; split_ifs <;> exact fun _ _ => rfl)

theorem exec_TLBP_ctl (s : sim_t M) (pca : Nat) :
    ctl_frame s.cpu (exec_TLBP s pca).s.cpu := by
  unfold exec_TLBP
  split_ifs
  · exact ctl_frame_trans (ctl_frame_set_cp0 _ _ _ (by decide))
      (ctl_frame_set_cp0 _ _ _ (by decide))
  · exact cpu_unusable_ctl s pca

theorem exec_TLBR_ctl (s : sim_t M) (pca : Nat) :
    ctl_frame s.cpu (exec_TLBR s pca).s.cpu := by
  unfold exec_TLBR
  split_ifs
  · dsimp only
    split_ifs
    all_goals
      intro i hi
      simp only [cpu_t.set_cp0]
      rw [upd_ne _ _ _ _ (cp0_instr_written_ne i cp0_EntryLo1 hi (by decide)),
        upd_ne _ _ _ _ (cp0_instr_written_ne i cp0_EntryLo0 hi (by decide)),
        upd_ne _ _ _ _ (cp0_instr_written_ne i cp0_EntryHi hi (by decide)),
        upd_ne _ _ _ _ (cp0_instr_written_ne i cp0_PageMask hi (by decide))]
  · exact cpu_unusable_ctl s pca

theorem exec_ERET_ctl (E : machine_t M) (s : sim_t M) (pca : Nat) :
    ctl_frame s.cpu (exec_ERET E s pca).s.cpu := by
  unfold exec_ERET
  split_ifs
  · dsimp only
    split_ifs
    all_goals
      intro i hi
      simp only [cpu_t.set_cp0]
      rw [upd_ne _ _ _ _ (cp0_instr_written_ne i cp0_Status hi (by decide))]
  · exact cpu_unusable_ctl s pca

theorem exec_MFC0_ctl (s : sim_t M) (ii : instr_info_t) (pca : Nat) :
    ctl_frame s.cpu (exec_MFC0 s ii pca).s.cpu := by
  unfold exec_MFC0
  split_ifs
  · exact ctl_frame_wreg _ _ _
  · exact cpu_unusable_ctl s pca

theorem exec_copz_ctl (s : sim_t M) (pca : Nat) (cu : Prop) [Decidable cu] (ce : Nat) :
    ctl_frame s.cpu (exec_copz s pca cu ce).s.cpu :=
  exc_frame_to_ctl (exec_copz_fault s pca cu ce)

theorem br_cond_ctl (s s0 : sim_t M) (ii : instr_info_t) (pca : Nat) (c : Prop) [Decidable c]
    (h : ctl_frame s0.cpu s.cpu) : ctl_frame s0.cpu (br_cond s ii pca c).s.cpu := by
  unfold br_cond br_taken
  split_ifs
  · exact ctl_frame_trans h (fun _ _ => rfl)
  · exact h

theorem br_likely_ctl (s s0 : sim_t M) (ii : instr_info_t) (c : Prop) [Decidable c]
    (h : ctl_frame s0.cpu s.cpu) : ctl_frame s0.cpu (br_likely s ii c).s.cpu := by
  unfold br_likely br_taken br_annul
  split_ifs
  · exact ctl_frame_trans h (fun _ _ => rfl)
  · exact ctl_frame_trans h (fun _ _ => rfl)

theorem br_taken_ctl (s s0 : sim_t M) (t : Nat) (h : ctl_frame s0.cpu s.cpu) :
    ctl_frame s0.cpu (br_taken s t).s.cpu :=
  ctl_frame_trans h (fun _ _ => rfl)

theorem multiply_ctl (cpu : cpu_t) (a b : Nat) (sign : Bool) :
    ctl_frame cpu (multiply cpu a b sign) := by
  unfold multiply
  split_ifs <;> exact fun _ _ => rfl

set_option maxHeartbeats 4000000 in
/-- Every instruction but `MTC0` leaves the coprocessor 0 registers outside
`cp0_instr_written` alone. -/
theorem exec_switch_ctl (E : machine_t M) (s : sim_t M) (ii : instr_info_t)
    (h : ii.opcode ≠ opcMTC0) : ctl_frame s.cpu (exec_switch E s ii).s.cpu := by
  cases hop : ii.opcode
  case opcMTC0 => exact absurd hop h
  all_goals
    simp only [exec_switch, hop]
    first
      | with_reducible exact ctl_frame_refl _
      | with_reducible exact ctl_frame_wreg _ _ _
      | with_reducible exact br_cond_ctl _ _ _ _ _ (ctl_frame_refl _)
      | with_reducible exact br_cond_ctl _ _ _ _ _ (ctl_frame_wreg _ _ _)
      | with_reducible exact br_likely_ctl _ _ _ _ (ctl_frame_refl _)
      | with_reducible exact br_likely_ctl _ _ _ _ (ctl_frame_wreg _ _ _)
      | with_reducible exact br_taken_ctl _ _ _ (ctl_frame_refl _)
      | with_reducible exact br_taken_ctl _ _ _ (ctl_frame_wreg _ _ _)
      | with_reducible exact exec_load_ctl _ _ _ _ _ _ _
      | with_reducible exact exec_LW_ctl _ _ _ _ _
      | with_reducible exact exec_LL_ctl _ _ _ _ _
      | with_reducible exact exec_LWx_ctl _ _ _ _ _ _
      | with_reducible exact exec_store_ctl _ _ _ _ _ _
      | with_reducible exact exec_SC_ctl _ _ _ _ _
      | with_reducible exact exec_SWx_ctl _ _ _ _ _ _
      | with_reducible exact TLBW_ctl _ _ _
      | with_reducible exact exec_TLBP_ctl _ _
      | with_reducible exact exec_TLBR_ctl _ _
      | with_reducible exact exec_ERET_ctl _ _ _
      | with_reducible exact exec_MFC0_ctl _ _ _
      | with_reducible exact exec_copz_ctl _ _ _ _
      | with_reducible exact multiply_ctl _ _ _ _
      | exact ctl_frame_trans (multiply_ctl _ _ _ _) (fun _ _ => rfl)
      | (split_ifs <;> first
          | with_reducible exact ctl_frame_refl _
          | with_reducible exact cpu_unusable_ctl _ _
          | exact fun _ _ => rfl)
      | exact fun _ _ => rfl

theorem mtc0_write_random_wired (cpu : cpu_t) (rd v : Nat) :
    ((mtc0_write cpu rd v).cp0 cp0_Random = cpu.cp0 cp0_Random
        ∧ (mtc0_write cpu rd v).cp0 cp0_Wired = cpu.cp0 cp0_Wired)
      ∨ ((mtc0_write cpu rd v).cp0 cp0_Random = 47
        ∧ (mtc0_write cpu rd v).cp0 cp0_Wired ≤ 63) := by
  unfold mtc0_write
  split
  case h_7 =>
    right
    simp only [cpu_t.set_cp0]
    refine ⟨by rw [upd_ne _ _ _ _ (by decide), upd_same], ?_⟩
    rw [upd_same]
    exact Nat.and_le_right
  all_goals
    left
    first
      | exact ⟨rfl, rfl⟩
      | (simp only [cpu_t.set_cp0]
         split_ifs <;> exact ⟨by simp [upd, cp0_Random, cp0_PageMask], by simp [upd, cp0_Wired, cp0_PageMask]⟩)

theorem exec_switch_random_wired (E : machine_t M) (s : sim_t M) (ii : instr_info_t) :
    ((exec_switch E s ii).s.cpu.cp0 cp0_Random = s.cpu.cp0 cp0_Random
        ∧ (exec_switch E s ii).s.cpu.cp0 cp0_Wired = s.cpu.cp0 cp0_Wired)
      ∨ ((exec_switch E s ii).s.cpu.cp0 cp0_Random = 47
        ∧ (exec_switch E s ii).s.cpu.cp0 cp0_Wired ≤ 63) := by
  by_cases hop : ii.opcode = opcMTC0
  · simp only [exec_switch, hop]
    unfold exec_MTC0
    split_ifs
    · exact mtc0_write_random_wired _ _ _
    · exact Or.inl ⟨cpu_unusable_ctl s _ _ (by decide), cpu_unusable_ctl s _ _ (by decide)⟩
  · have h := exec_switch_ctl E s ii hop
    exact Or.inl ⟨h _ (by decide), h _ (by decide)⟩

/-- `Random` and `Wired` after the instruction of a step: as before, or
`Random = 47` with a 6-bit `Wired` (an `MTC0` to `Wired`). -/
theorem cpu_step_instr_random_wired (E : machine_t M) (s : sim_t M) :
    ((cpu_step_instr E s).2.cpu.cp0 cp0_Random = s.cpu.cp0 cp0_Random
        ∧ (cpu_step_instr E s).2.cpu.cp0 cp0_Wired = s.cpu.cp0 cp0_Wired)
      ∨ ((cpu_step_instr E s).2.cpu.cp0 cp0_Random = 47
        ∧ (cpu_step_instr E s).2.cpu.cp0 cp0_Wired ≤ 63) := by
  unfold cpu_step_instr
  split_ifs
  · rw [instruction_eq]
    have hf := cpu_read_ins_frame E s s.cpu.pc 0 true
    have h1 : (after_fetch E s).cpu.cp0 cp0_Random = s.cpu.cp0 cp0_Random :=
      hf.cp0 _ (by decide) (by decide) (by decide) (by decide)
    have h2 : (after_fetch E s).cpu.cp0 cp0_Wired = s.cpu.cp0 cp0_Wired :=
      hf.cp0 _ (by decide) (by decide) (by decide) (by decide)
    split_ifs
    · rw [execute_cp0, ← h1, ← h2]
      exact exec_switch_random_wired E (after_fetch E s) (fetched E s)
    · exact Or.inl ⟨h1, h2⟩
  · exact Or.inl ⟨rfl, rfl⟩

theorem manage_count_random (cpu : cpu_t) :
    (manage_count cpu).cp0 cp0_Wired = cpu.cp0 cp0_Wired
      ∧ (manage_count cpu).cp0 cp0_Random
          = (if (if cpu.cp0 cp0_Random = 0 then 47 else sub32 (cpu.cp0 cp0_Random) 1)
                < cpu.cp0 cp0_Wired then 47
             else (if cpu.cp0 cp0_Random = 0 then 47 else sub32 (cpu.cp0 cp0_Random) 1)) := by
  unfold manage_count cp0_random cp0_wired cp0_count cpu_t.set_cp0
  simp only [cp0_Random, cp0_Wired, cp0_Count]
  by_cases h0 : cpu.cp0 1 = 0
  · by_cases h1 : 47 < cpu.cp0 6
    · simp [upd, h0, h1]
    · simp [upd, h0, h1]
  · by_cases h1 : sub32 (cpu.cp0 1) 1 < cpu.cp0 6
    · simp [upd, h0, h1]
    · simp [upd, h0, h1]

theorem manage_random (cpu : cpu_t) (res : exc_t) :
    (manage cpu res).cp0 cp0_Wired = cpu.cp0 cp0_Wired
      ∧ (manage cpu res).cp0 cp0_Random
          = (if (if cpu.cp0 cp0_Random = 0 then 47 else sub32 (cpu.cp0 cp0_Random) 1)
                < cpu.cp0 cp0_Wired then 47
             else (if cpu.cp0 cp0_Random = 0 then 47 else sub32 (cpu.cp0 cp0_Random) 1)) := by
  unfold manage
  simp only
  rw [manage_timer_cp0 _ _ (by decide), manage_timer_cp0 _ _ (by decide)]
  by_cases h : manage_res cpu res ≠ excNone
  · rw [if_pos h]
    have e1 := handle_exception_cp0_other cpu (manage_res cpu res) cp0_Wired (by decide)
      (by decide) (by decide)
    have e2 := handle_exception_cp0_other cpu (manage_res cpu res) cp0_Random (by decide)
      (by decide) (by decide)
    have := manage_count_random (handle_exception cpu (manage_res cpu res))
    rw [e1, e2] at this
    exact this
  · rw [if_neg h]
    exact manage_count_random cpu

/-- One step keeps the invariant on `Random` and `Wired`. -/
theorem cpu_step_random_inv (E : machine_t M) (s : sim_t M) (h : random_inv s.cpu) :
    random_inv (cpu_step E s).cpu := by
  obtain ⟨m1, m2⟩ := manage_random (cpu_step_instr E s).2.cpu (cpu_step_instr E s).1
  have hi := cpu_step_instr_random_wired E s
  unfold random_inv cp0_random cp0_wired at h ⊢
  rw [cpu_step_cp0, m1, m2]
  unfold sub32
  rcases hi with ⟨a, b⟩ | ⟨a, b⟩
  · rw [a, b]
    obtain ⟨h1, h2, h3, h4⟩ := h
    refine ⟨?_, h2, ?_, ?_⟩
    · split_ifs <;> omega
    · intro hw; split_ifs <;> omega
    · intro hw; split_ifs <;> omega
  · rw [a]
    refine ⟨?_, b, ?_, ?_⟩
    · split_ifs <;> omega
    · intro hw; split_ifs <;> omega
    · intro hw; split_ifs <;> omega

theorem cpu_init_random_inv (procno : Nat) : random_inv (cpu_init procno) := by
  have hr : cp0_random (cpu_init procno) = 47 := rfl
  have hw : cp0_wired (cpu_init procno) = 0 := rfl
  unfold random_inv
  rw [hr, hw]
  decide

/-- C16 as the code has it: in every state reachable from `cpu_init` by
`cpu_step`s over any memory, `Random <= 47`, `Wired` is a 6-bit value,
`Wired <= Random` whenever `Wired <= 47`, and `Random = 47` whenever `Wired` is
above 47. -/
theorem reachable_random_inv (E : machine_t M) (s : sim_t M) (h : reachable E s) :
    random_inv s.cpu := by
  induction h with
  | init procno m tr th ia => exact cpu_init_random_inv procno
  | step s _ ih => exact cpu_step_random_inv E s ih
  | mem s m _ ih => exact ih

/-- Two steps from reset over `ORI r1, r0, 40; MTC0 r1, Wired`: the state is
reachable and ends with `Wired = 40 <= Random = 46 <= 47`. -/
theorem reachable_random_inv_witness :
    reachable ram_machine (cpu_step ram_machine (cpu_step ram_machine wired_ok_state))
      ∧ cp0_wired (cpu_step ram_machine (cpu_step ram_machine wired_ok_state)).cpu = 40
      ∧ cp0_random (cpu_step ram_machine (cpu_step ram_machine wired_ok_state)).cpu = 46
      ∧ random_inv (cpu_step ram_machine (cpu_step ram_machine wired_ok_state)).cpu :=
  ⟨reachable.step _ (reachable.step _ (reachable.init 0 _ false false false)),
    by decide, by decide,
    reachable_random_inv ram_machine _
      (reachable.step _ (reachable.step _ (reachable.init 0 _ false false false)))⟩

/-- C16 fails as stated: two steps from reset over `ORI r1, r0, 63;
MTC0 r1, Wired` reach a state with `Wired = 63` and `Random = 47`, so
`Wired <= Random` does not hold after the step. -/
theorem wired_above_random_counterexample :
    reachable ram_machine (cpu_step ram_machine (cpu_step ram_machine wired_demo_state))
      ∧ cp0_wired (cpu_step ram_machine (cpu_step ram_machine wired_demo_state)).cpu = 63
      ∧ cp0_random (cpu_step ram_machine (cpu_step ram_machine wired_demo_state)).cpu = 47
      ∧ ¬ (cp0_wired (cpu_step ram_machine (cpu_step ram_machine wired_demo_state)).cpu
            ≤ cp0_random (cpu_step ram_machine (cpu_step ram_machine wired_demo_state)).cpu) :=
  ⟨reachable.step _ (reachable.step _ (reachable.init 0 _ false false false)),
    by decide, by decide, by decide⟩

/-! ## TLB probe (TLBP) -/

theorem tlbp_loop_miss (cpu c0 : cpu_t) (index : Nat) (ht : cpu.tlb = c0.tlb) :
    ∀ n i, (∀ j, i ≤ j → j < i + n → ¬ tlbp_matches c0 j) →
      tlbp_loop cpu (cp0_entryhi c0 &&& cp0_entryhi_vpn2_mask)
        (cp0_entryhi c0 &&& cp0_entryhi_asid_mask) index n i = index := by
  intro n
  induction n with
  | zero => intro i _; rfl
  | succ n ih =>
    intro i h
    have hi := h i (Nat.le_refl _) (by omega)
    unfold tlbp_matches cp0_entryhi_asid at hi
    rw [tlbp_loop, ht, if_neg hi]
    exact ih (i + 1) (fun j h1 h2 => h j (by omega) (by omega))

theorem tlbp_loop_hit (cpu c0 : cpu_t) (index : Nat) (ht : cpu.tlb = c0.tlb) :
    ∀ n i j, i ≤ j → j < i + n → tlbp_matches c0 j → (∀ k, i ≤ k → k < j → ¬ tlbp_matches c0 k) →
      tlbp_loop cpu (cp0_entryhi c0 &&& cp0_entryhi_vpn2_mask)
        (cp0_entryhi c0 &&& cp0_entryhi_asid_mask) index n i = j := by
  intro n
  induction n with
  | zero => intro i j h1 h2; omega
  | succ n ih =>
    intro i j h1 h2 hm hf
    by_cases hij : i = j
    · subst hij
      unfold tlbp_matches cp0_entryhi_asid at hm
      rw [tlbp_loop, ht, if_pos hm]
    · have hi := hf i (Nat.le_refl _) (by omega)
      unfold tlbp_matches cp0_entryhi_asid at hi
      rw [tlbp_loop, ht, if_neg hi]
      exact ih (i + 1) j (by omega) (by omega) hm (fun k h3 h4 => hf k (by omega) h4)

theorem exec_switch_TLBP (E : machine_t M) (s : sim_t M) (ii : instr_info_t)
    (hop : ii.opcode = opcTLBP) (hu : cp0_usable s.cpu) :
    (exec_switch E s ii).res = excNone
      ∧ cp0_index (exec_switch E s ii).s.cpu
          = tlbp_loop (s.cpu.set_cp0 cp0_Index (shl32 1 cp0_index_p_shift))
              (cp0_entryhi s.cpu &&& cp0_entryhi_vpn2_mask)
              (cp0_entryhi s.cpu &&& cp0_entryhi_asid_mask) 0x80000000 TLB_ENTRIES 0 := by
  simp only [exec_switch, hop]
  unfold exec_TLBP
  rw [if_pos hu]
  exact ⟨rfl, rfl⟩

/-- The entry `TLBW` writes answers a probe with the same `EntryHi`. -/
theorem tlbw_entry_vpn2 (eh pm : Nat) :
    eh &&& (cp0_entryhi_vpn2_mask &&& not32 pm)
      = (eh &&& cp0_entryhi_vpn2_mask) &&& (cp0_entryhi_vpn2_mask &&& not32 pm) := by
  apply Nat.eq_of_testBit_eq
  intro i
  simp only [Nat.testBit_and]
  cases eh.testBit i <;> cases cp0_entryhi_vpn2_mask.testBit i <;> cases (not32 pm).testBit i <;>
    rfl

/-- C17: `TLBP` with coprocessor 0 usable raises no fault and leaves in
`Index` the least `i` in `[0, 47]` whose entry answers the probe, and
`0x80000000` exactly when no entry does; a `TLBP` executed right after a
`TLBWI` at an index `i <= 47` (with the `EntryHi` the `TLBWI` used) leaves an
`Index <= i` with bit 31 clear. -/
theorem tlbp_index (E : machine_t M) (s : sim_t M) (ii : instr_info_t)
    (hop : ii.opcode = opcTLBP) (hu : cp0_usable s.cpu) :
    (execute E s ii).1 = excNone
      ∧ (∀ i, i < TLB_ENTRIES → tlbp_matches s.cpu i → (∀ j, j < i → ¬ tlbp_matches s.cpu j) →
          cp0_index (execute E s ii).2.cpu = i)
      ∧ (cp0_index (execute E s ii).2.cpu = 0x80000000
          ↔ ∀ i, i < TLB_ENTRIES → ¬ tlbp_matches s.cpu i)
      ∧ (∀ (s0 : sim_t M) (iiW : instr_info_t), iiW.opcode = opcTLBWI → cp0_usable s0.cpu →
          cp0_index_index s0.cpu ≤ 47 → s = (execute E s0 iiW).2 →
          cp0_index (execute E s ii).2.cpu ≤ cp0_index_index s0.cpu
            ∧ cp0_index (execute E s ii).2.cpu &&& 0x80000000 = 0) := by
  obtain ⟨hres, hidx⟩ := exec_switch_TLBP E s ii hop hu
  have hidx2 : cp0_index (execute E s ii).2.cpu
      = tlbp_loop (s.cpu.set_cp0 cp0_Index (shl32 1 cp0_index_p_shift))
          (cp0_entryhi s.cpu &&& cp0_entryhi_vpn2_mask)
          (cp0_entryhi s.cpu &&& cp0_entryhi_asid_mask) 0x80000000 TLB_ENTRIES 0 := by
    rw [← hidx]
    unfold cp0_index
    rw [execute_cp0]
  have hhit : ∀ i, i < TLB_ENTRIES → tlbp_matches s.cpu i →
      (∀ j, j < i → ¬ tlbp_matches s.cpu j) → cp0_index (execute E s ii).2.cpu = i := by
    intro i hi hm hf
    rw [hidx2]
    exact tlbp_loop_hit _ s.cpu _ rfl TLB_ENTRIES 0 i (Nat.zero_le _) (by omega) hm
      (fun k _ hk => hf k hk)
  have hleast : ∀ i, i < TLB_ENTRIES → tlbp_matches s.cpu i →
      cp0_index (execute E s ii).2.cpu ≤ i := by
    intro i hi hm
    have hex : ∃ j, tlbp_matches s.cpu j := ⟨i, hm⟩
    have hle : Nat.find hex ≤ i := Nat.find_min' hex hm
    rw [hhit (Nat.find hex) (Nat.lt_of_le_of_lt hle hi) (Nat.find_spec hex)
      (fun j hj => Nat.find_min hex hj)]
    exact hle
  refine ⟨by rw [execute_res]; exact hres, hhit, ⟨?_, ?_⟩, ?_⟩
  · intro h i hi hm
    have := hleast i hi hm
    rw [h] at this
    have h48 : i < 48 := hi
    omega
  · intro hno
    rw [hidx2]
    exact tlbp_loop_miss _ s.cpu _ rfl TLB_ENTRIES 0 (fun j _ h2 => hno j (by omega))
  · intro s0 iiW hW hu0 hi0 hs
    have hw := exec_switch_TLBWI E s0 iiW hW hu0 hi0
    have hcp : s.cpu.cp0 = s0.cpu.cp0 := by rw [hs, execute_cp0, hw]
    have htlb : s.cpu.tlb = upd s0.cpu.tlb (cp0_index_index s0.cpu) (tlbw_entry s0.cpu) := by
      rw [hs, execute_tlb, hw]
    have hm : tlbp_matches s.cpu (cp0_index_index s0.cpu) := by
      unfold tlbp_matches cp0_entryhi_asid cp0_entryhi
      rw [htlb, upd_same, hcp]
      exact ⟨tlbw_entry_vpn2 _ _, Or.inr rfl⟩
    have hle := hleast _ (Nat.lt_of_le_of_lt hi0 (by decide)) hm
    refine ⟨hle, ?_⟩
    exact and_sbit_of_lt _ (by omega)

/-- `TLBWI` at `Index = 5` with `EntryHi = 0x00408012`, the other entries
holding another page, then `TLBP`: entry 5 is the first to answer and `Index`
is 5; without the `TLBWI` no entry answers and `Index = 0x80000000`. -/
theorem tlbp_index_witness :
    ((mips_decode 0x42000008).opcode = opcTLBP ∧ (mips_decode 0x42000002).opcode = opcTLBWI
        ∧ cp0_usable tlbp_demo_state.cpu ∧ cp0_index_index tlbp_demo_state.cpu ≤ 47
        ∧ cp0_usable (execute ram_machine tlbp_demo_state (mips_decode 0x42000002)).2.cpu)
      ∧ cp0_index (execute ram_machine
          (execute ram_machine tlbp_demo_state (mips_decode 0x42000002)).2
          (mips_decode 0x42000008)).2.cpu = 5
      ∧ cp0_index (execute ram_machine tlbp_demo_state (mips_decode 0x42000008)).2.cpu
          = 0x80000000 :=
  ⟨⟨by decide, by decide, by decide, by decide, by decide⟩,
    (tlbp_index ram_machine (execute ram_machine tlbp_demo_state (mips_decode 0x42000002)).2
      (mips_decode 0x42000008) (by decide) (by decide)).2.1 5 (by decide) (by decide)
      (by decide),
    (tlbp_index ram_machine tlbp_demo_state (mips_decode 0x42000008) (by decide)
      (by decide)).2.2.1.mpr (by decide)⟩

/-! ## Coprocessor unusable -/

theorem cp0_status_cu0_le (cpu : cpu_t) : cp0_status_cu0 cpu ≤ 1 :=
  bit_field_le _ _ _

theorem cp0_usable_iff (cpu : cpu_t) : cp0_usable cpu ↔ ¬ cp0_not_usable cpu := by
  have h1 := cp0_status_cu0_le cpu
  have h2 := cp0_status_exl_le cpu
  have h3 := cp0_status_erl_le cpu
  unfold cp0_usable cp0_not_usable
  omega

/-- The seven instructions take the coprocessor-unusable path exactly when
coprocessor 0 is not usable, and raise no fault otherwise. -/
theorem exec_switch_cp0_instr (E : machine_t M) (s : sim_t M) (ii : instr_info_t)
    (hop : is_cp0_instr ii.opcode) :
    (cp0_not_usable s.cpu → exec_switch E s ii = cpu_unusable s (add32 s.cpu.pc_next 4))
      ∧ (¬ cp0_not_usable s.cpu → (exec_switch E s ii).res = excNone) := by
  have h1 := cp0_status_cu0_le s.cpu
  have h2 := cp0_status_exl_le s.cpu
  have h3 := cp0_status_erl_le s.cpu
  have hu := cp0_usable_iff s.cpu
  have hmt : (cp0_status_cu0 s.cpu = 1 ∨ (cp0_status_ksu s.cpu = 0 ∨ cp0_status_exl s.cpu ≠ 0
      ∨ cp0_status_erl s.cpu ≠ 0)) ↔ ¬ cp0_not_usable s.cpu := by
    unfold cp0_not_usable; omega
  have her : (cp0_status_cu0 s.cpu ≠ 0 ∨ cp0_status_ksu s.cpu = 0 ∨ cp0_status_exl s.cpu ≠ 0
      ∨ cp0_status_erl s.cpu ≠ 0) ↔ ¬ cp0_not_usable s.cpu := by
    unfold cp0_not_usable; omega
  rcases hop with hop | hop | hop | hop | hop | hop | hop
  · simp only [exec_switch, hop]
    unfold exec_MFC0
    exact ⟨fun h => by rw [if_neg (fun hh => hu.mp hh h)],
      fun h => by rw [if_pos (hu.mpr h)]⟩
  · simp only [exec_switch, hop]
    unfold exec_MTC0
    exact ⟨fun h => by rw [if_neg (fun hh => hmt.mp hh h)],
      fun h => by rw [if_pos (hmt.mpr h)]⟩
  · simp only [exec_switch, hop]
    unfold exec_ERET
    refine ⟨fun h => by rw [if_neg (fun hh => her.mp hh h)], fun h => ?_⟩
    rw [if_pos (her.mpr h)]
    dsimp only
    split_ifs <;> rfl
  · simp only [exec_switch, hop]
    unfold exec_TLBP
    exact ⟨fun h => by rw [if_neg (fun hh => hu.mp hh h)],
      fun h => by rw [if_pos (hu.mpr h)]⟩
  · simp only [exec_switch, hop]
    unfold exec_TLBR
    refine ⟨fun h => by rw [if_neg (fun hh => hu.mp hh h)], fun h => ?_⟩
    rw [if_pos (hu.mpr h)]
    dsimp only
    split_ifs <;> rfl
  · simp only [exec_switch, hop]
    unfold TLBW
    refine ⟨fun h => by rw [if_neg (fun hh => hu.mp hh h)], fun h => ?_⟩
    rw [if_pos (hu.mpr h)]
    dsimp only
    split_ifs <;> rfl
  · simp only [exec_switch, hop]
    unfold TLBW
    refine ⟨fun h => by rw [if_neg (fun hh => hu.mp hh h)], fun h => ?_⟩
    rw [if_pos (hu.mpr h)]
    dsimp only
    split_ifs <;> rfl

theorem execute_llbit (E : machine_t M) (s : sim_t M) (ii : instr_info_t) :
    (execute E s ii).2.cpu.llbit = (exec_switch E s ii).s.cpu.llbit := by
  unfold execute
  simp only [cpu_t.set_reg]
  split_ifs <;> rfl

/-- C18: each of `MFC0`, `MTC0`, `ERET`, `TLBP`, `TLBR`, `TLBWI` and `TLBWR`
returns `CpU` exactly when `Status.CU0 = 0`, `KSU != 0`, `EXL = 0` and
`ERL = 0`; and then `Cause` is its old value with the `CE` field cleared, and
the general registers, the other coprocessor 0 registers, the TLB, the PC and
the LL bit are as they were. -/
theorem cp0_instr_unusable (E : machine_t M) (s : sim_t M) (ii : instr_info_t)
    (hop : is_cp0_instr ii.opcode) (h0 : s.cpu.regs 0 = 0) :
    ((execute E s ii).1 = excCpU ↔ cp0_not_usable s.cpu)
      ∧ ((execute E s ii).1 = excCpU →
          cp0_cause_ce (execute E s ii).2.cpu = 0
            ∧ cp0_cause (execute E s ii).2.cpu = cp0_cause s.cpu &&& not32 cp0_cause_ce_mask
            ∧ (∀ i, i ≠ cp0_Cause → (execute E s ii).2.cpu.cp0 i = s.cpu.cp0 i)
            ∧ (∀ i, (execute E s ii).2.cpu.regs i = s.cpu.regs i)
            ∧ (execute E s ii).2.cpu.tlb = s.cpu.tlb
            ∧ (execute E s ii).2.cpu.pc = s.cpu.pc
            ∧ (execute E s ii).2.cpu.llbit = s.cpu.llbit) := by
  obtain ⟨hno, hyes⟩ := exec_switch_cp0_instr E s ii hop
  have hiff : (execute E s ii).1 = excCpU ↔ cp0_not_usable s.cpu := by
    rw [execute_res]
    constructor
    · intro h
      by_contra hc
      rw [hyes hc] at h
      exact absurd h (by decide)
    · intro h
      rw [hno h]
      rfl
  refine ⟨hiff, fun hf => ?_⟩
  have hsw := hno (hiff.mp hf)
  have hc : cp0_cause (execute E s ii).2.cpu = cp0_cause s.cpu &&& not32 cp0_cause_ce_mask := by
    unfold cp0_cause
    rw [execute_cp0, hsw]
    simp only [cpu_unusable, cpu_t.set_cp0, upd_same]
    rfl
  refine ⟨?_, hc, ?_, ?_, ?_, ?_, ?_⟩
  · unfold cp0_cause_ce
    rw [hc, and_and_disjoint _ _ _ (by decide)]
    rfl
  · intro i hi
    rw [execute_cp0, hsw]
    simp only [cpu_unusable, cpu_t.set_cp0, upd_ne _ _ _ _ hi]
  · intro i
    rw [execute_regs, hsw]
    split_ifs with hi
    · rw [hi, h0]
    · rfl
  · rw [execute_tlb, hsw]
    rfl
  · rw [execute_pc, hsw]
    rfl
  · rw [execute_llbit, hsw]
    rfl

/-- `MFC0 r2, Status` (word `0x40026000`) in user mode with `CU0 = 0`: the
result is `CpU` and register 2 keeps its value. -/
theorem cp0_instr_unusable_witness :
    (is_cp0_instr (mips_decode 0x40026000).opcode ∧ user_cp0_state.cpu.regs 0 = 0
        ∧ cp0_not_usable user_cp0_state.cpu)
      ∧ (execute ram_machine user_cp0_state (mips_decode 0x40026000)).1 = excCpU
      ∧ cp0_cause_ce (execute ram_machine user_cp0_state (mips_decode 0x40026000)).2.cpu = 0
      ∧ (execute ram_machine user_cp0_state (mips_decode 0x40026000)).2.cpu.pc
          = user_cp0_state.cpu.pc :=
  ⟨⟨by decide, by decide, by decide⟩,
    (cp0_instr_unusable ram_machine user_cp0_state (mips_decode 0x40026000) (by decide)
      (by decide)).1.mpr (by decide),
    ((cp0_instr_unusable ram_machine user_cp0_state (mips_decode 0x40026000) (by decide)
      (by decide)).2 (by decide)).1,
    ((cp0_instr_unusable ram_machine user_cp0_state (mips_decode 0x40026000) (by decide)
      (by decide)).2 (by decide)).2.2.2.2.2.1⟩

/-! ## Return from exception (ERET) -/

theorem and_not32_disjoint (x a b : Nat) (hb : b < 2 ^ 32) (hab : a &&& b = 0) :
    (x &&& not32 a) &&& b = x &&& b := by
  apply Nat.eq_of_testBit_eq
  intro i
  have h1 := congrArg (fun n => Nat.testBit n i) hab
  simp only [Nat.testBit_and, Nat.zero_testBit] at h1
  simp only [Nat.testBit_and, testBit_not32]
  by_cases hi : i < 32
  · cases hx : x.testBit i <;> cases ha : a.testBit i <;> cases hbb : b.testBit i <;> simp_all
  · have : b.testBit i = false := testBit_u32_high b i hb (by omega)
    simp [this]

/-- The usable path of `ERET`. -/
theorem exec_ERET_ok (E : machine_t M) (s : sim_t M) (pca : Nat)
    (hu : ¬ cp0_not_usable s.cpu) :
    (exec_ERET E s pca).res = excNone
      ∧ (exec_ERET E s pca).s.cpu.llbit = false
      ∧ (exec_ERET E s pca).s.cpu.regs = s.cpu.regs
      ∧ (exec_ERET E s pca).s.cpu.pc_next
          = (if cp0_status_erl s.cpu ≠ 0 then cp0_errorepc s.cpu else cp0_epc s.cpu)
      ∧ (exec_ERET E s pca).pca = add32 (exec_ERET E s pca).s.cpu.pc_next 4
      ∧ (exec_ERET E s pca).s.cpu.cp0 cp0_Status
          = cp0_status s.cpu &&& not32 (if cp0_status_erl s.cpu ≠ 0 then cp0_status_erl_mask
              else cp0_status_exl_mask) := by
  have h1 := cp0_status_cu0_le s.cpu
  have h2 := cp0_status_exl_le s.cpu
  have h3 := cp0_status_erl_le s.cpu
  have her : cp0_status_cu0 s.cpu ≠ 0 ∨ cp0_status_ksu s.cpu = 0 ∨ cp0_status_exl s.cpu ≠ 0
      ∨ cp0_status_erl s.cpu ≠ 0 := by
    unfold cp0_not_usable at hu; omega
  have e : ∀ (c : cpu_t) (b : Bool), cp0_status_erl { c with llbit := b } = cp0_status_erl c :=
    fun _ _ => rfl
  unfold exec_ERET
  rw [if_pos her]
  dsimp only
  rw [e]
  by_cases hl : cp0_status_erl s.cpu ≠ 0
  · rw [if_pos hl, if_pos hl, if_pos hl]
    refine ⟨rfl, rfl, rfl, rfl, rfl, ?_⟩
    simp only [cpu_t.set_cp0, upd_same]
    rfl
  · rw [if_neg hl, if_neg hl, if_neg hl]
    refine ⟨rfl, rfl, rfl, rfl, rfl, ?_⟩
    simp only [cpu_t.set_cp0, upd_same]
    rfl

theorem manage_llbit (cpu : cpu_t) (res : exc_t) (h : manage_res cpu res = excNone) :
    (manage cpu res).llbit = cpu.llbit := by
  rw [manage_no_exception cpu res h]
  unfold manage_timer manage_count cpu_t.set_cp0
  simp only
  split_ifs <;> rfl

theorem cpu_step_llbit0 (E : machine_t M) (s : sim_t M) :
    (cpu_step E s).cpu.llbit
      = (manage (cpu_step_instr E s).2.cpu (cpu_step_instr E s).1).llbit := by
  unfold cpu_step
  simp only
  split_ifs <;> rfl

/-- C19: a step that fetches `ERET` with coprocessor 0 usable and delivers no
interrupt ends, when `Status.ERL = 1`, with `PC = ErrorEPC`, `ERL` cleared and
`EXL` unchanged, and otherwise with `PC = EPC` and `EXL` cleared (`ERL` still
clear); in both cases `PC_next = PC + 4`, so that the next instruction executed
is the one at the return address and not the one stored after the `ERET`, the
LL bit is false, no general register changes and the step delivers no
exception. -/
theorem eret_step (E : machine_t M) (s : sim_t M) (hs : s.cpu.stdby = false)
    (hf : (cpu_read_ins E s s.cpu.pc 0 true).1 = excNone)
    (hop : (fetched E s).opcode = opcERET) (hu : ¬ cp0_not_usable s.cpu)
    (hi : step_exception E s ≠ excInt) (h0 : s.cpu.regs 0 = 0) :
    (cp0_status_erl s.cpu = 1 →
        (cpu_step E s).cpu.pc = cp0_errorepc s.cpu
          ∧ cp0_status_erl (cpu_step E s).cpu = 0
          ∧ cp0_status_exl (cpu_step E s).cpu = cp0_status_exl s.cpu)
      ∧ (cp0_status_erl s.cpu = 0 →
        (cpu_step E s).cpu.pc = cp0_epc s.cpu
          ∧ cp0_status_exl (cpu_step E s).cpu = 0
          ∧ cp0_status_erl (cpu_step E s).cpu = 0)
      ∧ (cpu_step E s).cpu.pc_next = add32 (cpu_step E s).cpu.pc 4
      ∧ (cpu_step E s).cpu.llbit = false
      ∧ (cpu_step E s).cpu.regs = s.cpu.regs
      ∧ step_exception E s = excNone := by
  have hst := cpu_step_instr_fetch_ok E s hs hf
  have hcp : (after_fetch E s).cpu.cp0 = s.cpu.cp0 := cpu_read_ins_ok_cp0 E s _ _ _ hf
  have hfr : acc_frame s.cpu (after_fetch E s).cpu := cpu_read_ins_ok_frame E s _ _ _ hf
  have hu1 : ¬ cp0_not_usable (after_fetch E s).cpu := by
    unfold cp0_not_usable cp0_status_cu0 cp0_status_ksu cp0_status_exl cp0_status_erl cp0_status
    rw [hcp]
    exact hu
  have hsw : exec_switch E (after_fetch E s) (fetched E s)
      = exec_ERET E (after_fetch E s) (add32 (after_fetch E s).cpu.pc_next 4) := by
    simp only [exec_switch, hop]
  obtain ⟨e1, e2, e3, e4, e5, e6⟩ := exec_ERET_ok E (after_fetch E s)
    (add32 (after_fetch E s).cpu.pc_next 4) hu1
  rw [← hsw] at e1 e2 e3 e4 e5 e6
  have hx : step_exception E s = excNone := by
    have h1 : (cpu_step_instr E s).1 = excNone := by rw [hst, execute_res]; exact e1
    unfold step_exception at hi ⊢
    rw [h1] at hi ⊢
    unfold manage_res at hi ⊢
    split_ifs at hi ⊢
    · exact absurd rfl hi
    · rfl
  have hm := manage_pc_frame _ _ hx
  have hpc : (cpu_step E s).cpu.pc
      = (if cp0_status_erl s.cpu ≠ 0 then cp0_errorepc s.cpu else cp0_epc s.cpu) := by
    rw [cpu_step_pc0, hm.pc, hst, execute_pc, if_pos e1, e4]
    unfold cp0_status_erl cp0_status cp0_errorepc cp0_epc
    rw [hcp]
  have hpn : (cpu_step E s).cpu.pc_next = add32 (cpu_step E s).cpu.pc 4 := by
    rw [cpu_step_pc_next0, hm.pc_next, cpu_step_pc0, hm.pc, hst, execute_pc_next, execute_pc,
      if_pos e1, if_pos e1, e5]
  have hll : (cpu_step E s).cpu.llbit = false := by
    rw [cpu_step_llbit0, manage_llbit _ _ hx, hst, execute_llbit, e2]
  have hrg : (cpu_step E s).cpu.regs = s.cpu.regs := by
    funext i
    rw [cpu_step_regs, hst, execute_regs, e3, hfr.regs]
    split_ifs with h
    · rw [h, h0]
    · rfl
  have hstat : cp0_status (cpu_step E s).cpu
      = cp0_status s.cpu &&& not32 (if cp0_status_erl s.cpu ≠ 0 then cp0_status_erl_mask
          else cp0_status_exl_mask) := by
    unfold cp0_status
    rw [cpu_step_cp0, manage_no_exception _ _ hx, manage_timer_cp0 _ _ (by decide),
      manage_count_cp0 _ _ (by decide) (by decide), hst, execute_cp0, e6]
    unfold cp0_status_erl cp0_status
    rw [hcp]
  refine ⟨?_, ?_, hpn, hll, hrg, hx⟩
  · intro h1
    have hne : cp0_status_erl s.cpu ≠ 0 := by omega
    rw [if_pos hne] at hpc hstat
    refine ⟨hpc, ?_, ?_⟩
    · unfold cp0_status_erl
      rw [hstat, and_and_disjoint]
      · rfl
      · decide
    · unfold cp0_status_exl
      rw [hstat, and_not32_disjoint _ _ _ (by decide) (by decide)]
  · intro h1
    have hne : ¬ cp0_status_erl s.cpu ≠ 0 := by omega
    rw [if_neg hne] at hpc hstat
    refine ⟨hpc, ?_, ?_⟩
    · unfold cp0_status_exl
      rw [hstat, and_and_disjoint]
      · rfl
      · decide
    · have h2 : cp0_status_erl (cpu_step E s).cpu = cp0_status_erl s.cpu := by
        unfold cp0_status_erl
        rw [hstat, and_not32_disjoint _ _ _ (by decide) (by decide)]
      rw [h2, h1]

/-- Witness of `eret_step`: `ERET` at the reset vector of the reset processor
(`ERL = 1`, `ErrorEPC = 0x80001000`) ends with `PC = 0x80001000` and `ERL`
clear; `ERET` at exception level (`EXL = 1`, `ERL = 0`, `EPC = 0x80002000`, LL
bit set) ends with `PC = 0x80002000`, `EXL` clear and the LL bit false; the
`ORI r1, r0, 1` stored after the `ERET` leaves `r1 = 0`. -/
theorem eret_step_witness :
    (eret_erl_state.cpu.stdby = false
        ∧ (cpu_read_ins ram_machine eret_erl_state eret_erl_state.cpu.pc 0 true).1 = excNone
        ∧ (fetched ram_machine eret_erl_state).opcode = opcERET
        ∧ ¬ cp0_not_usable eret_erl_state.cpu
        ∧ step_exception ram_machine eret_erl_state ≠ excInt
        ∧ eret_erl_state.cpu.regs 0 = 0 ∧ cp0_status_erl eret_erl_state.cpu = 1)
      ∧ ((cpu_step ram_machine eret_erl_state).cpu.pc = 0x80001000
        ∧ cp0_status_erl (cpu_step ram_machine eret_erl_state).cpu = 0
        ∧ cp0_status_exl (cpu_step ram_machine eret_erl_state).cpu
            = cp0_status_exl eret_erl_state.cpu)
      ∧ (cp0_status_erl eret_exl_state.cpu = 0 ∧ eret_exl_state.cpu.llbit = true
        ∧ cp0_status_exl eret_exl_state.cpu = 1)
      ∧ ((cpu_step ram_machine eret_exl_state).cpu.pc = 0x80002000
        ∧ cp0_status_exl (cpu_step ram_machine eret_exl_state).cpu = 0
        ∧ cp0_status_erl (cpu_step ram_machine eret_exl_state).cpu = 0)
      ∧ (cpu_step ram_machine eret_exl_state).cpu.pc_next = 0x80002004
      ∧ (cpu_step ram_machine eret_exl_state).cpu.llbit = false
      ∧ (cpu_step ram_machine eret_exl_state).cpu.regs 1 = 0 :=
  ⟨⟨by decide, by decide, by decide, by decide, by decide, by decide, by decide⟩,
    (eret_step ram_machine eret_erl_state (by decide) (by decide) (by decide) (by decide)
      (by decide) (by decide)).1 (by decide),
    ⟨by decide, by decide, by decide⟩,
    (eret_step ram_machine eret_exl_state (by decide) (by decide) (by decide) (by decide)
      (by decide) (by decide)).2.1 (by decide),
    by decide, by decide, by decide⟩

/-! ## Interrupt delivery -/

theorem ip_im_test (c s : Nat) :
    ((c &&& s) &&& 0xff00 ≠ 0) ↔ (((c &&& 0xff00) >>> 8) &&& ((s &&& 0xff00) >>> 8) ≠ 0) := by
  have e : ((c &&& 0xff00) >>> 8) &&& ((s &&& 0xff00) >>> 8) = ((c &&& s) &&& 0xff00) >>> 8 := by
    apply Nat.eq_of_testBit_eq
    intro i
    simp only [Nat.testBit_and, Nat.testBit_shiftRight]
    cases c.testBit (8 + i) <;> cases s.testBit (8 + i) <;> simp
  rw [e]
  have h1 : ((c &&& s) &&& 0xff00) % 256 = 0 := by
    have := Nat.and_pow_two_sub_one_eq_mod ((c &&& s) &&& 0xff00) 8
    have h2 : ((c &&& s) &&& 0xff00) &&& (2 ^ 8 - 1) = 0 := and_and_disjoint _ _ _ (by decide)
    rw [h2] at this
    omega
  rw [Nat.shiftRight_eq_div_pow]
  omega

theorem manage_res_int (cpu : cpu_t) :
    (manage_res cpu excNone = excInt ↔ int_deliverable cpu)
      ∧ (manage_res cpu excNone = excInt ∨ manage_res cpu excNone = excNone) := by
  have hie : cp0_status_ie cpu ≤ 1 := Nat.and_le_right
  have hip := ip_im_test (cp0_cause cpu) (cp0_status cpu)
  unfold manage_res int_deliverable cp0_cause_ip cp0_status_im
  simp only [cp0_cause_ip_mask, cp0_status_im_mask, cp0_cause_ip0_shift] at hip ⊢
  constructor
  · constructor
    · intro h
      split_ifs at h with hc
      exact ⟨hc.2.1, hc.2.2.1, by omega, hip.mp hc.2.2.2.2⟩
    · intro h
      rw [if_pos ⟨trivial, h.1, h.2.1, by omega, hip.mpr h.2.2.2⟩]
  · split_ifs
    · exact Or.inl rfl
    · exact Or.inr rfl

theorem manage_step_exception (cpu : cpu_t) (res : exc_t) :
    manage cpu res = manage_timer (manage_count
      (if manage_res cpu res ≠ excNone then handle_exception cpu (manage_res cpu res)
        else cpu)) := rfl

theorem cpu_step_instr_result (E : machine_t M) (s : sim_t M)
    (hf : (cpu_step_instr E s).1 ≠ excNone) : (cpu_step_instr E s).1 ≠ excInt :=
  (instr_result_fault _ (step_fault_state E s (cpu_step_instr_standby E s hf) hf).1 hf).1

/-- C20: in a `cpu_step` whose instruction raised no fault (also when no
instruction ran because the processor is in standby), `manage` delivers `Int`
exactly when, in the state after the instruction, `Status.EXL = 0`,
`Status.ERL = 0`, `Status.IE = 1` and `Cause.IP & Status.IM` is not zero, and
delivers nothing otherwise; when the instruction raised a fault, that fault is
the one delivered and it is not `Int`; the exception delivered is the one
`handle_exception` is called with. -/
theorem int_delivery (E : machine_t M) (s : sim_t M) :
    ((cpu_step_instr E s).1 = excNone →
        (step_exception E s = excInt ↔ int_deliverable (cpu_step_instr E s).2.cpu)
          ∧ (step_exception E s ≠ excInt → step_exception E s = excNone))
      ∧ ((cpu_step_instr E s).1 ≠ excNone →
        step_exception E s = (cpu_step_instr E s).1 ∧ step_exception E s ≠ excInt)
      ∧ (s.cpu.stdby = true → cpu_step_instr E s = (excNone, s))
      ∧ manage (cpu_step_instr E s).2.cpu (cpu_step_instr E s).1
          = manage_timer (manage_count
              (if step_exception E s ≠ excNone then
                handle_exception (cpu_step_instr E s).2.cpu (step_exception E s)
              else (cpu_step_instr E s).2.cpu)) := by
  refine ⟨?_, ?_, ?_, manage_step_exception _ _⟩
  · intro h
    unfold step_exception
    rw [h]
    refine ⟨(manage_res_int _).1, ?_⟩
    intro hne
    rcases (manage_res_int (cpu_step_instr E s).2.cpu).2 with h1 | h1
    · exact absurd h1 hne
    · exact h1
  · intro h
    unfold step_exception
    rw [manage_res_fault _ _ h]
    exact ⟨rfl, cpu_step_instr_result E s h⟩
  · intro h
    unfold cpu_step_instr
    rw [if_neg (by rw [h]; decide)]

/-- Witness of `int_delivery`: with `Status = IM7 | IE` and `Cause = IP7` the
step of a `NOP` delivers `Int` and ends at the general vector with
`Status.EXL = 1`; so does a step in standby; a step whose `ADD` overflows
delivers `Ov` although the interrupt is pending. -/
theorem int_delivery_witness :
    ((cpu_step_instr ram_machine int_pending_state).1 = excNone
        ∧ int_deliverable (cpu_step_instr ram_machine int_pending_state).2.cpu)
      ∧ step_exception ram_machine int_pending_state = excInt
      ∧ (cpu_step ram_machine int_pending_state).cpu.pc = 0x80000180
      ∧ cp0_status_exl (cpu_step ram_machine int_pending_state).cpu = 1
      ∧ (int_standby_state.cpu.stdby = true
        ∧ int_deliverable (cpu_step_instr ram_machine int_standby_state).2.cpu)
      ∧ step_exception ram_machine int_standby_state = excInt
      ∧ (cpu_step_instr ram_machine int_fault_state).1 = excOv
      ∧ step_exception ram_machine int_fault_state = excOv :=
  ⟨⟨by decide, by decide⟩,
    ((int_delivery ram_machine int_pending_state).1 (by decide)).1.mpr (by decide),
    by decide, by decide, ⟨by decide, by decide⟩,
    ((int_delivery ram_machine int_standby_state).1 (by decide)).1.mpr (by decide),
    by decide,
    ((int_delivery ram_machine int_fault_state).2.1 (by decide)).1.trans (by decide)⟩

/-! ## EPC of an interrupt -/

theorem handle_exception_epc_eq (cpu : cpu_t) (res : exc_t) :
    (handle_exception cpu res).cp0 cp0_EPC
      = (he_epc (he_cause (he_standby cpu) (exc_base res)) (exc_base res)).cp0 cp0_EPC := by
  unfold handle_exception
  simp only [cpu_t.set_cp0, cpu_set_pc]
  rw [upd_ne _ _ _ _ (by decide)]

theorem he_cause_exl (cpu : cpu_t) (res : exc_t) :
    cp0_status_exl (he_cause (he_standby cpu) res) = cp0_status_exl cpu := by
  unfold cp0_status_exl cp0_status
  rw [he_cause_cp0 _ _ _ (by decide), he_standby_cp0]

theorem handle_exception_bd (cpu : cpu_t) (res : exc_t) :
    cp0_cause_bd (handle_exception cpu res) = if cpu.branch = BRANCH_PASSED then 1 else 0 := by
  have h := he_cause_bd (he_standby cpu) (exc_base res)
  rw [he_standby_branch] at h
  unfold cp0_cause_bd cp0_cause at h ⊢
  rw [handle_exception_cause]
  exact h

/-- C22 (as the code has it): when `handle_exception` delivers `Int` with
`Status.EXL = 0`, `EPC` is set to the live PC (advanced by 4 first when the
processor was in standby) unless the branch state is `BRANCH_COND`, and to the
saved `excaddr` when it is `BRANCH_COND`; with `Status.EXL = 1` `EPC` is not
written.  `Cause.BD` is set exactly when the branch state is `BRANCH_PASSED`,
a different condition. -/
theorem int_epc (cpu : cpu_t) :
    (cp0_status_exl cpu = 0 → cpu.branch ≠ BRANCH_COND →
        (handle_exception cpu excInt).cp0 cp0_EPC
          = (if cpu.stdby = true then add32 cpu.pc 4 else cpu.pc))
      ∧ (cp0_status_exl cpu = 0 → cpu.branch = BRANCH_COND →
        (handle_exception cpu excInt).cp0 cp0_EPC = cpu.excaddr)
      ∧ (cp0_status_exl cpu ≠ 0 →
        (handle_exception cpu excInt).cp0 cp0_EPC = cpu.cp0 cp0_EPC)
      ∧ (cp0_cause_bd (handle_exception cpu excInt) = 1 ↔ cpu.branch = BRANCH_PASSED) := by
  have hb : (he_cause (he_standby cpu) excInt).branch = cpu.branch := by
    rw [he_cause_branch, he_standby_branch]
  have hx := he_cause_exl cpu excInt
  have hbase : exc_base excInt = excInt := rfl
  refine ⟨?_, ?_, ?_, ?_⟩
  · intro h0 hc
    rw [handle_exception_epc_eq, hbase]
    unfold he_epc
    rw [if_pos (hx.trans h0)]
    dsimp only
    rw [if_pos ⟨rfl, by show (he_cause (he_standby cpu) excInt).branch ≠ BRANCH_COND; rw [hb]; exact hc⟩]
    simp only [cpu_t.set_cp0, upd_same]
    rw [he_cause_pc, he_standby_pc]
  · intro h0 hc
    rw [handle_exception_epc_eq, hbase]
    unfold he_epc
    rw [if_pos (hx.trans h0)]
    dsimp only
    rw [if_neg (fun h => h.2 (by show (he_cause (he_standby cpu) excInt).branch = BRANCH_COND; rw [hb]; exact hc))]
    simp only [cpu_t.set_cp0, upd_same]
    rw [he_cause_excaddr, he_standby_excaddr]
  · intro h1
    rw [handle_exception_epc_eq, hbase]
    unfold he_epc
    rw [if_neg (by rw [hx]; exact h1), he_cause_cp0 _ _ _ (by decide), he_standby_cp0]
  · rw [handle_exception_bd]
    split_ifs with h
    · exact ⟨fun _ => h, fun _ => rfl⟩
    · exact ⟨fun h1 => absurd h1 (by decide), fun h1 => absurd h1 h⟩

/-- Witness of `int_epc`: the `Int` delivered at the end of the second step of
`int_passed_state` (branch state `BRANCH_PASSED`) leaves `EPC = 0xBFC00100`,
the live PC; the one delivered at the end of the first step of
`int_cond_state` (branch state `BRANCH_COND`) leaves `EPC = 0xBFC00000`, the
saved `excaddr`. -/
theorem int_epc_witness :
    (cp0_status_exl (cpu_step_instr ram_machine (cpu_step ram_machine int_passed_state)).2.cpu = 0
        ∧ (cpu_step_instr ram_machine (cpu_step ram_machine int_passed_state)).2.cpu.branch
            ≠ BRANCH_COND)
      ∧ (handle_exception
            (cpu_step_instr ram_machine (cpu_step ram_machine int_passed_state)).2.cpu
            excInt).cp0 cp0_EPC = 0xbfc00100
      ∧ (cp0_status_exl (cpu_step_instr ram_machine int_cond_state).2.cpu = 0
        ∧ (cpu_step_instr ram_machine int_cond_state).2.cpu.branch = BRANCH_COND)
      ∧ (handle_exception (cpu_step_instr ram_machine int_cond_state).2.cpu excInt).cp0 cp0_EPC
          = 0xbfc00000 :=
  ⟨⟨by decide, by decide⟩,
    ((int_epc (cpu_step_instr ram_machine (cpu_step ram_machine int_passed_state)).2.cpu).1
      (by decide) (by decide)).trans (by decide),
    ⟨by decide, by decide⟩,
    ((int_epc (cpu_step_instr ram_machine int_cond_state).2.cpu).2.1
      (by decide) (by decide)).trans (by decide)⟩

/-- Counterexample to C22 as stated: in the second step of `int_passed_state`
the delay slot of the jump has run, the branch state is `BRANCH_PASSED` (a
committed branch delay, `Cause.BD = 1`), `Status.EXL = 0` and `Int` is
delivered; the saved `excaddr` is `0xBFC00000` but `EPC` becomes the live PC
`0xBFC00100`.  In the first step of `int_cond_state` the branch state is
`BRANCH_COND`, not `BRANCH_PASSED` (`Cause.BD = 0`), and `EPC` becomes the
saved `excaddr = 0xBFC00000`, not the live PC `0xBFC00004`. -/
theorem int_epc_passed_counterexample :
    ((cpu_step_instr ram_machine (cpu_step ram_machine int_passed_state)).2.cpu.branch
        = BRANCH_PASSED
      ∧ cp0_status_exl (cpu_step_instr ram_machine (cpu_step ram_machine int_passed_state)).2.cpu
          = 0
      ∧ step_exception ram_machine (cpu_step ram_machine int_passed_state) = excInt
      ∧ (cpu_step_instr ram_machine (cpu_step ram_machine int_passed_state)).2.cpu.excaddr
          = 0xbfc00000
      ∧ (cpu_step_instr ram_machine (cpu_step ram_machine int_passed_state)).2.cpu.pc
          = 0xbfc00100
      ∧ cp0_epc (cpu_step ram_machine (cpu_step ram_machine int_passed_state)).cpu = 0xbfc00100
      ∧ cp0_cause_bd (cpu_step ram_machine (cpu_step ram_machine int_passed_state)).cpu = 1)
    ∧ ((cpu_step_instr ram_machine int_cond_state).2.cpu.branch = BRANCH_COND
      ∧ cp0_status_exl (cpu_step_instr ram_machine int_cond_state).2.cpu = 0
      ∧ step_exception ram_machine int_cond_state = excInt
      ∧ (cpu_step_instr ram_machine int_cond_state).2.cpu.excaddr = 0xbfc00000
      ∧ (cpu_step_instr ram_machine int_cond_state).2.cpu.pc = 0xbfc00004
      ∧ cp0_epc (cpu_step ram_machine int_cond_state).cpu = 0xbfc00000
      ∧ cp0_cause_bd (cpu_step ram_machine int_cond_state).cpu = 0) := by
  decide

/-! ## Watch exceptions -/

theorem watch_kept_trans {a b c : cpu_t} (h1 : watch_kept a b) (h2 : watch_kept b c) :
    watch_kept a c :=
  ⟨h2.1.trans h1.1, h2.2.trans h1.2⟩

theorem tlb_look_loop_watch (cpu : cpu_t) (addr : Nat) (wr : Bool) (hint : Nat) :
    ∀ n i, watch_kept cpu (tlb_look_loop cpu addr wr hint n i).2.2 := by
  intro n
  induction n with
  | zero => intro i; exact ⟨rfl, rfl⟩
  | succ n ih =>
    intro i
    simp only [tlb_look_loop]
    split_ifs
    all_goals first
      | exact ih _
      | exact ⟨rfl, rfl⟩

theorem tlb_look_watch (cpu : cpu_t) (addr : Nat) (wr : Bool) :
    watch_kept cpu (tlb_look cpu addr wr).2.2 := by
  unfold tlb_look
  split_ifs
  · exact ⟨rfl, rfl⟩
  · exact tlb_look_loop_watch _ _ _ _ _ _

theorem fill_tlb_error_watch (cpu : cpu_t) (addr : Nat) :
    watch_kept cpu (fill_tlb_error cpu addr) := ⟨rfl, rfl⟩

theorem fill_addr_error_watch (cpu : cpu_t) (addr : Nat) (noisy : Bool) :
    watch_kept cpu (fill_addr_error cpu addr noisy) := by
  unfold fill_addr_error
  split_ifs <;> exact ⟨rfl, rfl⟩

theorem tlb_hit_watch (cpu : cpu_t) (addr : Nat) (wr noisy : Bool) :
    watch_kept cpu (tlb_hit cpu addr wr noisy).2.2 := by
  have h := tlb_look_watch cpu addr wr
  unfold tlb_hit
  rcases hl : tlb_look cpu addr wr with ⟨r, a, c⟩
  rw [hl] at h
  cases r <;> simp only <;> (try split_ifs)
  all_goals exact h

theorem convert_addr_watch (cpu : cpu_t) (addr : Nat) (wr noisy : Bool) :
    watch_kept cpu (convert_addr cpu addr wr noisy).2.2 := by
  unfold convert_addr convert_addr_user convert_addr_supervisor convert_addr_kernel
  split_ifs
  all_goals first
    | exact ⟨rfl, rfl⟩
    | exact tlb_hit_watch _ _ _ _
    | exact fill_addr_error_watch _ _ _

theorem mem_align_test_watch (cpu : cpu_t) (addr size : Nat) (noisy : Bool) :
    watch_kept cpu (mem_align_test cpu addr size noisy).2 := by
  unfold mem_align_test
  split_ifs
  · exact fill_addr_error_watch _ _ _
  · exact ⟨rfl, rfl⟩

/-- An access that passed the alignment test and whose translation succeeded:
the watch test decides between the `WATCH` exception, the deferred watch and
the plain access. -/
theorem acc_mem_translated (E : machine_t M) (s : sim_t M) (mode : acc_mode_t)
    (a size value pa : Nat) (noisy : Bool) (c : cpu_t)
    (hal : (mem_align_test s.cpu a size noisy).1 = excNone)
    (hc : convert_addr s.cpu a (decide (mode = AM_WRITE)) noisy = (excNone, pa, c)) :
    acc_mem E s mode a size value noisy
      = if watch_hit s.cpu pa mode then
          if cp0_status_exl s.cpu = 1 then
            acc_mem_access E { s with cpu := { c with wpending := true, wexcaddr := s.cpu.pc } }
              mode excNone pa size value
          else (excWATCH, value, { s with cpu := c })
        else acc_mem_access E { s with cpu := c } mode excNone pa size value := by
  have hm : mem_align_test s.cpu a size noisy = (excNone, s.cpu) :=
    Prod.ext hal (mem_align_test_ok_cpu _ _ _ _ hal)
  have hcp : c.cp0 = s.cpu.cp0 := by
    have := convert_addr_ok_cp0 s.cpu a (decide (mode = AM_WRITE)) noisy (by rw [hc])
    rw [hc] at this
    exact this
  have hf := convert_addr_frame s.cpu a (decide (mode = AM_WRITE)) noisy
  rw [hc] at hf
  have hwh : (((cp0_watchlo_r c ≠ 0 ∧ mode = AM_READ) ∨ (cp0_watchlo_w c ≠ 0 ∧ mode = AM_WRITE))
      ∧ c.waddr = pa >>> 3) = watch_hit s.cpu pa mode := by
    unfold watch_hit cp0_watchlo_r cp0_watchlo_w cp0_watchlo
    rw [hcp, hf.waddr]
  have hexl : cp0_status_exl c = cp0_status_exl s.cpu := by
    unfold cp0_status_exl cp0_status
    rw [hcp]
  unfold acc_mem
  rw [hm]
  simp only [hc]
  rw [hexl, hf.pc]
  by_cases hw : watch_hit s.cpu pa mode
  · rw [if_pos hw, if_pos (hwh ▸ hw)]
  · rw [if_neg hw, if_neg (hwh ▸ hw)]

theorem acc_mem_fetch_watch (E : machine_t M) (s : sim_t M) (a size value : Nat)
    (noisy : Bool) :
    (acc_mem E s AM_FETCH a size value noisy).1 ≠ excWATCH
      ∧ watch_kept s.cpu (acc_mem E s AM_FETCH a size value noisy).2.2.cpu := by
  constructor
  · intro h
    rcases acc_mem_tags E s AM_FETCH a size value noisy with h1 | h1 | h1 | h1 | h1 | h1
    · rw [h1] at h; cases h
    · rw [h1] at h; cases h
    · rw [h1] at h; cases h
    · rw [h1] at h; cases h
    · rw [h1.1] at h; cases h
    · exact h1.2 rfl
  · have h1 := mem_align_test_watch s.cpu a size noisy
    unfold acc_mem
    rcases ha : mem_align_test s.cpu a size noisy with ⟨r, c⟩
    rw [ha] at h1
    have h2 := convert_addr_watch c a (decide (AM_FETCH = AM_WRITE)) noisy
    rcases hc : convert_addr c a (decide (AM_FETCH = AM_WRITE)) noisy with ⟨r2, pa, c2⟩
    rw [hc] at h2
    cases r <;> simp only [hc] <;> (try exact h1)
    rw [if_neg (by intro h; rcases h.1 with h3 | h3 <;> exact absurd h3.2 (by decide))]
    rw [acc_mem_access_cpu _ _ _ _ _ _ _ (by decide)]
    exact watch_kept_trans h1 h2

theorem cpu_read_ins_watch (E : machine_t M) (s : sim_t M) (a value : Nat) (noisy : Bool) :
    (cpu_read_ins E s a value noisy).1 ≠ excWATCH
      ∧ watch_kept s.cpu (cpu_read_ins E s a value noisy).2.2.cpu := by
  have h := acc_mem_fetch_watch E s a BITS_32 value noisy
  unfold cpu_read_ins cpu_fetch_mem
  rcases ha : acc_mem E s AM_FETCH a BITS_32 value noisy with ⟨r, v, s1⟩
  rw [ha] at h
  cases r <;> simp only <;> split_ifs <;>
    first
      | exact absurd rfl h.1
      | exact ⟨fun hh => (by cases hh), h.2⟩

/-- C27: a data access that passes the alignment test, whose translation
succeeds with physical address `pa`, with `pa >> 3` equal to the cached watch
address and the matching `WatchLo` bit set (R for a read, W for a write):
with `Status.EXL = 0` it returns `WATCH`, the value and the memory untouched;
with `Status.EXL = 1` it completes, reading or writing at `pa`, and sets
`wpending = true` and `wexcaddr = PC` (the write goes through the bus, whose
LL/SC control may clear the LL bit).  An instruction fetch never returns
`WATCH` and leaves `wpending` and `wexcaddr` alone. -/
theorem watch_data_access (E : machine_t M) (s : sim_t M) (a size value pa : Nat)
    (noisy : Bool) (hal : (mem_align_test s.cpu a size noisy).1 = excNone)
    (hwa : s.cpu.waddr = pa >>> 3) :
    (∀ c, convert_addr s.cpu a false noisy = (excNone, pa, c) → cp0_watchlo_r s.cpu ≠ 0 →
        (cp0_status_exl s.cpu = 0 →
          cpu_read_mem E s a size value noisy = (excWATCH, value, { s with cpu := c }))
        ∧ (cp0_status_exl s.cpu = 1 →
          cpu_read_mem E s a size value noisy
            = (excNone, u32 (E.mem_read s.mem pa size).1,
                { s with cpu := { c with wpending := true, wexcaddr := s.cpu.pc },
                         mem := (E.mem_read s.mem pa size).2 })))
      ∧ (∀ c, convert_addr s.cpu a true noisy = (excNone, pa, c) → cp0_watchlo_w s.cpu ≠ 0 →
        (cp0_status_exl s.cpu = 0 →
          cpu_write_mem E s a size value noisy = (excWATCH, { s with cpu := c }))
        ∧ (cp0_status_exl s.cpu = 1 →
          cpu_write_mem E s a size value noisy
            = (excNone,
                { s with cpu := bus_write_cpu E s.mem
                                  { c with wpending := true, wexcaddr := s.cpu.pc } pa value size,
                         mem := E.mem_write s.mem pa value size })
            ∧ (cpu_write_mem E s a size value noisy).2.cpu.wpending = true
            ∧ (cpu_write_mem E s a size value noisy).2.cpu.wexcaddr = s.cpu.pc))
      ∧ (∀ addr, (cpu_read_ins E s addr value noisy).1 ≠ excWATCH
          ∧ (cpu_read_ins E s addr value noisy).2.2.cpu.wpending = s.cpu.wpending
          ∧ (cpu_read_ins E s addr value noisy).2.2.cpu.wexcaddr = s.cpu.wexcaddr) := by
  refine ⟨?_, ?_, ?_⟩
  · intro c hc hr
    have hw : watch_hit s.cpu pa AM_READ := ⟨Or.inl ⟨hr, rfl⟩, hwa⟩
    have h := acc_mem_translated E s AM_READ a size value pa noisy c hal hc
    rw [if_pos hw] at h
    constructor
    · intro h0
      rw [if_neg (by rw [h0]; decide)] at h
      unfold cpu_read_mem
      rw [h]
    · intro h1
      rw [if_pos h1] at h
      unfold cpu_read_mem
      rw [h]
      unfold acc_mem_access
      rw [if_pos rfl, if_neg (by decide)]
  · intro c hc hr
    have hw : watch_hit s.cpu pa AM_WRITE := ⟨Or.inr ⟨hr, rfl⟩, hwa⟩
    have h := acc_mem_translated E s AM_WRITE a size value pa noisy c hal hc
    rw [if_pos hw] at h
    constructor
    · intro h0
      rw [if_neg (by rw [h0]; decide)] at h
      unfold cpu_write_mem
      rw [h]
    · intro h1
      rw [if_pos h1] at h
      have e : cpu_write_mem E s a size value noisy
          = (excNone,
              { s with cpu := bus_write_cpu E s.mem
                                { c with wpending := true, wexcaddr := s.cpu.pc } pa value size,
                       mem := E.mem_write s.mem pa value size }) := by
        unfold cpu_write_mem
        rw [h]
        unfold acc_mem_access
        rw [if_pos rfl, if_pos rfl]
      rw [e]
      exact ⟨rfl, bus_write_cpu_pending E s.mem _ pa value size⟩
  · intro addr
    have h := cpu_read_ins_watch E s addr value noisy
    exact ⟨h.1, h.2.1, h.2.2⟩

/-- Witness of `watch_data_access`: a word read of `0x80001000` (physical
`0x1000`, watched) returns `WATCH` with `EXL = 0`; with `EXL = 1` it returns
the word `0x11223344` and records the deferred watch at `PC = 0x80000180`. -/
theorem watch_data_access_witness :
    ((mem_align_test watch_state.cpu 0x80001000 4 true).1 = excNone
        ∧ watch_state.cpu.waddr = 0x1000 >>> 3 ∧ cp0_watchlo_r watch_state.cpu ≠ 0
        ∧ cp0_status_exl watch_state.cpu = 0)
      ∧ (cpu_read_mem ram_machine watch_state 0x80001000 4 0 true).1 = excWATCH
      ∧ (cp0_status_exl watch_exl_state.cpu = 1
        ∧ watch_exl_state.cpu.waddr = 0x1000 >>> 3
        ∧ cp0_watchlo_r watch_exl_state.cpu ≠ 0)
      ∧ (cpu_read_mem ram_machine watch_exl_state 0x80001000 4 0 true).1 = excNone
      ∧ (cpu_read_mem ram_machine watch_exl_state 0x80001000 4 0 true).2.1 = 0x11223344
      ∧ (cpu_read_mem ram_machine watch_exl_state 0x80001000 4 0 true).2.2.cpu.wpending = true
      ∧ (cpu_read_mem ram_machine watch_exl_state 0x80001000 4 0 true).2.2.cpu.wexcaddr
          = 0x80000180 :=
  ⟨⟨by decide, by decide, by decide, by decide⟩,
    (congrArg Prod.fst
      (((watch_data_access ram_machine watch_state 0x80001000 4 0 0x1000 true (by decide)
        (by decide)).1 watch_state.cpu rfl (by decide)).1 (by decide))).trans rfl,
    ⟨by decide, by decide, by decide⟩,
    by decide, by decide, by decide, by decide⟩

/-! ## Store conditional (SC) -/

theorem execute_mem (E : machine_t M) (s : sim_t M) (ii : instr_info_t) :
    (execute E s ii).2.mem = (exec_switch E s ii).s.mem := rfl

theorem execute_tlb_hint (E : machine_t M) (s : sim_t M) (ii : instr_info_t) :
    (execute E s ii).2.cpu.tlb_hint = (exec_switch E s ii).s.cpu.tlb_hint := by
  unfold execute
  simp only [cpu_t.set_reg]
  split_ifs <;> rfl

theorem exec_switch_SC (E : machine_t M) (s : sim_t M) (ii : instr_info_t)
    (hop : ii.opcode = opcSC) :
    exec_switch E s ii = exec_SC E s ii (add32 s.cpu.pc_next 4) (s.cpu.regs ii.rs) := by
  simp only [exec_switch, hop]

theorem exec_SC_unlinked (E : machine_t M) (s : sim_t M) (ii : instr_info_t) (pca urrs : Nat)
    (h : s.cpu.llbit = false) : exec_SC E s ii pca urrs = ⟨excNone, pca, s.wreg ii.rt 0⟩ := by
  unfold exec_SC
  rw [if_pos h]

theorem exec_SC_llbit (E : machine_t M) (s : sim_t M) (ii : instr_info_t) (pca urrs : Nat) :
    (exec_SC E s ii pca urrs).s.cpu.llbit = false := by
  unfold exec_SC
  split_ifs with h
  · exact h
  · simp only
    rcases cpu_write_mem E s (eff_addr urrs ii) BITS_32 (s.cpu.regs ii.rt) true with ⟨r, s1⟩
    simp only
    split_ifs
    · rcases convert_addr (s1.wreg ii.rt 1).cpu (eff_addr urrs ii) false false with ⟨r2, pa, c⟩
      rfl
    · rfl

/-- The linked path of `SC`: the result is that of the write; on success
`rt = 1` and the memory is the written one with the processor taken off the
LL/SC list. -/
theorem exec_SC_linked (E : machine_t M) (s : sim_t M) (ii : instr_info_t) (pca urrs : Nat)
    (h : s.cpu.llbit = true) :
    (exec_SC E s ii pca urrs).res
        = (cpu_write_mem E s (eff_addr urrs ii) BITS_32 (s.cpu.regs ii.rt) true).1
      ∧ ((cpu_write_mem E s (eff_addr urrs ii) BITS_32 (s.cpu.regs ii.rt) true).1 = excNone →
          (exec_SC E s ii pca urrs).s.cpu.regs ii.rt = 1
          ∧ (exec_SC E s ii pca urrs).s.mem
              = E.unregister_sc
                  (cpu_write_mem E s (eff_addr urrs ii) BITS_32 (s.cpu.regs ii.rt) true).2.mem
                  s.cpu.procno)
      ∧ ((cpu_write_mem E s (eff_addr urrs ii) BITS_32 (s.cpu.regs ii.rt) true).1 ≠ excNone →
          (exec_SC E s ii pca urrs).s.cpu.regs = s.cpu.regs) := by
  have hf := cpu_write_mem_frame E s (eff_addr urrs ii) BITS_32 (s.cpu.regs ii.rt) true
  unfold exec_SC
  rw [if_neg (by rw [h]; decide)]
  simp only
  rcases hw : cpu_write_mem E s (eff_addr urrs ii) BITS_32 (s.cpu.regs ii.rt) true with ⟨r, s1⟩
  rw [hw] at hf
  simp only
  split_ifs with hr
  · have hc := convert_addr_frame (s1.wreg ii.rt 1).cpu (eff_addr urrs ii) false false
    rcases hca : convert_addr (s1.wreg ii.rt 1).cpu (eff_addr urrs ii) false false
      with ⟨r2, pa, c⟩
    rw [hca] at hc
    refine ⟨rfl, fun _ => ⟨?_, ?_⟩, fun h2 => absurd hr h2⟩
    · show c.regs ii.rt = 1
      rw [hc.regs]
      simp [sim_t.wreg, cpu_t.set_reg, upd]
    · show E.unregister_sc s1.mem c.procno = E.unregister_sc s1.mem s.cpu.procno
      rw [hc.procno]
      show E.unregister_sc s1.mem s1.cpu.procno = _
      rw [hf.procno]
  · refine ⟨rfl, fun h2 => absurd h2 hr, fun _ => ?_⟩
    exact hf.regs

theorem execute_SC_unlinked_rt (E : machine_t M) (s : sim_t M) (ii : instr_info_t)
    (hop : ii.opcode = opcSC) (h : s.cpu.llbit = false) :
    (execute E s ii).2.cpu.regs ii.rt = 0 := by
  rw [execute_regs, exec_switch_SC E s ii hop,
    exec_SC_unlinked E s ii (add32 s.cpu.pc_next 4) (s.cpu.regs ii.rs) h]
  split_ifs
  · rfl
  · simp [sim_t.wreg, cpu_t.set_reg, upd]

/-- C25: in every state with the LL bit false, `SC` writes 0 to `rt`, leaves
the other registers, the memory, every CP0 register, the TLB, the lookup hint
and the TLB fault counters alone (no write and no translation happened) and
returns no fault; and after every `SC`, whichever path it took, the LL bit is
false. -/
theorem sc_unlinked (E : machine_t M) (s : sim_t M) (ii : instr_info_t)
    (hop : ii.opcode = opcSC) :
    (s.cpu.llbit = false →
        (execute E s ii).1 = excNone
          ∧ (execute E s ii).2.cpu.regs ii.rt = 0
          ∧ (∀ i, i ≠ ii.rt → i ≠ 0 → (execute E s ii).2.cpu.regs i = s.cpu.regs i)
          ∧ (execute E s ii).2.mem = s.mem
          ∧ (execute E s ii).2.cpu.cp0 = s.cpu.cp0
          ∧ (execute E s ii).2.cpu.tlb = s.cpu.tlb
          ∧ (execute E s ii).2.cpu.tlb_hint = s.cpu.tlb_hint)
      ∧ (execute E s ii).2.cpu.llbit = false := by
  constructor
  · intro h
    have e := exec_SC_unlinked E s ii (add32 s.cpu.pc_next 4) (s.cpu.regs ii.rs) h
    refine ⟨?_, ?_, ?_, ?_, ?_, ?_, ?_⟩
    · rw [execute_res, exec_switch_SC E s ii hop, e]
    · exact execute_SC_unlinked_rt E s ii hop h
    · intro i h1 h2
      rw [execute_regs, exec_switch_SC E s ii hop, e, if_neg h2]
      simp [sim_t.wreg, cpu_t.set_reg, upd, h1]
    · rw [execute_mem, exec_switch_SC E s ii hop, e]
      rfl
    · rw [execute_cp0, exec_switch_SC E s ii hop, e]
      rfl
    · rw [execute_tlb, exec_switch_SC E s ii hop, e]
      rfl
    · rw [execute_tlb_hint, exec_switch_SC E s ii hop, e]
      rfl
  · rw [execute_llbit, exec_switch_SC E s ii hop]
    exact exec_SC_llbit _ _ _ _ _

/-- Witness of `sc_unlinked`: `SC r3, 0x1000(r0)` (word `0xE0031000`) with
`r3 = 0x55` and the LL bit clear leaves `r3 = 0` and the word at `0x1000`
as it was. -/
theorem sc_unlinked_witness :
    ((mips_decode 0xe0031000).opcode = opcSC ∧ sc_unlinked_state.cpu.llbit = false
        ∧ sc_unlinked_state.cpu.regs 3 = 0x55)
      ∧ (execute ram_machine sc_unlinked_state (mips_decode 0xe0031000)).1 = excNone
      ∧ (execute ram_machine sc_unlinked_state (mips_decode 0xe0031000)).2.cpu.regs 3 = 0
      ∧ ram_read (execute ram_machine sc_unlinked_state (mips_decode 0xe0031000)).2.mem 0x1000 4
          = 0x11223344
      ∧ (execute ram_machine sc_unlinked_state (mips_decode 0xe0031000)).2.cpu.llbit = false :=
  ⟨⟨by decide, by decide, by decide⟩,
    ((sc_unlinked ram_machine sc_unlinked_state (mips_decode 0xe0031000) (by decide)).1
      (by decide)).1,
    ((sc_unlinked ram_machine sc_unlinked_state (mips_decode 0xe0031000) (by decide)).1
      (by decide)).2.1,
    by decide,
    (sc_unlinked ram_machine sc_unlinked_state (mips_decode 0xe0031000) (by decide)).2⟩

/-- C26 (as the code has it): an `SC` succeeds (returns no fault and leaves
`rt = 1`) only if the LL bit was true and the write to its target returned no
fault, and, for `rt` other than `r0`, it succeeds whenever these two hold:
`lladdr` takes no part in the outcome. -/
theorem sc_success (E : machine_t M) (s : sim_t M) (ii : instr_info_t)
    (hop : ii.opcode = opcSC) :
    (((execute E s ii).1 = excNone ∧ (execute E s ii).2.cpu.regs ii.rt = 1) →
        s.cpu.llbit = true
          ∧ (cpu_write_mem E s (eff_addr (s.cpu.regs ii.rs) ii) BITS_32 (s.cpu.regs ii.rt)
              true).1 = excNone)
      ∧ (s.cpu.llbit = true →
          (cpu_write_mem E s (eff_addr (s.cpu.regs ii.rs) ii) BITS_32 (s.cpu.regs ii.rt)
              true).1 = excNone → ii.rt ≠ 0 →
          (execute E s ii).1 = excNone ∧ (execute E s ii).2.cpu.regs ii.rt = 1
            ∧ (execute E s ii).2.mem
                = E.unregister_sc
                    (cpu_write_mem E s (eff_addr (s.cpu.regs ii.rs) ii) BITS_32
                      (s.cpu.regs ii.rt) true).2.mem s.cpu.procno) := by
  constructor
  · rintro ⟨h1, h2⟩
    cases hl : s.cpu.llbit
    · exfalso
      have h3 := execute_SC_unlinked_rt E s ii hop hl
      rw [h3] at h2
      cases h2
    · refine ⟨rfl, ?_⟩
      have e := (exec_SC_linked E s ii (add32 s.cpu.pc_next 4) (s.cpu.regs ii.rs) hl).1
      rw [execute_res, exec_switch_SC E s ii hop, e] at h1
      exact h1
  · intro hl hw hrt
    obtain ⟨e1, e2, -⟩ := exec_SC_linked E s ii (add32 s.cpu.pc_next 4) (s.cpu.regs ii.rs) hl
    refine ⟨?_, ?_, ?_⟩
    · rw [execute_res, exec_switch_SC E s ii hop, e1]
      exact hw
    · rw [execute_regs, exec_switch_SC E s ii hop, if_neg hrt]
      exact (e2 hw).1
    · rw [execute_mem, exec_switch_SC E s ii hop]
      exact (e2 hw).2

/-- Witness of `sc_success`: the `SC` of `sc_mismatch_state` runs with the LL
bit set, its write returns no fault, and it leaves `r3 = 1`. -/
theorem sc_success_witness :
    ((fetched ram_machine (cpu_step ram_machine (cpu_step ram_machine sc_mismatch_state))).opcode
        = opcSC
      ∧ (after_fetch ram_machine
          (cpu_step ram_machine (cpu_step ram_machine sc_mismatch_state))).cpu.llbit = true)
    ∧ (execute ram_machine
        (after_fetch ram_machine (cpu_step ram_machine (cpu_step ram_machine sc_mismatch_state)))
        (fetched ram_machine
          (cpu_step ram_machine (cpu_step ram_machine sc_mismatch_state)))).2.cpu.regs 3 = 1 :=
  ⟨⟨by decide, by decide⟩,
    ((sc_success ram_machine
      (after_fetch ram_machine (cpu_step ram_machine (cpu_step ram_machine sc_mismatch_state)))
      (fetched ram_machine (cpu_step ram_machine (cpu_step ram_machine sc_mismatch_state)))
      (by decide)).2 (by decide) (by decide) (by decide)).2.1⟩

/-- Counterexample to C26 as stated: after `LL r2, 0x2000(r0)` the LL bit is
set and `lladdr = 0x2000`; the following `SC r3, 0x1000(r0)` has the physical
target `0x1000`, another address, and still succeeds: `r3 = 1` and the word at
`0x1000` is the stored `0x55`. -/
theorem sc_other_address_counterexample :
    (cpu_step ram_machine (cpu_step ram_machine sc_mismatch_state)).cpu.llbit = true
      ∧ (cpu_step ram_machine (cpu_step ram_machine sc_mismatch_state)).cpu.lladdr = 0x2000
      ∧ (cpu_step ram_machine (cpu_step ram_machine sc_mismatch_state)).cpu.regs 3 = 0x55
      ∧ (fetched ram_machine
          (cpu_step ram_machine (cpu_step ram_machine sc_mismatch_state))).opcode = opcSC
      ∧ (convert_addr (cpu_step ram_machine (cpu_step ram_machine sc_mismatch_state)).cpu
          0x1000 true false).2.1 = 0x1000
      ∧ step_exception ram_machine
          (cpu_step ram_machine (cpu_step ram_machine sc_mismatch_state)) = excNone
      ∧ (cpu_step ram_machine
          (cpu_step ram_machine (cpu_step ram_machine sc_mismatch_state))).cpu.regs 3 = 1
      ∧ ram_read (cpu_step ram_machine
          (cpu_step ram_machine (cpu_step ram_machine sc_mismatch_state))).mem 0x1000 4
          = 0x55 := by
  decide

/-! ## Load-side and store-side fault codes -/

theorem cpu_read_mem_side (E : machine_t M) (s : sim_t M) (addr size value : Nat)
    (noisy : Bool) :
    (cpu_read_mem E s addr size value noisy).1.mem_fault = true →
      (cpu_read_mem E s addr size value noisy).1.load_side = true := by
  unfold cpu_read_mem
  rcases acc_mem E s AM_READ addr size value noisy with ⟨r, v, s1⟩
  cases r <;> simp [exc_t.mem_fault, exc_t.load_side, exc_t.store_side]

theorem cpu_write_mem_side (E : machine_t M) (s : sim_t M) (addr size value : Nat)
    (noisy : Bool) :
    (cpu_write_mem E s addr size value noisy).1.mem_fault = true →
      (cpu_write_mem E s addr size value noisy).1.store_side = true := by
  unfold cpu_write_mem
  rcases acc_mem E s AM_WRITE addr size value noisy with ⟨r, v, s1⟩
  cases r <;> simp [exc_t.mem_fault, exc_t.load_side, exc_t.store_side]

theorem cpu_read_ins_side (E : machine_t M) (s : sim_t M) (addr value : Nat) (noisy : Bool) :
    (cpu_read_ins E s addr value noisy).1.mem_fault = true →
      (cpu_read_ins E s addr value noisy).1.load_side = true := by
  unfold cpu_read_ins cpu_fetch_mem
  rcases acc_mem E s AM_FETCH addr BITS_32 value noisy with ⟨r, v, s1⟩
  cases r <;> simp only <;> split_ifs <;>
    simp [exc_t.mem_fault, exc_t.load_side, exc_t.store_side]

theorem exec_load_side (E : machine_t M) (s : sim_t M) (ii : instr_info_t)
    (pca urrs size : Nat) (f : Nat → Nat) :
    (exec_load E s ii pca urrs size f).res.mem_fault = true →
      (exec_load E s ii pca urrs size f).res.load_side = true := by
  have h := cpu_read_mem_side E s (eff_addr urrs ii) size 0 true
  unfold exec_load
  rcases hr : cpu_read_mem E s (eff_addr urrs ii) size 0 true with ⟨r, v, s1⟩
  rw [hr] at h
  simp only at h ⊢
  split_ifs <;> exact h

theorem exec_LW_side (E : machine_t M) (s : sim_t M) (ii : instr_info_t) (pca urrs : Nat) :
    (exec_LW E s ii pca urrs).res.mem_fault = true →
      (exec_LW E s ii pca urrs).res.load_side = true := by
  have h := cpu_read_mem_side E s (eff_addr urrs ii) BITS_32 (s.cpu.regs ii.rt) true
  unfold exec_LW
  rcases hr : cpu_read_mem E s (eff_addr urrs ii) BITS_32 (s.cpu.regs ii.rt) true with ⟨r, v, s1⟩
  rw [hr] at h
  exact h

theorem exec_LL_side (E : machine_t M) (s : sim_t M) (ii : instr_info_t) (pca urrs : Nat) :
    (exec_LL E s ii pca urrs).res.mem_fault = true →
      (exec_LL E s ii pca urrs).res.load_side = true := by
  have h := cpu_read_mem_side E s (eff_addr urrs ii) BITS_32 0 true
  unfold exec_LL
  simp only
  rcases hr : cpu_read_mem E s (eff_addr urrs ii) BITS_32 0 true with ⟨r, v, s1⟩
  rw [hr] at h
  simp only at h ⊢
  split_ifs
  · rcases convert_addr (s1.wreg ii.rt v).cpu (eff_addr urrs ii) false false with ⟨r2, pa, c⟩
    exact h
  · exact h

theorem exec_LWx_side (E : machine_t M) (s : sim_t M) (ii : instr_info_t) (pca urrs : Nat)
    (left : Bool) :
    (exec_LWx E s ii pca urrs left).res.mem_fault = true →
      (exec_LWx E s ii pca urrs left).res.load_side = true := by
  have h := cpu_read_mem_side E s (eff_addr urrs ii &&& 0xfffffffc) BITS_32 0 true
  unfold exec_LWx
  simp only
  rcases hr : cpu_read_mem E s (eff_addr urrs ii &&& 0xfffffffc) BITS_32 0 true with ⟨r, v, s1⟩
  rw [hr] at h
  simp only at h ⊢
  split_ifs <;> exact h

theorem exec_store_side (E : machine_t M) (s : sim_t M) (ii : instr_info_t)
    (pca addr size : Nat) :
    (exec_store E s ii pca addr size).res.mem_fault = true →
      (exec_store E s ii pca addr size).res.store_side = true := by
  have h := cpu_write_mem_side E s addr size (s.cpu.regs ii.rt) true
  unfold exec_store
  rcases hr : cpu_write_mem E s addr size (s.cpu.regs ii.rt) true with ⟨r, s1⟩
  rw [hr] at h
  exact h

theorem exec_SC_side (E : machine_t M) (s : sim_t M) (ii : instr_info_t) (pca urrs : Nat) :
    (exec_SC E s ii pca urrs).res.mem_fault = true →
      (exec_SC E s ii pca urrs).res.store_side = true := by
  have h := cpu_write_mem_side E s (eff_addr urrs ii) BITS_32 (s.cpu.regs ii.rt) true
  cases hl : s.cpu.llbit
  · rw [exec_SC_unlinked E s ii pca urrs hl]
    intro h1
    cases h1
  · rw [(exec_SC_linked E s ii pca urrs hl).1]
    exact h

/-- The two phases of `SWL`/`SWR`: a fault of the read of the aligned word is
the result, otherwise the result is that of the write. -/
theorem exec_SWx_phases (E : machine_t M) (s : sim_t M) (ii : instr_info_t) (pca urrs : Nat)
    (left : Bool) :
    ((cpu_read_mem E s (eff_addr urrs ii &&& 0xfffffffc) BITS_32 0 true).1 ≠ excNone →
        (exec_SWx E s ii pca urrs left).res
          = (cpu_read_mem E s (eff_addr urrs ii &&& 0xfffffffc) BITS_32 0 true).1)
      ∧ ((cpu_read_mem E s (eff_addr urrs ii &&& 0xfffffffc) BITS_32 0 true).1 = excNone →
        (exec_SWx E s ii pca urrs left).res.mem_fault = true →
          (exec_SWx E s ii pca urrs left).res.store_side = true) := by
  unfold exec_SWx
  simp only
  rcases cpu_read_mem E s (eff_addr urrs ii &&& 0xfffffffc) BITS_32 0 true with ⟨r, v, s1⟩
  simp only
  constructor
  · intro h
    rw [if_neg h]
  · intro h
    rw [if_pos h]
    split_ifs
    · have hw := cpu_write_mem_side E s1 (eff_addr urrs ii &&& 0xfffffffc) BITS_32
        ((v &&& (shift_tab_left_store (eff_addr urrs ii &&& 0x03)).mask)
          ||| ((s1.cpu.regs ii.rt >>> (shift_tab_left_store (eff_addr urrs ii &&& 0x03)).shift)
                &&& not32 (shift_tab_left_store (eff_addr urrs ii &&& 0x03)).mask)) true
      exact hw
    · have hw := cpu_write_mem_side E s1 (eff_addr urrs ii &&& 0xfffffffc) BITS_32
        ((v &&& (shift_tab_right_store (eff_addr urrs ii &&& 0x03)).mask)
          ||| shl32 (s1.cpu.regs ii.rt)
                (shift_tab_right_store (eff_addr urrs ii &&& 0x03)).shift) true
      exact hw

/-- C28, the part the code satisfies: an address-translation or alignment
fault of `SB`, `SH`, `SW` or `SC` is a store-side code, and one of a load or
of an instruction fetch is a load-side code.  `SWL` and `SWR` read the aligned
word first: a fault of that read is their result, with the load-side code the
read gives it, and only a fault of the write that follows is a store-side
code. -/
theorem mem_fault_side (E : machine_t M) (s : sim_t M) (ii : instr_info_t) :
    (is_plain_store ii.opcode → (execute E s ii).1.mem_fault = true →
        (execute E s ii).1.store_side = true)
      ∧ (is_load_instr ii.opcode → (execute E s ii).1.mem_fault = true →
        (execute E s ii).1.load_side = true)
      ∧ (∀ addr value noisy, (cpu_read_ins E s addr value noisy).1.mem_fault = true →
        (cpu_read_ins E s addr value noisy).1.load_side = true)
      ∧ (ii.opcode = opcSWL ∨ ii.opcode = opcSWR →
        ((cpu_read_mem E s (eff_addr (s.cpu.regs ii.rs) ii &&& 0xfffffffc) BITS_32 0 true).1
            ≠ excNone →
          (execute E s ii).1
              = (cpu_read_mem E s (eff_addr (s.cpu.regs ii.rs) ii &&& 0xfffffffc) BITS_32 0
                  true).1
            ∧ ((execute E s ii).1.mem_fault = true → (execute E s ii).1.load_side = true))
        ∧ ((cpu_read_mem E s (eff_addr (s.cpu.regs ii.rs) ii &&& 0xfffffffc) BITS_32 0 true).1
            = excNone →
          (execute E s ii).1.mem_fault = true → (execute E s ii).1.store_side = true)) := by
  refine ⟨?_, ?_, ?_, ?_⟩
  · intro hop
    rw [execute_res]
    rcases hop with h | h | h | h
    · simp only [exec_switch, h]; exact exec_store_side _ _ _ _ _ _
    · simp only [exec_switch, h]; exact exec_store_side _ _ _ _ _ _
    · simp only [exec_switch, h]; exact exec_store_side _ _ _ _ _ _
    · simp only [exec_switch, h]; exact exec_SC_side _ _ _ _ _
  · intro hop
    rw [execute_res]
    rcases hop with h | h | h | h | h | h | h | h
    · simp only [exec_switch, h]; exact exec_load_side _ _ _ _ _ _ _
    · simp only [exec_switch, h]; exact exec_load_side _ _ _ _ _ _ _
    · simp only [exec_switch, h]; exact exec_load_side _ _ _ _ _ _ _
    · simp only [exec_switch, h]; exact exec_load_side _ _ _ _ _ _ _
    · simp only [exec_switch, h]; exact exec_LW_side _ _ _ _ _
    · simp only [exec_switch, h]; exact exec_LWx_side _ _ _ _ _ _
    · simp only [exec_switch, h]; exact exec_LWx_side _ _ _ _ _ _
    · simp only [exec_switch, h]; exact exec_LL_side _ _ _ _ _
  · intro addr value noisy
    exact cpu_read_ins_side E s addr value noisy
  · intro hop
    rw [execute_res]
    have hl := exec_SWx_phases E s ii (add32 s.cpu.pc_next 4) (s.cpu.regs ii.rs) true
    have hr := exec_SWx_phases E s ii (add32 s.cpu.pc_next 4) (s.cpu.regs ii.rs) false
    have hsd := cpu_read_mem_side E s (eff_addr (s.cpu.regs ii.rs) ii &&& 0xfffffffc) BITS_32 0
      true
    rcases hop with h | h
    · have e : exec_switch E s ii
          = exec_SWx E s ii (add32 s.cpu.pc_next 4) (s.cpu.regs ii.rs) true := by
        simp only [exec_switch, h]
      rw [e]
      refine ⟨fun hne => ⟨hl.1 hne, ?_⟩, hl.2⟩
      rw [hl.1 hne]
      exact hsd
    · have e : exec_switch E s ii
          = exec_SWx E s ii (add32 s.cpu.pc_next 4) (s.cpu.regs ii.rs) false := by
        simp only [exec_switch, h]
      rw [e]
      refine ⟨fun hne => ⟨hr.1 hne, ?_⟩, hr.2⟩
      rw [hr.1 hne]
      exact hsd

/-- Witness of `mem_fault_side`: in `swl_state` the address 0 has no valid
translation; `SW r1, 0(r0)` (word `0xAC010000`) returns the store-side `TLBS`,
`LW r1, 0(r0)` (word `0x8C010000`) the load-side `TLBL`, and `SWL r1, 0(r0)`
(word `0xA8010000`), whose read of the aligned word faults, returns the read's
`TLBL`. -/
theorem mem_fault_side_witness :
    (is_plain_store (mips_decode 0xac010000).opcode
        ∧ (execute ram_machine swl_state (mips_decode 0xac010000)).1 = excTLBS)
      ∧ (execute ram_machine swl_state (mips_decode 0xac010000)).1.store_side = true
      ∧ (is_load_instr (mips_decode 0x8c010000).opcode
        ∧ (execute ram_machine swl_state (mips_decode 0x8c010000)).1 = excTLBL)
      ∧ (execute ram_machine swl_state (mips_decode 0x8c010000)).1.load_side = true
      ∧ ((mips_decode 0xa8010000).opcode = opcSWL
        ∧ (cpu_read_mem ram_machine swl_state
            (eff_addr (swl_state.cpu.regs (mips_decode 0xa8010000).rs) (mips_decode 0xa8010000)
              &&& 0xfffffffc) BITS_32 0 true).1 = excTLBL)
      ∧ (execute ram_machine swl_state (mips_decode 0xa8010000)).1 = excTLBL :=
  ⟨⟨by decide, by decide⟩,
    (mem_fault_side ram_machine swl_state (mips_decode 0xac010000)).1 (by decide) (by decide),
    ⟨by decide, by decide⟩,
    (mem_fault_side ram_machine swl_state (mips_decode 0x8c010000)).2.1 (by decide) (by decide),
    ⟨by decide, by decide⟩,
    ((((mem_fault_side ram_machine swl_state (mips_decode 0xa8010000)).2.2.2
      (Or.inl (by decide))).1 (by decide)).1).trans (by decide)⟩

/-- C28 at its failing input: `SWL r1, 0(r0)` at the reset vector, in kernel
mode with `ERL` and `EXL` clear and no valid translation for address 0: the
store instruction ends with the fault `TLBL`, a load-side code and not a
store-side one, and the step leaves `Cause.ExcCode = 2` (TLBL) where a store
gives 3 (TLBS); `SWR` (word `0xB8010000`) behaves the same. -/
theorem swl_fault_is_load_side :
    (fetched ram_machine swl_step_state).opcode = opcSWL
      ∧ (cpu_step_instr ram_machine swl_step_state).1 = excTLBL
      ∧ excTLBL.mem_fault = true ∧ excTLBL.store_side = false ∧ excTLBL.load_side = true
      ∧ cp0_cause_exccode (cpu_step ram_machine swl_step_state).cpu = 2
      ∧ excTLBL.code = 2 ∧ excTLBS.code = 3
      ∧ (mips_decode 0xb8010000).opcode = opcSWR
      ∧ (execute ram_machine swl_state (mips_decode 0xb8010000)).1 = excTLBL
      ∧ (execute ram_machine swl_state (mips_decode 0xac010000)).1 = excTLBS := by
  decide

/-! ## Reset state -/

theorem cpu_step_mem (E : machine_t M) (s : sim_t M) :
    (cpu_step E s).mem = (cpu_step_instr E s).2.mem := rfl

/-- An instruction fetch from the unmapped uncached kernel segment in kernel
mode: the word at the physical address `addr - 0xA0000000`, no fault, the
processor untouched. -/
theorem cpu_read_ins_kseg1 (E : machine_t M) (s : sim_t M) (addr : Nat)
    (hk : kernel_mode s.cpu) (h1 : 0xa0000000 ≤ addr) (h2 : addr < 0xc0000000)
    (hal : addr &&& 3 = 0) :
    cpu_read_ins E s addr 0 true
      = (excNone, u32 (E.mem_read s.mem (addr - 0xa0000000) 4).1,
          { s with mem := (E.mem_read s.mem (addr - 0xa0000000) 4).2 }) := by
  have hm : (mem_align_test s.cpu addr BITS_32 true).1 = excNone := by
    rw [mem_align_test_ok s.cpu addr BITS_32 true hal]
  have hc : convert_addr s.cpu addr (decide (AM_FETCH = AM_WRITE)) true
      = (excNone, addr - 0xa0000000, s.cpu) := by
    rw [convert_addr_kernel_eq _ _ _ _ hk]
    unfold convert_addr_kernel
    rw [if_neg (by omega), if_neg (by omega), if_pos h2, sub32_of_le _ _ (by omega) h1]
  have ha := acc_mem_translated E s AM_FETCH addr BITS_32 0 (addr - 0xa0000000) true s.cpu hm hc
  rw [if_neg (by intro h; rcases h.1 with h3 | h3 <;> exact absurd h3.2 (by decide))] at ha
  unfold acc_mem_access at ha
  rw [if_pos rfl, if_neg (by decide)] at ha
  unfold cpu_read_ins cpu_fetch_mem
  rw [ha]
  simp only
  rw [if_neg (fun h => h.1 rfl)]
  rfl

/-- A step that fetches a `NOP` from the unmapped uncached kernel segment
while `Status.ERL` is set. -/
theorem nop_step_kseg1 (E : machine_t M) (s : sim_t M) (hs : s.cpu.stdby = false)
    (h1 : 0xa0000000 ≤ s.cpu.pc) (h2 : s.cpu.pc < 0xc0000000) (hal : s.cpu.pc &&& 3 = 0)
    (herl : cp0_status_erl s.cpu = 1)
    (hop : (E.decode_instr (u32 (E.mem_read s.mem (s.cpu.pc - 0xa0000000) 4).1)).opcode
      = opcNOP) :
    step_exception E s = excNone
      ∧ (cpu_step E s).cpu.pc = s.cpu.pc_next
      ∧ (cpu_step E s).cpu.pc_next = add32 s.cpu.pc_next 4
      ∧ (cpu_step E s).cpu.stdby = false
      ∧ (cpu_step E s).cpu.cp0 cp0_Status = s.cpu.cp0 cp0_Status
      ∧ (cpu_step E s).mem = (E.mem_read s.mem (s.cpu.pc - 0xa0000000) 4).2 := by
  have hk : kernel_mode s.cpu := Or.inr (Or.inr herl)
  have hfe := cpu_read_ins_kseg1 E s s.cpu.pc hk h1 h2 hal
  have hf1 : (cpu_read_ins E s s.cpu.pc 0 true).1 = excNone := by rw [hfe]
  have hfd : fetched E s
      = E.decode_instr (u32 (E.mem_read s.mem (s.cpu.pc - 0xa0000000) 4).1) := by
    unfold fetched; rw [hfe]
  have haf : after_fetch E s = { s with mem := (E.mem_read s.mem (s.cpu.pc - 0xa0000000) 4).2 } := by
    unfold after_fetch; rw [hfe]
  have hopf : (fetched E s).opcode = opcNOP := by rw [hfd]; exact hop
  have hst := cpu_step_instr_fetch_ok E s hs hf1
  have hsw : exec_switch E (after_fetch E s) (fetched E s)
      = ⟨excNone, add32 (after_fetch E s).cpu.pc_next 4, after_fetch E s⟩ := by
    simp only [exec_switch, hopf]
  have hcp : (cpu_step_instr E s).2.cpu.cp0 = s.cpu.cp0 := by
    rw [hst, execute_cp0, hsw, haf]
  have hx : step_exception E s = excNone := by
    have hr : (cpu_step_instr E s).1 = excNone := by rw [hst, execute_res, hsw]
    have he : cp0_status_erl (cpu_step_instr E s).2.cpu = 1 := by
      unfold cp0_status_erl cp0_status
      rw [hcp]
      exact herl
    unfold step_exception manage_res
    rw [hr, if_neg]
    intro h
    rw [he] at h
    exact absurd h.2.2.1 (by decide)
  have hfl := cpu_step_no_exception_fields E s hs hx
  refine ⟨hx, ?_, ?_, ?_, ?_, ?_⟩
  · rw [cpu_step_pc0, (manage_pc_frame _ _ hx).pc, hst, execute_pc, hsw, if_pos rfl, haf]
  · rw [hfl.1, hsw, haf]
  · rw [hfl.2.2.1, hsw, haf]
    exact hs
  · rw [cpu_step_cp0, manage_no_exception _ _ hx, manage_timer_cp0 _ _ (by decide),
      manage_count_cp0 _ _ (by decide) (by decide), hcp]
  · rw [cpu_step_mem, hst, execute_mem, hsw, haf]

theorem status_erl_congr (c c2 : cpu_t) (h : c2.cp0 cp0_Status = c.cp0 cp0_Status) :
    cp0_status_erl c2 = cp0_status_erl c := by
  unfold cp0_status_erl cp0_status
  rw [h]

/-- C29: after `cpu_init` the processor is in the hardware reset state, and
from it, on every machine whose words at the physical addresses `0x1FC00000`
and `0x1FC00004` decode to `NOP`, two `cpu_step`s deliver no exception and
leave `PC = 0xBFC00008`. -/
theorem reset_state (E : machine_t M) (procno : Nat) (m : M) (tr th ia : Bool)
    (hn0 : (E.decode_instr (u32 (E.mem_read m 0x1fc00000 4).1)).opcode = opcNOP)
    (hn1 : (E.decode_instr
      (u32 (E.mem_read (E.mem_read m 0x1fc00000 4).2 0x1fc00004 4).1)).opcode = opcNOP) :
    ((cpu_init procno).pc = 0xbfc00000 ∧ (cpu_init procno).pc_next = 0xbfc00004
        ∧ cp0_status (cpu_init procno) = cp0_status_erl_mask ||| cp0_status_bev_mask
        ∧ cp0_status (cpu_init procno) = 0x00400004
        ∧ (cpu_init procno).cp0 cp0_PRId = 0x00000400
        ∧ cp0_random (cpu_init procno) = 47 ∧ cp0_wired (cpu_init procno) = 0
        ∧ (cpu_init procno).cp0 cp0_Config = 0 ∧ cp0_cause (cpu_init procno) = 0
        ∧ cp0_watchlo (cpu_init procno) = 0 ∧ cp0_watchhi (cpu_init procno) = 0
        ∧ (∀ i, (cpu_init procno).regs i = 0) ∧ (cpu_init procno).stdby = false)
      ∧ step_exception E (sim_reset procno m tr th ia) = excNone
      ∧ step_exception E (cpu_step E (sim_reset procno m tr th ia)) = excNone
      ∧ (cpu_step E (cpu_step E (sim_reset procno m tr th ia))).cpu.pc = 0xbfc00008 := by
  refine ⟨⟨rfl, rfl, rfl, rfl, rfl, rfl, rfl, rfl, rfl, rfl, rfl, fun _ => rfl, rfl⟩, ?_⟩
  have hpc0 : (sim_reset procno m tr th ia).cpu.pc = 0xbfc00000 := rfl
  have hst0 : (sim_reset procno m tr th ia).cpu.cp0 cp0_Status = 0x00400004 := rfl
  have herl0 : cp0_status_erl (sim_reset procno m tr th ia).cpu = 1 := by
    unfold cp0_status_erl cp0_status
    rw [hst0]
    decide
  obtain ⟨a1, a2, a3, a4, a5, a6⟩ := nop_step_kseg1 E (sim_reset procno m tr th ia) rfl
    (by rw [hpc0]; decide) (by rw [hpc0]; decide) (by rw [hpc0]; decide) herl0
    (by rw [hpc0]; exact hn0)
  have hpc : (sim_reset procno m tr th ia).cpu.pc_next = 0xbfc00004 := rfl
  have b1 : (cpu_step E (sim_reset procno m tr th ia)).cpu.pc = 0xbfc00004 := a2.trans hpc
  have b2 : (cpu_step E (sim_reset procno m tr th ia)).cpu.pc_next = 0xbfc00008 := by
    rw [a3, hpc]
    decide
  have herl : cp0_status_erl (cpu_step E (sim_reset procno m tr th ia)).cpu = 1 :=
    (status_erl_congr _ _ a5).trans herl0
  have d1 : 0xa0000000 ≤ (cpu_step E (sim_reset procno m tr th ia)).cpu.pc := by
    rw [b1]; omega
  have d2 : (cpu_step E (sim_reset procno m tr th ia)).cpu.pc < 0xc0000000 := by
    rw [b1]; omega
  have d3 : (cpu_step E (sim_reset procno m tr th ia)).cpu.pc &&& 3 = 0 := by
    rw [b1]; decide
  have d4 : (E.decode_instr (u32 (E.mem_read (cpu_step E (sim_reset procno m tr th ia)).mem
      ((cpu_step E (sim_reset procno m tr th ia)).cpu.pc - 0xa0000000) 4).1)).opcode
      = opcNOP := by
    rw [b1, a6, hpc0]
    exact hn1
  obtain ⟨c1, c2, -⟩ := nop_step_kseg1 E (cpu_step E (sim_reset procno m tr th ia)) a4 d1 d2 d3
    herl d4
  exact ⟨a1, c1, c2.trans b2⟩

/-- Witness of `reset_state`: the RAM machine with two zero words (`NOP`) at
the reset vector. -/
theorem reset_state_witness :
    ((ram_machine.decode_instr
        (u32 (ram_machine.mem_read (ram_load 0x1fc00000 [0, 0]) 0x1fc00000 4).1)).opcode = opcNOP
      ∧ (ram_machine.decode_instr
        (u32 (ram_machine.mem_read
          (ram_machine.mem_read (ram_load 0x1fc00000 [0, 0]) 0x1fc00000 4).2
          0x1fc00004 4).1)).opcode = opcNOP)
    ∧ step_exception ram_machine (sim_reset 0 (ram_load 0x1fc00000 [0, 0]) false false false)
        = excNone
    ∧ step_exception ram_machine
        (cpu_step ram_machine (sim_reset 0 (ram_load 0x1fc00000 [0, 0]) false false false))
        = excNone
    ∧ (cpu_step ram_machine
        (cpu_step ram_machine
          (sim_reset 0 (ram_load 0x1fc00000 [0, 0]) false false false))).cpu.pc = 0xbfc00008 :=
  ⟨⟨by decide, by decide⟩,
    (reset_state ram_machine 0 (ram_load 0x1fc00000 [0, 0]) false false false (by decide)
      (by decide)).2⟩

/-! ## WAIT and standby -/

theorem manage_tick_fields (c : cpu_t) :
    (manage_timer (manage_count c)).pc = c.pc
      ∧ (manage_timer (manage_count c)).regs = c.regs
      ∧ (manage_timer (manage_count c)).hireg = c.hireg
      ∧ (manage_timer (manage_count c)).loreg = c.loreg
      ∧ (manage_timer (manage_count c)).stdby = c.stdby
      ∧ (manage_timer (manage_count c)).k_cycles = c.k_cycles
      ∧ (manage_timer (manage_count c)).u_cycles = c.u_cycles
      ∧ (manage_timer (manage_count c)).w_cycles = c.w_cycles := by
  unfold manage_timer manage_count cpu_t.set_cp0
  simp only
  split_ifs <;> exact ⟨rfl, rfl, rfl, rfl, rfl, rfl, rfl, rfl⟩

theorem step_exception_cases (E : machine_t M) (s : sim_t M)
    (hr : (cpu_step_instr E s).1 = excNone) (hi : step_exception E s ≠ excInt) :
    step_exception E s = excNone := by
  unfold step_exception at hi ⊢
  rw [hr] at hi ⊢
  rcases (manage_res_int (cpu_step_instr E s).2.cpu).2 with h | h
  · exact absurd h hi
  · exact h

theorem cpu_step_instr_in_standby (E : machine_t M) (s : sim_t M) (hs : s.cpu.stdby = true) :
    cpu_step_instr E s = (excNone, s) := by
  unfold cpu_step_instr
  rw [if_neg (by rw [hs]; decide)]

/-- A step taken in standby that delivers no exception. -/
theorem standby_step (E : machine_t M) (s : sim_t M) (hs : s.cpu.stdby = true)
    (hx : step_exception E s = excNone) :
    (cpu_step E s).cpu.pc = s.cpu.pc
      ∧ (cpu_step E s).cpu.regs = s.cpu.regs
      ∧ (cpu_step E s).cpu.hireg = s.cpu.hireg
      ∧ (cpu_step E s).cpu.loreg = s.cpu.loreg
      ∧ (cpu_step E s).mem = s.mem
      ∧ (cpu_step E s).cpu.stdby = true
      ∧ (cpu_step E s).cpu.w_cycles = u64 (s.cpu.w_cycles + 1)
      ∧ (cpu_step E s).cpu.k_cycles = s.cpu.k_cycles
      ∧ (cpu_step E s).cpu.u_cycles = s.cpu.u_cycles := by
  have hin : cpu_step_instr E s = (excNone, s) := cpu_step_instr_in_standby E s hs
  have hm : manage (cpu_step_instr E s).2.cpu (cpu_step_instr E s).1
      = manage_timer (manage_count s.cpu) := by
    rw [manage_no_exception _ _ hx, hin]
  obtain ⟨f1, f2, f3, f4, f5, f6, f7, f8⟩ := manage_tick_fields s.cpu
  have hstd : (manage_timer (manage_count s.cpu)).stdby = true := f5.trans hs
  unfold cpu_step
  simp only
  rw [hm, if_pos hstd]
  refine ⟨f1, f2, f3, f4, ?_, hstd, ?_, f6, f7⟩
  · rw [hin]
  · show u64 ((manage_timer (manage_count s.cpu)).w_cycles + 1) = _
    rw [f8]

/-- C30: a step that executes `WAIT` at address `p` and delivers no interrupt
ends with `standby = true` and `PC = p`; and a step taken in standby that
delivers no interrupt fetches and executes nothing: the PC, every general
register, HI, LO and the memory are unchanged, standby stays true, the
wait-cycle counter is incremented by 1 (a 64-bit counter) and the kernel and
user cycle counters are unchanged. -/
theorem wait_standby (E : machine_t M) (s : sim_t M) :
    (s.cpu.stdby = false → (cpu_read_ins E s s.cpu.pc 0 true).1 = excNone →
        (fetched E s).opcode = opcWAIT → step_exception E s ≠ excInt →
        (cpu_step E s).cpu.stdby = true ∧ (cpu_step E s).cpu.pc = s.cpu.pc)
      ∧ (s.cpu.stdby = true → step_exception E s ≠ excInt →
        cpu_step_instr E s = (excNone, s)
          ∧ (cpu_step E s).cpu.pc = s.cpu.pc
          ∧ (cpu_step E s).cpu.regs = s.cpu.regs
          ∧ (cpu_step E s).cpu.hireg = s.cpu.hireg
          ∧ (cpu_step E s).cpu.loreg = s.cpu.loreg
          ∧ (cpu_step E s).mem = s.mem
          ∧ (cpu_step E s).cpu.stdby = true
          ∧ (cpu_step E s).cpu.w_cycles = u64 (s.cpu.w_cycles + 1)
          ∧ (cpu_step E s).cpu.k_cycles = s.cpu.k_cycles
          ∧ (cpu_step E s).cpu.u_cycles = s.cpu.u_cycles) := by
  constructor
  · intro hs hf hop hi
    have hst := cpu_step_instr_fetch_ok E s hs hf
    have hsw : exec_switch E (after_fetch E s) (fetched E s)
        = ⟨excNone, add32 (after_fetch E s).cpu.pc_next 4,
            { after_fetch E s with cpu := { (after_fetch E s).cpu with
                pc_next := (after_fetch E s).cpu.pc, stdby := true } }⟩ := by
      simp only [exec_switch, hop]
    have hr : (cpu_step_instr E s).1 = excNone := by rw [hst, execute_res, hsw]
    have hx := step_exception_cases E s hr hi
    refine ⟨?_, ?_⟩
    · rw [(cpu_step_no_exception_fields E s hs hx).2.2.1, hsw]
    · rw [cpu_step_pc0, (manage_pc_frame _ _ hx).pc, hst, execute_pc, hsw, if_pos rfl]
      exact (cpu_read_ins_ok_frame E s _ _ _ hf).pc
  · intro hs hi
    have hin : cpu_step_instr E s = (excNone, s) := cpu_step_instr_in_standby E s hs
    have hx := step_exception_cases E s (by rw [hin]) hi
    exact ⟨hin, standby_step E s hs hx⟩

/-- Witness of `wait_standby`: `WAIT` at the reset vector: after the first
step the processor is in standby at `PC = 0xBFC00000`; the second step leaves
the PC and `r1` alone (the `ORI r1, r0, 1` after the `WAIT` is not run) and
counts one more wait cycle. -/
theorem wait_standby_witness :
    (wait_state.cpu.stdby = false
        ∧ (cpu_read_ins ram_machine wait_state wait_state.cpu.pc 0 true).1 = excNone
        ∧ (fetched ram_machine wait_state).opcode = opcWAIT
        ∧ step_exception ram_machine wait_state ≠ excInt)
      ∧ ((cpu_step ram_machine wait_state).cpu.stdby = true
        ∧ (cpu_step ram_machine wait_state).cpu.pc = wait_state.cpu.pc)
      ∧ step_exception ram_machine (cpu_step ram_machine wait_state) ≠ excInt
      ∧ (cpu_step ram_machine (cpu_step ram_machine wait_state)).cpu.pc = 0xbfc00000
      ∧ (cpu_step ram_machine (cpu_step ram_machine wait_state)).cpu.regs 1 = 0
      ∧ (cpu_step ram_machine (cpu_step ram_machine wait_state)).cpu.stdby = true
      ∧ (cpu_step ram_machine (cpu_step ram_machine wait_state)).cpu.w_cycles = 2
      ∧ (cpu_step ram_machine (cpu_step ram_machine wait_state)).cpu.k_cycles = 0 :=
  ⟨⟨by decide, by decide, by decide, by decide⟩,
    (wait_standby ram_machine wait_state).1 (by decide) (by decide) (by decide) (by decide),
    by decide,
    (((wait_standby ram_machine (cpu_step ram_machine wait_state)).2 (by decide)
      (by decide)).2.1).trans (by decide),
    by decide, by decide, by decide, by decide⟩

/-! ## Count, Compare and the timer interrupt -/

theorem tick_frame_refl (c : cpu_t) : tick_frame c c := ⟨rfl, rfl⟩

theorem tick_frame_trans {a b c : cpu_t} (h1 : tick_frame a b) (h2 : tick_frame b c) :
    tick_frame a c := ⟨h2.1.trans h1.1, h2.2.trans h1.2⟩

theorem acc_frame_to_tick {c c2 : cpu_t} (h : acc_frame c c2) : tick_frame c c2 :=
  ⟨h.llbit, by rw [h.cp0 cp0_Cause (by decide) (by decide) (by decide)]⟩

theorem tick_frame_wreg (s : sim_t M) (i v : Nat) : tick_frame s.cpu (s.wreg i v).cpu :=
  ⟨rfl, rfl⟩

theorem tick_frame_set_cp0 (c : cpu_t) (j v : Nat) (hj : cp0_Cause ≠ j) :
    tick_frame c (c.set_cp0 j v) :=
  ⟨rfl, by simp only [cpu_t.set_cp0, upd_ne _ _ _ _ hj]⟩

theorem cpu_unusable_tick (s : sim_t M) (pca : Nat) :
    tick_frame s.cpu (cpu_unusable s pca).s.cpu := by
  refine ⟨rfl, ?_⟩
  unfold cpu_unusable cp0_cause
  simp only [cpu_t.set_cp0, upd_same]
  exact and_not32_disjoint _ _ _ (by decide) (by decide)

theorem cpu_unusable_ce_tick (s : sim_t M) (pca ce : Nat) (hce : ce &&& cp0_cause_ip_mask = 0) :
    tick_frame s.cpu (cpu_unusable_ce s pca ce).s.cpu := by
  refine ⟨rfl, ?_⟩
  unfold cpu_unusable_ce cp0_cause
  simp only [cpu_t.set_cp0, upd_same]
  rw [or_and_disjoint _ _ _ hce]
  exact and_not32_disjoint _ _ _ (by decide) (by decide)

theorem exec_load_tick (E : machine_t M) (s : sim_t M) (ii : instr_info_t)
    (pca urrs size : Nat) (f : Nat → Nat) :
    tick_frame s.cpu (exec_load E s ii pca urrs size f).s.cpu := by
  have hf := acc_frame_to_tick (cpu_read_mem_frame E s (eff_addr urrs ii) size 0 true)
  unfold exec_load
  rcases hr : cpu_read_mem E s (eff_addr urrs ii) size 0 true with ⟨r, v, s1⟩
  rw [hr] at hf
  simp only
  split_ifs
  · exact tick_frame_trans hf (tick_frame_wreg _ _ _)
  · exact hf

theorem exec_LW_tick (E : machine_t M) (s : sim_t M) (ii : instr_info_t) (pca urrs : Nat) :
    tick_frame s.cpu (exec_LW E s ii pca urrs).s.cpu := by
  have hf := acc_frame_to_tick
    (cpu_read_mem_frame E s (eff_addr urrs ii) BITS_32 (s.cpu.regs ii.rt) true)
  unfold exec_LW
  exact tick_frame_trans hf (tick_frame_wreg _ _ _)

theorem exec_LWx_tick (E : machine_t M) (s : sim_t M) (ii : instr_info_t) (pca urrs : Nat)
    (left : Bool) : tick_frame s.cpu (exec_LWx E s ii pca urrs left).s.cpu := by
  have hf := acc_frame_to_tick
    (cpu_read_mem_frame E s (eff_addr urrs ii &&& 0xfffffffc) BITS_32 0 true)
  unfold exec_LWx
  rcases hr : cpu_read_mem E s (eff_addr urrs ii &&& 0xfffffffc) BITS_32 0 true with ⟨r, v, s1⟩
  rw [hr] at hf
  simp only [hr]
  split_ifs
  all_goals exact hf

theorem st_frame_ip {c c2 : cpu_t} (h : st_frame c c2) :
    c2.cp0 cp0_Cause &&& cp0_cause_ip_mask = c.cp0 cp0_Cause &&& cp0_cause_ip_mask := by
  rw [h.cp0 cp0_Cause (by decide) (by decide) (by decide)]

theorem exec_store_st (E : machine_t M) (s : sim_t M) (ii : instr_info_t)
    (pca addr size : Nat) : st_frame s.cpu (exec_store E s ii pca addr size).s.cpu := by
  have hf := cpu_write_mem_frame E s addr size (s.cpu.regs ii.rt) true
  unfold exec_store
  exact hf

theorem exec_SWx_st (E : machine_t M) (s : sim_t M) (ii : instr_info_t) (pca urrs : Nat)
    (left : Bool) : st_frame s.cpu (exec_SWx E s ii pca urrs left).s.cpu := by
  have hf := acc_to_st
    (cpu_read_mem_frame E s (eff_addr urrs ii &&& 0xfffffffc) BITS_32 0 true)
  unfold exec_SWx
  rcases hr : cpu_read_mem E s (eff_addr urrs ii &&& 0xfffffffc) BITS_32 0 true with ⟨r, v, s1⟩
  rw [hr] at hf
  simp only [hr]
  split_ifs
  · exact st_frame_trans hf (cpu_write_mem_frame E s1 _ _ _ _)
  · exact st_frame_trans hf (cpu_write_mem_frame E s1 _ _ _ _)
  · exact hf

/-- The stores `SB`, `SH`, `SW`, `SWL`, `SWR` leave alone what `st_frame`
lists: they can clear the LL bit, through the bus, and nothing else of it. -/
theorem exec_switch_store_st (E : machine_t M) (s : sim_t M) (ii : instr_info_t)
    (h : is_bus_store ii.opcode) : st_frame s.cpu (exec_switch E s ii).s.cpu := by
  rcases h with h | h | h | h | h
  all_goals
    simp only [exec_switch, h]
    first
      | exact exec_store_st _ _ _ _ _ _
      | exact exec_SWx_st _ _ _ _ _ _

theorem TLBW_tick (s : sim_t M) (pca : Nat) (random : Bool) :
    tick_frame s.cpu (TLBW s pca random).s.cpu := by
  unfold TLBW
  split_ifs
  all_goals first
    | exact cpu_unusable_tick s pca
    | (dsimp only; split_ifs <;> exact ⟨rfl, rfl⟩)

theorem exec_TLBP_tick (s : sim_t M) (pca : Nat) :
    tick_frame s.cpu (exec_TLBP s pca).s.cpu := by
  unfold exec_TLBP
  split_ifs
  · exact tick_frame_trans (tick_frame_set_cp0 _ _ _ (by decide))
      (tick_frame_set_cp0 _ _ _ (by decide))
  · exact cpu_unusable_tick s pca

theorem exec_TLBR_tick (s : sim_t M) (pca : Nat) :
    tick_frame s.cpu (exec_TLBR s pca).s.cpu := by
  unfold exec_TLBR
  split_ifs
  · dsimp only
    split_ifs
    all_goals
      exact tick_frame_trans (tick_frame_set_cp0 _ _ _ (by decide))
        (tick_frame_trans (tick_frame_set_cp0 _ _ _ (by decide))
          (tick_frame_trans (tick_frame_set_cp0 _ _ _ (by decide))
            (tick_frame_set_cp0 _ _ _ (by decide))))
  · exact cpu_unusable_tick s pca

theorem exec_MFC0_tick (s : sim_t M) (ii : instr_info_t) (pca : Nat) :
    tick_frame s.cpu (exec_MFC0 s ii pca).s.cpu := by
  unfold exec_MFC0
  split_ifs
  · exact tick_frame_wreg _ _ _
  · exact cpu_unusable_tick s pca

theorem exec_copz_tick (s : sim_t M) (pca : Nat) (cu : Prop) [Decidable cu] (ce : Nat)
    (hce : ce &&& cp0_cause_ip_mask = 0) :
    tick_frame s.cpu (exec_copz s pca cu ce).s.cpu := by
  unfold exec_copz
  split_ifs
  · exact tick_frame_refl _
  · exact cpu_unusable_ce_tick s pca ce hce

theorem br_cond_tick (s s0 : sim_t M) (ii : instr_info_t) (pca : Nat) (c : Prop) [Decidable c]
    (h : tick_frame s0.cpu s.cpu) : tick_frame s0.cpu (br_cond s ii pca c).s.cpu := by
  unfold br_cond br_taken
  split_ifs
  · exact tick_frame_trans h ⟨rfl, rfl⟩
  · exact h

theorem br_likely_tick (s s0 : sim_t M) (ii : instr_info_t) (c : Prop) [Decidable c]
    (h : tick_frame s0.cpu s.cpu) : tick_frame s0.cpu (br_likely s ii c).s.cpu := by
  unfold br_likely br_taken br_annul
  split_ifs
  · exact tick_frame_trans h ⟨rfl, rfl⟩
  · exact tick_frame_trans h ⟨rfl, rfl⟩

theorem br_taken_tick (s s0 : sim_t M) (t : Nat) (h : tick_frame s0.cpu s.cpu) :
    tick_frame s0.cpu (br_taken s t).s.cpu :=
  tick_frame_trans h ⟨rfl, rfl⟩

theorem multiply_tick (cpu : cpu_t) (a b : Nat) (sign : Bool) :
    tick_frame cpu (multiply cpu a b sign) := by
  unfold multiply
  split_ifs <;> exact ⟨rfl, rfl⟩

set_option maxHeartbeats 4000000 in
/-- Every instruction but `MTC0`, `LL`, `SC`, `ERET` and the stores leaves the
LL bit and `Cause.IP` alone. -/
theorem exec_switch_tick (E : machine_t M) (s : sim_t M) (ii : instr_info_t)
    (h1 : ii.opcode ≠ opcMTC0) (h2 : ii.opcode ≠ opcLL) (h3 : ii.opcode ≠ opcSC)
    (h4 : ii.opcode ≠ opcERET) (h5 : ¬ is_bus_store ii.opcode) :
    tick_frame s.cpu (exec_switch E s ii).s.cpu := by
  cases hop : ii.opcode
  case opcMTC0 => exact absurd hop h1
  case opcLL => exact absurd hop h2
  case opcSC => exact absurd hop h3
  case opcERET => exact absurd hop h4
  case opcSB => exact absurd (Or.inl hop) h5
  case opcSH => exact absurd (Or.inr (Or.inl hop)) h5
  case opcSW => exact absurd (Or.inr (Or.inr (Or.inl hop))) h5
  case opcSWL => exact absurd (Or.inr (Or.inr (Or.inr (Or.inl hop)))) h5
  case opcSWR => exact absurd (Or.inr (Or.inr (Or.inr (Or.inr hop)))) h5
  all_goals
    simp only [exec_switch, hop]
    first
      | with_reducible exact tick_frame_refl _
      | with_reducible exact tick_frame_wreg _ _ _
      | with_reducible exact br_cond_tick _ _ _ _ _ (tick_frame_refl _)
      | with_reducible exact br_cond_tick _ _ _ _ _ (tick_frame_wreg _ _ _)
      | with_reducible exact br_likely_tick _ _ _ _ (tick_frame_refl _)
      | with_reducible exact br_likely_tick _ _ _ _ (tick_frame_wreg _ _ _)
      | with_reducible exact br_taken_tick _ _ _ (tick_frame_refl _)
      | with_reducible exact br_taken_tick _ _ _ (tick_frame_wreg _ _ _)
      | with_reducible exact exec_load_tick _ _ _ _ _ _ _
      | with_reducible exact exec_LW_tick _ _ _ _ _
      | with_reducible exact exec_LWx_tick _ _ _ _ _ _
      | with_reducible exact TLBW_tick _ _ _
      | with_reducible exact exec_TLBP_tick _ _
      | with_reducible exact exec_TLBR_tick _ _
      | with_reducible exact exec_MFC0_tick _ _ _
      | exact exec_copz_tick _ _ _ _ (by decide)
      | with_reducible exact multiply_tick _ _ _ _
      | exact tick_frame_trans (multiply_tick _ _ _ _) ⟨rfl, rfl⟩
      | (split_ifs <;> first
          | with_reducible exact tick_frame_refl _
          | with_reducible exact cpu_unusable_tick _ _
          | exact ⟨rfl, rfl⟩)
      | exact ⟨rfl, rfl⟩

theorem and_submask (x y m k : Nat) (h : x &&& m = y &&& m) (hk : m &&& k = k) :
    x &&& k = y &&& k := by
  rw [← hk, ← Nat.and_assoc, ← Nat.and_assoc, h]

theorem exec_LL_tick (E : machine_t M) (s : sim_t M) (ii : instr_info_t) (pca urrs : Nat) :
    (exec_LL E s ii pca urrs).s.cpu.cp0 cp0_Cause = s.cpu.cp0 cp0_Cause
      ∧ (exec_LL E s ii pca urrs).s.cpu.llbit
          = decide ((cpu_read_mem E s (eff_addr urrs ii) BITS_32 0 true).1 = excNone) := by
  have hf := cpu_read_mem_frame E s (eff_addr urrs ii) BITS_32 0 true
  unfold exec_LL
  simp only
  rcases hr : cpu_read_mem E s (eff_addr urrs ii) BITS_32 0 true with ⟨r, v, s1⟩
  rw [hr] at hf
  simp only
  split_ifs with h
  · have hc := convert_addr_frame (s1.wreg ii.rt v).cpu (eff_addr urrs ii) false false
    rcases hca : convert_addr (s1.wreg ii.rt v).cpu (eff_addr urrs ii) false false
      with ⟨r2, pa, c2⟩
    rw [hca] at hc
    refine ⟨?_, by simp [h]⟩
    show c2.cp0 cp0_Cause = _
    rw [hc.cp0 _ (by decide) (by decide) (by decide)]
    exact hf.cp0 _ (by decide) (by decide) (by decide)
  · refine ⟨?_, by simp [h]⟩
    exact hf.cp0 _ (by decide) (by decide) (by decide)

theorem exec_SC_cause (E : machine_t M) (s : sim_t M) (ii : instr_info_t) (pca urrs : Nat) :
    (exec_SC E s ii pca urrs).s.cpu.cp0 cp0_Cause = s.cpu.cp0 cp0_Cause := by
  have hf := cpu_write_mem_frame E s (eff_addr urrs ii) BITS_32 (s.cpu.regs ii.rt) true
  unfold exec_SC
  split_ifs
  · rfl
  · simp only
    rcases hr : cpu_write_mem E s (eff_addr urrs ii) BITS_32 (s.cpu.regs ii.rt) true
      with ⟨r, s1⟩
    rw [hr] at hf
    simp only
    split_ifs
    · have hc := convert_addr_frame (s1.wreg ii.rt 1).cpu (eff_addr urrs ii) false false
      rcases hca : convert_addr (s1.wreg ii.rt 1).cpu (eff_addr urrs ii) false false
        with ⟨r2, pa, c2⟩
      rw [hca] at hc
      show c2.cp0 cp0_Cause = _
      rw [hc.cp0 _ (by decide) (by decide) (by decide)]
      exact hf.cp0 _ (by decide) (by decide) (by decide)
    · exact hf.cp0 _ (by decide) (by decide) (by decide)

theorem exec_ERET_ip (E : machine_t M) (s : sim_t M) (pca : Nat) :
    (exec_ERET E s pca).s.cpu.cp0 cp0_Cause &&& cp0_cause_ip_mask
      = s.cpu.cp0 cp0_Cause &&& cp0_cause_ip_mask := by
  unfold exec_ERET
  split_ifs
  · dsimp only
    split_ifs
    all_goals
      simp only [cpu_t.set_cp0]
      rw [upd_ne _ _ _ _ (by decide)]
  · exact (cpu_unusable_tick s pca).2

/-- Every instruction but `MTC0` leaves the interrupt-pending field `Cause.IP`
alone. -/
theorem exec_switch_ip (E : machine_t M) (s : sim_t M) (ii : instr_info_t)
    (h : ii.opcode ≠ opcMTC0) :
    (exec_switch E s ii).s.cpu.cp0 cp0_Cause &&& cp0_cause_ip_mask
      = s.cpu.cp0 cp0_Cause &&& cp0_cause_ip_mask := by
  by_cases h2 : ii.opcode = opcLL
  · simp only [exec_switch, h2]
    rw [(exec_LL_tick E s ii _ _).1]
  by_cases h3 : ii.opcode = opcSC
  · simp only [exec_switch, h3]
    rw [exec_SC_cause]
  by_cases h4 : ii.opcode = opcERET
  · simp only [exec_switch, h4]
    exact exec_ERET_ip E s _
  by_cases h5 : is_bus_store ii.opcode
  · exact st_frame_ip (exec_switch_store_st E s ii h5)
  exact (exec_switch_tick E s ii h h2 h3 h4 h5).2

theorem mtc0_write_llbit (cpu : cpu_t) (rd v : Nat) : (mtc0_write cpu rd v).llbit = cpu.llbit := by
  unfold mtc0_write
  split
  all_goals first
    | rfl
    | (simp only [cpu_t.set_cp0]; split_ifs <;> rfl)

/-- Every instruction but `LL`, `SC`, `ERET` and the stores leaves the LL bit
alone. -/
theorem exec_switch_llbit (E : machine_t M) (s : sim_t M) (ii : instr_info_t)
    (h2 : ii.opcode ≠ opcLL) (h3 : ii.opcode ≠ opcSC) (h4 : ii.opcode ≠ opcERET)
    (h5 : ¬ is_bus_store ii.opcode) :
    (exec_switch E s ii).s.cpu.llbit = s.cpu.llbit := by
  by_cases h1 : ii.opcode = opcMTC0
  · simp only [exec_switch, h1]
    unfold exec_MTC0
    split_ifs
    · exact mtc0_write_llbit _ _ _
    · rfl
  · exact (exec_switch_tick E s ii h1 h2 h3 h4 h5).1

/-- What `MTC0` does to the timer: only a write to `Count` changes `Count`,
and only a write to `Compare` changes `Compare` or `Cause.IP7`. -/
theorem mtc0_write_timer (cpu : cpu_t) (rd v : Nat) :
    (rd ≠ cp0_Count → (mtc0_write cpu rd v).cp0 cp0_Count = cpu.cp0 cp0_Count)
      ∧ (rd ≠ cp0_Compare →
          (mtc0_write cpu rd v).cp0 cp0_Compare = cpu.cp0 cp0_Compare
          ∧ (mtc0_write cpu rd v).cp0 cp0_Cause &&& shl32 1 cp0_cause_ip7_shift
              = cpu.cp0 cp0_Cause &&& shl32 1 cp0_cause_ip7_shift) := by
  unfold mtc0_write
  split
  case h_10 => exact ⟨fun h => absurd rfl h, fun _ => ⟨rfl, rfl⟩⟩
  case h_12 =>
    refine ⟨fun _ => ?_, fun h => absurd rfl h⟩
    simp only [cpu_t.set_cp0]
    rw [upd_ne _ _ _ _ (by decide), upd_ne _ _ _ _ (by decide)]
  case h_14 =>
    refine ⟨fun _ => ?_, fun _ => ⟨?_, ?_⟩⟩
    · simp only [cpu_t.set_cp0]
      rw [upd_ne _ _ _ _ (by decide), upd_ne _ _ _ _ (by decide)]
    · simp only [cpu_t.set_cp0]
      rw [upd_ne _ _ _ _ (by decide), upd_ne _ _ _ _ (by decide)]
    · simp only [cpu_t.set_cp0, cp0_cause, upd_same]
      rw [or_and_disjoint _ _ _ (and_and_disjoint _ _ _ (by decide))]
      exact and_not32_disjoint _ _ _ (by decide) (by decide)
  all_goals first
    | exact ⟨fun _ => rfl, fun _ => ⟨rfl, rfl⟩⟩
    | (simp only [cpu_t.set_cp0]
       split_ifs <;>
         exact ⟨fun _ => by simp [upd, cp0_Count, cp0_PageMask],
           fun _ => ⟨by simp [upd, cp0_Compare, cp0_PageMask],
             by simp [upd, cp0_Cause, cp0_PageMask]⟩⟩)

theorem cpu_read_ins_cp0 (E : machine_t M) (s : sim_t M) (addr value : Nat) (noisy : Bool)
    (i : Nat) (h8 : i ≠ cp0_BadVAddr) (h4 : i ≠ cp0_Context) (h10 : i ≠ cp0_EntryHi) :
    (cpu_read_ins E s addr value noisy).2.2.cpu.cp0 i = s.cpu.cp0 i := by
  have hf := cpu_fetch_mem_frame E s addr BITS_32 value noisy
  unfold cpu_read_ins
  rcases hr : cpu_fetch_mem E s addr BITS_32 value noisy with ⟨r, v, s1⟩
  rw [hr] at hf
  simp only
  split_ifs
  · exact hf.cp0 i h8 h4 h10
  · exact hf.cp0 i h8 h4 h10

theorem exec_MTC0_timer (s : sim_t M) (ii : instr_info_t) (pca urrt : Nat) :
    (ii.rd ≠ cp0_Count → (exec_MTC0 s ii pca urrt).s.cpu.cp0 cp0_Count = s.cpu.cp0 cp0_Count)
      ∧ (ii.rd ≠ cp0_Compare →
          (exec_MTC0 s ii pca urrt).s.cpu.cp0 cp0_Compare = s.cpu.cp0 cp0_Compare
          ∧ (exec_MTC0 s ii pca urrt).s.cpu.cp0 cp0_Cause &&& shl32 1 cp0_cause_ip7_shift
              = s.cpu.cp0 cp0_Cause &&& shl32 1 cp0_cause_ip7_shift) := by
  unfold exec_MTC0
  split_ifs
  · exact mtc0_write_timer s.cpu ii.rd urrt
  · refine ⟨fun _ => ?_, fun _ => ⟨?_, ?_⟩⟩
    · exact (cpu_unusable_ctl s pca) cp0_Count (by decide)
    · exact (cpu_unusable_ctl s pca) cp0_Compare (by decide)
    · exact and_submask _ _ _ _ (cpu_unusable_tick s pca).2 (by decide)

/-- The instruction of a step leaves `Count` alone unless it is an `MTC0` to
`Count`, and `Compare` and `Cause.IP7` alone unless it is an `MTC0` to
`Compare`. -/
theorem cpu_step_instr_timer (E : machine_t M) (s : sim_t M) :
    (¬ mtc0_to E s cp0_Count →
        (cpu_step_instr E s).2.cpu.cp0 cp0_Count = s.cpu.cp0 cp0_Count)
      ∧ (¬ mtc0_to E s cp0_Compare →
          (cpu_step_instr E s).2.cpu.cp0 cp0_Compare = s.cpu.cp0 cp0_Compare
          ∧ (cpu_step_instr E s).2.cpu.cp0 cp0_Cause &&& shl32 1 cp0_cause_ip7_shift
              = s.cpu.cp0 cp0_Cause &&& shl32 1 cp0_cause_ip7_shift) := by
  cases hs : s.cpu.stdby
  swap
  · rw [cpu_step_instr_in_standby E s hs]
    exact ⟨fun _ => rfl, fun _ => ⟨rfl, rfl⟩⟩
  have f9 := cpu_read_ins_cp0 E s s.cpu.pc 0 true cp0_Count (by decide) (by decide) (by decide)
  have f11 := cpu_read_ins_cp0 E s s.cpu.pc 0 true cp0_Compare (by decide) (by decide)
    (by decide)
  have f13 := cpu_read_ins_cp0 E s s.cpu.pc 0 true cp0_Cause (by decide) (by decide)
    (by decide)
  by_cases hf : (cpu_read_ins E s s.cpu.pc 0 true).1 = excNone
  swap
  · rw [cpu_step_instr_fetch_fault E s hs hf]
    exact ⟨fun _ => f9, fun _ => ⟨f11, by rw [← f13]; rfl⟩⟩
  rw [cpu_step_instr_fetch_ok E s hs hf, execute_cp0]
  by_cases hop : (fetched E s).opcode = opcMTC0
  · have hsw : exec_switch E (after_fetch E s) (fetched E s)
        = exec_MTC0 (after_fetch E s) (fetched E s) (add32 (after_fetch E s).cpu.pc_next 4)
            ((after_fetch E s).cpu.regs (fetched E s).rt) := by
      simp only [exec_switch, hop]
    rw [hsw]
    have hm := exec_MTC0_timer (after_fetch E s) (fetched E s)
      (add32 (after_fetch E s).cpu.pc_next 4) ((after_fetch E s).cpu.regs (fetched E s).rt)
    constructor
    · intro h
      have hrd : (fetched E s).rd ≠ cp0_Count := fun e => h ⟨⟨hs, hf, hop⟩, e⟩
      rw [hm.1 hrd]
      exact f9
    · intro h
      have hrd : (fetched E s).rd ≠ cp0_Compare := fun e => h ⟨⟨hs, hf, hop⟩, e⟩
      rw [(hm.2 hrd).1, (hm.2 hrd).2]
      exact ⟨f11, by rw [← f13]; rfl⟩
  · have hc := exec_switch_ctl E (after_fetch E s) (fetched E s) hop
    have hi := and_submask _ _ _ (shl32 1 cp0_cause_ip7_shift)
      (exec_switch_ip E (after_fetch E s) (fetched E s) hop) (by decide)
    refine ⟨fun _ => ?_, fun _ => ⟨?_, ?_⟩⟩
    · rw [hc cp0_Count (by decide)]
      exact f9
    · rw [hc cp0_Compare (by decide)]
      exact f11
    · rw [hi, ← f13]
      rfl

theorem he_cause_ip7 (cpu : cpu_t) (res : exc_t) :
    (he_cause cpu res).cp0 cp0_Cause &&& shl32 1 cp0_cause_ip7_shift
      = cpu.cp0 cp0_Cause &&& shl32 1 cp0_cause_ip7_shift := by
  have hsh : shl32 res.code cp0_cause_exccode_shift &&& shl32 1 cp0_cause_ip7_shift = 0 := by
    cases res <;> decide
  unfold he_cause cp0_cause
  simp only [cpu_t.set_cp0, upd_same]
  split_ifs
  · simp only [upd_same]
    rw [or_and_disjoint _ _ _ (by decide), and_not32_disjoint _ _ _ (by decide) (by decide),
      or_and_disjoint _ _ _ hsh, and_not32_disjoint _ _ _ (by decide) (by decide)]
  · simp only [upd_same]
    rw [and_not32_disjoint _ _ _ (by decide) (by decide),
      or_and_disjoint _ _ _ hsh, and_not32_disjoint _ _ _ (by decide) (by decide)]

theorem handle_exception_timer (cpu : cpu_t) (res : exc_t) :
    (handle_exception cpu res).cp0 cp0_Count = cpu.cp0 cp0_Count
      ∧ (handle_exception cpu res).cp0 cp0_Compare = cpu.cp0 cp0_Compare
      ∧ (handle_exception cpu res).cp0 cp0_Cause &&& shl32 1 cp0_cause_ip7_shift
          = cpu.cp0 cp0_Cause &&& shl32 1 cp0_cause_ip7_shift := by
  refine ⟨handle_exception_cp0_other _ _ _ (by decide) (by decide) (by decide),
    handle_exception_cp0_other _ _ _ (by decide) (by decide) (by decide), ?_⟩
  rw [handle_exception_cause, he_cause_ip7, he_standby_cp0]

theorem manage_count_count (cpu : cpu_t) :
    (manage_count cpu).cp0 cp0_Count = add32 (cpu.cp0 cp0_Count) 1 := by
  unfold manage_count
  simp only [cpu_t.set_cp0]
  split_ifs <;> simp [upd, cp0_count, cp0_Count, cp0_Random]

theorem manage_timer_ip7 (cpu : cpu_t) :
    ip7_pending (manage_timer cpu) ↔ (ip7_pending cpu ∨ cp0_count cpu = cp0_compare cpu) := by
  unfold manage_timer
  split_ifs with h
  · unfold ip7_pending cp0_cause
    simp only [cpu_t.set_cp0, upd_same]
    rw [or_and_self]
    exact ⟨fun _ => Or.inr h, fun _ => by decide⟩
  · exact ⟨fun h1 => Or.inl h1, fun h1 => h1.resolve_right h⟩

/-- One step of the timer: `Count` goes up by 1 modulo `2^32` unless the step
executes an `MTC0` to `Count`; unless it executes an `MTC0` to `Compare`,
`Compare` is unchanged and `Cause.IP7` is set after the step exactly when it
was set before or the new `Count` equals `Compare`. -/
theorem timer_step (E : machine_t M) (s : sim_t M) :
    (¬ mtc0_to E s cp0_Count → cp0_count (cpu_step E s).cpu = add32 (cp0_count s.cpu) 1)
      ∧ (¬ mtc0_to E s cp0_Compare →
          cp0_compare (cpu_step E s).cpu = cp0_compare s.cpu
          ∧ (ip7_pending (cpu_step E s).cpu ↔
              (ip7_pending s.cpu ∨ cp0_count (cpu_step E s).cpu = cp0_compare s.cpu))) := by
  have hi := cpu_step_instr_timer E s
  have hm : (cpu_step E s).cpu.cp0
      = (manage_timer (manage_count
          (if manage_res (cpu_step_instr E s).2.cpu (cpu_step_instr E s).1 ≠ excNone then
            handle_exception (cpu_step_instr E s).2.cpu
              (manage_res (cpu_step_instr E s).2.cpu (cpu_step_instr E s).1)
          else (cpu_step_instr E s).2.cpu))).cp0 := by
    rw [cpu_step_cp0]
    rfl
  have hh : ∀ c : cpu_t,
      (if manage_res (cpu_step_instr E s).2.cpu (cpu_step_instr E s).1 ≠ excNone then
          handle_exception (cpu_step_instr E s).2.cpu
            (manage_res (cpu_step_instr E s).2.cpu (cpu_step_instr E s).1)
        else (cpu_step_instr E s).2.cpu) = c →
      c.cp0 cp0_Count = (cpu_step_instr E s).2.cpu.cp0 cp0_Count
        ∧ c.cp0 cp0_Compare = (cpu_step_instr E s).2.cpu.cp0 cp0_Compare
        ∧ c.cp0 cp0_Cause &&& shl32 1 cp0_cause_ip7_shift
            = (cpu_step_instr E s).2.cpu.cp0 cp0_Cause &&& shl32 1 cp0_cause_ip7_shift := by
    intro c hc
    rw [← hc]
    split_ifs
    · exact handle_exception_timer _ _
    · exact ⟨rfl, rfl, rfl⟩
  generalize hcd : (if manage_res (cpu_step_instr E s).2.cpu (cpu_step_instr E s).1 ≠ excNone then
          handle_exception (cpu_step_instr E s).2.cpu
            (manage_res (cpu_step_instr E s).2.cpu (cpu_step_instr E s).1)
        else (cpu_step_instr E s).2.cpu) = c at hm
  obtain ⟨g1, g2, g3⟩ := hh c hcd
  have hcount : (cpu_step E s).cpu.cp0 cp0_Count
      = add32 ((cpu_step_instr E s).2.cpu.cp0 cp0_Count) 1 := by
    rw [hm, manage_timer_cp0 _ _ (by decide), manage_count_count, g1]
  have hcomp : (cpu_step E s).cpu.cp0 cp0_Compare = (cpu_step_instr E s).2.cpu.cp0 cp0_Compare := by
    rw [hm, manage_timer_cp0 _ _ (by decide), manage_count_cp0 _ _ (by decide) (by decide), g2]
  constructor
  · intro h
    unfold cp0_count
    rw [hcount, hi.1 h]
  · intro h
    obtain ⟨i1, i2⟩ := hi.2 h
    refine ⟨by unfold cp0_compare; rw [hcomp, i1], ?_⟩
    have ht := manage_timer_ip7 (manage_count c)
    have e1 : ip7_pending (cpu_step E s).cpu ↔ ip7_pending (manage_timer (manage_count c)) := by
      unfold ip7_pending cp0_cause
      rw [hm]
    have e2 : ip7_pending (manage_count c) ↔ ip7_pending s.cpu := by
      unfold ip7_pending cp0_cause
      rw [manage_count_cp0 _ _ (by decide) (by decide), g3, i2]
    have e3 : cp0_count (manage_count c) = cp0_count (cpu_step E s).cpu := by
      unfold cp0_count
      rw [hm, manage_timer_cp0 _ _ (by decide)]
    have e4 : cp0_compare (manage_count c) = cp0_compare s.cpu := by
      unfold cp0_compare
      rw [manage_count_cp0 _ _ (by decide) (by decide), g2, i1]
    rw [e1, ht, e2, e3, e4]

theorem ip7_im7_test (c s : Nat) (hc : c &&& shl32 1 cp0_cause_ip7_shift ≠ 0)
    (hs : s &&& shl32 1 cp0_cause_ip7_shift ≠ 0) : (c &&& s) &&& cp0_cause_ip_mask ≠ 0 := by
  have e : shl32 1 cp0_cause_ip7_shift = 2 ^ 15 := by decide
  rw [e, Nat.and_two_pow] at hc hs
  have h1 : c.testBit 15 = true := by
    cases h : c.testBit 15
    · rw [h] at hc; simp at hc
    · rfl
  have h2 : s.testBit 15 = true := by
    cases h : s.testBit 15
    · rw [h] at hs; simp at hs
    · rfl
  intro h0
  have h3 := congrArg (fun x => Nat.testBit x 15) h0
  simp only [Nat.testBit_and, h1, h2, Nat.zero_testBit, cp0_cause_ip_mask] at h3
  revert h3
  decide

theorem exccode_congr (c c2 : cpu_t) (h : c2.cp0 cp0_Cause = c.cp0 cp0_Cause) :
    cp0_cause_exccode c2 = cp0_cause_exccode c := by
  unfold cp0_cause_exccode cp0_cause
  rw [h]

theorem ip7_congr (c c2 : cpu_t)
    (h : c2.cp0 cp0_Cause &&& shl32 1 cp0_cause_ip7_shift
      = c.cp0 cp0_Cause &&& shl32 1 cp0_cause_ip7_shift) :
    ip7_pending c2 ↔ ip7_pending c := by
  unfold ip7_pending cp0_cause
  rw [h]

/-- A step whose instruction raises no fault and leaves interrupts enabled
for a pending timer interrupt delivers `Int` to the general vector. -/
theorem timer_int_step (E : machine_t M) (t : sim_t M) (hip : ip7_pending t.cpu)
    (hr : (cpu_step_instr E t).1 = excNone) (hw : ¬ mtc0_to E t cp0_Compare)
    (hie : cp0_status_ie (cpu_step_instr E t).2.cpu = 1)
    (him : im7_enabled (cpu_step_instr E t).2.cpu)
    (hexl : cp0_status_exl (cpu_step_instr E t).2.cpu = 0)
    (herl : cp0_status_erl (cpu_step_instr E t).2.cpu = 0) :
    step_exception E t = excInt
      ∧ (cpu_step E t).cpu.pc
          = (if cp0_status_bev (cpu_step_instr E t).2.cpu = 1 then 0xbfc00200 else 0x80000000)
              + 0x180
      ∧ cp0_cause_exccode (cpu_step E t).cpu = 0 := by
  have hip2 : ip7_pending (cpu_step_instr E t).2.cpu :=
    (ip7_congr _ _ ((cpu_step_instr_timer E t).2 hw).2).mpr hip
  have hmr : manage_res (cpu_step_instr E t).2.cpu (cpu_step_instr E t).1 = excInt := by
    rw [hr]
    unfold manage_res
    rw [if_pos ⟨rfl, hexl, herl, by rw [hie]; decide, ip7_im7_test _ _ hip2 him⟩]
  have hm : manage (cpu_step_instr E t).2.cpu (cpu_step_instr E t).1
      = manage_timer (manage_count (handle_exception (cpu_step_instr E t).2.cpu excInt)) := by
    rw [manage_step_exception, hmr, if_pos (by decide)]
  refine ⟨hmr, ?_, ?_⟩
  · rw [cpu_step_pc0, hm, (manage_tick_fields _).1, handle_exception_pc,
      he_vector_value _ _ (by decide)]
    have hne : ¬ ((excInt = excTLBLR ∨ excInt = excTLBSR)
        ∧ cp0_status_exl (cpu_step_instr E t).2.cpu = 0) := by
      intro h
      rcases h.1 with h1 | h1 <;> cases h1
    rw [if_neg hne]
  · have e : (cpu_step E t).cpu.cp0 cp0_Cause
        = (manage_timer (manage_count
            (handle_exception (cpu_step_instr E t).2.cpu excInt))).cp0 cp0_Cause := by
      rw [cpu_step_cp0, hm]
    rw [exccode_congr _ _ e, manage_timer_exccode,
      exccode_congr _ _ (manage_count_cp0 _ _ (by decide) (by decide)),
      exccode_congr _ _ (handle_exception_cause _ _), he_cause_exccode]
    decide

/-- The timer over the first `k` steps: `Count` has advanced by `k`, `Compare`
is unchanged and `Cause.IP7` is still clear before the `n`-th step. -/
theorem timer_run (E : machine_t M) (s : sim_t M) (n : Nat) (hn : n ≤ 4294967296)
    (hcmp : cp0_compare s.cpu = add32 (cp0_count s.cpu) n) (hip : ¬ ip7_pending s.cpu)
    (hw : ∀ k, k < n →
      ¬ mtc0_to E (cpu_run E s k) cp0_Count ∧ ¬ mtc0_to E (cpu_run E s k) cp0_Compare) :
    ∀ k, k ≤ n →
      cp0_count (cpu_run E s k).cpu % 4294967296 = add32 (cp0_count s.cpu) k
        ∧ cp0_compare (cpu_run E s k).cpu = cp0_compare s.cpu
        ∧ (k < n → ¬ ip7_pending (cpu_run E s k).cpu)
        ∧ (1 ≤ k → k = n → ip7_pending (cpu_run E s k).cpu) := by
  intro k
  induction k with
  | zero =>
    intro _
    refine ⟨by unfold add32; rfl, rfl, fun _ => hip, fun h => absurd h (by decide)⟩
  | succ k ih =>
    intro hk
    obtain ⟨i1, i2, i3, -⟩ := ih (by omega)
    obtain ⟨w1, w2⟩ := hw k (by omega)
    have t1 := (timer_step E (cpu_run E s k)).1 w1
    obtain ⟨t2, t3⟩ := (timer_step E (cpu_run E s k)).2 w2
    have hc : cp0_count (cpu_run E s (k + 1)).cpu = add32 (cp0_count s.cpu) (k + 1) := by
      show cp0_count (cpu_step E (cpu_run E s k)).cpu = _
      rw [t1]
      unfold add32 at i1 ⊢
      omega
    have hcm : cp0_compare (cpu_run E s (k + 1)).cpu = cp0_compare s.cpu := t2.trans i2
    have hiff : ip7_pending (cpu_run E s (k + 1)).cpu
        ↔ add32 (cp0_count s.cpu) (k + 1) = add32 (cp0_count s.cpu) n := by
      show ip7_pending (cpu_step E (cpu_run E s k)).cpu ↔ _
      rw [t3, i2, hcmp]
      have hc2 : cp0_count (cpu_step E (cpu_run E s k)).cpu = add32 (cp0_count s.cpu) (k + 1) :=
        hc
      rw [hc2]
      exact ⟨fun h => h.resolve_left (i3 (by omega)), fun h => Or.inr h⟩
    refine ⟨?_, hcm, ?_, ?_⟩
    · rw [hc]
      unfold add32
      omega
    · intro hlt h
      have := hiff.mp h
      unfold add32 at this
      omega
    · intro _ he
      rw [hiff, he]

/-- C21 (as the code has it): every `cpu_step` increments `Count` by 1 modulo
`2^32` unless it executes an `MTC0` to `Count` (also in standby).  If `Compare = Count + n`
modulo `2^32` with `1 <= n <= 2^32`, `Cause.IP7` is clear and none of the
first `n` steps executes an `MTC0` to `Count` or `Compare`, then `Cause.IP7` is
still clear after each of the first `n - 1` steps and set after the `n`-th;
and if the instruction of the next step raises no fault and leaves `IE = 1`,
`IM7 = 1`, `EXL = 0`, `ERL = 0`, that step delivers `Int`: it ends with the PC
at the general exception vector (base `+ 0x180`) and `Cause.ExcCode = 0`. -/
theorem timer_interrupt (E : machine_t M) (s : sim_t M) (n : Nat) (h1 : 1 ≤ n)
    (hn : n ≤ 4294967296) (hcmp : cp0_compare s.cpu = add32 (cp0_count s.cpu) n)
    (hip : ¬ ip7_pending s.cpu)
    (hw : ∀ k, k < n →
      ¬ mtc0_to E (cpu_run E s k) cp0_Count ∧ ¬ mtc0_to E (cpu_run E s k) cp0_Compare) :
    (∀ t : sim_t M, ¬ mtc0_to E t cp0_Count →
        cp0_count (cpu_step E t).cpu = add32 (cp0_count t.cpu) 1)
      ∧ (∀ k, 1 ≤ k → k < n → ¬ ip7_pending (cpu_run E s k).cpu)
      ∧ ip7_pending (cpu_run E s n).cpu
      ∧ ((cpu_step_instr E (cpu_run E s n)).1 = excNone →
          ¬ mtc0_to E (cpu_run E s n) cp0_Compare →
          cp0_status_ie (cpu_step_instr E (cpu_run E s n)).2.cpu = 1 →
          im7_enabled (cpu_step_instr E (cpu_run E s n)).2.cpu →
          cp0_status_exl (cpu_step_instr E (cpu_run E s n)).2.cpu = 0 →
          cp0_status_erl (cpu_step_instr E (cpu_run E s n)).2.cpu = 0 →
          step_exception E (cpu_run E s n) = excInt
            ∧ (cpu_run E s (n + 1)).cpu.pc
                = (if cp0_status_bev (cpu_step_instr E (cpu_run E s n)).2.cpu = 1 then 0xbfc00200
                    else 0x80000000) + 0x180
            ∧ cp0_cause_exccode (cpu_run E s (n + 1)).cpu = 0) := by
  have hr := timer_run E s n hn hcmp hip hw
  refine ⟨fun t ht => (timer_step E t).1 ht, ?_, ?_, ?_⟩
  · intro k _ hk
    exact (hr k (by omega)).2.2.1 hk
  · exact (hr n (Nat.le_refl n)).2.2.2 h1 rfl
  · intro a1 a2 a3 a4 a5 a6
    exact timer_int_step E (cpu_run E s n) ((hr n (Nat.le_refl n)).2.2.2 h1 rfl) a1 a2 a3 a4 a5 a6

/-- Witness of `timer_interrupt`: with `Compare = Count + 3`, `IE = IM7 = 1`
and `NOP`s running, `Cause.IP7` is clear after steps 1 and 2, set after step 3,
and step 4 ends at `0x80000180` with `Cause.ExcCode = 0`. -/
theorem timer_interrupt_witness :
    (cp0_compare timer_state.cpu = add32 (cp0_count timer_state.cpu) 3
        ∧ ¬ ip7_pending timer_state.cpu
        ∧ ∀ k, k < 3 → ¬ mtc0_to ram_machine (cpu_run ram_machine timer_state k) cp0_Count
            ∧ ¬ mtc0_to ram_machine (cpu_run ram_machine timer_state k) cp0_Compare)
      ∧ (¬ ip7_pending (cpu_run ram_machine timer_state 1).cpu
        ∧ ¬ ip7_pending (cpu_run ram_machine timer_state 2).cpu)
      ∧ ip7_pending (cpu_run ram_machine timer_state 3).cpu
      ∧ cp0_count (cpu_run ram_machine timer_state 3).cpu = 3
      ∧ (cpu_run ram_machine timer_state 4).cpu.pc = 0x80000180
      ∧ cp0_cause_exccode (cpu_run ram_machine timer_state 4).cpu = 0 :=
  ⟨⟨by decide, by decide, by decide⟩,
    ⟨(timer_interrupt ram_machine timer_state 3 (by decide) (by decide) (by decide) (by decide)
        (by decide)).2.1 1 (by decide) (by decide),
      (timer_interrupt ram_machine timer_state 3 (by decide) (by decide) (by decide) (by decide)
        (by decide)).2.1 2 (by decide) (by decide)⟩,
    (timer_interrupt ram_machine timer_state 3 (by decide) (by decide) (by decide) (by decide)
      (by decide)).2.2.1,
    by decide,
    (((timer_interrupt ram_machine timer_state 3 (by decide) (by decide) (by decide) (by decide)
      (by decide)).2.2.2 (by decide) (by decide) (by decide) (by decide) (by decide)
      (by decide)).2.1).trans (by decide),
    ((timer_interrupt ram_machine timer_state 3 (by decide) (by decide) (by decide) (by decide)
      (by decide)).2.2.2 (by decide) (by decide) (by decide) (by decide) (by decide)
      (by decide)).2.2⟩

theorem manage_count_status (cpu : cpu_t) :
    (manage_count cpu).cp0 cp0_Status = cpu.cp0 cp0_Status := by
  have h1 : cp0_Status ≠ cp0_Count := by decide
  have h2 : cp0_Status ≠ cp0_Random := by decide
  unfold manage_count cpu_t.set_cp0
  simp only
  split_ifs <;> simp only [upd_ne _ _ _ _ h1, upd_ne _ _ _ _ h2]

/-- A step taken in standby with interrupts off (`Status.IE = 0`) leaves the
processor in standby with interrupts off. -/
theorem standby_idle (E : machine_t M) (s : sim_t M) (hs : s.cpu.stdby = true)
    (hie : cp0_status_ie s.cpu = 0) :
    (cpu_step E s).cpu.stdby = true ∧ cp0_status_ie (cpu_step E s).cpu = 0 := by
  have hin := cpu_step_instr_in_standby E s hs
  have hx : step_exception E s = excNone := by
    unfold step_exception
    rw [hin]
    unfold manage_res
    rw [if_neg (fun h => h.2.2.2.1 hie)]
  refine ⟨(standby_step E s hs hx).2.2.2.2.2.1, ?_⟩
  have hst : (cpu_step E s).cpu.cp0 cp0_Status = s.cpu.cp0 cp0_Status := by
    unfold step_exception at hx
    rw [cpu_step_cp0, manage_no_exception _ _ hx, manage_timer_cp0 _ _ (by decide),
      manage_count_status, hin]
  unfold cp0_status_ie cp0_status at hie ⊢
  rw [hst]
  exact hie

theorem standby_run (E : machine_t M) (s : sim_t M) (hs : s.cpu.stdby = true)
    (hie : cp0_status_ie s.cpu = 0) (k : Nat) :
    (cpu_run E s k).cpu.stdby = true ∧ cp0_status_ie (cpu_run E s k).cpu = 0 := by
  induction k with
  | zero => exact ⟨hs, hie⟩
  | succ k ih => exact standby_idle E _ ih.1 ih.2

theorem cpu_run_succ_left (E : machine_t M) (s : sim_t M) (k : Nat) :
    cpu_run E s (k + 1) = cpu_run E (cpu_step E s) k := by
  induction k with
  | zero => rfl
  | succ k ih =>
    show cpu_step E (cpu_run E s (k + 1)) = cpu_step E (cpu_run E (cpu_step E s) k)
    rw [ih]

/-- Counterexample to C21 as stated, at `n = 2^32 + 1`: `Compare = Count + n`
modulo `2^32` (`Count = 0`, `Compare = 1`), `Cause.IP7` is clear, the first
step executes `WAIT` and every later step is taken in standby, so that no step
ever executes an `MTC0`; yet `Cause.IP7` is set after the first of the first
`n - 1` steps. -/
theorem timer_far_compare_counterexample :
    cp0_compare timer_wait_state.cpu = add32 (cp0_count timer_wait_state.cpu) 4294967297
      ∧ ¬ ip7_pending timer_wait_state.cpu
      ∧ (∀ k, ¬ executes ram_machine (cpu_run ram_machine timer_wait_state k) opcMTC0)
      ∧ (1 : Nat) < 4294967297 - 1
      ∧ ip7_pending (cpu_run ram_machine timer_wait_state 1).cpu := by
  refine ⟨by decide, by decide, ?_, by decide, by decide⟩
  intro k
  cases k with
  | zero => decide
  | succ k =>
    rw [cpu_run_succ_left]
    have h := (standby_run ram_machine (cpu_step ram_machine timer_wait_state) (by decide)
      (by decide) k).1
    intro he
    rw [he.1] at h
    cases h

/-! ## Load linked and store conditional (LL/SC) -/

theorem handle_exception_llbit (cpu : cpu_t) (res : exc_t) :
    (handle_exception cpu res).llbit = cpu.llbit := by
  unfold handle_exception he_epc he_cause he_standby cpu_set_pc cpu_t.set_cp0
  simp only
  split_ifs <;> rfl

theorem manage_keeps_llbit (cpu : cpu_t) (res : exc_t) : (manage cpu res).llbit = cpu.llbit := by
  unfold manage manage_timer manage_count cpu_t.set_cp0
  simp only
  split_ifs <;> first | rfl | exact handle_exception_llbit _ _

theorem cpu_step_llbit (E : machine_t M) (s : sim_t M) :
    (cpu_step E s).cpu.llbit = (cpu_step_instr E s).2.cpu.llbit := by
  rw [cpu_step_llbit0, manage_keeps_llbit]

theorem cpu_read_ins_llbit (E : machine_t M) (s : sim_t M) (addr value : Nat) (noisy : Bool) :
    (cpu_read_ins E s addr value noisy).2.2.cpu.llbit = s.cpu.llbit := by
  have hf := cpu_fetch_mem_frame E s addr BITS_32 value noisy
  unfold cpu_read_ins
  rcases hr : cpu_fetch_mem E s addr BITS_32 value noisy with ⟨r, v, s1⟩
  rw [hr] at hf
  simp only
  split_ifs
  · exact hf.llbit
  · exact hf.llbit

theorem exec_ERET_llbit (E : machine_t M) (s : sim_t M) (pca : Nat) :
    (¬ cp0_not_usable s.cpu → (exec_ERET E s pca).s.cpu.llbit = false)
      ∧ (s.cpu.llbit = false → (exec_ERET E s pca).s.cpu.llbit = false) := by
  constructor
  · intro hu
    exact (exec_ERET_ok E s pca hu).2.1
  · intro hl
    by_cases hu : cp0_not_usable s.cpu
    · have e : exec_ERET E s pca = cpu_unusable s pca := by
        have h1 := cp0_status_cu0_le s.cpu
        unfold cp0_not_usable at hu
        unfold exec_ERET
        rw [if_neg (by omega)]
      rw [e]
      exact hl
    · exact (exec_ERET_ok E s pca hu).2.1

/-- An instruction other than `LL` leaves a clear LL bit clear. -/
theorem exec_switch_llbit_false (E : machine_t M) (s : sim_t M) (ii : instr_info_t)
    (h : ii.opcode ≠ opcLL) (hl : s.cpu.llbit = false) :
    (exec_switch E s ii).s.cpu.llbit = false := by
  by_cases h3 : ii.opcode = opcSC
  · rw [exec_switch_SC E s ii h3]
    exact exec_SC_llbit _ _ _ _ _
  by_cases h4 : ii.opcode = opcERET
  · simp only [exec_switch, h4]
    exact (exec_ERET_llbit E s _).2 hl
  by_cases h5 : is_bus_store ii.opcode
  · cases hb : (exec_switch E s ii).s.cpu.llbit
    · rfl
    · have h6 := (exec_switch_store_st E s ii h5).llbit hb
      rw [hl] at h6
      cases h6
  rw [exec_switch_llbit E s ii h h3 h4 h5]
  exact hl

/-- A step that does not execute `LL` leaves a clear LL bit clear, whatever
exception it delivers. -/
theorem step_llbit_false (E : machine_t M) (s : sim_t M) (h : ¬ executes E s opcLL)
    (hl : s.cpu.llbit = false) : (cpu_step E s).cpu.llbit = false := by
  rw [cpu_step_llbit]
  cases hs : s.cpu.stdby
  swap
  · rw [cpu_step_instr_in_standby E s hs]
    exact hl
  by_cases hf : (cpu_read_ins E s s.cpu.pc 0 true).1 = excNone
  swap
  · rw [cpu_step_instr_fetch_fault E s hs hf]
    exact (cpu_read_ins_llbit E s _ _ _).trans hl
  rw [cpu_step_instr_fetch_ok E s hs hf, execute_llbit]
  exact exec_switch_llbit_false E _ _ (fun e => h ⟨hs, hf, e⟩)
    ((cpu_read_ins_llbit E s _ _ _).trans hl)

theorem run_llbit_false (E : machine_t M) (s : sim_t M) (hl : s.cpu.llbit = false) (n : Nat)
    (h : ∀ k, k < n → ¬ executes E (cpu_run E s k) opcLL) :
    (cpu_run E s n).cpu.llbit = false := by
  induction n with
  | zero => exact hl
  | succ n ih =>
    exact step_llbit_false E _ (h n (by omega)) (ih (fun k hk => h k (by omega)))

/-- C24 (as the code has it): when a step executes `ERET` with coprocessor 0
usable, then any number of steps follow none of which executes `LL`, and then
a step executes `SC`, that `SC` returns no fault, leaves `rt = 0` and writes
nothing: the memory after the step is the memory after the fetch of the
`SC`. -/
theorem eret_breaks_link (E : machine_t M) (s : sim_t M) (n : Nat)
    (he : executes E s opcERET) (hu : ¬ cp0_not_usable s.cpu)
    (hll : ∀ k, k < n → ¬ executes E (cpu_run E (cpu_step E s) k) opcLL)
    (hsc : executes E (cpu_run E (cpu_step E s) n) opcSC) :
    (cpu_run E (cpu_step E s) n).cpu.llbit = false
      ∧ (cpu_step_instr E (cpu_run E (cpu_step E s) n)).1 = excNone
      ∧ (cpu_step E (cpu_run E (cpu_step E s) n)).cpu.regs
          (fetched E (cpu_run E (cpu_step E s) n)).rt = 0
      ∧ (cpu_step E (cpu_run E (cpu_step E s) n)).mem
          = (after_fetch E (cpu_run E (cpu_step E s) n)).mem := by
  obtain ⟨hs, hf, hop⟩ := he
  have hu1 : ¬ cp0_not_usable (after_fetch E s).cpu := by
    have hcp : (after_fetch E s).cpu.cp0 = s.cpu.cp0 := cpu_read_ins_ok_cp0 E s _ _ _ hf
    unfold cp0_not_usable cp0_status_cu0 cp0_status_ksu cp0_status_exl cp0_status_erl cp0_status
    rw [hcp]
    exact hu
  have h1 : (cpu_step E s).cpu.llbit = false := by
    rw [cpu_step_llbit, cpu_step_instr_fetch_ok E s hs hf, execute_llbit]
    simp only [exec_switch, hop]
    exact (exec_ERET_llbit E _ _).1 hu1
  have h2 := run_llbit_false E (cpu_step E s) h1 n hll
  obtain ⟨ts, tf, top⟩ := hsc
  have h3 : (after_fetch E (cpu_run E (cpu_step E s) n)).cpu.llbit = false :=
    (cpu_read_ins_llbit E _ _ _ _).trans h2
  have hst := cpu_step_instr_fetch_ok E _ ts tf
  have hsw := exec_SC_unlinked E (after_fetch E (cpu_run E (cpu_step E s) n))
    (fetched E (cpu_run E (cpu_step E s) n))
    (add32 (after_fetch E (cpu_run E (cpu_step E s) n)).cpu.pc_next 4)
    ((after_fetch E (cpu_run E (cpu_step E s) n)).cpu.regs
      (fetched E (cpu_run E (cpu_step E s) n)).rs) h3
  refine ⟨h2, ?_, ?_, ?_⟩
  · rw [hst, execute_res, exec_switch_SC E _ _ top, hsw]
  · rw [cpu_step_regs, hst]
    exact execute_SC_unlinked_rt E _ _ top h3
  · rw [cpu_step_mem, hst, execute_mem, exec_switch_SC E _ _ top, hsw]
    rfl

/-- Witness of `eret_breaks_link`: `LL`, `ERET` to the next word, `SC`: the
`SC` leaves `r3 = 0` and the word at `0x1000` unwritten. -/
theorem eret_breaks_link_witness :
    (executes ram_machine (cpu_run ram_machine ll_eret_sc_state 1) opcERET
        ∧ ¬ cp0_not_usable (cpu_run ram_machine ll_eret_sc_state 1).cpu
        ∧ (cpu_run ram_machine ll_eret_sc_state 1).cpu.llbit = true
        ∧ executes ram_machine
            (cpu_run ram_machine (cpu_step ram_machine (cpu_run ram_machine ll_eret_sc_state 1))
              0) opcSC)
      ∧ (cpu_step ram_machine
          (cpu_run ram_machine (cpu_step ram_machine (cpu_run ram_machine ll_eret_sc_state 1))
            0)).cpu.regs 3 = 0
      ∧ ram_read (cpu_run ram_machine ll_eret_sc_state 3).mem 0x1000 4 = 0 :=
  ⟨⟨by decide, by decide, by decide, by decide⟩,
    (eret_breaks_link ram_machine (cpu_run ram_machine ll_eret_sc_state 1) 0 (by decide)
      (by decide) (by decide) (by decide)).2.2.1,
    by decide⟩

/-- Counterexample to C24 as stated: after `LL r2, 0x1000(r0)` the `SYSCALL`
is delivered as an exception (`Sys`, to the vector `0xBFC00380`) and no `ERET`
is executed; the LL bit is still set, and the `SC r3, 0x1000(r0)` at the vector
succeeds: `r3 = 1` and the word at `0x1000` is the stored `0x55`. -/
theorem exception_keeps_link_counterexample :
    executes ram_machine ll_syscall_sc_state opcLL
      ∧ (cpu_run ram_machine ll_syscall_sc_state 1).cpu.llbit = true
      ∧ step_exception ram_machine (cpu_run ram_machine ll_syscall_sc_state 1) = excSys
      ∧ (cpu_run ram_machine ll_syscall_sc_state 2).cpu.pc = 0xbfc00380
      ∧ cp0_status_exl (cpu_run ram_machine ll_syscall_sc_state 2).cpu = 1
      ∧ (cpu_run ram_machine ll_syscall_sc_state 2).cpu.llbit = true
      ∧ executes ram_machine (cpu_run ram_machine ll_syscall_sc_state 2) opcSC
      ∧ (cpu_run ram_machine ll_syscall_sc_state 2).cpu.regs 3 = 0x55
      ∧ (cpu_run ram_machine ll_syscall_sc_state 3).cpu.regs 3 = 1
      ∧ ram_read (cpu_run ram_machine ll_syscall_sc_state 3).mem 0x1000 4 = 0x55 := by
  decide

theorem handle_exception_stdby (cpu : cpu_t) (res : exc_t) :
    (handle_exception cpu res).stdby = false := by
  unfold handle_exception he_epc he_cause he_standby cpu_set_pc cpu_t.set_cp0
  simp only
  split_ifs <;> rfl

theorem branch_dec_ne_cond (b : branch_t) : b.dec ≠ BRANCH_COND := by
  cases b <;> decide

/-- An interrupt delivered by `manage` to a processor in standby. -/
theorem manage_int_standby (cpu : cpu_t) (hs : cpu.stdby = true)
    (hb : cpu.branch ≠ BRANCH_COND) (hi : int_deliverable cpu) :
    manage_res cpu excNone = excInt
      ∧ (manage cpu excNone).stdby = false
      ∧ (manage cpu excNone).cp0 cp0_EPC = add32 cpu.pc 4
      ∧ (manage cpu excNone).pc
          = (if cp0_status_bev cpu = 1 then 0xbfc00200 else 0x80000000) + 0x180
      ∧ (manage cpu excNone).cp0 cp0_Status
          = (handle_exception cpu excInt).cp0 cp0_Status := by
  have hmr : manage_res cpu excNone = excInt := (manage_res_int cpu).1.mpr hi
  have hm : manage cpu excNone = manage_timer (manage_count (handle_exception cpu excInt)) := by
    rw [manage_step_exception, hmr, if_pos (by decide)]
  have hx := he_cause_exl cpu excInt
  have hbr : (he_cause (he_standby cpu) excInt).branch = cpu.branch := by
    rw [he_cause_branch, he_standby_branch]
  refine ⟨hmr, ?_, ?_, ?_, ?_⟩
  · rw [hm, (manage_tick_fields _).2.2.2.2.1, handle_exception_stdby]
  · rw [hm, manage_timer_cp0 _ _ (by decide), manage_count_cp0 _ _ (by decide) (by decide),
      handle_exception_epc_eq]
    have hbase : exc_base excInt = excInt := rfl
    rw [hbase]
    unfold he_epc
    rw [if_pos (hx.trans hi.1)]
    dsimp only
    rw [if_pos ⟨rfl, by
      show (he_cause (he_standby cpu) excInt).branch ≠ BRANCH_COND
      rw [hbr]
      exact hb⟩]
    simp only [cpu_t.set_cp0, upd_same]
    rw [he_cause_pc, he_standby_pc, if_pos hs]
  · rw [hm, (manage_tick_fields _).1, handle_exception_pc, he_vector_value _ _ (by decide)]
    have hne : ¬ ((excInt = excTLBLR ∨ excInt = excTLBSR) ∧ cp0_status_exl cpu = 0) := by
      intro h
      rcases h.1 with h1 | h1 <;> cases h1
    rw [if_neg hne]
  · rw [hm, manage_timer_cp0 _ _ (by decide), manage_count_cp0 _ _ (by decide) (by decide)]

theorem exec_switch_WAIT (E : machine_t M) (s : sim_t M) (ii : instr_info_t)
    (hop : ii.opcode = opcWAIT) :
    exec_switch E s ii
      = ⟨excNone, add32 s.cpu.pc_next 4,
          { s with cpu := { s.cpu with pc_next := s.cpu.pc, stdby := true } }⟩ := by
  simp only [exec_switch, hop]

/-- C31: an interrupt delivered to a processor in standby, whether in a later
step or at the end of the very step that executed `WAIT` at `p`: the step
delivers `Int`, standby is cleared, `EPC = p + 4` (the PC is advanced before
`EPC` is captured), the PC is the general exception vector and
`Status.EXL = 1`.  The branch state is never `BRANCH_COND` at the start of a
step that follows another step. -/
theorem standby_interrupt (E : machine_t M) (s : sim_t M) (hb : s.cpu.branch ≠ BRANCH_COND) :
    (∀ s0 : sim_t M, (cpu_step E s0).cpu.branch ≠ BRANCH_COND)
      ∧ (s.cpu.stdby = true → int_deliverable s.cpu →
          step_exception E s = excInt
            ∧ (cpu_step E s).cpu.stdby = false
            ∧ cp0_epc (cpu_step E s).cpu = add32 s.cpu.pc 4
            ∧ (cpu_step E s).cpu.pc
                = (if cp0_status_bev s.cpu = 1 then 0xbfc00200 else 0x80000000) + 0x180
            ∧ cp0_status_exl (cpu_step E s).cpu = 1)
      ∧ (executes E s opcWAIT → int_deliverable (cpu_step_instr E s).2.cpu →
          step_exception E s = excInt
            ∧ (cpu_step E s).cpu.stdby = false
            ∧ cp0_epc (cpu_step E s).cpu = add32 s.cpu.pc 4
            ∧ (cpu_step E s).cpu.pc
                = (if cp0_status_bev s.cpu = 1 then 0xbfc00200 else 0x80000000) + 0x180
            ∧ cp0_status_exl (cpu_step E s).cpu = 1) := by
  have key : ∀ (hs : (cpu_step_instr E s).2.cpu.stdby = true)
      (hb2 : (cpu_step_instr E s).2.cpu.branch ≠ BRANCH_COND)
      (hr : (cpu_step_instr E s).1 = excNone)
      (hi : int_deliverable (cpu_step_instr E s).2.cpu),
      step_exception E s = excInt
        ∧ (cpu_step E s).cpu.stdby = false
        ∧ cp0_epc (cpu_step E s).cpu = add32 (cpu_step_instr E s).2.cpu.pc 4
        ∧ (cpu_step E s).cpu.pc
            = (if cp0_status_bev (cpu_step_instr E s).2.cpu = 1 then 0xbfc00200
                else 0x80000000) + 0x180
        ∧ cp0_status_exl (cpu_step E s).cpu = 1 := by
    intro hs hb2 hr hi
    obtain ⟨m1, m2, m3, m4, m5⟩ := manage_int_standby _ hs hb2 hi
    refine ⟨?_, ?_, ?_, ?_, ?_⟩
    · unfold step_exception
      rw [hr]
      exact m1
    · rw [cpu_step_stdby0, hr]
      exact m2
    · unfold cp0_epc
      rw [cpu_step_cp0, hr]
      exact m3
    · rw [cpu_step_pc0, hr]
      exact m4
    · have e : cp0_status_exl (cpu_step E s).cpu
          = cp0_status_exl (handle_exception (cpu_step_instr E s).2.cpu excInt) := by
        unfold cp0_status_exl cp0_status
        rw [cpu_step_cp0, hr, m5]
      rw [e, handle_exception_exl]
  refine ⟨?_, ?_, ?_⟩
  · intro s0
    rw [cpu_step_branch0]
    exact branch_dec_ne_cond _
  · intro hs hi
    have hin := cpu_step_instr_in_standby E s hs
    have k := key (by rw [hin]; exact hs) (by rw [hin]; exact hb) (by rw [hin])
      (by rw [hin]; exact hi)
    rw [hin] at k
    exact k
  · rintro ⟨hs, hf, hop⟩ hi
    have hst := cpu_step_instr_fetch_ok E s hs hf
    have hsw := exec_switch_WAIT E (after_fetch E s) (fetched E s) hop
    have hfr := cpu_read_ins_ok_frame E s s.cpu.pc 0 true hf
    have hcp := cpu_read_ins_ok_cp0 E s s.cpu.pc 0 true hf
    have hpc : (cpu_step_instr E s).2.cpu.pc = s.cpu.pc := by
      rw [hst, execute_pc, hsw, if_pos rfl]
      exact hfr.pc
    have hst2 : (cpu_step_instr E s).2.cpu.cp0 = s.cpu.cp0 := by
      rw [hst, execute_cp0, hsw]
      exact hcp
    have k := key (by rw [hst, execute_stdby, hsw])
      (by
        rw [hst, execute_branch, hsw]
        show (after_fetch E s).cpu.branch ≠ BRANCH_COND
        unfold after_fetch
        rw [hfr.branch]
        exact hb)
      (by rw [hst, execute_res, hsw]) hi
    rw [hpc] at k
    have hbev : cp0_status_bev (cpu_step_instr E s).2.cpu = cp0_status_bev s.cpu := by
      unfold cp0_status_bev cp0_status
      rw [hst2]
    rw [hbev] at k
    exact k

/-- Witness of `standby_interrupt`: `WAIT` at `0xBFC00000` with the timer
interrupt due after three steps: the third step sets `Cause.IP7` in standby,
the fourth delivers `Int` with `EPC = 0xBFC00004` and ends at `0x80000180` out
of standby; with the interrupt pending from the start, the step of the `WAIT`
itself does the same. -/
theorem standby_interrupt_witness :
    ((cpu_run ram_machine wait_int_state 3).cpu.stdby = true
        ∧ (cpu_run ram_machine wait_int_state 3).cpu.pc = 0xbfc00000
        ∧ int_deliverable (cpu_run ram_machine wait_int_state 3).cpu)
      ∧ (cpu_run ram_machine wait_int_state 4).cpu.stdby = false
      ∧ cp0_epc (cpu_run ram_machine wait_int_state 4).cpu = 0xbfc00004
      ∧ (cpu_run ram_machine wait_int_state 4).cpu.pc = 0x80000180
      ∧ (executes ram_machine wait_pending_state opcWAIT
        ∧ wait_pending_state.cpu.pc = 0xbfc00000)
      ∧ cp0_epc (cpu_step ram_machine wait_pending_state).cpu = 0xbfc00004
      ∧ (cpu_step ram_machine wait_pending_state).cpu.stdby = false :=
  have h := (standby_interrupt ram_machine (cpu_run ram_machine wait_int_state 3)
    (by decide)).2.1 (by decide) (by decide)
  have g := (standby_interrupt ram_machine wait_pending_state (by decide)).2.2 (by decide)
    (by decide)
  ⟨⟨by decide, by decide, by decide⟩, h.2.1, h.2.2.1.trans (by decide),
    h.2.2.2.1.trans (by decide), ⟨by decide, by decide⟩, g.2.2.1.trans (by decide), g.2.1⟩

/-! ## DIV and DIVU (C32) -/

theorem execute_hireg (E : machine_t M) (s : sim_t M) (ii : instr_info_t) :
    (execute E s ii).2.cpu.hireg = (exec_switch E s ii).s.cpu.hireg := by
  unfold execute
  simp only [cpu_t.set_reg]
  split_ifs <;> rfl

theorem execute_loreg (E : machine_t M) (s : sim_t M) (ii : instr_info_t) :
    (execute E s ii).2.cpu.loreg = (exec_switch E s ii).s.cpu.loreg := by
  unfold execute
  simp only [cpu_t.set_reg]
  split_ifs <;> rfl

theorem toInt32_range (x : Nat) : -2147483648 ≤ toInt32 x ∧ toInt32 x < 2147483648 := by
  unfold toInt32
  split_ifs <;> omega

theorem toInt32_ofInt32 (z : Int) (h1 : -2147483648 ≤ z) (h2 : z < 2147483648) :
    toInt32 (ofInt32 z) = z := by
  unfold toInt32 ofInt32
  split_ifs <;> omega

theorem ofInt32_lt (z : Int) : ofInt32 z < 4294967296 := by
  unfold ofInt32
  omega

/-- A 32-bit word and its signed reading differ by a multiple of `2^32`. -/
theorem toInt32_congr (x : Nat) (hx : x < 4294967296) :
    ∃ k : Int, toInt32 x = (x : Int) - k * 4294967296 := by
  unfold toInt32
  split_ifs
  · exact ⟨0, by omega⟩
  · exact ⟨1, by omega⟩

theorem natAbs_tmod_eq (a b : Int) : (a.tmod b).natAbs = a.natAbs % b.natAbs := by
  cases a <;> cases b <;> simp [Int.tmod, Int.natAbs_neg] <;> rfl

theorem tmod_sign (a b : Int) : (0 ≤ a → 0 ≤ a.tmod b) ∧ (a ≤ 0 → a.tmod b ≤ 0) := by
  refine ⟨fun h => Int.tmod_nonneg b h, fun h => ?_⟩
  cases a with
  | ofNat m =>
    have h2 : (m : Int) ≤ 0 := h
    have hm : m = 0 := by omega
    subst hm
    simp
  | negSucc m =>
    cases b with
    | ofNat n =>
      show -((Nat.succ m % n : Nat) : Int) ≤ 0
      omega
    | negSucc n =>
      show -((Nat.succ m % Nat.succ n : Nat) : Int) ≤ 0
      omega

/-- Words whose signed readings satisfy `a = q * b + r` satisfy it modulo
`2^32`. -/
theorem word_identity (q r a b : Int) (Q R S T : Nat) (k1 k2 k3 k4 : Int)
    (e1 : q = (Q : Int) - k1 * 4294967296) (e2 : r = (R : Int) - k2 * 4294967296)
    (e3 : a = (S : Int) - k3 * 4294967296) (e4 : b = (T : Int) - k4 * 4294967296)
    (hid : a = q * b + r) (hS : S < 4294967296) : S = (Q * T + R) % 4294967296 := by
  have hK : ((Q * T + R : Nat) : Int)
      = (S : Int) + 4294967296 * (k1 * (T : Int) + (Q : Int) * k4 - k1 * k4 * 4294967296
          + k2 - k3) := by
    push_cast
    rw [e1, e2, e3, e4] at hid
    linear_combination (-1 : Int) * hid
  have hmod : ((Q * T + R : Nat) : Int) % 4294967296 = (S : Int) := by
    rw [hK, Int.add_mul_emod_self_left]
    omega
  omega

/-- The signed quotient of two 32-bit integers fits 32 bits except for
`-2^31 / -1`. -/
theorem tdiv_range (a b : Int) (ha1 : -2147483648 ≤ a) (ha2 : a < 2147483648)
    (hb : b ≠ 0) (hex : ¬ (a = -2147483648 ∧ b = -1)) :
    -2147483648 ≤ a.tdiv b ∧ a.tdiv b < 2147483648 := by
  have hq := Int.natAbs_tdiv a b
  have hq' : (a.tdiv b).natAbs = a.natAbs / b.natAbs := hq
  have hle : a.natAbs / b.natAbs ≤ a.natAbs := Nat.div_le_self _ _
  have hone : b = 1 → a.tdiv b = a := by
    intro h
    rw [h, Int.tdiv_one]
  have hbig : 2 ≤ b.natAbs → a.natAbs / b.natAbs < 2147483648 := by
    intro h4
    apply Nat.div_lt_of_lt_mul
    have h5 : a.natAbs ≤ 2147483648 := by omega
    calc a.natAbs ≤ 2147483648 := h5
      _ < 2 * 2147483648 := by decide
      _ ≤ b.natAbs * 2147483648 := Nat.mul_le_mul_right _ h4
  clear hq
  generalize hn : a.natAbs / b.natAbs = n at hq' hle hbig
  generalize a.tdiv b = q at hq' hone
  have hb2 : b = 1 ∨ b = -1 ∨ 2 ≤ b.natAbs := by omega
  rcases hb2 with h | h | h
  · have := hone h
    omega
  · have hane : a ≠ -2147483648 := fun e => hex ⟨e, h⟩
    omega
  · have := hbig h
    omega

theorem execute_killed (E : machine_t M) (s : sim_t M) (ii : instr_info_t) :
    (execute E s ii).2.killed = (exec_switch E s ii).s.killed := rfl

/-- On 32-bit words the host division traps on `0x80000000 / 0xFFFFFFFF`
only. -/
theorem div_traps_iff (rs rt : Nat) (hrs : rs < 4294967296) (hrt : rt < 4294967296) :
    div_traps rs rt ↔ rs = 0x80000000 ∧ rt = 0xffffffff := by
  unfold div_traps toInt32
  constructor
  · rintro ⟨e1, e2⟩
    split_ifs at e1 e2 <;> omega
  · rintro ⟨e1, e2⟩
    subst e1
    subst e2
    decide

/-- C32: with `rt = 0`, `DIV` and `DIVU` raise no fault and leave
`HI = LO = 0`, for every `rs`.  With `rt != 0`, `DIVU` leaves the unsigned
quotient and remainder, `rs = LO * rt + HI` with `HI < rt`; `DIV` (apart from
`0x80000000 / 0xFFFFFFFF`) leaves the signed quotient truncated toward zero and
the signed remainder, `rs = LO * rt + HI` as signed integers and modulo `2^32`
as words, with `|HI| < |rt|` and the remainder of the sign of `rs`; in all
these cases the instruction raises no fault and the simulator goes on.  On
`0x80000000 / 0xFFFFFFFF` the host division of `DIV` traps: the simulator is
killed before `HI` or `LO` is assigned. -/
theorem div_divu (E : machine_t M) (s : sim_t M) (ii : instr_info_t)
    (hrs : s.cpu.regs ii.rs < 4294967296) (hrt : s.cpu.regs ii.rt < 4294967296) :
    (ii.opcode = opcDIV ∨ ii.opcode = opcDIVU → s.cpu.regs ii.rt = 0 →
          (execute E s ii).1 = excNone ∧ (execute E s ii).2.killed = s.killed
            ∧ (execute E s ii).2.cpu.hireg = 0 ∧ (execute E s ii).2.cpu.loreg = 0)
      ∧ (ii.opcode = opcDIVU → s.cpu.regs ii.rt ≠ 0 →
          (execute E s ii).1 = excNone ∧ (execute E s ii).2.killed = s.killed
            ∧ (execute E s ii).2.cpu.loreg = s.cpu.regs ii.rs / s.cpu.regs ii.rt
            ∧ (execute E s ii).2.cpu.hireg = s.cpu.regs ii.rs % s.cpu.regs ii.rt
            ∧ s.cpu.regs ii.rs
                = (execute E s ii).2.cpu.loreg * s.cpu.regs ii.rt + (execute E s ii).2.cpu.hireg
            ∧ (execute E s ii).2.cpu.hireg < s.cpu.regs ii.rt)
      ∧ (ii.opcode = opcDIV → s.cpu.regs ii.rs = 0x80000000 → s.cpu.regs ii.rt = 0xffffffff →
          (execute E s ii).2.killed = true
            ∧ (execute E s ii).2.cpu.hireg = s.cpu.hireg
            ∧ (execute E s ii).2.cpu.loreg = s.cpu.loreg)
      ∧ (ii.opcode = opcDIV → s.cpu.regs ii.rt ≠ 0 →
          ¬ (s.cpu.regs ii.rs = 0x80000000 ∧ s.cpu.regs ii.rt = 0xffffffff) →
          ((execute E s ii).1 = excNone ∧ (execute E s ii).2.killed = s.killed)
            ∧ (execute E s ii).2.cpu.loreg < 4294967296
            ∧ (execute E s ii).2.cpu.hireg < 4294967296
            ∧ toInt32 (execute E s ii).2.cpu.loreg
                = Int.tdiv (toInt32 (s.cpu.regs ii.rs)) (toInt32 (s.cpu.regs ii.rt))
            ∧ toInt32 (execute E s ii).2.cpu.hireg
                = Int.tmod (toInt32 (s.cpu.regs ii.rs)) (toInt32 (s.cpu.regs ii.rt))
            ∧ toInt32 (s.cpu.regs ii.rs)
                = toInt32 (execute E s ii).2.cpu.loreg * toInt32 (s.cpu.regs ii.rt)
                  + toInt32 (execute E s ii).2.cpu.hireg
            ∧ (toInt32 (execute E s ii).2.cpu.hireg).natAbs
                < (toInt32 (s.cpu.regs ii.rt)).natAbs
            ∧ (0 ≤ toInt32 (s.cpu.regs ii.rs) → 0 ≤ toInt32 (execute E s ii).2.cpu.hireg)
            ∧ (toInt32 (s.cpu.regs ii.rs) ≤ 0 → toInt32 (execute E s ii).2.cpu.hireg ≤ 0)
            ∧ s.cpu.regs ii.rs
                = ((execute E s ii).2.cpu.loreg * s.cpu.regs ii.rt
                    + (execute E s ii).2.cpu.hireg) % 4294967296) := by
  refine ⟨?_, ?_, ?_, ?_⟩
  · rintro (hop | hop) h0
    · rw [execute_hireg, execute_loreg, execute_res, execute_killed]
      simp only [exec_switch, hop]
      rw [if_pos h0]
      exact ⟨rfl, rfl, rfl, rfl⟩
    · rw [execute_hireg, execute_loreg, execute_res, execute_killed]
      simp only [exec_switch, hop]
      rw [if_pos h0]
      exact ⟨rfl, rfl, rfl, rfl⟩
  · intro hop hne
    rw [execute_hireg, execute_loreg, execute_res, execute_killed]
    simp only [exec_switch, hop]
    rw [if_neg hne]
    refine ⟨rfl, rfl, rfl, rfl, ?_, Nat.mod_lt _ (Nat.pos_of_ne_zero hne)⟩
    show s.cpu.regs ii.rs
      = s.cpu.regs ii.rs / s.cpu.regs ii.rt * s.cpu.regs ii.rt + s.cpu.regs ii.rs % s.cpu.regs ii.rt
    exact (Nat.div_add_mod' _ _).symm
  · intro hop e1 e2
    have hne : s.cpu.regs ii.rt ≠ 0 := by omega
    have ht : div_traps (s.cpu.regs ii.rs) (s.cpu.regs ii.rt) :=
      (div_traps_iff _ _ hrs hrt).2 ⟨e1, e2⟩
    rw [execute_hireg, execute_loreg, execute_killed]
    simp only [exec_switch, hop]
    rw [if_neg hne, if_pos ht]
    exact ⟨rfl, rfl, rfl⟩
  · intro hop hne hex
    have ht : ¬ div_traps (s.cpu.regs ii.rs) (s.cpu.regs ii.rt) :=
      fun h => hex ((div_traps_iff _ _ hrs hrt).1 h)
    rw [execute_hireg, execute_loreg, execute_res, execute_killed]
    simp only [exec_switch, hop]
    rw [if_neg hne, if_neg ht]
    refine ⟨⟨rfl, rfl⟩, ?_⟩
    show ofInt32 (Int.tdiv (toInt32 (s.cpu.regs ii.rs)) (toInt32 (s.cpu.regs ii.rt))) < 4294967296
      ∧ ofInt32 (Int.tmod (toInt32 (s.cpu.regs ii.rs)) (toInt32 (s.cpu.regs ii.rt))) < 4294967296
      ∧ toInt32 (ofInt32 (Int.tdiv (toInt32 (s.cpu.regs ii.rs)) (toInt32 (s.cpu.regs ii.rt))))
          = Int.tdiv (toInt32 (s.cpu.regs ii.rs)) (toInt32 (s.cpu.regs ii.rt))
      ∧ toInt32 (ofInt32 (Int.tmod (toInt32 (s.cpu.regs ii.rs)) (toInt32 (s.cpu.regs ii.rt))))
          = Int.tmod (toInt32 (s.cpu.regs ii.rs)) (toInt32 (s.cpu.regs ii.rt))
      ∧ toInt32 (s.cpu.regs ii.rs)
          = toInt32 (ofInt32 (Int.tdiv (toInt32 (s.cpu.regs ii.rs)) (toInt32 (s.cpu.regs ii.rt))))
              * toInt32 (s.cpu.regs ii.rt)
            + toInt32 (ofInt32
                (Int.tmod (toInt32 (s.cpu.regs ii.rs)) (toInt32 (s.cpu.regs ii.rt))))
      ∧ (toInt32 (ofInt32
            (Int.tmod (toInt32 (s.cpu.regs ii.rs)) (toInt32 (s.cpu.regs ii.rt))))).natAbs
          < (toInt32 (s.cpu.regs ii.rt)).natAbs
      ∧ (0 ≤ toInt32 (s.cpu.regs ii.rs) → 0 ≤ toInt32 (ofInt32
            (Int.tmod (toInt32 (s.cpu.regs ii.rs)) (toInt32 (s.cpu.regs ii.rt)))))
      ∧ (toInt32 (s.cpu.regs ii.rs) ≤ 0 → toInt32 (ofInt32
            (Int.tmod (toInt32 (s.cpu.regs ii.rs)) (toInt32 (s.cpu.regs ii.rt)))) ≤ 0)
      ∧ s.cpu.regs ii.rs
          = (ofInt32 (Int.tdiv (toInt32 (s.cpu.regs ii.rs)) (toInt32 (s.cpu.regs ii.rt)))
                * s.cpu.regs ii.rt
              + ofInt32 (Int.tmod (toInt32 (s.cpu.regs ii.rs)) (toInt32 (s.cpu.regs ii.rt))))
            % 4294967296
    generalize ha : toInt32 (s.cpu.regs ii.rs) = a
    generalize hb : toInt32 (s.cpu.regs ii.rt) = b
    obtain ⟨a1, a2⟩ := toInt32_range (s.cpu.regs ii.rs)
    obtain ⟨b1, b2⟩ := toInt32_range (s.cpu.regs ii.rt)
    rw [ha] at a1 a2
    rw [hb] at b1 b2
    have hb0 : b ≠ 0 := by
      rw [← hb]
      unfold toInt32
      split_ifs <;> omega
    have hex2 : ¬ (a = -2147483648 ∧ b = -1) := by
      rintro ⟨e1, e2⟩
      apply hex
      rw [← ha] at e1
      rw [← hb] at e2
      unfold toInt32 at e1 e2
      split_ifs at e1 e2
      omega
    obtain ⟨q1, q2⟩ := tdiv_range a b a1 a2 hb0 hex2
    have hr := natAbs_tmod_eq a b
    have hrlt : (a.tmod b).natAbs < b.natAbs := by
      rw [hr]
      exact Nat.mod_lt _ (by omega)
    have r1 : -2147483648 ≤ a.tmod b := by omega
    have r2 : a.tmod b < 2147483648 := by omega
    have eq := toInt32_ofInt32 _ q1 q2
    have er := toInt32_ofInt32 _ r1 r2
    have hid : a = a.tdiv b * b + a.tmod b := (Int.tdiv_add_tmod' a b).symm
    refine ⟨ofInt32_lt _, ofInt32_lt _, eq, er, ?_, ?_, ?_, ?_, ?_⟩
    · rw [eq, er]
      exact hid
    · rw [er]
      exact hrlt
    · intro h
      rw [er]
      exact (tmod_sign a b).1 h
    · intro h
      rw [er]
      exact (tmod_sign a b).2 h
    · obtain ⟨k1, e1⟩ := toInt32_congr _ (ofInt32_lt (a.tdiv b))
      obtain ⟨k2, e2⟩ := toInt32_congr _ (ofInt32_lt (a.tmod b))
      obtain ⟨k3, e3⟩ := toInt32_congr _ hrs
      obtain ⟨k4, e4⟩ := toInt32_congr _ hrt
      rw [eq] at e1
      rw [er] at e2
      rw [ha] at e3
      rw [hb] at e4
      exact word_identity _ _ _ _ _ _ _ _ k1 k2 k3 k4 e1 e2 e3 e4 hid hrs

/-- Witness of `div_divu`: `-7 / 2` by `DIV` gives `LO = -3`, `HI = -1`; by
`DIVU`, `0xFFFFFFF9 / 2` gives `LO = 0x7FFFFFFC`, `HI = 1`; the simulator goes
on in both cases. -/
theorem div_divu_witness :
    ((mips_decode 0x0022001a).opcode = opcDIV ∧ (mips_decode 0x0022001b).opcode = opcDIVU
        ∧ div_state.cpu.regs 1 = 0xfffffff9 ∧ div_state.cpu.regs 2 = 2)
      ∧ toInt32 (execute ram_machine div_state (mips_decode 0x0022001a)).2.cpu.loreg = -3
      ∧ toInt32 (execute ram_machine div_state (mips_decode 0x0022001a)).2.cpu.hireg = -1
      ∧ (execute ram_machine div_state (mips_decode 0x0022001a)).2.killed = false
      ∧ (execute ram_machine div_state (mips_decode 0x0022001b)).2.cpu.loreg = 0x7ffffffc
      ∧ (execute ram_machine div_state (mips_decode 0x0022001b)).2.cpu.hireg = 1 :=
  have h := (div_divu ram_machine div_state (mips_decode 0x0022001a) (by decide)
    (by decide)).2.2.2 (by decide) (by decide) (by decide)
  have g := (div_divu ram_machine div_state (mips_decode 0x0022001b) (by decide)
    (by decide)).2.1 (by decide) (by decide)
  ⟨⟨by decide, by decide, by decide, by decide⟩, h.2.2.2.1.trans (by decide),
    h.2.2.2.2.1.trans (by decide), h.1.2.trans (by decide), g.2.2.1.trans (by decide),
    g.2.2.2.1.trans (by decide)⟩

/-! ## Multiply and accumulate (C33) -/

theorem hi_lo_or (h l : Nat) (hl : l < 4294967296) :
    h <<< 32 ||| l = h * 4294967296 + l := by
  have e := Nat.mul_add_lt_is_or (show l < 2 ^ 32 from hl) h
  rw [Nat.shiftLeft_eq, Nat.mul_comm h (2 ^ 32), ← e, Nat.mul_comm]

theorem hi_lo_join (v : Nat) (hv : v < 18446744073709551616) :
    u64 ((v >>> 32) <<< 32) ||| (v &&& 0xffffffff) = v := by
  have e1 : v &&& 0xffffffff = v % 4294967296 := Nat.and_pow_two_sub_one_eq_mod v 32
  have e2 : (v >>> 32) <<< 32 = v / 4294967296 * 4294967296 := by
    rw [Nat.shiftLeft_eq, Nat.shiftRight_eq_div_pow]
  have e3 : u64 ((v >>> 32) <<< 32) = (v >>> 32) <<< 32 := by
    unfold u64
    rw [e2]
    omega
  rw [e3, e1, hi_lo_or _ _ (by omega), Nat.shiftRight_eq_div_pow]
  omega

theorem acc64_eq (cpu : cpu_t) (hhi : cpu.hireg < 4294967296) (hlo : cpu.loreg < 4294967296) :
    acc64 cpu = cpu.hireg * 4294967296 + cpu.loreg := by
  have e : u64 (cpu.hireg <<< 32) = cpu.hireg <<< 32 := by
    unfold u64
    rw [Nat.shiftLeft_eq]
    omega
  unfold acc64
  rw [e, hi_lo_or _ _ hlo]

theorem acc64_set (cpu : cpu_t) (v : Nat) (hv : v < 18446744073709551616) :
    acc64 (set_acc64 cpu v) = v ∧ (set_acc64 cpu v).hireg < 4294967296
      ∧ (set_acc64 cpu v).loreg < 4294967296 := by
  refine ⟨hi_lo_join v hv, ?_, ?_⟩
  · show v >>> 32 < 4294967296
    rw [Nat.shiftRight_eq_div_pow]
    omega
  · show v &&& 0xffffffff < 4294967296
    have e1 : v &&& 0xffffffff = v % 4294967296 := Nat.and_pow_two_sub_one_eq_mod v 32
    rw [e1]
    omega

/-- The product `multiply` leaves in the accumulator, as an integer. -/
theorem multiply_acc (cpu : cpu_t) (a b : Nat) (sign : Bool) (ha : a < 4294967296)
    (hb : b < 4294967296) :
    ((acc64 (multiply cpu a b sign) : Nat) : Int)
        = (if sign = true then toInt32 a * toInt32 b else ((a * b : Nat) : Int))
            % 18446744073709551616
      ∧ (multiply cpu a b sign).hireg < 4294967296
      ∧ (multiply cpu a b sign).loreg < 4294967296 := by
  unfold multiply
  by_cases h0 : a = 0 ∨ b = 0
  · rw [if_pos h0]
    have hp : (if sign = true then toInt32 a * toInt32 b else ((a * b : Nat) : Int)) = 0 := by
      rcases h0 with h | h
      · subst h
        split_ifs
        · have : toInt32 0 = 0 := by decide
          rw [this, Int.zero_mul]
        · simp
      · subst h
        split_ifs
        · have : toInt32 0 = 0 := by decide
          rw [this, Int.mul_zero]
        · simp
    rw [hp]
    refine ⟨?_, ?_, ?_⟩
    · show ((u64 (0 <<< 32) ||| 0 : Nat) : Int) = 0 % 18446744073709551616
      decide
    · show (0 : Nat) < 4294967296
      decide
    · show (0 : Nat) < 4294967296
      decide
  · rw [if_neg h0]
    cases sign
    · simp only [Bool.false_eq_true, if_false]
      have hv : u64 (a * b) < 18446744073709551616 := Nat.mod_lt _ (by decide)
      obtain ⟨j1, j2, j3⟩ := acc64_set cpu (u64 (a * b)) hv
      refine ⟨?_, j2, j3⟩
      show ((acc64 (set_acc64 cpu (u64 (a * b))) : Nat) : Int) = _
      rw [j1]
      unfold u64
      omega
    · simp only [if_true]
      have hv : ((toInt32 a * toInt32 b) % 18446744073709551616).toNat < 18446744073709551616 := by
        omega
      obtain ⟨j1, j2, j3⟩ :=
        acc64_set cpu ((toInt32 a * toInt32 b) % 18446744073709551616).toNat hv
      refine ⟨?_, j2, j3⟩
      show ((acc64 (set_acc64 cpu
        ((toInt32 a * toInt32 b) % 18446744073709551616).toNat) : Nat) : Int) = _
      rw [j1]
      omega

/-- C33: with `(HI << 32) | LO` read as a 64-bit value (`HI * 2^32 + LO`):
after `MULT` and `MULTU` it is the signed, respectively unsigned, product of
`rs` and `rt` modulo `2^64`; after `MADD` / `MADDU` the previous value plus
that product, after `MSUB` / `MSUBU` the previous value minus it, modulo
`2^64`; none raises a fault, and `HI` and `LO` stay 32-bit words. -/
theorem multiply_accumulate (E : machine_t M) (s : sim_t M) (ii : instr_info_t)
    (hrs : s.cpu.regs ii.rs < 4294967296) (hrt : s.cpu.regs ii.rt < 4294967296)
    (hhi : s.cpu.hireg < 4294967296) (hlo : s.cpu.loreg < 4294967296) :
    acc64 s.cpu = s.cpu.hireg * 4294967296 + s.cpu.loreg
      ∧ (ii.opcode = opcMULT →
          ((acc64 (execute E s ii).2.cpu : Nat) : Int)
            = (toInt32 (s.cpu.regs ii.rs) * toInt32 (s.cpu.regs ii.rt)) % 18446744073709551616)
      ∧ (ii.opcode = opcMULTU →
          acc64 (execute E s ii).2.cpu = s.cpu.regs ii.rs * s.cpu.regs ii.rt)
      ∧ (ii.opcode = opcMADD →
          ((acc64 (execute E s ii).2.cpu : Nat) : Int)
            = ((acc64 s.cpu : Int) + toInt32 (s.cpu.regs ii.rs) * toInt32 (s.cpu.regs ii.rt))
                % 18446744073709551616)
      ∧ (ii.opcode = opcMADDU →
          acc64 (execute E s ii).2.cpu
            = (acc64 s.cpu + s.cpu.regs ii.rs * s.cpu.regs ii.rt) % 18446744073709551616)
      ∧ (ii.opcode = opcMSUB →
          ((acc64 (execute E s ii).2.cpu : Nat) : Int)
            = ((acc64 s.cpu : Int) - toInt32 (s.cpu.regs ii.rs) * toInt32 (s.cpu.regs ii.rt))
                % 18446744073709551616)
      ∧ (ii.opcode = opcMSUBU →
          ((acc64 (execute E s ii).2.cpu : Nat) : Int)
            = ((acc64 s.cpu : Int) - ((s.cpu.regs ii.rs * s.cpu.regs ii.rt : Nat) : Int))
                % 18446744073709551616)
      ∧ (ii.opcode = opcMULT ∨ ii.opcode = opcMULTU ∨ ii.opcode = opcMADD
            ∨ ii.opcode = opcMADDU ∨ ii.opcode = opcMSUB ∨ ii.opcode = opcMSUBU →
          (execute E s ii).1 = excNone
            ∧ (execute E s ii).2.cpu.hireg < 4294967296
            ∧ (execute E s ii).2.cpu.loreg < 4294967296
            ∧ acc64 (execute E s ii).2.cpu
                = (execute E s ii).2.cpu.hireg * 4294967296 + (execute E s ii).2.cpu.loreg) := by
  have hexe : acc64 (execute E s ii).2.cpu = acc64 (exec_switch E s ii).s.cpu := by
    unfold acc64
    rw [execute_hireg, execute_loreg]
  obtain ⟨s1, s2, s3⟩ := multiply_acc s.cpu (s.cpu.regs ii.rs) (s.cpu.regs ii.rt) true hrs hrt
  obtain ⟨u1, u2, u3⟩ := multiply_acc s.cpu (s.cpu.regs ii.rs) (s.cpu.regs ii.rt) false hrs hrt
  simp only [if_true] at s1
  simp only [Bool.false_eq_true, if_false] at u1
  have hprod : s.cpu.regs ii.rs * s.cpu.regs ii.rt < 18446744073709551616 := by
    calc s.cpu.regs ii.rs * s.cpu.regs ii.rt
        < 4294967296 * 4294967296 := Nat.mul_lt_mul'' hrs hrt
      _ = 18446744073709551616 := by decide
  have hold := acc64_eq s.cpu hhi hlo
  have holdlt : acc64 s.cpu < 18446744073709551616 := by omega
  have hsa : ∀ v, (exec_switch E s ii).s.cpu = set_acc64 (multiply s.cpu (s.cpu.regs ii.rs)
      (s.cpu.regs ii.rt) true) (u64 v) ∨ (exec_switch E s ii).s.cpu
        = set_acc64 (multiply s.cpu (s.cpu.regs ii.rs) (s.cpu.regs ii.rt) false) (u64 v) →
      acc64 (exec_switch E s ii).s.cpu = u64 v := by
    intro v h
    rcases h with h | h <;> rw [h] <;> exact (acc64_set _ _ (Nat.mod_lt _ (by decide))).1
  refine ⟨hold, ?_, ?_, ?_, ?_, ?_, ?_, ?_⟩
  · intro hop
    rw [hexe]
    simp only [exec_switch, hop]
    exact s1
  · intro hop
    rw [hexe]
    simp only [exec_switch, hop]
    omega
  · intro hop
    rw [hexe]
    have e : (exec_switch E s ii).s.cpu = set_acc64 (multiply s.cpu (s.cpu.regs ii.rs)
        (s.cpu.regs ii.rt) true) (u64 (acc64 s.cpu + acc64 (multiply s.cpu (s.cpu.regs ii.rs)
        (s.cpu.regs ii.rt) true))) := by
      simp only [exec_switch, hop]
    rw [hsa _ (Or.inl e)]
    unfold u64
    omega
  · intro hop
    rw [hexe]
    have e : (exec_switch E s ii).s.cpu = set_acc64 (multiply s.cpu (s.cpu.regs ii.rs)
        (s.cpu.regs ii.rt) false) (u64 (acc64 s.cpu + acc64 (multiply s.cpu (s.cpu.regs ii.rs)
        (s.cpu.regs ii.rt) false))) := by
      simp only [exec_switch, hop]
    rw [hsa _ (Or.inr e)]
    unfold u64
    omega
  · intro hop
    rw [hexe]
    have e : (exec_switch E s ii).s.cpu = set_acc64 (multiply s.cpu (s.cpu.regs ii.rs)
        (s.cpu.regs ii.rt) true) (u64 (acc64 s.cpu + 18446744073709551616
          - acc64 (multiply s.cpu (s.cpu.regs ii.rs) (s.cpu.regs ii.rt) true))) := by
      simp only [exec_switch, hop]
    rw [hsa _ (Or.inl e)]
    unfold u64
    omega
  · intro hop
    rw [hexe]
    have e : (exec_switch E s ii).s.cpu = set_acc64 (multiply s.cpu (s.cpu.regs ii.rs)
        (s.cpu.regs ii.rt) false) (u64 (acc64 s.cpu + 18446744073709551616
          - acc64 (multiply s.cpu (s.cpu.regs ii.rs) (s.cpu.regs ii.rt) false))) := by
      simp only [exec_switch, hop]
    rw [hsa _ (Or.inr e)]
    unfold u64
    omega
  · intro hop
    have hres : (execute E s ii).1 = excNone := by
      rw [execute_res]
      rcases hop with h | h | h | h | h | h <;> simp only [exec_switch, h]
    have hw : (exec_switch E s ii).s.cpu.hireg < 4294967296
        ∧ (exec_switch E s ii).s.cpu.loreg < 4294967296 := by
      rcases hop with h | h | h | h | h | h
      · simp only [exec_switch, h]; exact ⟨s2, s3⟩
      · simp only [exec_switch, h]; exact ⟨u2, u3⟩
      · simp only [exec_switch, h]
        exact (acc64_set _ _ (Nat.mod_lt _ (by decide))).2
      · simp only [exec_switch, h]
        exact (acc64_set _ _ (Nat.mod_lt _ (by decide))).2
      · simp only [exec_switch, h]
        exact (acc64_set _ _ (Nat.mod_lt _ (by decide))).2
      · simp only [exec_switch, h]
        exact (acc64_set _ _ (Nat.mod_lt _ (by decide))).2
    have h1 : (execute E s ii).2.cpu.hireg < 4294967296 := by rw [execute_hireg]; exact hw.1
    have h2 : (execute E s ii).2.cpu.loreg < 4294967296 := by rw [execute_loreg]; exact hw.2
    exact ⟨hres, h1, h2, acc64_eq _ h1 h2⟩

/-- Witness of `multiply_accumulate`: with `rs = -2`, `rt = 3` and the
accumulator `10`: `MULT` leaves `-6` modulo `2^64`, `MULTU`
`0xFFFFFFFE * 3`, `MADD` leaves `4` and `MSUB` leaves `16`. -/
theorem multiply_accumulate_witness :
    (acc64 mult_state.cpu = 10 ∧ toInt32 (mult_state.cpu.regs 1) = -2
        ∧ mult_state.cpu.regs 2 = 3)
      ∧ acc64 (execute ram_machine mult_state (mips_decode 0x00220018)).2.cpu
          = 0xfffffffffffffffa
      ∧ acc64 (execute ram_machine mult_state (mips_decode 0x00220019)).2.cpu = 0x2fffffffa
      ∧ acc64 (execute ram_machine mult_state
          { mips_decode 0x00220018 with opcode := opcMADD }).2.cpu = 4
      ∧ acc64 (execute ram_machine mult_state
          { mips_decode 0x00220018 with opcode := opcMSUB }).2.cpu = 16 :=
  have h := multiply_accumulate ram_machine mult_state (mips_decode 0x00220019) (by decide)
    (by decide) (by decide) (by decide)
  ⟨⟨by decide, by decide, by decide⟩, by decide, (h.2.2.1 (by decide)).trans (by decide),
    by decide, by decide⟩

/-! ## CLZ and CLO (C34) -/

theorem shl32_one_testBit (b i : Nat) (hi : i < 31) :
    (shl32 b 1).testBit (i + 1) = b.testBit i := by
  unfold shl32
  have e : (4294967296 : Nat) = 2 ^ 32 := by decide
  rw [e, Nat.testBit_mod_two_pow, Nat.testBit_shiftLeft]
  have h1 : i + 1 < 32 := by omega
  have h2 : i + 1 ≥ 1 := by omega
  simp [h1]

theorem top_bit_clear (b : Nat) : b &&& 0x80000000 = 0 ↔ b.testBit 31 = false :=
  sbit_and_eq b

/-- The loop of `CLZ` with enough fuel: the count grows over the leading zero
bits of `b` and stops at the first set bit or at 32. -/
theorem clz_loop_spec : ∀ f n b, n ≤ 32 → 32 ≤ f + n →
    n ≤ clz_loop f n b ∧ clz_loop f n b ≤ 32
      ∧ (∀ i, i < clz_loop f n b - n → b.testBit (31 - i) = false)
      ∧ (clz_loop f n b < 32 → b.testBit (31 - (clz_loop f n b - n)) = true) := by
  intro f
  induction f with
  | zero =>
    intro n b h1 h2
    have hn : n = 32 := by omega
    subst hn
    refine ⟨Nat.le_refl _, Nat.le_refl _, fun i hi => ?_, fun h => ?_⟩
    · simp only [clz_loop] at hi
      omega
    · simp only [clz_loop] at h
      omega
  | succ f ih =>
    intro n b h1 h2
    by_cases hc : b &&& 0x80000000 = 0 ∧ n < 32
    · have e : clz_loop (f + 1) n b = clz_loop f (n + 1) (shl32 b 1) := by
        rw [clz_loop, if_pos hc]
      rw [e]
      obtain ⟨a1, a2, a3, a4⟩ := ih (n + 1) (shl32 b 1) (by omega) (by omega)
      refine ⟨by omega, a2, fun i hi => ?_, fun h => ?_⟩
      · cases i with
        | zero => exact (top_bit_clear b).1 hc.1
        | succ j =>
          have hj := a3 j (by omega)
          have e2 : 31 - j = (30 - j) + 1 := by omega
          rw [e2, shl32_one_testBit _ _ (by omega)] at hj
          have e3 : 31 - (j + 1) = 30 - j := by omega
          rw [e3]
          exact hj
      · have h4 := a4 h
        have e2 : 31 - (clz_loop f (n + 1) (shl32 b 1) - (n + 1))
            = (30 - (clz_loop f (n + 1) (shl32 b 1) - (n + 1))) + 1 := by omega
        rw [e2, shl32_one_testBit _ _ (by omega)] at h4
        have e3 : 31 - (clz_loop f (n + 1) (shl32 b 1) - n)
            = 30 - (clz_loop f (n + 1) (shl32 b 1) - (n + 1)) := by omega
        rw [e3]
        exact h4
    · have e : clz_loop (f + 1) n b = n := by
        rw [clz_loop, if_neg hc]
      rw [e]
      refine ⟨Nat.le_refl _, h1, fun i hi => by omega, fun h => ?_⟩
      have hb : ¬ b &&& 0x80000000 = 0 := fun h0 => hc ⟨h0, h⟩
      rw [top_bit_clear] at hb
      simpa using hb

/-- The loop of `CLO` with enough fuel. -/
theorem clo_loop_spec : ∀ f n b, n ≤ 32 → 32 ≤ f + n →
    n ≤ clo_loop f n b ∧ clo_loop f n b ≤ 32
      ∧ (∀ i, i < clo_loop f n b - n → b.testBit (31 - i) = true)
      ∧ (clo_loop f n b < 32 → b.testBit (31 - (clo_loop f n b - n)) = false) := by
  intro f
  induction f with
  | zero =>
    intro n b h1 h2
    have hn : n = 32 := by omega
    subst hn
    refine ⟨Nat.le_refl _, Nat.le_refl _, fun i hi => ?_, fun h => ?_⟩
    · simp only [clo_loop] at hi
      omega
    · simp only [clo_loop] at h
      omega
  | succ f ih =>
    intro n b h1 h2
    by_cases hc : b &&& 0x80000000 ≠ 0 ∧ n < 32
    · have e : clo_loop (f + 1) n b = clo_loop f (n + 1) (shl32 b 1) := by
        rw [clo_loop, if_pos hc]
      rw [e]
      obtain ⟨a1, a2, a3, a4⟩ := ih (n + 1) (shl32 b 1) (by omega) (by omega)
      refine ⟨by omega, a2, fun i hi => ?_, fun h => ?_⟩
      · cases i with
        | zero =>
          have hb := hc.1
          rw [Ne, top_bit_clear] at hb
          simpa using hb
        | succ j =>
          have hj := a3 j (by omega)
          have e2 : 31 - j = (30 - j) + 1 := by omega
          rw [e2, shl32_one_testBit _ _ (by omega)] at hj
          have e3 : 31 - (j + 1) = 30 - j := by omega
          rw [e3]
          exact hj
      · have h4 := a4 h
        have e2 : 31 - (clo_loop f (n + 1) (shl32 b 1) - (n + 1))
            = (30 - (clo_loop f (n + 1) (shl32 b 1) - (n + 1))) + 1 := by omega
        rw [e2, shl32_one_testBit _ _ (by omega)] at h4
        have e3 : 31 - (clo_loop f (n + 1) (shl32 b 1) - n)
            = 30 - (clo_loop f (n + 1) (shl32 b 1) - (n + 1)) := by omega
        rw [e3]
        exact h4
    · have e : clo_loop (f + 1) n b = n := by
        rw [clo_loop, if_neg hc]
      rw [e]
      refine ⟨Nat.le_refl _, h1, fun i hi => by omega, fun h => ?_⟩
      have hb : b &&& 0x80000000 = 0 := by
        by_contra h0
        exact hc ⟨h0, h⟩
      have hb2 := (top_bit_clear b).1 hb
      simpa using hb2

/-- More fuel than the loop needs changes nothing. -/
theorem clz_loop_fuel : ∀ f g n b, 32 ≤ f + n → 32 ≤ g + n → n ≤ 32 →
    clz_loop f n b = clz_loop g n b := by
  intro f
  induction f with
  | zero =>
    intro g n b h1 h2 h3
    have hn : n = 32 := by omega
    subst hn
    cases g with
    | zero => rfl
    | succ g => rw [clz_loop, clz_loop, if_neg (fun h => by omega)]
  | succ f ih =>
    intro g n b h1 h2 h3
    cases g with
    | zero =>
      have hn : n = 32 := by omega
      subst hn
      rw [clz_loop, clz_loop, if_neg (fun h => by omega)]
    | succ g =>
      rw [clz_loop, clz_loop]
      split_ifs with hc
      · exact ih g (n + 1) _ (by omega) (by omega) (by omega)
      · rfl

theorem clo_loop_fuel : ∀ f g n b, 32 ≤ f + n → 32 ≤ g + n → n ≤ 32 →
    clo_loop f n b = clo_loop g n b := by
  intro f
  induction f with
  | zero =>
    intro g n b h1 h2 h3
    have hn : n = 32 := by omega
    subst hn
    cases g with
    | zero => rfl
    | succ g => rw [clo_loop, clo_loop, if_neg (fun h => by omega)]
  | succ f ih =>
    intro g n b h1 h2 h3
    cases g with
    | zero =>
      have hn : n = 32 := by omega
      subst hn
      rw [clo_loop, clo_loop, if_neg (fun h => by omega)]
    | succ g =>
      rw [clo_loop, clo_loop]
      split_ifs with hc
      · exact ih g (n + 1) _ (by omega) (by omega) (by omega)
      · rfl

/-- C34: `CLZ` and `CLO` raise no fault and write to `rd` (other than `r0`)
the count `n` of their loop run on `rs`: `n` is at most 32, bits `31` down to
`32 - n` of `rs` are all 0 (for `CLO`: all 1), and bit `31 - n` is 1 (for
`CLO`: 0) when `n < 32`; the loop stops within 32 iterations (more fuel gives
the same count); `CLZ(0) = 32` and `CLO(0xFFFFFFFF) = 32`. -/
theorem clz_clo_count (E : machine_t M) (s : sim_t M) (ii : instr_info_t) (hrd : ii.rd ≠ 0) :
    (ii.opcode = opcCLZ →
        (execute E s ii).1 = excNone
          ∧ (execute E s ii).2.cpu.regs ii.rd = clz_loop 32 0 (s.cpu.regs ii.rs))
      ∧ (ii.opcode = opcCLO →
        (execute E s ii).1 = excNone
          ∧ (execute E s ii).2.cpu.regs ii.rd = clo_loop 32 0 (s.cpu.regs ii.rs))
      ∧ (∀ x, clz_loop 32 0 x ≤ 32
          ∧ (∀ i, i < clz_loop 32 0 x → x.testBit (31 - i) = false)
          ∧ (clz_loop 32 0 x < 32 → x.testBit (31 - clz_loop 32 0 x) = true)
          ∧ ∀ f, 32 ≤ f → clz_loop f 0 x = clz_loop 32 0 x)
      ∧ (∀ x, clo_loop 32 0 x ≤ 32
          ∧ (∀ i, i < clo_loop 32 0 x → x.testBit (31 - i) = true)
          ∧ (clo_loop 32 0 x < 32 → x.testBit (31 - clo_loop 32 0 x) = false)
          ∧ ∀ f, 32 ≤ f → clo_loop f 0 x = clo_loop 32 0 x)
      ∧ clz_loop 32 0 0 = 32 ∧ clo_loop 32 0 0xffffffff = 32 := by
  refine ⟨?_, ?_, ?_, ?_, by decide, by decide⟩
  · intro hop
    refine ⟨?_, ?_⟩
    · rw [execute_res]
      simp only [exec_switch, hop]
    · rw [execute_regs_ne E s ii _ hrd]
      simp only [exec_switch, hop]
      simp [sim_t.wreg, cpu_t.set_reg, upd]
  · intro hop
    refine ⟨?_, ?_⟩
    · rw [execute_res]
      simp only [exec_switch, hop]
    · rw [execute_regs_ne E s ii _ hrd]
      simp only [exec_switch, hop]
      simp [sim_t.wreg, cpu_t.set_reg, upd]
  · intro x
    obtain ⟨-, a2, a3, a4⟩ := clz_loop_spec 32 0 x (by decide) (by decide)
    exact ⟨a2, a3, a4, fun f hf => clz_loop_fuel f 32 0 x (by omega) (by decide) (by decide)⟩
  · intro x
    obtain ⟨-, a2, a3, a4⟩ := clo_loop_spec 32 0 x (by decide) (by decide)
    exact ⟨a2, a3, a4, fun f hf => clo_loop_fuel f 32 0 x (by omega) (by decide) (by decide)⟩

/-- Witness of `clz_clo_count`: `CLZ r3, r1` with `r1 = 0x00012345` writes 15
and `CLO r3, r2` with `r2 = 0xFFF01234` writes 12. -/
theorem clz_clo_count_witness :
    (clz_state.cpu.regs 1 = 0x00012345 ∧ clz_state.cpu.regs 2 = 0xfff01234)
      ∧ (execute ram_machine clz_state
          { mips_decode 0x00201820 with opcode := opcCLZ }).2.cpu.regs 3 = 15
      ∧ (execute ram_machine clz_state
          { mips_decode 0x00401820 with opcode := opcCLO }).2.cpu.regs 3 = 12 :=
  ⟨⟨by decide, by decide⟩,
    ((clz_clo_count ram_machine clz_state { mips_decode 0x00201820 with opcode := opcCLZ }
      (by decide)).1 rfl).2.trans (by decide),
    ((clz_clo_count ram_machine clz_state { mips_decode 0x00401820 with opcode := opcCLO }
      (by decide)).2.1 rfl).2.trans (by decide)⟩

/-! ## Silent reads (C35) -/

theorem silent_frame_refl (c : cpu_t) : silent_frame c c := ⟨rfl, rfl, rfl, rfl⟩

theorem silent_frame_trans {a b c : cpu_t} (h1 : silent_frame a b) (h2 : silent_frame b c) :
    silent_frame a c :=
  ⟨h2.1.trans h1.1, h2.2.1.trans h1.2.1, h2.2.2.1.trans h1.2.2.1, h2.2.2.2.trans h1.2.2.2⟩

theorem tlb_look_loop_silent (cpu : cpu_t) (addr : Nat) (wr : Bool) (hint : Nat) :
    ∀ n i, silent_frame cpu (tlb_look_loop cpu addr wr hint n i).2.2 := by
  intro n
  induction n with
  | zero => intro i; exact silent_frame_refl _
  | succ n ih =>
    intro i
    simp only [tlb_look_loop]
    split_ifs
    all_goals first
      | exact ih _
      | exact ⟨rfl, rfl, rfl, rfl⟩

theorem tlb_look_silent (cpu : cpu_t) (addr : Nat) (wr : Bool) :
    silent_frame cpu (tlb_look cpu addr wr).2.2 := by
  unfold tlb_look
  split_ifs
  · exact silent_frame_refl _
  · exact tlb_look_loop_silent _ _ _ _ _ _

theorem tlb_hit_silent (cpu : cpu_t) (addr : Nat) (wr : Bool) :
    silent_frame cpu (tlb_hit cpu addr wr false).2.2 := by
  have h := tlb_look_silent cpu addr wr
  unfold tlb_hit
  rcases hr : tlb_look cpu addr wr with ⟨r, a, c⟩
  rw [hr] at h
  cases r <;> exact h

theorem fill_addr_error_silent (cpu : cpu_t) (addr : Nat) :
    fill_addr_error cpu addr false = cpu := by
  unfold fill_addr_error
  rw [if_neg (by decide)]

theorem convert_addr_silent (cpu : cpu_t) (addr : Nat) (wr : Bool) :
    silent_frame cpu (convert_addr cpu addr wr false).2.2 := by
  unfold convert_addr convert_addr_user convert_addr_supervisor convert_addr_kernel
  simp only [fill_addr_error_silent]
  split_ifs
  all_goals first
    | exact silent_frame_refl _
    | exact tlb_hit_silent _ _ _

theorem mem_align_test_silent (cpu : cpu_t) (addr size : Nat) :
    (mem_align_test cpu addr size false).2 = cpu := by
  unfold mem_align_test
  simp only [fill_addr_error_silent]
  split_ifs <;> rfl

theorem bus_write_cpu_silent (E : machine_t M) (m : M) (c : cpu_t) (a v z : Nat) :
    silent_frame c (bus_write_cpu E m c a v z) := by
  unfold bus_write_cpu
  split_ifs
  · exact ⟨rfl, rfl, rfl, rfl⟩
  · exact silent_frame_refl _

theorem acc_mem_access_silent (E : machine_t M) (s : sim_t M) (mode : acc_mode_t)
    (res : exc_t) (addr size value : Nat) :
    silent_frame s.cpu (acc_mem_access E s mode res addr size value).2.2.cpu := by
  unfold acc_mem_access
  split_ifs
  · exact bus_write_cpu_silent E s.mem s.cpu addr value size
  · exact silent_frame_refl _
  · exact silent_frame_refl _

/-- A silent access (`noisy = false`) leaves the coprocessor 0 registers and
the TLB fault counters alone. -/
theorem acc_mem_silent (E : machine_t M) (s : sim_t M) (mode : acc_mode_t)
    (addr size value : Nat) :
    silent_frame s.cpu (acc_mem E s mode addr size value false).2.2.cpu := by
  have ha := mem_align_test_silent s.cpu addr size
  unfold acc_mem
  rcases hm : mem_align_test s.cpu addr size false with ⟨r, c⟩
  rw [hm] at ha
  simp only at ha
  subst ha
  cases r
  case excNone =>
    have hc := convert_addr_silent s.cpu addr (decide (mode = AM_WRITE))
    simp only
    rcases hcv : convert_addr s.cpu addr (decide (mode = AM_WRITE)) false with ⟨r2, pa, c2⟩
    rw [hcv] at hc
    simp only at hc ⊢
    split_ifs
    · have hw : silent_frame c2 { c2 with wpending := true, wexcaddr := c2.pc } :=
        ⟨rfl, rfl, rfl, rfl⟩
      exact silent_frame_trans (silent_frame_trans hc hw)
        (acc_mem_access_silent E { s with cpu := { c2 with wpending := true, wexcaddr := c2.pc } }
          mode r2 pa size value)
    · exact hc
    · exact silent_frame_trans hc
        (acc_mem_access_silent E { s with cpu := c2 } mode r2 pa size value)
  all_goals exact silent_frame_refl _

/-- C35: `cpu_read_mem` and `cpu_read_ins` called with `noisy = false` leave
every coprocessor 0 register and the `tlb_refill`, `tlb_invalid` and
`tlb_modified` counters unchanged, for every state, address and size and
whatever fault they return. -/
theorem silent_read (E : machine_t M) (s : sim_t M) (addr size value : Nat) :
    ((∀ i, (cpu_read_mem E s addr size value false).2.2.cpu.cp0 i = s.cpu.cp0 i)
        ∧ (cpu_read_mem E s addr size value false).2.2.cpu.tlb_refill = s.cpu.tlb_refill
        ∧ (cpu_read_mem E s addr size value false).2.2.cpu.tlb_invalid = s.cpu.tlb_invalid
        ∧ (cpu_read_mem E s addr size value false).2.2.cpu.tlb_modified = s.cpu.tlb_modified)
      ∧ ((∀ i, (cpu_read_ins E s addr value false).2.2.cpu.cp0 i = s.cpu.cp0 i)
        ∧ (cpu_read_ins E s addr value false).2.2.cpu.tlb_refill = s.cpu.tlb_refill
        ∧ (cpu_read_ins E s addr value false).2.2.cpu.tlb_invalid = s.cpu.tlb_invalid
        ∧ (cpu_read_ins E s addr value false).2.2.cpu.tlb_modified = s.cpu.tlb_modified) := by
  have hr : silent_frame s.cpu (cpu_read_mem E s addr size value false).2.2.cpu := by
    have h := acc_mem_silent E s AM_READ addr size value
    unfold cpu_read_mem
    rcases ha : acc_mem E s AM_READ addr size value false with ⟨r, v, s1⟩
    rw [ha] at h
    cases r <;> exact h
  have hf : silent_frame s.cpu (cpu_read_ins E s addr value false).2.2.cpu := by
    have h := acc_mem_silent E s AM_FETCH addr BITS_32 value
    unfold cpu_read_ins cpu_fetch_mem
    rcases ha : acc_mem E s AM_FETCH addr BITS_32 value false with ⟨r, v, s1⟩
    rw [ha] at h
    cases r <;> simp only <;> split_ifs <;> exact h
  exact ⟨⟨fun i => congrFun hr.1 i, hr.2.1, hr.2.2.1, hr.2.2.2⟩,
    ⟨fun i => congrFun hf.1 i, hf.2.1, hf.2.2.1, hf.2.2.2⟩⟩

/-- Witness of `silent_read`: in `user_state` the data read of `0x1000` hits
an invalid TLB entry and the fetch from `0x80000001` is an address error; made
silently both leave `BadVAddr` and the counters alone, where the noisy read
writes `BadVAddr = 0x1000` and counts the fault. -/
theorem silent_read_witness :
    (cpu_read_mem ram_machine user_state 0x1000 4 0 false).1 = excTLBL
      ∧ (cpu_read_mem ram_machine user_state 0x1000 4 0 false).2.2.cpu.cp0 cp0_BadVAddr = 0
      ∧ (cpu_read_mem ram_machine user_state 0x1000 4 0 false).2.2.cpu.tlb_invalid = 0
      ∧ (cpu_read_mem ram_machine user_state 0x1000 4 0 true).1 = excTLBL
      ∧ (cpu_read_mem ram_machine user_state 0x1000 4 0 true).2.2.cpu.cp0 cp0_BadVAddr = 0x1000
      ∧ (cpu_read_mem ram_machine user_state 0x1000 4 0 true).2.2.cpu.tlb_invalid = 1
      ∧ (cpu_read_ins ram_machine user_state 0x80000001 0 false).1 = excAdEL
      ∧ (cpu_read_ins ram_machine user_state 0x80000001 0 false).2.2.cpu.cp0 cp0_BadVAddr
          = 0 :=
  ⟨by decide,
    ((silent_read ram_machine user_state 0x1000 4 0).1.1 cp0_BadVAddr).trans (by decide),
    (silent_read ram_machine user_state 0x1000 4 0).1.2.2.1.trans (by decide),
    by decide, by decide, by decide, by decide,
    ((silent_read ram_machine user_state 0x80000001 4 0).2.1 cp0_BadVAddr).trans (by decide)⟩

/-! ## Status.TS and the translation (C36) -/

theorem tlb_look_ts (cpu : cpu_t) (addr : Nat) (wr : Bool) (hts : cp0_status_ts cpu = 1) :
    tlb_look cpu addr wr = (TLBL_OK, addr, cpu) := by
  unfold tlb_look
  rw [if_pos hts]

theorem tlb_hit_ts (cpu : cpu_t) (addr : Nat) (wr noisy : Bool) (hts : cp0_status_ts cpu = 1) :
    tlb_hit cpu addr wr noisy = (excNone, addr, cpu) := by
  unfold tlb_hit
  rw [tlb_look_ts cpu addr wr hts]

/-- C36 (as the code has it): with `Status.TS = 1`, `tlb_look` returns `OK`
with the address unchanged for every address, access kind and TLB content, so
`convert_addr` returns no fault and the address itself wherever the current
mode sends the address through the TLB (user: bit 31 clear; supervisor: suseg
and ssseg; kernel: kuseg, kseg2 and kseg3).  The segment tests come first and
do not look at `TS`: in kernel mode kseg0 and kseg1 still translate by
subtracting the segment base, and in user and supervisor mode the addresses
outside the mapped segments still raise the address error. -/
theorem ts_translation (cpu : cpu_t) (addr : Nat) (wr noisy : Bool)
    (hts : cp0_status_ts cpu = 1) :
    tlb_look cpu addr wr = (TLBL_OK, addr, cpu)
      ∧ (user_mode cpu → addr &&& SBIT = 0 →
          convert_addr cpu addr wr noisy = (excNone, addr, cpu))
      ∧ (supervisor_mode cpu → addr < 0x80000000 ∨ (0xc0000000 ≤ addr ∧ addr < 0xe0000000) →
          convert_addr cpu addr wr noisy = (excNone, addr, cpu))
      ∧ (kernel_mode cpu → addr < 0x80000000 ∨ 0xc0000000 ≤ addr →
          convert_addr cpu addr wr noisy = (excNone, addr, cpu))
      ∧ (kernel_mode cpu → 0x80000000 ≤ addr → addr < 0xa0000000 →
          convert_addr cpu addr wr noisy = (excNone, addr - 0x80000000, cpu))
      ∧ (kernel_mode cpu → 0xa0000000 ≤ addr → addr < 0xc0000000 →
          convert_addr cpu addr wr noisy = (excNone, addr - 0xa0000000, cpu))
      ∧ (user_mode cpu → addr &&& SBIT ≠ 0 →
          (convert_addr cpu addr wr noisy).1 = excAddrError)
      ∧ (supervisor_mode cpu →
          (0x80000000 ≤ addr ∧ addr < 0xc0000000) ∨ 0xe0000000 ≤ addr →
          (convert_addr cpu addr wr noisy).1 = excAddrError) := by
  have hh := tlb_hit_ts cpu addr wr noisy hts
  refine ⟨tlb_look_ts cpu addr wr hts, ?_, ?_, ?_, ?_, ?_, ?_, ?_⟩
  · intro hu ha
    unfold user_mode at hu
    unfold convert_addr convert_addr_user
    rw [if_pos hu, if_neg (by rw [ha]; decide), hh]
  · intro hsv ha
    unfold supervisor_mode at hsv
    have hnu : ¬ (cp0_status_ksu cpu = 2 ∧ cp0_status_exl cpu = 0 ∧ cp0_status_erl cpu = 0) := by
      omega
    unfold convert_addr convert_addr_supervisor
    rw [if_neg hnu, if_pos hsv]
    rcases ha with ha | ha
    · rw [if_pos ha, hh]
    · rw [if_neg (by omega), if_neg (by omega), if_pos ha.2, hh]
  · intro hk ha
    rw [convert_addr_kernel_eq _ _ _ _ hk]
    unfold convert_addr_kernel
    rcases ha with ha | ha
    · rw [if_pos ha]
      split_ifs
      · exact hh
      · rfl
    · rw [if_neg (by omega), if_neg (by omega), if_neg (by omega)]
      split_ifs <;> exact hh
  · intro hk h1 h2
    rw [convert_addr_kernel_eq _ _ _ _ hk]
    unfold convert_addr_kernel
    rw [if_neg (by omega), if_pos h2, sub32_of_le _ _ (by omega) h1]
  · intro hk h1 h2
    rw [convert_addr_kernel_eq _ _ _ _ hk]
    unfold convert_addr_kernel
    rw [if_neg (by omega), if_neg (by omega), if_pos h2, sub32_of_le _ _ (by omega) h1]
  · intro hu ha
    unfold user_mode at hu
    unfold convert_addr convert_addr_user
    rw [if_pos hu, if_pos ha]
  · intro hsv ha
    unfold supervisor_mode at hsv
    have hnu : ¬ (cp0_status_ksu cpu = 2 ∧ cp0_status_exl cpu = 0 ∧ cp0_status_erl cpu = 0) := by
      omega
    unfold convert_addr convert_addr_supervisor
    rw [if_neg hnu, if_pos hsv]
    rcases ha with ha | ha
    · rw [if_neg (by omega), if_pos ha.2]
    · rw [if_neg (by omega), if_neg (by omega), if_neg (by omega)]

/-- Witness of `ts_translation`: with the TLB shut down, the kuseg address
`0x00001000` translates to itself although no TLB entry is valid, and the
kseg0 address `0x80001000` to `0x00001000`. -/
theorem ts_translation_witness :
    (cp0_status_ts ts_kernel_cpu = 1 ∧ kernel_mode ts_kernel_cpu)
      ∧ (convert_addr ts_kernel_cpu 0x00001000 true true).1 = excNone
      ∧ (convert_addr ts_kernel_cpu 0x00001000 true true).2.1 = 0x00001000
      ∧ (convert_addr ts_kernel_cpu 0x80001000 true true).2.1 = 0x00001000 :=
  ⟨⟨by decide, by decide⟩,
    congrArg Prod.fst ((ts_translation ts_kernel_cpu 0x00001000 true true (by decide)).2.2.2.1
      (by decide) (Or.inl (by decide))),
    congrArg (fun r => r.2.1)
      ((ts_translation ts_kernel_cpu 0x00001000 true true (by decide)).2.2.2.1
        (by decide) (Or.inl (by decide))),
    congrArg (fun r => r.2.1)
      ((ts_translation ts_kernel_cpu 0x80001000 true true (by decide)).2.2.2.2.1
        (by decide) (by decide) (by decide))⟩

/-- Counterexample to C36 as stated: with `Status.TS = 1`, in kernel mode the
kseg0 address `0x80001000` translates to `0x00001000`, not to itself, and in
user mode the same address raises the address error. -/
theorem ts_not_identity_counterexample :
    (cp0_status_ts ts_kernel_cpu = 1
        ∧ (convert_addr ts_kernel_cpu 0x80001000 false true).1 = excNone
        ∧ (convert_addr ts_kernel_cpu 0x80001000 false true).2.1 = 0x00001000)
      ∧ (cp0_status_ts ts_user_cpu = 1
        ∧ (convert_addr ts_user_cpu 0x80001000 false true).1 = excAddrError) := by
  decide

/-! ## The lookup hint (C37) -/

theorem tlb_look_entry_indep (c c2 : cpu_t) (addr : Nat) (wr : Bool) (e : tlb_entry_t)
    (i i2 : Nat) :
    (tlb_look_entry c2 addr wr e i2).1 = (tlb_look_entry c addr wr e i).1
      ∧ (tlb_look_entry c2 addr wr e i2).2.1 = (tlb_look_entry c addr wr e i).2.1 := by
  unfold tlb_look_entry
  simp only
  split_ifs <;> exact ⟨rfl, rfl⟩

/-- With at most one matching entry, the lookup loop started at any hint
decides on that entry, or ends in `REFILL` when there is none. -/
theorem tlb_look_loop_single (c : cpu_t) (addr : Nat) (wr : Bool) (hint : Nat)
    (hh : hint < 48) (hu : tlb_single_match c addr) :
    (∀ m, m < 48 → tlb_entry_matches c addr (c.tlb m) →
        tlb_look_loop c addr wr hint TLB_ENTRIES 0
          = tlb_look_entry c addr wr (c.tlb m) ((m + 48 - hint) % 48))
      ∧ ((∀ m, m < 48 → ¬ tlb_entry_matches c addr (c.tlb m)) →
        tlb_look_loop c addr wr hint TLB_ENTRIES 0 = (TLBL_REFILL, addr, c)) := by
  constructor
  · intro m hm hmatch
    have hidx : u32 ((m + 48 - hint) % 48 + hint) % TLB_ENTRIES = m := by
      unfold u32 TLB_ENTRIES
      omega
    have h := tlb_look_loop_hit c addr wr hint TLB_ENTRIES 0 ((m + 48 - hint) % 48)
      (Nat.zero_le _) (by unfold TLB_ENTRIES; omega) (by rw [hidx]; exact hmatch)
      (fun j' _ hj' hm' => by
        have e : u32 (j' + hint) % TLB_ENTRIES = m :=
          hu _ _ (Nat.mod_lt _ (by decide)) hm hm' hmatch
        have e2 : (j' + hint) % 4294967296 % 48 = m := e
        have hj2 : j' < (m + 48 - hint) % 48 := hj'
        clear e hidx hm' hmatch hu
        have hx : j' + hint < 4294967296 := by omega
        rw [Nat.mod_eq_of_lt hx] at e2
        by_cases hle : hint ≤ m
        · have e3 : (m + 48 - hint) % 48 = m - hint := by omega
          rw [e3] at hj2
          rw [Nat.mod_eq_of_lt (by omega)] at e2
          omega
        · have e3 : (m + 48 - hint) % 48 = m + 48 - hint := Nat.mod_eq_of_lt (by omega)
          rw [e3] at hj2
          omega)
    rw [h, hidx]
  · intro hno
    exact tlb_look_loop_miss c addr wr hint TLB_ENTRIES 0
      (fun j _ _ => hno _ (Nat.mod_lt _ (by decide)))

theorem tlb_look_hint (c : cpu_t) (h2 addr : Nat) (wr : Bool) (hh1 : c.tlb_hint < 48)
    (hh2 : h2 < 48) (hu : tlb_single_match c addr) :
    (tlb_look { c with tlb_hint := h2 } addr wr).1 = (tlb_look c addr wr).1
      ∧ (tlb_look { c with tlb_hint := h2 } addr wr).2.1 = (tlb_look c addr wr).2.1 := by
  have hts : cp0_status_ts { c with tlb_hint := h2 } = cp0_status_ts c := rfl
  unfold tlb_look
  rw [hts]
  by_cases h : cp0_status_ts c = 1
  · rw [if_pos h, if_pos h]
    exact ⟨rfl, rfl⟩
  · rw [if_neg h, if_neg h]
    have hu2 : tlb_single_match { c with tlb_hint := h2 } addr := hu
    obtain ⟨a1, a2⟩ := tlb_look_loop_single c addr wr c.tlb_hint hh1 hu
    obtain ⟨b1, b2⟩ := tlb_look_loop_single { c with tlb_hint := h2 } addr wr h2 hh2 hu2
    by_cases hex : ∃ m, m < 48 ∧ tlb_entry_matches c addr (c.tlb m)
    · obtain ⟨m, hm, hmatch⟩ := hex
      show (tlb_look_loop { c with tlb_hint := h2 } addr wr h2 TLB_ENTRIES 0).1
          = (tlb_look_loop c addr wr c.tlb_hint TLB_ENTRIES 0).1
        ∧ (tlb_look_loop { c with tlb_hint := h2 } addr wr h2 TLB_ENTRIES 0).2.1
          = (tlb_look_loop c addr wr c.tlb_hint TLB_ENTRIES 0).2.1
      rw [a1 m hm hmatch, b1 m hm hmatch]
      exact tlb_look_entry_indep _ _ _ _ _ _ _
    · have hno : ∀ m, m < 48 → ¬ tlb_entry_matches c addr (c.tlb m) :=
        fun m hm hmatch => hex ⟨m, hm, hmatch⟩
      show (tlb_look_loop { c with tlb_hint := h2 } addr wr h2 TLB_ENTRIES 0).1
          = (tlb_look_loop c addr wr c.tlb_hint TLB_ENTRIES 0).1
        ∧ (tlb_look_loop { c with tlb_hint := h2 } addr wr h2 TLB_ENTRIES 0).2.1
          = (tlb_look_loop c addr wr c.tlb_hint TLB_ENTRIES 0).2.1
      rw [a2 hno, b2 hno]
      exact ⟨rfl, rfl⟩

theorem tlb_hit_outcome (c : cpu_t) (addr : Nat) (wr noisy : Bool) :
    (tlb_hit c addr wr noisy).1 = (tlb_look c addr wr).1.fault
      ∧ (tlb_hit c addr wr noisy).2.1 = (tlb_look c addr wr).2.1 := by
  unfold tlb_hit
  rcases tlb_look c addr wr with ⟨r, a, c1⟩
  cases r
  · exact ⟨rfl, rfl⟩
  all_goals
    simp only [tlb_look_t.fault]
    split_ifs <;> exact ⟨rfl, rfl⟩

/-- The fault and the address of a translation depend on the processor only
through the coprocessor 0 registers and the outcome of the TLB lookup. -/
theorem convert_addr_outcome_congr (c c2 : cpu_t) (addr : Nat) (wr noisy : Bool)
    (hcp : c2.cp0 = c.cp0)
    (hl : (tlb_look c2 addr wr).1 = (tlb_look c addr wr).1
      ∧ (tlb_look c2 addr wr).2.1 = (tlb_look c addr wr).2.1) :
    (convert_addr c2 addr wr noisy).1 = (convert_addr c addr wr noisy).1
      ∧ (convert_addr c2 addr wr noisy).2.1 = (convert_addr c addr wr noisy).2.1 := by
  have e1 : cp0_status_ksu c2 = cp0_status_ksu c := by
    unfold cp0_status_ksu cp0_status; rw [hcp]
  have e2 : cp0_status_exl c2 = cp0_status_exl c := by
    unfold cp0_status_exl cp0_status; rw [hcp]
  have e3 : cp0_status_erl c2 = cp0_status_erl c := by
    unfold cp0_status_erl cp0_status; rw [hcp]
  have hh : (tlb_hit c2 addr wr noisy).1 = (tlb_hit c addr wr noisy).1
      ∧ (tlb_hit c2 addr wr noisy).2.1 = (tlb_hit c addr wr noisy).2.1 := by
    obtain ⟨p1, p2⟩ := tlb_hit_outcome c addr wr noisy
    obtain ⟨q1, q2⟩ := tlb_hit_outcome c2 addr wr noisy
    rw [p1, p2, q1, q2, hl.1, hl.2]
    exact ⟨rfl, rfl⟩
  unfold convert_addr convert_addr_user convert_addr_supervisor convert_addr_kernel
  rw [e1, e2, e3]
  split_ifs
  all_goals first
    | with_reducible exact hh
    | with_reducible exact ⟨rfl, rfl⟩

/-- C37 (as the code has it): for two processor states that differ only in
`tlb_hint`, both hints in `[0, 47]`, and an address that at most one TLB entry
matches, `convert_addr` returns the same fault and the same translated
address, for every access kind and in every mode. -/
theorem hint_independent (c : cpu_t) (h2 addr : Nat) (wr noisy : Bool)
    (hh1 : c.tlb_hint < 48) (hh2 : h2 < 48) (hu : tlb_single_match c addr) :
    (convert_addr { c with tlb_hint := h2 } addr wr noisy).1 = (convert_addr c addr wr noisy).1
      ∧ (convert_addr { c with tlb_hint := h2 } addr wr noisy).2.1
          = (convert_addr c addr wr noisy).2.1 :=
  convert_addr_outcome_congr c { c with tlb_hint := h2 } addr wr noisy rfl
    (tlb_look_hint c h2 addr wr hh1 hh2 hu)

theorem tlb_full_single (h addr : Nat) : tlb_single_match (tlb_full_cpu h) addr := by
  intro i j _ _ hi hj
  have e1 : i * 0x2000 = addr &&& 0xffffe000 := hi.1.symm
  have e2 : j * 0x2000 = addr &&& 0xffffe000 := hj.1.symm
  omega

/-- Witness of `hint_independent`: over a TLB of 48 distinct pages the read of
`0x00006ABC` translates to `0x00106ABC` with the hint 0 and with the hint
17. -/
theorem hint_independent_witness :
    (convert_addr (tlb_full_cpu 0) 0x00006abc false true).1 = excNone
      ∧ (convert_addr (tlb_full_cpu 0) 0x00006abc false true).2.1 = 0x00106abc
      ∧ (convert_addr (tlb_full_cpu 17) 0x00006abc false true).1 = excNone
      ∧ (convert_addr (tlb_full_cpu 17) 0x00006abc false true).2.1 = 0x00106abc :=
  have h := hint_independent (tlb_full_cpu 0) 17 0x00006abc false true (by decide) (by decide)
    (tlb_full_single 0 0x00006abc)
  ⟨by decide, by decide, h.1.trans (by decide), h.2.trans (by decide)⟩

/-- Counterexample to C37 as stated: the two states differ only in `tlb_hint`
(0 and 2, both in `[0, 47]`); the read of `0x00400ABC` translates to
`0x00123ABC` through entry 1 when the lookup starts at entry 0, and ends in the
TLB-invalid fault when it starts at entry 2, an entry `cpu_init` zeroed, whose
mask 0 matches every address. -/
theorem hint_changes_outcome_counterexample :
    tlb_hint_cpu 2 = { tlb_hint_cpu 0 with tlb_hint := 2 }
      ∧ (convert_addr (tlb_hint_cpu 0) 0x00400abc false true).1 = excNone
      ∧ (convert_addr (tlb_hint_cpu 0) 0x00400abc false true).2.1 = 0x00123abc
      ∧ (convert_addr (tlb_hint_cpu 2) 0x00400abc false true).1 = excTLB
      ∧ (convert_addr (tlb_hint_cpu 2) 0x00400abc false true).2.1 = 0x00400abc := by
  refine ⟨rfl, by decide, by decide, by decide, by decide⟩

/-! ## Unaligned word patching (C38) -/

theorem low2_lt (a : Nat) : a &&& 0x03 < 4 := by
  have e : a &&& 0x03 = a % 4 := Nat.and_pow_two_sub_one_eq_mod a 2
  omega

theorem aligned_mask (a : Nat) : (a &&& 0xfffffffc) &&& 3 = 0 := by
  rw [Nat.and_assoc]
  have e : (0xfffffffc : Nat) &&& 3 = 0 := by decide
  rw [e, Nat.and_zero]

theorem exec_LWx_ok (E : machine_t M) (s : sim_t M) (ii : instr_info_t) (pca urrs : Nat)
    (left : Bool)
    (h : (cpu_read_mem E s (eff_addr urrs ii &&& 0xfffffffc) BITS_32 0 true).1 = excNone) :
    (exec_LWx E s ii pca urrs left).res = excNone
      ∧ (exec_LWx E s ii pca urrs left).s.cpu.regs ii.rt
          = if left = true then
              (s.cpu.regs ii.rt &&& (shift_tab_left (eff_addr urrs ii &&& 0x03)).mask)
                ||| shl32 (cpu_read_mem E s (eff_addr urrs ii &&& 0xfffffffc) BITS_32 0 true).2.1
                      (shift_tab_left (eff_addr urrs ii &&& 0x03)).shift
            else
              (s.cpu.regs ii.rt &&& (shift_tab_right (eff_addr urrs ii &&& 0x03)).mask)
                ||| (((cpu_read_mem E s (eff_addr urrs ii &&& 0xfffffffc) BITS_32 0 true).2.1
                        >>> (shift_tab_right (eff_addr urrs ii &&& 0x03)).shift)
                      &&& not32 (shift_tab_right (eff_addr urrs ii &&& 0x03)).mask) := by
  have hf := cpu_read_mem_frame E s (eff_addr urrs ii &&& 0xfffffffc) BITS_32 0 true
  unfold exec_LWx
  simp only
  rcases hr : cpu_read_mem E s (eff_addr urrs ii &&& 0xfffffffc) BITS_32 0 true with ⟨r, v, s1⟩
  rw [hr] at h hf
  simp only at h hf
  subst h
  rw [if_pos rfl]
  cases left
  · simp only [Bool.false_eq_true, if_false]
    refine ⟨trivial, ?_⟩
    simp only [sim_t.wreg, cpu_t.set_reg, upd_same, hf.regs]
  · simp only [if_true]
    refine ⟨trivial, ?_⟩
    simp only [sim_t.wreg, cpu_t.set_reg, upd_same, hf.regs]

theorem exec_SWx_ok (E : machine_t M) (s : sim_t M) (ii : instr_info_t) (pca urrs : Nat)
    (left : Bool)
    (h : (cpu_read_mem E s (eff_addr urrs ii &&& 0xfffffffc) BITS_32 0 true).1 = excNone) :
    (exec_SWx E s ii pca urrs left).res
        = (cpu_write_mem E (cpu_read_mem E s (eff_addr urrs ii &&& 0xfffffffc) BITS_32 0 true).2.2
            (eff_addr urrs ii &&& 0xfffffffc) BITS_32
            (if left = true then
              ((cpu_read_mem E s (eff_addr urrs ii &&& 0xfffffffc) BITS_32 0 true).2.1
                  &&& (shift_tab_left_store (eff_addr urrs ii &&& 0x03)).mask)
                ||| ((s.cpu.regs ii.rt >>> (shift_tab_left_store (eff_addr urrs ii &&& 0x03)).shift)
                      &&& not32 (shift_tab_left_store (eff_addr urrs ii &&& 0x03)).mask)
            else
              ((cpu_read_mem E s (eff_addr urrs ii &&& 0xfffffffc) BITS_32 0 true).2.1
                  &&& (shift_tab_right_store (eff_addr urrs ii &&& 0x03)).mask)
                ||| shl32 (s.cpu.regs ii.rt)
                      (shift_tab_right_store (eff_addr urrs ii &&& 0x03)).shift) true).1
      ∧ (exec_SWx E s ii pca urrs left).s
        = (cpu_write_mem E (cpu_read_mem E s (eff_addr urrs ii &&& 0xfffffffc) BITS_32 0 true).2.2
            (eff_addr urrs ii &&& 0xfffffffc) BITS_32
            (if left = true then
              ((cpu_read_mem E s (eff_addr urrs ii &&& 0xfffffffc) BITS_32 0 true).2.1
                  &&& (shift_tab_left_store (eff_addr urrs ii &&& 0x03)).mask)
                ||| ((s.cpu.regs ii.rt >>> (shift_tab_left_store (eff_addr urrs ii &&& 0x03)).shift)
                      &&& not32 (shift_tab_left_store (eff_addr urrs ii &&& 0x03)).mask)
            else
              ((cpu_read_mem E s (eff_addr urrs ii &&& 0xfffffffc) BITS_32 0 true).2.1
                  &&& (shift_tab_right_store (eff_addr urrs ii &&& 0x03)).mask)
                ||| shl32 (s.cpu.regs ii.rt)
                      (shift_tab_right_store (eff_addr urrs ii &&& 0x03)).shift) true).2 := by
  have hf := cpu_read_mem_frame E s (eff_addr urrs ii &&& 0xfffffffc) BITS_32 0 true
  unfold exec_SWx
  simp only
  rcases hr : cpu_read_mem E s (eff_addr urrs ii &&& 0xfffffffc) BITS_32 0 true with ⟨r, v, s1⟩
  rw [hr] at h hf
  simp only at h hf
  subst h
  rw [if_pos rfl]
  simp only [hf.regs]
  exact ⟨trivial, trivial⟩

/-- C38: the four tables of the source hold the values of the specification's
table for `k = 0..3`.  With `k` the low two bits of the effective address and
`w` the aligned word read at `address & ~3`: `LWL` sets `rt` to
`(rt & LWL.mask[k]) | (w << LWL.shl[k])`, `LWR` to
`(rt & LWR.mask[k]) | ((w >> LWR.shr[k]) & ~LWR.mask[k])`; `SWL` writes
`(w & SWL.mask[k]) | ((rt >> SWL.shr[k]) & ~SWL.mask[k])` and `SWR`
`(w & SWR.mask[k]) | (rt << SWR.shl[k])` to the same aligned address.  For
`k = 3` (`LWL`, `SWL`) and `k = 0` (`LWR`, `SWR`) the patch is the whole word.
The aligned address always passes the alignment test. -/
theorem unaligned_patch (E : machine_t M) (s : sim_t M) (ii : instr_info_t)
    (hrt : ii.rt ≠ 0) (hr : (patch_read E s ii).1 = excNone) :
    (∀ k, k < 4 → code_patch_row k = spec_patch_row k)
      ∧ patch_addr s ii &&& 0x03 < 4
      ∧ (∀ c noisy, mem_align_test c (patch_addr s ii &&& 0xfffffffc) BITS_32 noisy
          = (excNone, c))
      ∧ (ii.opcode = opcLWL →
          (execute E s ii).1 = excNone
            ∧ (execute E s ii).2.cpu.regs ii.rt
                = (s.cpu.regs ii.rt &&& (shift_tab_left (patch_addr s ii &&& 0x03)).mask)
                    ||| shl32 (patch_read E s ii).2.1
                          (shift_tab_left (patch_addr s ii &&& 0x03)).shift)
      ∧ (ii.opcode = opcLWR →
          (execute E s ii).1 = excNone
            ∧ (execute E s ii).2.cpu.regs ii.rt
                = (s.cpu.regs ii.rt &&& (shift_tab_right (patch_addr s ii &&& 0x03)).mask)
                    ||| (((patch_read E s ii).2.1
                            >>> (shift_tab_right (patch_addr s ii &&& 0x03)).shift)
                          &&& not32 (shift_tab_right (patch_addr s ii &&& 0x03)).mask))
      ∧ (ii.opcode = opcSWL →
          (execute E s ii).1
              = (cpu_write_mem E (patch_read E s ii).2.2 (patch_addr s ii &&& 0xfffffffc) BITS_32
                  (((patch_read E s ii).2.1
                      &&& (shift_tab_left_store (patch_addr s ii &&& 0x03)).mask)
                    ||| ((s.cpu.regs ii.rt
                            >>> (shift_tab_left_store (patch_addr s ii &&& 0x03)).shift)
                          &&& not32 (shift_tab_left_store (patch_addr s ii &&& 0x03)).mask))
                  true).1
            ∧ (execute E s ii).2.mem
              = (cpu_write_mem E (patch_read E s ii).2.2 (patch_addr s ii &&& 0xfffffffc) BITS_32
                  (((patch_read E s ii).2.1
                      &&& (shift_tab_left_store (patch_addr s ii &&& 0x03)).mask)
                    ||| ((s.cpu.regs ii.rt
                            >>> (shift_tab_left_store (patch_addr s ii &&& 0x03)).shift)
                          &&& not32 (shift_tab_left_store (patch_addr s ii &&& 0x03)).mask))
                  true).2.mem)
      ∧ (ii.opcode = opcSWR →
          (execute E s ii).1
              = (cpu_write_mem E (patch_read E s ii).2.2 (patch_addr s ii &&& 0xfffffffc) BITS_32
                  (((patch_read E s ii).2.1
                      &&& (shift_tab_right_store (patch_addr s ii &&& 0x03)).mask)
                    ||| shl32 (s.cpu.regs ii.rt)
                          (shift_tab_right_store (patch_addr s ii &&& 0x03)).shift)
                  true).1
            ∧ (execute E s ii).2.mem
              = (cpu_write_mem E (patch_read E s ii).2.2 (patch_addr s ii &&& 0xfffffffc) BITS_32
                  (((patch_read E s ii).2.1
                      &&& (shift_tab_right_store (patch_addr s ii &&& 0x03)).mask)
                    ||| shl32 (s.cpu.regs ii.rt)
                          (shift_tab_right_store (patch_addr s ii &&& 0x03)).shift)
                  true).2.mem)
      ∧ (∀ r w, w < 4294967296 → r < 4294967296 →
          (r &&& (shift_tab_left 3).mask) ||| shl32 w (shift_tab_left 3).shift = w
            ∧ (r &&& (shift_tab_right 0).mask)
                ||| ((w >>> (shift_tab_right 0).shift) &&& not32 (shift_tab_right 0).mask) = w
            ∧ (w &&& (shift_tab_left_store 3).mask)
                ||| ((r >>> (shift_tab_left_store 3).shift)
                      &&& not32 (shift_tab_left_store 3).mask) = r
            ∧ (w &&& (shift_tab_right_store 0).mask)
                ||| shl32 r (shift_tab_right_store 0).shift = r) := by
  unfold patch_read patch_addr at hr
  refine ⟨by decide, low2_lt _, ?_, ?_, ?_, ?_, ?_, ?_⟩
  · intro c noisy
    exact mem_align_test_ok c _ BITS_32 noisy (aligned_mask _)
  · intro hop
    have e : exec_switch E s ii
        = exec_LWx E s ii (add32 s.cpu.pc_next 4) (s.cpu.regs ii.rs) true := by
      simp only [exec_switch, hop]
    obtain ⟨a1, a2⟩ := exec_LWx_ok E s ii (add32 s.cpu.pc_next 4) (s.cpu.regs ii.rs) true hr
    rw [execute_res, execute_regs_ne E s ii _ hrt, e]
    rw [if_pos rfl] at a2
    exact ⟨a1, a2⟩
  · intro hop
    have e : exec_switch E s ii
        = exec_LWx E s ii (add32 s.cpu.pc_next 4) (s.cpu.regs ii.rs) false := by
      simp only [exec_switch, hop]
    obtain ⟨a1, a2⟩ := exec_LWx_ok E s ii (add32 s.cpu.pc_next 4) (s.cpu.regs ii.rs) false hr
    rw [execute_res, execute_regs_ne E s ii _ hrt, e]
    rw [if_neg (by decide)] at a2
    exact ⟨a1, a2⟩
  · intro hop
    have e : exec_switch E s ii
        = exec_SWx E s ii (add32 s.cpu.pc_next 4) (s.cpu.regs ii.rs) true := by
      simp only [exec_switch, hop]
    obtain ⟨a1, a2⟩ := exec_SWx_ok E s ii (add32 s.cpu.pc_next 4) (s.cpu.regs ii.rs) true hr
    rw [execute_res, execute_mem, e]
    rw [if_pos rfl] at a1 a2
    exact ⟨a1, congrArg sim_t.mem a2⟩
  · intro hop
    have e : exec_switch E s ii
        = exec_SWx E s ii (add32 s.cpu.pc_next 4) (s.cpu.regs ii.rs) false := by
      simp only [exec_switch, hop]
    obtain ⟨a1, a2⟩ := exec_SWx_ok E s ii (add32 s.cpu.pc_next 4) (s.cpu.regs ii.rs) false hr
    rw [execute_res, execute_mem, e]
    rw [if_neg (by decide)] at a1 a2
    exact ⟨a1, congrArg sim_t.mem a2⟩
  · intro r w hw hr2
    have n0 : not32 0 = 4294967295 := by decide
    have m1 : ∀ x, x < 4294967296 → x &&& 4294967295 = x := by
      intro x hx
      have e : x &&& 4294967295 = x % 4294967296 := Nat.and_pow_two_sub_one_eq_mod x 32
      rw [e]
      omega
    have s0 : ∀ x, x < 4294967296 → shl32 x 0 = x := by
      intro x hx
      unfold shl32
      rw [Nat.shiftLeft_zero]
      omega
    refine ⟨?_, ?_, ?_, ?_⟩
    · show (r &&& 0) ||| shl32 w 0 = w
      rw [Nat.and_zero, Nat.zero_or, s0 w hw]
    · show (r &&& 0) ||| ((w >>> 0) &&& not32 0) = w
      rw [Nat.and_zero, Nat.zero_or, Nat.shiftRight_zero, n0, m1 w hw]
    · show (w &&& 0) ||| ((r >>> 0) &&& not32 0) = r
      rw [Nat.and_zero, Nat.zero_or, Nat.shiftRight_zero, n0, m1 r hr2]
    · show (w &&& 0) ||| shl32 r 0 = r
      rw [Nat.and_zero, Nat.zero_or, s0 r hr2]

/-- Witness of `unaligned_patch`: with the word `0x11223344` at `0x1000` and
`r1 = 0xAABBCCDD`, `LWL r1, 0x1001(r0)` (word `0x88011001`, `k = 1`) gives
`r1 = 0x3344CCDD`, and `SWR r1, 0x1001(r0)` (word `0xB8011001`) leaves the word
`0xBBCCDD44` at `0x1000`. -/
theorem unaligned_patch_witness :
    ((mips_decode 0x88011001).opcode = opcLWL ∧ (mips_decode 0xb8011001).opcode = opcSWR
        ∧ (patch_read ram_machine patch_state (mips_decode 0x88011001)).2.1 = 0x11223344)
      ∧ (execute ram_machine patch_state (mips_decode 0x88011001)).2.cpu.regs 1 = 0x3344ccdd
      ∧ ram_read (execute ram_machine patch_state (mips_decode 0xb8011001)).2.mem 0x1000 4
          = 0xbbccdd44 :=
  ⟨⟨by decide, by decide, by decide⟩,
    ((unaligned_patch ram_machine patch_state (mips_decode 0x88011001) (by decide)
      (by decide)).2.2.2.1 (by decide)).2.trans (by decide),
    by decide⟩

/-! ## Unaligned store and load round trip (C39) -/

theorem or_add (x y n : Nat) (hx : x < 2 ^ n) (hy : y % 2 ^ n = 0) : x ||| y = x + y := by
  have e : y = 2 ^ n * (y / 2 ^ n) := by
    have := Nat.div_add_mod y (2 ^ n)
    omega
  rw [e, Nat.or_comm, ← Nat.mul_add_lt_is_or hx, Nat.add_comm]

theorem and_high (x n : Nat) (hn : n ≤ 32) :
    x &&& (2 ^ 32 - 2 ^ n) = (x % 2 ^ 32) / 2 ^ n * 2 ^ n := by
  apply Nat.eq_of_testBit_eq
  intro i
  rw [Nat.testBit_and, testBit_high_mask n i hn, ← Nat.shiftLeft_eq_mul_pow,
    ← Nat.shiftRight_eq_div_pow, Nat.testBit_shiftLeft, Nat.testBit_shiftRight,
    Nat.testBit_mod_two_pow]
  by_cases h1 : n ≤ i
  · have e : n + (i - n) = i := by omega
    by_cases h2 : i < 32
    · simp [h1, h2, e]
    · simp [h1, h2]
  · simp [h1]

theorem low_patch (r w n : Nat) (hn : n ≤ 32) :
    (r &&& (2 ^ n - 1)) ||| shl32 w n = r % 2 ^ n + (w % 2 ^ (32 - n)) * 2 ^ n := by
  have e32 : (4294967296 : Nat) = 2 ^ (32 - n) * 2 ^ n := by
    rw [← Nat.pow_add, Nat.sub_add_cancel hn]
  have es : shl32 w n = (w % 2 ^ (32 - n)) * 2 ^ n := by
    unfold shl32
    rw [Nat.shiftLeft_eq, e32, Nat.mul_mod_mul_right]
  rw [Nat.and_pow_two_sub_one_eq_mod, es]
  exact or_add _ _ n (Nat.mod_lt _ (Nat.pos_pow_of_pos n (by decide))) (Nat.mul_mod_left _ _)

theorem high_patch (r w n : Nat) (hn : n ≤ 32) :
    (r &&& (2 ^ 32 - 2 ^ n)) ||| ((w >>> (32 - n)) &&& (2 ^ n - 1))
      = (w / 2 ^ (32 - n)) % 2 ^ n + (r % 2 ^ 32) / 2 ^ n * 2 ^ n := by
  rw [and_high r n hn, Nat.and_pow_two_sub_one_eq_mod, Nat.shiftRight_eq_div_pow, Nat.or_comm]
  exact or_add _ _ n (Nat.mod_lt _ (Nat.pos_pow_of_pos n (by decide))) (Nat.mul_mod_left _ _)

theorem swr_form (w v k : Nat) (hk : k < 4) :
    (w &&& (shift_tab_right_store k).mask) ||| shl32 v (shift_tab_right_store k).shift
      = w % 2 ^ (8 * k) + (v % 2 ^ (32 - 8 * k)) * 2 ^ (8 * k) := by
  rw [← low_patch w v (8 * k) (by omega)]
  interval_cases k <;> rfl

theorem lwl_form (r w k : Nat) (hk : k < 4) :
    (r &&& (shift_tab_left k).mask) ||| shl32 w (shift_tab_left k).shift
      = r % 2 ^ (8 * (3 - k)) + (w % 2 ^ (32 - 8 * (3 - k))) * 2 ^ (8 * (3 - k)) := by
  rw [← low_patch r w (8 * (3 - k)) (by omega)]
  interval_cases k <;> rfl

theorem lwr_form (r w k : Nat) (hk : k < 4) :
    (r &&& (shift_tab_right k).mask)
        ||| ((w >>> (shift_tab_right k).shift) &&& not32 (shift_tab_right k).mask)
      = (w / 2 ^ (32 - 8 * (4 - k))) % 2 ^ (8 * (4 - k))
          + (r % 2 ^ 32) / 2 ^ (8 * (4 - k)) * 2 ^ (8 * (4 - k)) := by
  rw [← high_patch r w (8 * (4 - k)) (by omega)]
  interval_cases k <;> rfl

theorem swl_form (w r k : Nat) (hk : k < 4) :
    (w &&& (shift_tab_left_store k).mask)
        ||| ((r >>> (shift_tab_left_store k).shift) &&& not32 (shift_tab_left_store k).mask)
      = (r / 2 ^ (32 - 8 * (k + 1))) % 2 ^ (8 * (k + 1))
          + (w % 2 ^ 32) / 2 ^ (8 * (k + 1)) * 2 ^ (8 * (k + 1)) := by
  rw [← high_patch w r (8 * (k + 1)) (by omega)]
  interval_cases k <;> rfl

theorem swr_bytes (b : Nat → Nat) (hb : ∀ i, b i < 256) (v k j : Nat) (hk : k < 4)
    (hj : j < 4) :
    vbyte ((le4 b &&& (shift_tab_right_store k).mask)
        ||| shl32 v (shift_tab_right_store k).shift) j
      = if k ≤ j then vbyte v (j - k) else b j := by
  rw [swr_form _ _ k hk]
  have h0 := hb 0
  have h1 := hb 1
  have h2 := hb 2
  have h3 := hb 3
  unfold vbyte le4
  simp only [Nat.shiftRight_eq_div_pow]
  interval_cases k <;> interval_cases j <;> norm_num <;> omega

theorem swl_bytes (b : Nat → Nat) (hb : ∀ i, b i < 256) (r k j : Nat) (hk : k < 4)
    (hj : j < 4) :
    vbyte ((le4 b &&& (shift_tab_left_store k).mask)
        ||| ((r >>> (shift_tab_left_store k).shift) &&& not32 (shift_tab_left_store k).mask)) j
      = if j ≤ k then vbyte r (3 - k + j) else b j := by
  rw [swl_form _ _ k hk]
  have h0 := hb 0
  have h1 := hb 1
  have h2 := hb 2
  have h3 := hb 3
  unfold vbyte le4
  simp only [Nat.shiftRight_eq_div_pow]
  interval_cases k <;> interval_cases j <;> norm_num <;> omega

theorem lwr_bytes (b : Nat → Nat) (hb : ∀ i, b i < 256) (r k i : Nat) (hk : k < 4)
    (hi : i < 4) :
    vbyte ((r &&& (shift_tab_right k).mask)
        ||| ((le4 b >>> (shift_tab_right k).shift) &&& not32 (shift_tab_right k).mask)) i
      = if i + k < 4 then b (k + i) else vbyte r i := by
  rw [lwr_form _ _ k hk]
  have h0 := hb 0
  have h1 := hb 1
  have h2 := hb 2
  have h3 := hb 3
  unfold vbyte le4
  simp only [Nat.shiftRight_eq_div_pow]
  interval_cases k <;> interval_cases i <;> norm_num <;> omega

theorem lwl_bytes (b : Nat → Nat) (hb : ∀ i, b i < 256) (r k i : Nat) (hk : k < 4)
    (hi : i < 4) :
    vbyte ((r &&& (shift_tab_left k).mask) ||| shl32 (le4 b) (shift_tab_left k).shift) i
      = if 3 - k ≤ i then b (i - (3 - k)) else vbyte r i := by
  rw [lwl_form _ _ k hk]
  have h0 := hb 0
  have h1 := hb 1
  have h2 := hb 2
  have h3 := hb 3
  unfold vbyte le4
  simp only [Nat.shiftRight_eq_div_pow]
  interval_cases k <;> interval_cases i <;> norm_num <;> omega

theorem lwl_lt (r w k : Nat) (hk : k < 4) :
    (r &&& (shift_tab_left k).mask) ||| shl32 w (shift_tab_left k).shift < 4294967296 := by
  rw [lwl_form _ _ k hk]
  interval_cases k <;> norm_num <;> omega

theorem word_ext (x y : Nat) (hx : x < 4294967296) (hy : y < 4294967296)
    (h : ∀ i, i < 4 → vbyte x i = vbyte y i) : x = y := by
  have e0 := h 0 (by decide)
  have e1 := h 1 (by decide)
  have e2 := h 2 (by decide)
  have e3 := h 3 (by decide)
  unfold vbyte at e0 e1 e2 e3
  simp only [Nat.shiftRight_eq_div_pow] at e0 e1 e2 e3
  norm_num at e0 e1 e2 e3
  omega

theorem le4_lt (b : Nat → Nat) (hb : ∀ i, b i < 256) : le4 b < 4294967296 := by
  have h0 := hb 0
  have h1 := hb 1
  have h2 := hb 2
  have h3 := hb 3
  unfold le4
  omega

theorem and_align (a : Nat) (ha : a < 4294967296) : a &&& 0xfffffffc = a - a % 4 := by
  have e : a &&& (2 ^ 32 - 2 ^ 2) = (a % 2 ^ 32) / 2 ^ 2 * 2 ^ 2 := and_high a 2 (by decide)
  have e2 : a &&& 0xfffffffc = (a % 2 ^ 32) / 2 ^ 2 * 2 ^ 2 := e
  rw [e2]
  norm_num
  omega

theorem and_low2 (a : Nat) : a &&& 0x03 = a % 4 := Nat.and_pow_two_sub_one_eq_mod a 2

theorem convert_addr_direct (c : cpu_t) (va : Nat) (wr : Bool) (hk : kernel_mode c)
    (h1 : 0x80000000 ≤ va) (h2 : va < 0xc0000000) :
    convert_addr c va wr true = (excNone, kseg_phys va, c) := by
  rw [convert_addr_kernel_eq c va wr true hk]
  unfold convert_addr_kernel kseg_phys
  have n1 : ¬ va < 0x80000000 := by omega
  rw [if_neg n1]
  by_cases h3 : va < 0xa0000000
  · rw [if_pos h3, if_pos h3, sub32_of_le va _ (by omega) h1]
  · rw [if_neg h3, if_neg h3, if_pos h2, sub32_of_le va _ (by omega) (by omega)]

theorem direct_no_watch (c : cpu_t) (pa : Nat) (mode : acc_mode_t) (hd : direct_cpu c) :
    ¬ watch_hit c pa mode := by
  unfold watch_hit
  rw [hd.2.1, hd.2.2]
  simp

theorem acc_mem_direct (E : machine_t M) (s : sim_t M) (mode : acc_mode_t) (va v : Nat)
    (hd : direct_cpu s.cpu) (hal : va &&& 3 = 0)
    (h1 : 0x80000000 ≤ va) (h2 : va < 0xc0000000) :
    acc_mem E s mode va BITS_32 v true
      = acc_mem_access E s mode excNone (kseg_phys va) BITS_32 v := by
  have ht := acc_mem_translated E s mode va BITS_32 v (kseg_phys va) true s.cpu
    (by rw [mem_align_test_ok s.cpu va BITS_32 true hal])
    (convert_addr_direct s.cpu va _ hd.1 h1 h2)
  rw [ht, if_neg (direct_no_watch s.cpu _ mode hd)]

theorem cpu_read_direct (E : machine_t M) (s : sim_t M) (va v : Nat)
    (hd : direct_cpu s.cpu) (hal : va &&& 3 = 0)
    (h1 : 0x80000000 ≤ va) (h2 : va < 0xc0000000) :
    cpu_read_mem E s va BITS_32 v true
      = (excNone, u32 (E.mem_read s.mem (kseg_phys va) BITS_32).1,
          { s with mem := (E.mem_read s.mem (kseg_phys va) BITS_32).2 }) := by
  unfold cpu_read_mem
  rw [acc_mem_direct E s AM_READ va v hd hal h1 h2]
  simp [acc_mem_access]

theorem cpu_write_direct (E : machine_t M) (s : sim_t M) (va v : Nat)
    (hd : direct_cpu s.cpu) (hal : va &&& 3 = 0)
    (h1 : 0x80000000 ≤ va) (h2 : va < 0xc0000000) :
    cpu_write_mem E s va BITS_32 v true
      = (excNone, { s with cpu := bus_write_cpu E s.mem s.cpu (kseg_phys va) v BITS_32,
                           mem := E.mem_write s.mem (kseg_phys va) v BITS_32 }) := by
  unfold cpu_write_mem
  rw [acc_mem_direct E s AM_WRITE va v hd hal h1 h2]
  simp [acc_mem_access]

theorem patch_addr_lt (s : sim_t M) (ii : instr_info_t) : patch_addr s ii < 4294967296 := by
  unfold patch_addr eff_addr add32
  omega

theorem kseg_word (a : Nat) (h1 : 0x80000000 ≤ a) (h2 : a < 0xc0000000) :
    0x80000000 ≤ a - a % 4 ∧ a - a % 4 < 0xc0000000
      ∧ kseg_phys (a - a % 4) = kseg_phys a - kseg_phys a % 4
      ∧ kseg_phys a % 4 = a % 4 := by
  unfold kseg_phys
  split_ifs <;> omega

/-- The read phase of the four instructions in directly mapped memory. -/
theorem patch_read_direct (E : machine_t M) (bytes : M → Nat → Nat) (s : sim_t M)
    (ii : instr_info_t) (hram : byte_ram E bytes) (hd : direct_cpu s.cpu)
    (h1 : 0x80000000 ≤ patch_addr s ii) (h2 : patch_addr s ii < 0xc0000000) :
    cpu_read_mem E s (patch_addr s ii &&& 0xfffffffc) BITS_32 0 true
      = (excNone,
          le4 (fun i => bytes s.mem
            (kseg_phys (patch_addr s ii) - kseg_phys (patch_addr s ii) % 4 + i)), s) := by
  have hw := kseg_word (patch_addr s ii) h1 h2
  have ea := and_align (patch_addr s ii) (patch_addr_lt s ii)
  rw [cpu_read_direct E s _ 0 hd (aligned_mask _) (by rw [ea]; exact hw.1)
    (by rw [ea]; exact hw.2.1), ea, hw.2.2.1, hram.read]
  simp only
  have hl := le4_lt (fun i => bytes s.mem
    (kseg_phys (patch_addr s ii) - kseg_phys (patch_addr s ii) % 4 + i))
    (fun i => hram.byte_lt _ _)
  unfold u32
  rw [Nat.mod_eq_of_lt hl]

theorem exec_SWx_direct (E : machine_t M) (bytes : M → Nat → Nat) (s : sim_t M)
    (ii : instr_info_t) (left : Bool) (hram : byte_ram E bytes) (hd : direct_cpu s.cpu)
    (h1 : 0x80000000 ≤ patch_addr s ii) (h2 : patch_addr s ii < 0xc0000000) :
    ∃ w, w = (if left = true then
                (le4 (fun i => bytes s.mem
                    (kseg_phys (patch_addr s ii) - kseg_phys (patch_addr s ii) % 4 + i))
                  &&& (shift_tab_left_store (patch_addr s ii &&& 0x03)).mask)
                ||| ((s.cpu.regs ii.rt >>> (shift_tab_left_store (patch_addr s ii &&& 0x03)).shift)
                      &&& not32 (shift_tab_left_store (patch_addr s ii &&& 0x03)).mask)
              else
                (le4 (fun i => bytes s.mem
                    (kseg_phys (patch_addr s ii) - kseg_phys (patch_addr s ii) % 4 + i))
                  &&& (shift_tab_right_store (patch_addr s ii &&& 0x03)).mask)
                ||| shl32 (s.cpu.regs ii.rt)
                      (shift_tab_right_store (patch_addr s ii &&& 0x03)).shift)
      ∧ exec_SWx E s ii (add32 s.cpu.pc_next 4) (s.cpu.regs ii.rs) left
        = ⟨excNone, add32 s.cpu.pc_next 4,
            { s with
              cpu := bus_write_cpu E s.mem s.cpu
                (kseg_phys (patch_addr s ii) - kseg_phys (patch_addr s ii) % 4) w BITS_32,
              mem := E.mem_write s.mem
                (kseg_phys (patch_addr s ii) - kseg_phys (patch_addr s ii) % 4) w BITS_32 }⟩ := by
  refine ⟨_, rfl, ?_⟩
  have hr := patch_read_direct E bytes s ii hram hd h1 h2
  have hw := kseg_word (patch_addr s ii) h1 h2
  have ea := and_align (patch_addr s ii) (patch_addr_lt s ii)
  have hwr := fun v => cpu_write_direct E s (patch_addr s ii &&& 0xfffffffc) v hd
    (aligned_mask _) (by rw [ea]; exact hw.1) (by rw [ea]; exact hw.2.1)
  rw [ea, hw.2.2.1, ← ea] at hwr
  unfold patch_addr at hr hwr ⊢
  unfold exec_SWx
  simp only [hr, hwr, if_true]

theorem exec_LWx_direct (E : machine_t M) (bytes : M → Nat → Nat) (s : sim_t M)
    (ii : instr_info_t) (left : Bool) (hram : byte_ram E bytes) (hd : direct_cpu s.cpu)
    (h1 : 0x80000000 ≤ patch_addr s ii) (h2 : patch_addr s ii < 0xc0000000) :
    exec_LWx E s ii (add32 s.cpu.pc_next 4) (s.cpu.regs ii.rs) left
      = ⟨excNone, add32 s.cpu.pc_next 4,
          s.wreg ii.rt
            (if left = true then
              (s.cpu.regs ii.rt &&& (shift_tab_left (patch_addr s ii &&& 0x03)).mask)
                ||| shl32 (le4 (fun i => bytes s.mem
                      (kseg_phys (patch_addr s ii) - kseg_phys (patch_addr s ii) % 4 + i)))
                    (shift_tab_left (patch_addr s ii &&& 0x03)).shift
            else
              (s.cpu.regs ii.rt &&& (shift_tab_right (patch_addr s ii &&& 0x03)).mask)
                ||| ((le4 (fun i => bytes s.mem
                        (kseg_phys (patch_addr s ii) - kseg_phys (patch_addr s ii) % 4 + i))
                      >>> (shift_tab_right (patch_addr s ii &&& 0x03)).shift)
                    &&& not32 (shift_tab_right (patch_addr s ii &&& 0x03)).mask))⟩ := by
  have hr := patch_read_direct E bytes s ii hram hd h1 h2
  unfold patch_addr at hr ⊢
  unfold exec_LWx
  simp only [hr, if_true]
  cases left <;> simp

theorem direct_cpu_congr (c c2 : cpu_t) (h : c2.cp0 = c.cp0) (hd : direct_cpu c) :
    direct_cpu c2 := by
  unfold direct_cpu kernel_mode cp0_status_ksu cp0_status_exl cp0_status_erl cp0_watchlo_r
    cp0_watchlo_w cp0_status cp0_watchlo at *
  rw [h]
  exact hd

theorem swr_step (E : machine_t M) (bytes : M → Nat → Nat) (s : sim_t M)
    (ii : instr_info_t) (hram : byte_ram E bytes) (hd : direct_cpu s.cpu)
    (h1 : 0x80000000 ≤ patch_addr s ii) (h2 : patch_addr s ii < 0xc0000000)
    (hop : ii.opcode = opcSWR) :
    (execute E s ii).1 = excNone
      ∧ (execute E s ii).2.cpu.cp0 = s.cpu.cp0
      ∧ (∀ x, bytes (execute E s ii).2.mem x
          = if kseg_phys (patch_addr s ii) ≤ x
                ∧ x < kseg_phys (patch_addr s ii) - kseg_phys (patch_addr s ii) % 4 + 4
            then vbyte (s.cpu.regs ii.rt) (x - kseg_phys (patch_addr s ii))
            else bytes s.mem x) := by
  have hsw : exec_switch E s ii
      = exec_SWx E s ii (add32 s.cpu.pc_next 4) (s.cpu.regs ii.rs) false := by
    simp only [exec_switch, hop]
  obtain ⟨w, hw, hx⟩ := exec_SWx_direct E bytes s ii false hram hd h1 h2
  rw [hx] at hsw
  simp only [Bool.false_eq_true, if_false] at hw
  have hk : patch_addr s ii &&& 0x03 = kseg_phys (patch_addr s ii) % 4 := by
    rw [and_low2, (kseg_word _ h1 h2).2.2.2]
  rw [hk] at hw
  refine ⟨by rw [execute_res, hsw], by rw [execute_cp0, hsw]; exact bus_write_cpu_cp0 _ _ _ _ _ _,
    ?_⟩
  intro x
  rw [execute_mem, hsw]
  simp only
  rw [hram.write, hw]
  generalize kseg_phys (patch_addr s ii) = p
  have hkl : p % 4 < 4 := Nat.mod_lt _ (by decide)
  by_cases hin : p - p % 4 ≤ x ∧ x < p - p % 4 + 4
  · rw [if_pos hin, swr_bytes (fun i => bytes s.mem (p - p % 4 + i))
      (fun i => hram.byte_lt _ _) _ (p % 4) (x - (p - p % 4)) hkl (by omega)]
    by_cases c1 : p % 4 ≤ x - (p - p % 4)
    · have e : x - (p - p % 4) - p % 4 = x - p := by omega
      rw [if_pos c1, if_pos (by omega), e]
    · have e : p - p % 4 + (x - (p - p % 4)) = x := by omega
      rw [if_neg c1, if_neg (by omega), e]
  · rw [if_neg hin, if_neg (by omega)]

theorem swl_step (E : machine_t M) (bytes : M → Nat → Nat) (s : sim_t M)
    (ii : instr_info_t) (hram : byte_ram E bytes) (hd : direct_cpu s.cpu)
    (h1 : 0x80000000 ≤ patch_addr s ii) (h2 : patch_addr s ii < 0xc0000000)
    (hop : ii.opcode = opcSWL) :
    (execute E s ii).1 = excNone
      ∧ (execute E s ii).2.cpu.cp0 = s.cpu.cp0
      ∧ (∀ x, bytes (execute E s ii).2.mem x
          = if kseg_phys (patch_addr s ii) - kseg_phys (patch_addr s ii) % 4 ≤ x
                ∧ x ≤ kseg_phys (patch_addr s ii)
            then vbyte (s.cpu.regs ii.rt) (x + 3 - kseg_phys (patch_addr s ii))
            else bytes s.mem x) := by
  have hsw : exec_switch E s ii
      = exec_SWx E s ii (add32 s.cpu.pc_next 4) (s.cpu.regs ii.rs) true := by
    simp only [exec_switch, hop]
  obtain ⟨w, hw, hx⟩ := exec_SWx_direct E bytes s ii true hram hd h1 h2
  rw [hx] at hsw
  simp only [if_true] at hw
  have hk : patch_addr s ii &&& 0x03 = kseg_phys (patch_addr s ii) % 4 := by
    rw [and_low2, (kseg_word _ h1 h2).2.2.2]
  rw [hk] at hw
  refine ⟨by rw [execute_res, hsw], by rw [execute_cp0, hsw]; exact bus_write_cpu_cp0 _ _ _ _ _ _,
    ?_⟩
  intro x
  rw [execute_mem, hsw]
  simp only
  rw [hram.write, hw]
  generalize kseg_phys (patch_addr s ii) = p
  have hkl : p % 4 < 4 := Nat.mod_lt _ (by decide)
  by_cases hin : p - p % 4 ≤ x ∧ x < p - p % 4 + 4
  · rw [if_pos hin, swl_bytes (fun i => bytes s.mem (p - p % 4 + i))
      (fun i => hram.byte_lt _ _) _ (p % 4) (x - (p - p % 4)) hkl (by omega)]
    by_cases c1 : x - (p - p % 4) ≤ p % 4
    · have e : 3 - p % 4 + (x - (p - p % 4)) = x + 3 - p := by omega
      rw [if_pos c1, if_pos (by omega), e]
    · have e : p - p % 4 + (x - (p - p % 4)) = x := by omega
      rw [if_neg c1, if_neg (by omega), e]
  · rw [if_neg hin, if_neg (by omega)]

theorem lwr_step (E : machine_t M) (bytes : M → Nat → Nat) (s : sim_t M)
    (ii : instr_info_t) (hram : byte_ram E bytes) (hd : direct_cpu s.cpu)
    (h1 : 0x80000000 ≤ patch_addr s ii) (h2 : patch_addr s ii < 0xc0000000)
    (hop : ii.opcode = opcLWR) (hrt : ii.rt ≠ 0) :
    (execute E s ii).1 = excNone
      ∧ (execute E s ii).2.cpu.cp0 = s.cpu.cp0
      ∧ (execute E s ii).2.mem = s.mem
      ∧ (∀ i, i < 4 → vbyte ((execute E s ii).2.cpu.regs ii.rt) i
          = if i + kseg_phys (patch_addr s ii) % 4 < 4
            then bytes s.mem (kseg_phys (patch_addr s ii) + i)
            else vbyte (s.cpu.regs ii.rt) i) := by
  have hsw : exec_switch E s ii
      = exec_LWx E s ii (add32 s.cpu.pc_next 4) (s.cpu.regs ii.rs) false := by
    simp only [exec_switch, hop]
  rw [exec_LWx_direct E bytes s ii false hram hd h1 h2] at hsw
  simp only [Bool.false_eq_true, if_false] at hsw
  have hk : patch_addr s ii &&& 0x03 = kseg_phys (patch_addr s ii) % 4 := by
    rw [and_low2, (kseg_word _ h1 h2).2.2.2]
  rw [hk] at hsw
  refine ⟨by rw [execute_res, hsw], by rw [execute_cp0, hsw]; rfl,
    by rw [execute_mem, hsw]; rfl, ?_⟩
  intro i hi
  rw [execute_regs_ne E s ii _ hrt, hsw]
  simp only [sim_t.wreg, cpu_t.set_reg, upd_same]
  generalize kseg_phys (patch_addr s ii) = p
  have hkl : p % 4 < 4 := Nat.mod_lt _ (by decide)
  rw [lwr_bytes (fun i => bytes s.mem (p - p % 4 + i)) (fun i => hram.byte_lt _ _) _ (p % 4) i
    hkl hi]
  by_cases c1 : i + p % 4 < 4
  · have e : p - p % 4 + (p % 4 + i) = p + i := by omega
    rw [if_pos c1, if_pos c1, e]
  · rw [if_neg c1, if_neg c1]

theorem lwl_step (E : machine_t M) (bytes : M → Nat → Nat) (s : sim_t M)
    (ii : instr_info_t) (hram : byte_ram E bytes) (hd : direct_cpu s.cpu)
    (h1 : 0x80000000 ≤ patch_addr s ii) (h2 : patch_addr s ii < 0xc0000000)
    (hop : ii.opcode = opcLWL) (hrt : ii.rt ≠ 0) :
    (execute E s ii).1 = excNone
      ∧ (execute E s ii).2.cpu.cp0 = s.cpu.cp0
      ∧ (execute E s ii).2.mem = s.mem
      ∧ (execute E s ii).2.cpu.regs ii.rt < 4294967296
      ∧ (∀ i, i < 4 → vbyte ((execute E s ii).2.cpu.regs ii.rt) i
          = if 3 - kseg_phys (patch_addr s ii) % 4 ≤ i
            then bytes s.mem (kseg_phys (patch_addr s ii) + i - 3)
            else vbyte (s.cpu.regs ii.rt) i) := by
  have hsw : exec_switch E s ii
      = exec_LWx E s ii (add32 s.cpu.pc_next 4) (s.cpu.regs ii.rs) true := by
    simp only [exec_switch, hop]
  rw [exec_LWx_direct E bytes s ii true hram hd h1 h2] at hsw
  simp only [if_true] at hsw
  have hk : patch_addr s ii &&& 0x03 = kseg_phys (patch_addr s ii) % 4 := by
    rw [and_low2, (kseg_word _ h1 h2).2.2.2]
  rw [hk] at hsw
  have hkl : kseg_phys (patch_addr s ii) % 4 < 4 := Nat.mod_lt _ (by decide)
  refine ⟨by rw [execute_res, hsw], by rw [execute_cp0, hsw]; rfl,
    by rw [execute_mem, hsw]; rfl, ?_, ?_⟩
  · rw [execute_regs_ne E s ii _ hrt, hsw]
    simp only [sim_t.wreg, cpu_t.set_reg, upd_same]
    exact lwl_lt _ _ _ hkl
  intro i hi
  rw [execute_regs_ne E s ii _ hrt, hsw]
  simp only [sim_t.wreg, cpu_t.set_reg, upd_same]
  generalize kseg_phys (patch_addr s ii) = p at hkl ⊢
  rw [lwl_bytes (fun i => bytes s.mem (p - p % 4 + i)) (fun i => hram.byte_lt _ _) _ (p % 4) i
    hkl hi]
  by_cases c1 : 3 - p % 4 ≤ i
  · have e : p - p % 4 + (i - (3 - p % 4)) = p + i - 3 := by omega
    rw [if_pos c1, if_pos c1, e]
  · rw [if_neg c1, if_neg c1]

/-- The RAM of `ram_machine` is a little-endian byte RAM. -/
theorem ram_byte_ram : byte_ram ram_machine (fun m x => m x % 256) := by
  refine ⟨fun m x => Nat.mod_lt _ (by decide), fun m p => rfl, ?_⟩
  intro m p v x
  show ram_write m p v BITS_32 x % 256 = _
  unfold ram_write vbyte BITS_32
  split_ifs
  · exact Nat.mod_mod _ _
  · rfl

theorem kseg_phys_add3 (a : Nat)
    (hseg : (0x80000000 ≤ a ∧ a + 3 < 0xa0000000) ∨ (0xa0000000 ≤ a ∧ a + 3 < 0xc0000000)) :
    kseg_phys (a + 3) = kseg_phys a + 3 := by
  unfold kseg_phys
  split_ifs <;> omega

/-- C39: in directly mapped memory (kernel mode, `kseg0` or `kseg1`, nothing
watched, a little-endian byte RAM behind the bus), for every byte address `a`
of any alignment and every 32-bit value `v`: `SWR rt, a` then `SWL rt, a+3`
with `rt = v`, followed by `LWR rd, a` then `LWL rd, a+3`, raise no fault and
leave `rd = v` whatever `rd` held; the two stores set the four bytes
`a .. a+3` to the bytes of `v` in little-endian order and change no other
byte, and the two loads change no byte at all. -/
theorem unaligned_round_trip (E : machine_t M) (bytes : M → Nat → Nat) (s : sim_t M)
    (iswr iswl ilwr ilwl : instr_info_t) (a v : Nat)
    (hram : byte_ram E bytes) (hd : direct_cpu s.cpu)
    (hseg : (0x80000000 ≤ a ∧ a + 3 < 0xa0000000) ∨ (0xa0000000 ≤ a ∧ a + 3 < 0xc0000000))
    (hv : v < 4294967296)
    (ho1 : iswr.opcode = opcSWR) (ho2 : iswl.opcode = opcSWL)
    (ho3 : ilwr.opcode = opcLWR) (ho4 : ilwl.opcode = opcLWL)
    (hrd : ilwl.rt = ilwr.rt) (hrd0 : ilwr.rt ≠ 0)
    (ha1 : patch_addr s iswr = a)
    (hv1 : s.cpu.regs iswr.rt = v)
    (ha2 : patch_addr (exec_seq E s [iswr]) iswl = a + 3)
    (hv2 : (exec_seq E s [iswr]).cpu.regs iswl.rt = v)
    (ha3 : patch_addr (exec_seq E s [iswr, iswl]) ilwr = a)
    (ha4 : patch_addr (exec_seq E s [iswr, iswl, ilwr]) ilwl = a + 3) :
    (execute E s iswr).1 = excNone
      ∧ (execute E (exec_seq E s [iswr]) iswl).1 = excNone
      ∧ (execute E (exec_seq E s [iswr, iswl]) ilwr).1 = excNone
      ∧ (execute E (exec_seq E s [iswr, iswl, ilwr]) ilwl).1 = excNone
      ∧ (exec_seq E s [iswr, iswl, ilwr, ilwl]).cpu.regs ilwr.rt = v
      ∧ (∀ x, bytes (exec_seq E s [iswr, iswl]).mem x
          = if kseg_phys a ≤ x ∧ x < kseg_phys a + 4 then vbyte v (x - kseg_phys a)
            else bytes s.mem x)
      ∧ (exec_seq E s [iswr, iswl, ilwr, ilwl]).mem = (exec_seq E s [iswr, iswl]).mem := by
  have q3 := kseg_phys_add3 a hseg
  have A1 := swr_step E bytes s iswr hram hd (by rw [ha1]; omega) (by rw [ha1]; omega) ho1
  have d1 : direct_cpu (exec_seq E s [iswr]).cpu := direct_cpu_congr _ _ A1.2.1 hd
  have A2 := swl_step E bytes (exec_seq E s [iswr]) iswl hram d1 (by rw [ha2]; omega)
    (by rw [ha2]; omega) ho2
  have d2 : direct_cpu (exec_seq E s [iswr, iswl]).cpu := direct_cpu_congr _ _ A2.2.1 d1
  have A3 := lwr_step E bytes (exec_seq E s [iswr, iswl]) ilwr hram d2 (by rw [ha3]; omega)
    (by rw [ha3]; omega) ho3 hrd0
  have d3 : direct_cpu (exec_seq E s [iswr, iswl, ilwr]).cpu :=
    direct_cpu_congr _ _ A3.2.1 d2
  have A4 := lwl_step E bytes (exec_seq E s [iswr, iswl, ilwr]) ilwl hram d3
    (by rw [ha4]; omega) (by rw [ha4]; omega) ho4 (by rw [hrd]; exact hrd0)
  rw [ha1, hv1] at A1
  rw [ha2, hv2, q3] at A2
  rw [ha3] at A3
  rw [ha4, q3, hrd] at A4
  have hmem : ∀ x, bytes (exec_seq E s [iswr, iswl]).mem x
      = if kseg_phys a ≤ x ∧ x < kseg_phys a + 4 then vbyte v (x - kseg_phys a)
        else bytes s.mem x := by
    intro x
    have B2 := A2.2.2 x
    have B1 := A1.2.2 x
    rw [show (execute E (exec_seq E s [iswr]) iswl).2 = exec_seq E s [iswr, iswl] from rfl]
      at B2
    rw [show (execute E s iswr).2 = exec_seq E s [iswr] from rfl] at B1
    rw [B2, B1]
    generalize kseg_phys a = p
    by_cases ct : p ≤ x ∧ x < p + 4
    · rw [if_pos ct]
      by_cases c2 : p + 3 - (p + 3) % 4 ≤ x ∧ x ≤ p + 3
      · have e : x + 3 - (p + 3) = x - p := by omega
        rw [if_pos c2, e]
      · rw [if_neg c2, if_pos (by omega)]
    · rw [if_neg ct, if_neg (by omega), if_neg (by omega)]
  have hm3 : (exec_seq E s [iswr, iswl, ilwr]).mem = (exec_seq E s [iswr, iswl]).mem := A3.2.2.1
  have hm4 : (exec_seq E s [iswr, iswl, ilwr, ilwl]).mem
      = (exec_seq E s [iswr, iswl, ilwr]).mem := A4.2.2.1
  refine ⟨A1.1, A2.1, A3.1, A4.1, ?_, hmem, hm4.trans hm3⟩
  refine word_ext _ _ A4.2.2.2.1 hv ?_
  intro i hi
  have B4 := A4.2.2.2.2 i hi
  have B3 := A3.2.2.2 i hi
  rw [show (execute E (exec_seq E s [iswr, iswl, ilwr]) ilwl).2
      = exec_seq E s [iswr, iswl, ilwr, ilwl] from rfl] at B4
  rw [show (execute E (exec_seq E s [iswr, iswl]) ilwr).2
      = exec_seq E s [iswr, iswl, ilwr] from rfl] at B3
  rw [B4, hm3]
  by_cases c : 3 - (kseg_phys a + 3) % 4 ≤ i
  · rw [if_pos c, hmem, if_pos (by omega)]
    have e : kseg_phys a + 3 + i - 3 - kseg_phys a = i := by omega
    rw [e]
  · rw [if_neg c, B3, if_pos (by omega), hmem, if_pos (by omega)]
    have e : kseg_phys a + i - kseg_phys a = i := by omega
    rw [e]

/-- Witness of `unaligned_round_trip`: `a = 0x80001001` (`k = 1`),
`v = 0xAABBCCDD`: `SWR r1, 0(r2)`, `SWL r1, 3(r2)`, `LWR r3, 0(r2)`,
`LWL r3, 3(r2)` (words `0xB8410000`, `0xA8410003`, `0x98430000`,
`0x88430003`) leave `r3 = 0xAABBCCDD`, and the words at `0x1000` and `0x1004`
are `0xBBCCDD44` and `0x556677AA`. -/
theorem unaligned_round_trip_witness :
    (direct_cpu round_trip_state.cpu
        ∧ (mips_decode 0xb8410000).opcode = opcSWR ∧ (mips_decode 0xa8410003).opcode = opcSWL
        ∧ (mips_decode 0x98430000).opcode = opcLWR ∧ (mips_decode 0x88430003).opcode = opcLWL
        ∧ patch_addr round_trip_state (mips_decode 0xb8410000) = 0x80001001
        ∧ round_trip_state.cpu.regs 3 = 0xdeadbeef)
      ∧ (exec_seq ram_machine round_trip_state
          [mips_decode 0xb8410000, mips_decode 0xa8410003, mips_decode 0x98430000,
            mips_decode 0x88430003]).cpu.regs 3 = 0xaabbccdd
      ∧ ram_read (exec_seq ram_machine round_trip_state
          [mips_decode 0xb8410000, mips_decode 0xa8410003]).mem 0x1000 4 = 0xbbccdd44
      ∧ ram_read (exec_seq ram_machine round_trip_state
          [mips_decode 0xb8410000, mips_decode 0xa8410003]).mem 0x1004 4 = 0x556677aa :=
  ⟨⟨by decide, by decide, by decide, by decide, by decide, by decide, by decide⟩,
    (unaligned_round_trip ram_machine (fun m x => m x % 256) round_trip_state
      (mips_decode 0xb8410000) (mips_decode 0xa8410003) (mips_decode 0x98430000)
      (mips_decode 0x88430003) 0x80001001 0xaabbccdd ram_byte_ram (by decide)
      (Or.inl (by decide)) (by decide) (by decide) (by decide) (by decide) (by decide)
      (by decide) (by decide) (by decide) (by decide) (by decide) (by decide) (by decide)
      (by decide)).2.2.2.2.1,
    by decide, by decide⟩

/-! ## Watch and failed translations (C40) -/

theorem tlb_look_entry_fail_addr (cpu : cpu_t) (addr : Nat) (wr : Bool) (e : tlb_entry_t)
    (i : Nat) (h : (tlb_look_entry cpu addr wr e i).1 ≠ TLBL_OK) :
    (tlb_look_entry cpu addr wr e i).2.1 = addr := by
  unfold tlb_look_entry at h ⊢
  simp only at h ⊢
  split_ifs at h ⊢
  all_goals first
    | rfl
    | exact absurd rfl h

theorem tlb_look_loop_fail_addr (cpu : cpu_t) (addr : Nat) (wr : Bool) (hint : Nat) :
    ∀ n i, (tlb_look_loop cpu addr wr hint n i).1 ≠ TLBL_OK →
      (tlb_look_loop cpu addr wr hint n i).2.1 = addr := by
  intro n
  induction n with
  | zero => intro i _; rfl
  | succ n ih =>
    intro i
    rw [tlb_look_loop_step]
    split_ifs
    · exact tlb_look_entry_fail_addr _ _ _ _ _
    · exact ih _

theorem tlb_look_fail_addr (cpu : cpu_t) (addr : Nat) (wr : Bool)
    (h : (tlb_look cpu addr wr).1 ≠ TLBL_OK) : (tlb_look cpu addr wr).2.1 = addr := by
  unfold tlb_look at h ⊢
  split_ifs at h ⊢
  · rfl
  · exact tlb_look_loop_fail_addr _ _ _ _ _ _ h

theorem tlb_hit_fail_addr (cpu : cpu_t) (addr : Nat) (wr noisy : Bool)
    (h : (tlb_hit cpu addr wr noisy).1 ≠ excNone) : (tlb_hit cpu addr wr noisy).2.1 = addr := by
  have hl := tlb_look_fail_addr cpu addr wr
  unfold tlb_hit at h ⊢
  rcases hr : tlb_look cpu addr wr with ⟨r, a, c⟩
  rw [hr] at hl h
  cases r
  · exact absurd rfl h
  · have e : a = addr := hl (by intro hh; cases hh)
    simp only
    split_ifs <;> exact e
  · have e : a = addr := hl (by intro hh; cases hh)
    simp only
    split_ifs <;> exact e
  · have e : a = addr := hl (by intro hh; cases hh)
    simp only
    split_ifs <;> exact e

/-- A failed translation leaves the address as it was: the virtual
address. -/
theorem convert_addr_fail_addr (cpu : cpu_t) (addr : Nat) (wr noisy : Bool)
    (h : (convert_addr cpu addr wr noisy).1 ≠ excNone) :
    (convert_addr cpu addr wr noisy).2.1 = addr := by
  unfold convert_addr convert_addr_user convert_addr_supervisor convert_addr_kernel at h ⊢
  split_ifs at h ⊢
  all_goals first
    | with_reducible rfl
    | with_reducible exact absurd rfl h
    | with_reducible exact tlb_hit_fail_addr _ _ _ _ h

theorem tlb_hit_ok_silent (cpu : cpu_t) (addr : Nat) (wr noisy : Bool)
    (h : (tlb_hit cpu addr wr noisy).1 = excNone) :
    silent_frame cpu (tlb_hit cpu addr wr noisy).2.2 := by
  have hl := tlb_look_silent cpu addr wr
  unfold tlb_hit at h ⊢
  rcases hr : tlb_look cpu addr wr with ⟨r, a, c⟩
  rw [hr] at hl h
  cases r
  · exact hl
  · simp only at h
    split_ifs at h
  · simp only at h
    split_ifs at h
  · simp only at h
    split_ifs at h

/-- A translation without fault leaves the coprocessor 0 registers and the
TLB fault counters alone. -/
theorem convert_addr_ok_silent (cpu : cpu_t) (addr : Nat) (wr noisy : Bool)
    (h : (convert_addr cpu addr wr noisy).1 = excNone) :
    silent_frame cpu (convert_addr cpu addr wr noisy).2.2 := by
  unfold convert_addr convert_addr_user convert_addr_supervisor convert_addr_kernel at h ⊢
  split_ifs at h ⊢
  all_goals first
    | with_reducible exact silent_frame_refl _
    | with_reducible exact tlb_hit_ok_silent _ _ _ _ h

/-- The watch test of `acc_mem` after the translation, whatever its result:
it is made on the address that `convert_addr` leaves. -/
theorem acc_mem_watch_test (E : machine_t M) (s : sim_t M) (mode : acc_mode_t)
    (a size value : Nat) (noisy : Bool)
    (hal : (mem_align_test s.cpu a size noisy).1 = excNone) :
    acc_mem E s mode a size value noisy
      = if watch_hit s.cpu (convert_addr s.cpu a (decide (mode = AM_WRITE)) noisy).2.1 mode then
          if cp0_status_exl s.cpu = 1 then
            acc_mem_access E
              { s with cpu :=
                  { (convert_addr s.cpu a (decide (mode = AM_WRITE)) noisy).2.2 with
                    wpending := true, wexcaddr := s.cpu.pc } }
              mode (convert_addr s.cpu a (decide (mode = AM_WRITE)) noisy).1
              (convert_addr s.cpu a (decide (mode = AM_WRITE)) noisy).2.1 size value
          else (excWATCH, value,
            { s with cpu := (convert_addr s.cpu a (decide (mode = AM_WRITE)) noisy).2.2 })
        else acc_mem_access E
          { s with cpu := (convert_addr s.cpu a (decide (mode = AM_WRITE)) noisy).2.2 }
          mode (convert_addr s.cpu a (decide (mode = AM_WRITE)) noisy).1
          (convert_addr s.cpu a (decide (mode = AM_WRITE)) noisy).2.1 size value := by
  have hm : mem_align_test s.cpu a size noisy = (excNone, s.cpu) :=
    Prod.ext hal (mem_align_test_ok_cpu _ _ _ _ hal)
  have hf := convert_addr_frame s.cpu a (decide (mode = AM_WRITE)) noisy
  rcases hc : convert_addr s.cpu a (decide (mode = AM_WRITE)) noisy with ⟨r, pa, c⟩
  rw [hc] at hf
  simp only at hf ⊢
  have hwl : c.cp0 cp0_WatchLo = s.cpu.cp0 cp0_WatchLo :=
    hf.cp0 _ (by decide) (by decide) (by decide)
  have hst : c.cp0 cp0_Status = s.cpu.cp0 cp0_Status :=
    hf.cp0 _ (by decide) (by decide) (by decide)
  have hwh : (((cp0_watchlo_r c ≠ 0 ∧ mode = AM_READ) ∨ (cp0_watchlo_w c ≠ 0 ∧ mode = AM_WRITE))
      ∧ c.waddr = pa >>> 3) = watch_hit s.cpu pa mode := by
    unfold watch_hit cp0_watchlo_r cp0_watchlo_w cp0_watchlo
    rw [hwl, hf.waddr]
  have hexl : cp0_status_exl c = cp0_status_exl s.cpu := by
    unfold cp0_status_exl cp0_status
    rw [hst]
  unfold acc_mem
  rw [hm]
  simp only [hc]
  rw [hexl, hf.pc]
  by_cases hw : watch_hit s.cpu pa mode
  · rw [if_pos hw, if_pos (hwh ▸ hw)]
  · rw [if_neg hw, if_neg (hwh ▸ hw)]

theorem acc_mem_watch_ok (E : machine_t M) (s : sim_t M) (mode : acc_mode_t)
    (a size value : Nat) (hal : (mem_align_test s.cpu a size true).1 = excNone)
    (hok : (convert_addr s.cpu a (decide (mode = AM_WRITE)) true).1 = excNone) :
    ((acc_mem E s mode a size value true).1 = excWATCH
        ↔ watch_faults s.cpu (convert_addr s.cpu a (decide (mode = AM_WRITE)) true).2.1 mode)
      ∧ silent_frame s.cpu (acc_mem E s mode a size value true).2.2.cpu := by
  have hs := convert_addr_ok_silent s.cpu a (decide (mode = AM_WRITE)) true hok
  rw [acc_mem_watch_test E s mode a size value true hal]
  rcases hc : convert_addr s.cpu a (decide (mode = AM_WRITE)) true with ⟨r, pa, c⟩
  rw [hc] at hok hs
  simp only at hok hs ⊢
  subst hok
  unfold watch_faults
  by_cases hw : watch_hit s.cpu pa mode
  · by_cases he : cp0_status_exl s.cpu = 1
    · rw [if_pos hw, if_pos he, (acc_mem_access_cp0 _ _ _ _ _ _ _).2]
      have hp : silent_frame c { c with wpending := true, wexcaddr := s.cpu.pc } :=
        ⟨rfl, rfl, rfl, rfl⟩
      exact ⟨⟨fun h => (by cases h), fun h => absurd he h.2⟩,
        silent_frame_trans (silent_frame_trans hs hp) (acc_mem_access_silent E _ _ _ _ _ _)⟩
    · rw [if_pos hw, if_neg he]
      exact ⟨⟨fun _ => ⟨hw, he⟩, fun _ => rfl⟩, hs⟩
  · rw [if_neg hw, (acc_mem_access_cp0 _ _ _ _ _ _ _).2]
    exact ⟨⟨fun h => (by cases h), fun h => absurd h.1 hw⟩,
      silent_frame_trans hs (acc_mem_access_silent E _ _ _ _ _ _)⟩

theorem acc_mem_watch_fail (E : machine_t M) (s : sim_t M) (mode : acc_mode_t)
    (a size value : Nat) (hal : (mem_align_test s.cpu a size true).1 = excNone)
    (hf : (convert_addr s.cpu a (decide (mode = AM_WRITE)) true).1 ≠ excNone) :
    ((acc_mem E s mode a size value true).1 = excWATCH ↔ watch_faults s.cpu a mode)
      ∧ (¬ watch_faults s.cpu a mode →
          (acc_mem E s mode a size value true).1
            = (convert_addr s.cpu a (decide (mode = AM_WRITE)) true).1) := by
  have ha := convert_addr_fail_addr s.cpu a (decide (mode = AM_WRITE)) true hf
  have ht := convert_addr_tags s.cpu a (decide (mode = AM_WRITE)) true
  rw [acc_mem_watch_test E s mode a size value true hal]
  rcases hc : convert_addr s.cpu a (decide (mode = AM_WRITE)) true with ⟨r, pa, c⟩
  rw [hc] at hf ha ht
  simp only at hf ha ht ⊢
  subst ha
  have hnw : r ≠ excWATCH := by
    rcases ht with h | h | h | h | h
    · exact absurd h hf
    · rw [h]; decide
    · rw [h]; decide
    · rw [h]; decide
    · rw [h.1]; decide
  unfold watch_faults
  by_cases hw : watch_hit s.cpu pa mode
  · by_cases he : cp0_status_exl s.cpu = 1
    · rw [if_pos hw, if_pos he, (acc_mem_access_cp0 _ _ _ _ _ _ _).2]
      exact ⟨⟨fun h => absurd h hnw, fun h => absurd he h.2⟩, fun _ => rfl⟩
    · rw [if_pos hw, if_neg he]
      exact ⟨⟨fun _ => ⟨hw, he⟩, fun _ => rfl⟩, fun h => absurd ⟨hw, he⟩ h⟩
  · rw [if_neg hw, (acc_mem_access_cp0 _ _ _ _ _ _ _).2]
    exact ⟨⟨fun h => absurd h hnw, fun h => absurd h.1 hw⟩, fun _ => rfl⟩

theorem cpu_read_mem_acc (E : machine_t M) (s : sim_t M) (a size value : Nat) (noisy : Bool) :
    ((cpu_read_mem E s a size value noisy).1 = excWATCH
        ↔ (acc_mem E s AM_READ a size value noisy).1 = excWATCH)
      ∧ (cpu_read_mem E s a size value noisy).2.2 = (acc_mem E s AM_READ a size value noisy).2.2
      ∧ ((acc_mem E s AM_READ a size value noisy).1 = excAddrError
          ∨ (acc_mem E s AM_READ a size value noisy).1 = excTLBR
          ∨ (acc_mem E s AM_READ a size value noisy).1 = excTLB →
        (cpu_read_mem E s a size value noisy).1.load_side = true) := by
  unfold cpu_read_mem
  rcases acc_mem E s AM_READ a size value noisy with ⟨r, v, s1⟩
  cases r <;> simp [exc_t.load_side]

theorem cpu_write_mem_acc (E : machine_t M) (s : sim_t M) (a size value : Nat) (noisy : Bool) :
    ((cpu_write_mem E s a size value noisy).1 = excWATCH
        ↔ (acc_mem E s AM_WRITE a size value noisy).1 = excWATCH)
      ∧ (cpu_write_mem E s a size value noisy).2 = (acc_mem E s AM_WRITE a size value noisy).2.2
      ∧ ((acc_mem E s AM_WRITE a size value noisy).1 = excAddrError
          ∨ (acc_mem E s AM_WRITE a size value noisy).1 = excTLBR
          ∨ (acc_mem E s AM_WRITE a size value noisy).1 = excTLB
          ∨ (acc_mem E s AM_WRITE a size value noisy).1 = excMod →
        (cpu_write_mem E s a size value noisy).1.store_side = true) := by
  unfold cpu_write_mem
  rcases acc_mem E s AM_WRITE a size value noisy with ⟨r, v, s1⟩
  cases r <;> simp [exc_t.store_side]

/-- C40 as the code has it: for a noisy data access that passes the alignment
test, when the translation succeeds the access returns `WATCH` exactly when
the translated physical address is watched with `EXL` clear, and it leaves
the coprocessor 0 registers (`BadVAddr`, `Context`, `EntryHi` among them)
and the TLB fault counters unchanged; when the translation fails the watch
test is still made, on the untranslated virtual address: the access returns
`WATCH` exactly when that address matches the watch registers with `EXL`
clear, and otherwise it returns the translation fault (load side for a read,
store side for a write). -/
theorem watch_after_translation (E : machine_t M) (s : sim_t M) (a size value : Nat)
    (hal : (mem_align_test s.cpu a size true).1 = excNone) :
    ((convert_addr s.cpu a false true).1 = excNone →
        ((cpu_read_mem E s a size value true).1 = excWATCH
            ↔ watch_faults s.cpu (convert_addr s.cpu a false true).2.1 AM_READ)
          ∧ silent_frame s.cpu (cpu_read_mem E s a size value true).2.2.cpu)
      ∧ ((convert_addr s.cpu a true true).1 = excNone →
        ((cpu_write_mem E s a size value true).1 = excWATCH
            ↔ watch_faults s.cpu (convert_addr s.cpu a true true).2.1 AM_WRITE)
          ∧ silent_frame s.cpu (cpu_write_mem E s a size value true).2.cpu)
      ∧ ((convert_addr s.cpu a false true).1 ≠ excNone →
        ((cpu_read_mem E s a size value true).1 = excWATCH ↔ watch_faults s.cpu a AM_READ)
          ∧ (¬ watch_faults s.cpu a AM_READ →
              (cpu_read_mem E s a size value true).1.load_side = true))
      ∧ ((convert_addr s.cpu a true true).1 ≠ excNone →
        ((cpu_write_mem E s a size value true).1 = excWATCH ↔ watch_faults s.cpu a AM_WRITE)
          ∧ (¬ watch_faults s.cpu a AM_WRITE →
              (cpu_write_mem E s a size value true).1.store_side = true)) := by
  have er : decide (AM_READ = AM_WRITE) = false := by decide
  have ew : decide (AM_WRITE = AM_WRITE) = true := by decide
  have R := cpu_read_mem_acc E s a size value true
  have W := cpu_write_mem_acc E s a size value true
  refine ⟨?_, ?_, ?_, ?_⟩
  · intro hok
    have h := acc_mem_watch_ok E s AM_READ a size value hal (by rw [er]; exact hok)
    rw [er] at h
    rw [R.1, R.2.1]
    exact h
  · intro hok
    have h := acc_mem_watch_ok E s AM_WRITE a size value hal (by rw [ew]; exact hok)
    rw [ew] at h
    rw [W.1, W.2.1]
    exact h
  · intro hf
    have h := acc_mem_watch_fail E s AM_READ a size value hal (by rw [er]; exact hf)
    rw [er] at h
    refine ⟨R.1.trans h.1, fun hn => R.2.2 ?_⟩
    rw [h.2 hn]
    rcases convert_addr_tags s.cpu a false true with t | t | t | t | t
    · exact absurd t hf
    · exact Or.inl t
    · exact Or.inr (Or.inl t)
    · exact Or.inr (Or.inr t)
    · exact absurd t.2 (by decide)
  · intro hf
    have h := acc_mem_watch_fail E s AM_WRITE a size value hal (by rw [ew]; exact hf)
    rw [ew] at h
    refine ⟨W.1.trans h.1, fun hn => W.2.2 ?_⟩
    rw [h.2 hn]
    rcases convert_addr_tags s.cpu a true true with t | t | t | t | t
    · exact absurd t hf
    · exact Or.inl t
    · exact Or.inr (Or.inl t)
    · exact Or.inr (Or.inr (Or.inl t))
    · exact Or.inr (Or.inr (Or.inr t.1))

/-- Witness of `watch_after_translation`: in `watch_state` the read of
`0x80001000` translates to the watched `0x1000` and returns `WATCH`, with
`BadVAddr` and the counters as before; in `watch_unmapped_state` the read of
`0x2000` fails to translate, is not watched, and returns `TLBL`. -/
theorem watch_after_translation_witness :
    ((mem_align_test watch_state.cpu 0x80001000 4 true).1 = excNone
        ∧ (convert_addr watch_state.cpu 0x80001000 false true).1 = excNone
        ∧ watch_faults watch_state.cpu 0x1000 AM_READ)
      ∧ (cpu_read_mem ram_machine watch_state 0x80001000 4 0 true).1 = excWATCH
      ∧ silent_frame watch_state.cpu
          (cpu_read_mem ram_machine watch_state 0x80001000 4 0 true).2.2.cpu
      ∧ ((convert_addr watch_unmapped_state.cpu 0x2000 false true).1 = excTLB
        ∧ ¬ watch_faults watch_unmapped_state.cpu 0x2000 AM_READ)
      ∧ (cpu_read_mem ram_machine watch_unmapped_state 0x2000 4 0 true).1 = excTLBL :=
  ⟨⟨by decide, by decide, by decide⟩,
    (((watch_after_translation ram_machine watch_state 0x80001000 4 0 (by decide)).1
      (by decide)).1).2 (by decide),
    ((watch_after_translation ram_machine watch_state 0x80001000 4 0 (by decide)).1
      (by decide)).2,
    ⟨by decide, by decide⟩, by decide⟩

/-- Counterexample to C40 as stated: in `watch_unmapped_state` the noisy read
and the noisy write of the kuseg address `0x6000` fail to translate (the
lookup ends on an invalid entry): `BadVAddr` and `EntryHi` become `0x6000`,
`Context` becomes `0x30` and `tlb_invalid` counts the fault; yet the access
returns `WATCH`, because the untranslated address matches the watch
registers. -/
theorem watch_untranslated_counterexample :
    (mem_align_test watch_unmapped_state.cpu 0x6000 4 true).1 = excNone
      ∧ (convert_addr watch_unmapped_state.cpu 0x6000 false true).1 = excTLB
      ∧ (convert_addr watch_unmapped_state.cpu 0x6000 true true).1 = excTLB
      ∧ (cpu_read_mem ram_machine watch_unmapped_state 0x6000 4 0 true).1 = excWATCH
      ∧ (cpu_write_mem ram_machine watch_unmapped_state 0x6000 4 0x55 true).1 = excWATCH
      ∧ watch_unmapped_state.cpu.cp0 cp0_BadVAddr = 0
      ∧ (cpu_read_mem ram_machine watch_unmapped_state 0x6000 4 0 true).2.2.cpu.cp0 cp0_BadVAddr
          = 0x6000
      ∧ watch_unmapped_state.cpu.cp0 cp0_EntryHi = 0
      ∧ (cpu_read_mem ram_machine watch_unmapped_state 0x6000 4 0 true).2.2.cpu.cp0 cp0_EntryHi
          = 0x6000
      ∧ watch_unmapped_state.cpu.cp0 cp0_Context = 0
      ∧ (cpu_read_mem ram_machine watch_unmapped_state 0x6000 4 0 true).2.2.cpu.cp0 cp0_Context
          = 0x30
      ∧ watch_unmapped_state.cpu.tlb_invalid = 0
      ∧ (cpu_read_mem ram_machine watch_unmapped_state 0x6000 4 0 true).2.2.cpu.tlb_invalid = 1
      ∧ (cpu_write_mem ram_machine watch_unmapped_state 0x6000 4 0x55 true).2.cpu.cp0
          cp0_BadVAddr = 0x6000
      ∧ (cpu_write_mem ram_machine watch_unmapped_state 0x6000 4 0x55 true).2.cpu.tlb_invalid
          = 1 := by
  decide

end Msim
